import Mathlib

/-!
# DATAVIA sector integrity engine: CRC-32, checksum ledger, generation

A shallow embedding of the C++ sources (`DiskSectorCRC.cpp`,
`EnhancedDiskSectorCRC.cpp`, `FinalUltimateOptimizedGUI.cpp`,
`FileSystemCRC.cpp`, `GUIWindow.cpp`).  A `uint8_t` is a `Fin 256`;
`uint32_t` and `uint64_t` values are natural numbers, reduced modulo
`2^32` / `2^64` wherever the C++ arithmetic can wrap.
-/

set_option maxRecDepth 100000

namespace DATAVIA

/-- A `uint8_t`. -/
abbrev Byte := Fin 256

/-! ## CRC-32 routines -/

/-- The static `crc32_table` of `DiskSectorCRC.cpp` (lines 9-42), entry by entry. -/
def crc32_table : List Nat :=
  [
   0x00000000, 0x77073096, 0xEE0E612C, 0x990951BA, 0x076DC419, 0x706AF48F, 0xE963A535, 0x9E6495A3,
   0x0EDB8832, 0x79DCB8A4, 0xE0D5E4E8, 0x97D2D988, 0x09B64C2B, 0x7EB17CBD, 0xE7B82D07, 0x90BF1D91,
   0x1DB71064, 0x6AB020F2, 0xF3B97148, 0x84BE41DE, 0x1ADAD47D, 0x6DDDE4EB, 0xF4D4B551, 0x83D385C7,
   0x136C9856, 0x646BA8C0, 0xFD62F97A, 0x8A65C9EC, 0x14015C4F, 0x63066CD9, 0xFA0F3D63, 0x8D080DF5,
   0x3B6E20C8, 0x4C69105E, 0xD56041E4, 0xA2677172, 0x3C03E4D1, 0x4B04D447, 0xD20D85FD, 0xA50AB56B,
   0x35B5A8FA, 0x42B2986C, 0xDBBBC9D6, 0xACBCF940, 0x32D86CE3, 0x45DF5C75, 0xDCD60DCF, 0xABD13D59,
   0x26D930AC, 0x51DE003A, 0xC8D75180, 0xBFD06116, 0x21B4F4B5, 0x56B3C423, 0xCFBA9599, 0xB8BDA50F,
   0x2802B89E, 0x5F058808, 0xC60CD9B2, 0xB10BE924, 0x2F6F7C87, 0x58684C11, 0xC1611DAB, 0xB6662D3D,
   0x76DC4190, 0x01DB7106, 0x98D220BC, 0xEFD5102A, 0x71B18589, 0x06B6B51F, 0x9FBFE4A5, 0xE8B8D433,
   0x7807C9A2, 0x0F00F934, 0x9609A88E, 0xE10E9818, 0x7F6A0DBB, 0x086D3D2D, 0x91646C97, 0xE6635C01,
   0x6B6B51F4, 0x1C6C6162, 0x856530D8, 0xF262004E, 0x6C0695ED, 0x1B01A57B, 0x8208F4C1, 0xF50FC457,
   0x65B0D9C6, 0x12B7E950, 0x8BBEB8EA, 0xFCB9887C, 0x62DD1DDF, 0x15DA2D49, 0x8CD37CF3, 0xFBD44C65,
   0x4DB26158, 0x3AB551CE, 0xA3BC0074, 0xD4BB30E2, 0x4ADFA541, 0x3DD895D7, 0xA4D1C46D, 0xD3D6F4FB,
   0x4369E96A, 0x346ED9FC, 0xAD678846, 0xDA60B8D0, 0x44042D73, 0x33031DE5, 0xAA0A4C5F, 0xDD0D7CC9,
   0x5005713C, 0x270241AA, 0xBE0B1010, 0xC90C2086, 0x5768B525, 0x206F85B3, 0xB966D409, 0xCE61E49F,
   0x5EDEF90E, 0x29D9C998, 0xB0D09822, 0xC7D7A8B4, 0x59B33D17, 0x2EB40D81, 0xB7BD5C3B, 0xC0BA6CAD,
   0xEDB88320, 0x9ABFB3B6, 0x03B6E20C, 0x74B1D29A, 0xEAD54739, 0x9DD277AF, 0x04DB2615, 0x73DC1683,
   0xE3630B12, 0x94643B84, 0x0D6D6A3E, 0x7A6A5AA8, 0xE40ECF0B, 0x9309FF9D, 0x0A00AE27, 0x7D079EB1,
   0xF00F9344, 0x8708A3D2, 0x1E01F268, 0x6906C2FE, 0xF762575D, 0x806567CB, 0x196C3671, 0x6E6B06E7,
   0xFED41B76, 0x89D32BE0, 0x10DA7A5A, 0x67DD4ACC, 0xF9B9DF6F, 0x8EBEEFF9, 0x17B7BE43, 0x60B08ED5,
   0xD6D6A3E8, 0xA1D1937E, 0x38D8C2C4, 0x4FDFF252, 0xD1BB67F1, 0xA6BC5767, 0x3FB506DD, 0x48B2364B,
   0xD80D2BDA, 0xAF0A1B4C, 0x36034AF6, 0x41047A60, 0xDF60EFC3, 0xA867DF55, 0x316E8EEF, 0x4669BE79,
   0xCB61B38C, 0xBC66831A, 0x256FD2A0, 0x5268E236, 0xCC0C7795, 0xBB0B4703, 0x220216B9, 0x5505262F,
   0xC5BA3BBE, 0xB2BD0B28, 0x2BB45A92, 0x5CB36A04, 0xC2D7FFA7, 0xB5D0CF31, 0x2CD99E8B, 0x5BDEAE1D,
   0x9B64C2B0, 0xEC63F226, 0x756AA39C, 0x026D930A, 0x9C0906A9, 0xEB0E363F, 0x72076785, 0x05005713,
   0x95BF4A82, 0xE2B87A14, 0x7BB12BAE, 0x0CB61B38, 0x92D28E9B, 0xE5D5BE0D, 0x7CDCEFB7, 0x0BDBDF21,
   0x86D3D2D4, 0xF1D4E242, 0x68DDB3F8, 0x1FDA836E, 0x81BE16CD, 0xF6B9265B, 0x6FB077E1, 0x18B74777,
   0x88085AE6, 0xFF0F6A70, 0x66063BCA, 0x11010B5C, 0x8F659EFF, 0xF862AE69, 0x616BFFD3, 0x166CCF45,
   0xA00AE278, 0xD70DD2EE, 0x4E048354, 0x3903B3C2, 0xA7672661, 0xD06016F7, 0x4969474D, 0x3E6E77DB,
   0xAED16A4A, 0xD9D65ADC, 0x40DF0B66, 0x37D83BF0, 0xA9BCAE53, 0xDEBB9EC5, 0x47B2CF7F, 0x30B5FFE9,
   0xBDBDF21C, 0xCABAC28A, 0x53B39330, 0x24B4A3A6, 0xBAD03605, 0xCDD70693, 0x54DE5729, 0x23D967BF,
   0xB3667A2E, 0xC4614AB8, 0x5D681B02, 0x2A6F2B94, 0xB40BBE37, 0xC30C8EA1, 0x5A05DF1B, 0x2D02EF8D
  ]

/-- The body of the loop of `DiskSectorCRC::calculateCRC32`:
`crc = (crc >> 8) ^ crc32_table[(crc ^ byte) & 0xFF]`. -/
def DiskSectorCRC.crcStep (crc : Nat) (byte : Byte) : Nat :=
  (crc >>> 8) ^^^ crc32_table.getD ((crc ^^^ byte.val) &&& 0xFF) 0

/-- The function `DiskSectorCRC::calculateCRC32` (`DiskSectorCRC.cpp` lines 55-61). -/
def DiskSectorCRC.calculateCRC32 (data : List Byte) : Nat :=
  (data.foldl DiskSectorCRC.crcStep 0xFFFFFFFF) ^^^ 0xFFFFFFFF

/-- The function-local `crc_table` of `FinalUltimateOptimizedCRC::calculateCRC32`
(`FinalUltimateOptimizedGUI.cpp` lines 98-142), entry by entry. -/
def FinalUltimateOptimizedCRC.crc_table : List Nat :=
  [
   0x00000000, 0x77073096, 0xEE0E612C, 0x990951BA, 0x076DC419, 0x706AF48F, 0xE963A535, 0x9E6495A3,
   0x0EDB8832, 0x79DCB8A4, 0xE0D5E91E, 0x97D2D988, 0x09B64C2B, 0x7EB17CBD, 0xE7B82D07, 0x90BF1D91,
   0x1DB71064, 0x6AB020F2, 0xF3B97148, 0x84BE41DE, 0x1ADAD47D, 0x6DDDE4EB, 0xF4D4B551, 0x83D385C7,
   0x136C9856, 0x646BA8C0, 0xFD62F97A, 0x8A65C9EC, 0x14015C4F, 0x63066CD9, 0xFA0F3D63, 0x8D080DF5,
   0x3B6E20C8, 0x4C69105E, 0xD56041E4, 0xA2677172, 0x3C03E4D1, 0x4B04D447, 0xD20D85FD, 0xA50AB56B,
   0x35B5A8FA, 0x42B2986C, 0xDBBBC9D6, 0xACBCF940, 0x32D86CE3, 0x45DF5C75, 0xDCD60DCF, 0xABD13D59,
   0x26D930AC, 0x51DE003A, 0xC8D75180, 0xBFD06116, 0x21B4F4B5, 0x56B3C423, 0xCFBA9599, 0xB8BDA50F,
   0x2802B89E, 0x5F058808, 0xC60CD9B2, 0xB10BE924, 0x2F6F7C87, 0x58684C11, 0xC1611DAB, 0xB6662D3D,
   0x76DC4190, 0x01DB7106, 0x98D220BC, 0xEFD5102A, 0x71B18589, 0x06B6B51F, 0x9FBFE4A5, 0xE8B8D433,
   0x7807C9A2, 0x0F00F934, 0x9609A88E, 0xE10E9818, 0x7F6A0DBB, 0x086D3D2D, 0x91646C97, 0xE6635C01,
   0x6B6B51F4, 0x1C6C6162, 0x856530D8, 0xF262004E, 0x6C0695ED, 0x1B01A57B, 0x8208F4C1, 0xF50FC457,
   0x65B0D9C6, 0x12B7E950, 0x8BBEB8EA, 0xFCB9887C, 0x62DD1DDF, 0x15DA2D49, 0x8CD37CF3, 0xFBD44C65,
   0x4DB26158, 0x3AB551CE, 0xA3BC0074, 0xD4BB30E2, 0x4ADFA541, 0x3DD895D7, 0xA4D1C46D, 0xD3D6F4FB,
   0x4369E96A, 0x346ED9FC, 0xAD678846, 0xDA60B8D0, 0x44042D73, 0x33031DE5, 0xAA0A4C5F, 0xDD0D7CC9,
   0x5005713C, 0x270241AA, 0xBE0B1010, 0xC90C2086, 0x5768B525, 0x206F85B3, 0xB966D409, 0xCE61E49F,
   0x5EDEF90E, 0x29D9C998, 0xB0D09822, 0xC7D7A8B4, 0x59B33D17, 0x2EB40D81, 0xB7BD5C3B, 0xC0BA6CAD,
   0xEDB88320, 0x9ABFB3B6, 0x03B6E20C, 0x74B1D29A, 0xEAD54739, 0x9DD277AF, 0x04DB2615, 0x73DC1683,
   0xE3630B12, 0x94643B84, 0x0D6D6A3E, 0x7A6A5AA8, 0xE40ECF0B, 0x9309FF9D, 0x0A00AE27, 0x7D079EB1,
   0xF00F9344, 0x8708A3D2, 0x1E01F268, 0x6906C2FE, 0xF762575D, 0x806567CB, 0x196C3671, 0x6E6B06E7,
   0xFED41B76, 0x89D32BE0, 0x10DA7A5A, 0x67DD4ACC, 0xF9B9DF6F, 0x8EBEEFF9, 0x17B7BE43, 0x60B08ED5,
   0xD6D6A3E8, 0xA1D1937E, 0x38D8C2C4, 0x4FDFF252, 0xD1BB67F1, 0xA6BC5767, 0x3FB506DD, 0x48B2364B,
   0xD80D2BDA, 0xAF0A1B4C, 0x36034AF6, 0x41047A60, 0xDF60EFC3, 0xA867DF55, 0x316E8EEF, 0x4669BE79,
   0xCB61B38C, 0xBC66831A, 0x256FD2A0, 0x5268E236, 0xCC0C7795, 0xBB0B4703, 0x220216B9, 0x5505262F,
   0xC5BA3BBE, 0xB2BD0B28, 0x2BB45A92, 0x5CB36A04, 0xC2D7FFA7, 0xB5D0CF31, 0x2CD99E8B, 0x5BDEAE1D,
   0x9B64C2B0, 0xEC63F226, 0x756AA39C, 0x026D930A, 0x9C0906A9, 0xEB0E363F, 0x72076785, 0x05005713,
   0x95BF4A82, 0xE2B87A14, 0x7BB12BAE, 0x0CB61B38, 0x92D28E9B, 0xE5D5BE0D, 0x7CDCEFB7, 0x0BDBDF21,
   0x86D3D2D4, 0xF1D4E242, 0x68DDB3F8, 0x1FDA836E, 0x81BE16CD, 0xF6B9265B, 0x6FB077E1, 0x18B74777,
   0x88085AE6, 0xFF0F6A70, 0x66063BCA, 0x11010B5C, 0x8F659EFF, 0xF862AE69, 0x616BFFD3, 0x166CCF45,
   0xA00AE278, 0xD70DD2EE, 0x4E048354, 0x3903B3C2, 0xA7672661, 0xD06016F7, 0x4969474D, 0x3E6E77DB,
   0xAED16A4A, 0xD9D65ADC, 0x40DF0B66, 0x37D83BF0, 0xA9BCAE53, 0xDEBB9EC5, 0x47B2CF7F, 0x30B5FFE9,
   0xBDBDF21C, 0xCABAC28A, 0x53B39330, 0x24B4A3A6, 0xBAD03605, 0xCDD70693, 0x54DE5729, 0x23D967BF,
   0xB3667A2E, 0xC4614AB8, 0x5D681B02, 0x2A6F2B94, 0xB40BBE37, 0xC30C8EA1, 0x5A05DF1B, 0x2D02EF8D
  ]

/-- The loop body of `FinalUltimateOptimizedCRC::calculateCRC32`:
`crc = (crc >> 8) ^ crc_table[(crc ^ byte) & 0xFF]`. -/
def FinalUltimateOptimizedCRC.crcStep (crc : Nat) (byte : Byte) : Nat :=
  (crc >>> 8) ^^^ FinalUltimateOptimizedCRC.crc_table.getD ((crc ^^^ byte.val) &&& 0xFF) 0

/-- The function `FinalUltimateOptimizedCRC::calculateCRC32`
(`FinalUltimateOptimizedGUI.cpp` lines 96-149). -/
def FinalUltimateOptimizedCRC.calculateCRC32 (data : List Byte) : Nat :=
  (data.foldl FinalUltimateOptimizedCRC.crcStep 0xFFFFFFFF) ^^^ 0xFFFFFFFF

/-- One pass of the inner loop shared by `generate_crc32_table` (`GUIWindow.cpp`)
and `FileSystemCRC::calculateCRC32ForData`:
`if (crc & 1) crc = (crc >> 1) ^ 0xEDB88320; else crc = crc >> 1;`. -/
def crcBitStep (crc : Nat) : Nat :=
  if crc &&& 1 ≠ 0 then (crc >>> 1) ^^^ 0xEDB88320 else crc >>> 1

/-- The inner `for` loop, eight passes of `crcBitStep`. -/
def crc8Steps (crc : Nat) : Nat :=
  crcBitStep (crcBitStep (crcBitStep (crcBitStep
    (crcBitStep (crcBitStep (crcBitStep (crcBitStep crc)))))))

/-- The table built by `generate_crc32_table` (`GUIWindow.cpp` lines 16-36): entry `i`
is `i` after the eight shift/XOR passes. -/
def generate_crc32_table : List Nat :=
  (List.range 256).map crc8Steps

/-- The function `FileSystemCRC::calculateCRC32ForData` (`FileSystemCRC.cpp` lines
711-725); the final `~crc` on a `uint32_t` is the XOR with `0xFFFFFFFF`. -/
def FileSystemCRC.calculateCRC32ForData (data : List Byte) : Nat :=
  (data.foldl (fun crc byte => crc8Steps (crc ^^^ byte.val)) 0xFFFFFFFF) ^^^ 0xFFFFFFFF

/-- The standard reflected CRC-32 as the specification words it: start from
`0xFFFFFFFF`, XOR each byte into the low byte and apply eight conditional
shift-right / XOR-`0xEDB88320` steps, then XOR the result with `0xFFFFFFFF`. -/
def standardCRC32 (d : List Byte) : Nat :=
  (d.foldl (fun crc byte => crc8Steps (crc ^^^ byte.val)) 0xFFFFFFFF) ^^^ 0xFFFFFFFF

/-! ## Block device -/

/-- The constant `DiskSectorCRC::SECTOR_SIZE` (`DiskSectorCRC.h` line 28). -/
def SECTOR_SIZE : Nat := 512

/-- The value a `uint64_t` takes when it is stored into the signed 64-bit
`LARGE_INTEGER::QuadPart`. -/
def toInt64 (x : Nat) : Int :=
  if x % 2 ^ 64 < 2 ^ 63 then ((x % 2 ^ 64 : Nat) : Int) else ((x % 2 ^ 64 : Nat) : Int) - 2 ^ 64

/-- The value a `uint64_t` takes when it is passed as an `int` argument of the
progress callback. -/
def toInt32 (x : Nat) : Int :=
  if x % 2 ^ 32 < 2 ^ 31 then ((x % 2 ^ 32 : Nat) : Int) else ((x % 2 ^ 32 : Nat) : Int) - 2 ^ 32

/-- The raw device behind `diskPath_`, as the three Win32 calls made by
`readSector` see it. -/
structure Disk where
  /-- The code `GetLastError()` reports when `CreateFileA` returns
  `INVALID_HANDLE_VALUE`; `none` when the handle opens. -/
  openError : Option Nat
  /-- Whether `SetFilePointerEx(hDisk, distance, NULL, FILE_BEGIN)` succeeds. -/
  seek : Int → Bool
  /-- The call `ReadFile(hDisk, buffer, SECTOR_SIZE, &bytesRead, NULL)` at a byte
  position: `none` when the call fails, otherwise the bytes transferred,
  `SECTOR_SIZE` of them unless the read comes short. -/
  read : Nat → Option (List Byte)
  /-- Win32 rejects a negative position measured from `FILE_BEGIN`
  (`ERROR_NEGATIVE_SEEK`). -/
  seek_neg : ∀ z : Int, z < 0 → seek z = false

/-- Win32 error code `ERROR_FILE_NOT_FOUND`. -/
def ERROR_FILE_NOT_FOUND : Nat := 2
/-- Win32 error code `ERROR_ACCESS_DENIED`. -/
def ERROR_ACCESS_DENIED : Nat := 5
/-- Win32 error code `ERROR_SHARING_VIOLATION`. -/
def ERROR_SHARING_VIOLATION : Nat := 32
/-- Win32 error code `ERROR_INVALID_PARAMETER`. -/
def ERROR_INVALID_PARAMETER : Nat := 87

/-- The `switch (error)` of `DiskSectorCRC::readSector` (lines 76-92). -/
def DiskSectorCRC.openErrorMessage (diskPath : String) (error : Nat) : String :=
  if error = ERROR_ACCESS_DENIED then
    "Access denied. Please run the program with administrator privileges"
  else if error = ERROR_FILE_NOT_FOUND then
    "Disk not found. Please check the disk path: " ++ diskPath
  else if error = ERROR_INVALID_PARAMETER then
    "Invalid disk path: " ++ diskPath
  else if error = ERROR_SHARING_VIOLATION then
    "Disk is in use by another process: " ++ diskPath
  else
    "Cannot open disk: " ++ diskPath ++ " (Error code: " ++ toString error ++ ")"

/-- What a call of `readSector` leaves behind: its return value, the buffer and
`lastError_`.  The buffer is reported only for a call that returns true; no caller
modelled here looks at it after a failure. -/
structure ReadSectorResult where
  ok : Bool
  buffer : List Byte
  lastError : String

/-- The function `DiskSectorCRC::readSector` (`DiskSectorCRC.cpp` lines 63-120).  The
argument `lastError` is `lastError_` before the call. -/
def DiskSectorCRC.readSector (disk : Disk) (diskPath : String) (sectorNumber : Nat)
    (lastError : String) : ReadSectorResult :=
  match disk.openError with
  | some error => ⟨false, [], DiskSectorCRC.openErrorMessage diskPath error⟩
  | none =>
    let distance := (sectorNumber * SECTOR_SIZE) % 2 ^ 64
    if disk.seek (toInt64 distance) = false then
      ⟨false, [], "Cannot set file pointer to sector: " ++ toString sectorNumber⟩
    else
      match disk.read distance with
      | none => ⟨false, [], "Failed to read sector: " ++ toString sectorNumber⟩
      | some bytes => ⟨bytes.length == SECTOR_SIZE, bytes, lastError⟩

/-! ## Checksum ledger codec -/

/-- The struct `SectorChecksum` (`DiskSectorCRC.h` lines 57-61). -/
structure SectorChecksum where
  sectorNumber : Nat
  crc32 : Nat
  timestamp : Nat
  deriving DecidableEq

/-- The object representation of an unsigned integer of `width` bytes on a
little-endian target, as `write(reinterpret_cast<const char*>(&x), sizeof(x))`
emits it. -/
def leBytes : Nat → Nat → List Byte
  | 0, _ => []
  | width + 1, x => ⟨x % 256, Nat.mod_lt _ (by decide)⟩ :: leBytes width (x / 256)

/-- The unsigned integer whose little-endian object representation is `bytes`, as
`read(reinterpret_cast<char*>(&x), sizeof(x))` stores it. -/
def leValue : List Byte → Nat
  | [] => 0
  | b :: bytes => b.val + 256 * leValue bytes

/-- Round `offset` up to a multiple of `alignment`. -/
def alignUp (offset alignment : Nat) : Nat :=
  (offset + alignment - 1) / alignment * alignment

/-- Member offsets of a struct of scalar members under natural alignment (a scalar
of `k` bytes is `k`-byte aligned): `sizes` are the member sizes in declaration
order and `offset` the first free byte. -/
def memberOffsets : List Nat → Nat → List Nat
  | [], _ => []
  | size :: rest, offset => alignUp offset size :: memberOffsets rest (alignUp offset size + size)

/-- The size of such a struct: the end of the last member rounded up to the largest
member alignment. -/
def structSize (sizes : List Nat) : Nat :=
  alignUp (sizes.foldl (fun offset size => alignUp offset size + size) 0) (sizes.foldl max 1)

/-- Member sizes of `SectorChecksum`: `uint64_t`, `uint32_t`, `uint64_t`. -/
def SectorChecksum.memberSizes : List Nat := [8, 4, 8]

/-- The value of `sizeof(SectorChecksum)`.  `DiskSectorCRC.h` declares the struct
with no packing pragma, and the code targets Windows (`<windows.h>`,
`CreateFileA`), where a `uint64_t` member is 8-byte aligned: the members lie at
offsets 0, 8 and 16 and 4 padding bytes follow `crc32`. -/
def sizeofSectorChecksum : Nat := structSize SectorChecksum.memberSizes

/-- The four bytes that a record carries in its padding hole; `padding` is whatever
the memory of the struct held there. -/
def paddingBytes (padding : List Byte) : List Byte :=
  (padding ++ List.replicate 4 0).take 4

/-- The bytes emitted by
`outFile.write(reinterpret_cast<const char*>(&checksum), sizeof(checksum))`. -/
def SectorChecksum.toBytes (padding : List Byte) (c : SectorChecksum) : List Byte :=
  leBytes 8 c.sectorNumber ++ leBytes 4 c.crc32 ++ paddingBytes padding ++ leBytes 8 c.timestamp

/-- The struct stored by
`inFile.read(reinterpret_cast<char*>(&checksums[i]), sizeof(SectorChecksum))` from
`sizeof(SectorChecksum)` bytes. -/
def SectorChecksum.ofBytes (bytes : List Byte) : SectorChecksum :=
  ⟨leValue (bytes.take 8), leValue ((bytes.drop 8).take 4), leValue ((bytes.drop 16).take 8)⟩

/-- The file magic `0x43524344` ("CRCD"). -/
def LEDGER_MAGIC : Nat := 0x43524344

/-- The four header writes of the generators (`DiskSectorCRC.cpp` lines 177-180,
`EnhancedDiskSectorCRC.cpp` lines 34-37, 207-210, 504-507). -/
def ledgerHeader (startSector sectorCount timestamp : Nat) : List Byte :=
  leBytes 4 LEDGER_MAGIC ++ leBytes 8 startSector ++ leBytes 8 sectorCount ++ leBytes 8 timestamp

/-! ## Sequential generation -/

/-- What a run of a sequential generator leaves behind: its return value,
`lastError_`, the bytes written to the output stream, the sector numbers passed to
`readSector` in call order, and the calls of the progress callback. -/
structure GenResult where
  ok : Bool
  lastError : String
  out : List Byte
  reads : List Nat
  progress : List (Int × Int)

/-- The `for` loop of `DiskSectorCRC::generateSectorChecksums` (`DiskSectorCRC.cpp`
lines 187-205), from iteration `i` with `remaining = sectorCount - i` iterations to
go.  `padding i` is the content of the padding hole of the `checksum` local in
iteration `i`. -/
def DiskSectorCRC.generateLoop (disk : Disk) (diskPath : String) (timestamp : Nat)
    (padding : Nat → List Byte) (startSector : Nat) : Nat → Nat → GenResult → GenResult
  | 0, _, st => { st with ok := true }
  | remaining + 1, i, st =>
    let currentSector := (startSector + i) % 2 ^ 64
    let r := DiskSectorCRC.readSector disk diskPath currentSector st.lastError
    if r.ok = false then
      { st with
        ok := false
        lastError := "Failed to read sector " ++ toString currentSector ++ ": " ++ r.lastError
        reads := st.reads ++ [currentSector] }
    else
      let crc := DiskSectorCRC.calculateCRC32 r.buffer
      let checksum : SectorChecksum := ⟨currentSector, crc, timestamp⟩
      DiskSectorCRC.generateLoop disk diskPath timestamp padding startSector remaining (i + 1)
        { st with
          lastError := r.lastError
          out := st.out ++ checksum.toBytes (padding i)
          reads := st.reads ++ [currentSector] }

/-- The function `DiskSectorCRC::generateSectorChecksums` (`DiskSectorCRC.cpp` lines
164-210).  `outputOpens` says whether the `std::ofstream` on `outputFile` opens, `timestamp` is
the clock reading taken before the header is written and `lastError` is
`lastError_` before the call. -/
def DiskSectorCRC.generateSectorChecksums (disk : Disk) (diskPath : String)
    (outputFile : String) (outputOpens : Bool) (timestamp : Nat) (padding : Nat → List Byte)
    (lastError : String) (startSector sectorCount : Nat) : GenResult :=
  if outputOpens = false then
    ⟨false, "Cannot create output file: " ++ outputFile, [], [], []⟩
  else
    DiskSectorCRC.generateLoop disk diskPath timestamp padding startSector sectorCount 0
      ⟨true, lastError, ledgerHeader startSector sectorCount timestamp, [], []⟩

/-- The `for` loop of `EnhancedDiskSectorCRC::generateSectorChecksums`
(`EnhancedDiskSectorCRC.cpp` lines 40-64).  `cancelled i` is the value
`isOperationCancelled()` returns at the top of iteration `i`; `hasCallback` says
whether `progressCallback` is non-empty. -/
def EnhancedDiskSectorCRC.generateLoop (disk : Disk) (diskPath : String) (timestamp : Nat)
    (padding : Nat → List Byte) (cancelled : Nat → Bool) (hasCallback : Bool)
    (startSector sectorCount : Nat) : Nat → Nat → GenResult → GenResult
  | 0, _, st => { st with ok := true }
  | remaining + 1, i, st =>
    if cancelled i = true then
      { st with ok := false, lastError := "Operation cancelled by user" }
    else
      let currentSector := (startSector + i) % 2 ^ 64
      let r := DiskSectorCRC.readSector disk diskPath currentSector st.lastError
      if r.ok = false then
        { st with
          ok := false
          lastError := "Failed to read sector " ++ toString currentSector ++ ": " ++ r.lastError
          reads := st.reads ++ [currentSector] }
      else
        let crc := DiskSectorCRC.calculateCRC32 r.buffer
        let checksum : SectorChecksum := ⟨currentSector, crc, timestamp⟩
        EnhancedDiskSectorCRC.generateLoop disk diskPath timestamp padding cancelled hasCallback
          startSector sectorCount remaining (i + 1)
          { st with
            lastError := r.lastError
            out := st.out ++ checksum.toBytes (padding i)
            reads := st.reads ++ [currentSector]
            progress :=
              if hasCallback = true ∧ (i + 1) % 100 = 0 then
                st.progress ++ [(toInt32 (i + 1), toInt32 sectorCount)]
              else st.progress }

/-- The function `EnhancedDiskSectorCRC::generateSectorChecksums`
(`EnhancedDiskSectorCRC.cpp` lines 18-68), after `resetCancellation()`. -/
def EnhancedDiskSectorCRC.generateSectorChecksums (disk : Disk) (diskPath : String)
    (outputFile : String) (outputOpens : Bool) (timestamp : Nat) (padding : Nat → List Byte)
    (cancelled : Nat → Bool) (hasCallback : Bool) (lastError : String)
    (startSector sectorCount : Nat) : GenResult :=
  if outputOpens = false then
    ⟨false, "Cannot create output file: " ++ outputFile, [], [], []⟩
  else
    EnhancedDiskSectorCRC.generateLoop disk diskPath timestamp padding cancelled hasCallback
      startSector sectorCount sectorCount 0
      ⟨true, lastError, ledgerHeader startSector sectorCount timestamp, [], []⟩

/-! ## Loading a ledger -/

/-- An upper bound of `std::vector<SectorChecksum>::max_size()` on a 64-bit target:
the storage of the elements has to fit in `size_t` (the value of the MSVC
library). -/
def vector_max_size : Nat := (2 ^ 64 - 1) / sizeofSectorChecksum

/-- How a call of `readChecksumFile` ends. -/
inductive LoadOutcome where
  /-- The call returns true with these values in its three out-parameters. -/
  | loaded (checksums : List SectorChecksum) (startSector sectorCount : Nat)
  /-- The call returns false with this text in `lastError_`. -/
  | failed (lastError : String)
  /-- The call `checksums.resize(sectorCount)` throws `std::length_error`, which
  nothing in `readChecksumFile` catches. -/
  | lengthError
  /-- The file ends inside the header: `magic` and the counts are compared
  without having been assigned. -/
  | indeterminate
  deriving DecidableEq

/-- The loop of `readChecksumFile` (lines 908-915): `count` reads of
`sizeof(SectorChecksum)` bytes each; `none` when one of them comes short
(`gcount() != sizeof(SectorChecksum)`). -/
def EnhancedDiskSectorCRC.readRecords : Nat → List Byte → Option (List SectorChecksum)
  | 0, _ => some []
  | count + 1, bytes =>
    if bytes.length < sizeofSectorChecksum then none
    else
      match EnhancedDiskSectorCRC.readRecords count (bytes.drop sizeofSectorChecksum) with
      | none => none
      | some rest => some (SectorChecksum.ofBytes (bytes.take sizeofSectorChecksum) :: rest)

/-- The function `EnhancedDiskSectorCRC::readChecksumFile` (`EnhancedDiskSectorCRC.cpp`
lines 882-919).  `file` is the content of `checksumFile`, `none` when the
`std::ifstream` does not open.  Two things are left out here and given by
`readChecksumFileAllocating`: the storage `checksums.resize(sectorCount)` asks for
is taken to be obtained, and a file shorter than the 28 bytes of the header is not
followed read by read. -/
def EnhancedDiskSectorCRC.readChecksumFile (checksumFile : String)
    (file : Option (List Byte)) : LoadOutcome :=
  match file with
  | none => .failed ("Cannot open checksum file: " ++ checksumFile)
  | some bytes =>
    if bytes.length < 28 then .indeterminate
    else
      let magic := leValue (bytes.take 4)
      let startSector := leValue ((bytes.drop 4).take 8)
      let sectorCount := leValue ((bytes.drop 12).take 8)
      if magic ≠ LEDGER_MAGIC then .failed "Invalid checksum file format"
      else if vector_max_size < sectorCount then .lengthError
      else
        match EnhancedDiskSectorCRC.readRecords sectorCount (bytes.drop 28) with
        | none => .failed "Failed to read checksum data"
        | some checksums => .loaded checksums startSector sectorCount

/-- The function `EnhancedDiskSectorCRC::validateChecksumFile` (lines 431-436): the
return value of `readChecksumFile`. -/
def EnhancedDiskSectorCRC.validateChecksumFile (checksumFile : String)
    (file : Option (List Byte)) : LoadOutcome :=
  EnhancedDiskSectorCRC.readChecksumFile checksumFile file

/-! ## Vocabulary of the statements -/

/-- Whether `readSector` returns true for a sector of the device; the return value
depends neither on `diskPath_` nor on the previous `lastError_`. -/
def Disk.readable (disk : Disk) (sectorNumber : Nat) : Bool :=
  (DiskSectorCRC.readSector disk "" sectorNumber "").ok

/-- The buffer `readSector` hands back for a sector of the device. -/
def Disk.sectorData (disk : Disk) (sectorNumber : Nat) : List Byte :=
  (DiskSectorCRC.readSector disk "" sectorNumber "").buffer

/-- The record the generators build for a sector:
`SectorChecksum{currentSector, crc, timestamp}`. -/
def generatedRecord (disk : Disk) (timestamp : Nat) (sectorNumber : Nat) : SectorChecksum :=
  ⟨sectorNumber, DiskSectorCRC.calculateCRC32 (disk.sectorData sectorNumber), timestamp⟩

/-- The records of iterations `i, ..., i + k - 1` of a sequential generator. -/
def generatedRecords (disk : Disk) (timestamp startSector i k : Nat) : List SectorChecksum :=
  (List.range k).map (fun j => generatedRecord disk timestamp ((startSector + (i + j)) % 2 ^ 64))

/-- The bytes written for the records of iterations `i, ..., i + k - 1`. -/
def generatedBytes (disk : Disk) (timestamp : Nat) (padding : Nat → List Byte)
    (startSector i k : Nat) : List Byte :=
  ((List.range k).map (fun j =>
    (generatedRecord disk timestamp ((startSector + (i + j)) % 2 ^ 64)).toBytes
      (padding (i + j)))).flatten

/-- The sector numbers read in iterations `i, ..., i + k - 1`. -/
def sectorsFrom (startSector i k : Nat) : List Nat :=
  (List.range k).map (fun j => (startSector + (i + j)) % 2 ^ 64)

/-- A zero-filled image of `sectors` sectors of 512 bytes: it opens, every
non-negative position can be set, and a read returns the bytes left from the
position on, at most 512. -/
def zeroImage (sectors : Nat) : Disk where
  openError := none
  seek := fun z => decide (0 ≤ z)
  read := fun position => some (List.replicate (min SECTOR_SIZE (sectors * SECTOR_SIZE - position)) 0)
  seek_neg := by intro z hz; simpa using hz

/-- A device whose handle cannot be opened (`ERROR_ACCESS_DENIED`). -/
def lockedDisk : Disk where
  openError := some ERROR_ACCESS_DENIED
  seek := fun _ => false
  read := fun _ => none
  seek_neg := by intro z _; rfl

/-- The calls of the progress callback made in iterations `i, ..., i + k - 1` of
`EnhancedDiskSectorCRC::generateSectorChecksums`. -/
def progressCalls (hasCallback : Bool) (sectorCount i k : Nat) : List (Int × Int) :=
  ((List.range k).map (fun j =>
    if hasCallback = true ∧ (i + j + 1) % 100 = 0 then
      [(toInt32 (i + j + 1), toInt32 sectorCount)]
    else [])).flatten

/-! ## Parallel generation -/

/-- The loop that hands the sector range out to the worker threads
(`EnhancedDiskSectorCRC.cpp` lines 226-239 in `generateChecksumsParallel`, lines
528-542 in `generateChecksumsHighPerformance`): `threads` threads are still to be
started, the next one is thread `i` and `currentStart` is the first sector not yet
handed out.  The result lists `(currentStart, threadEnd)` of every thread. -/
def sliceLoop (sectorsPerThread remainingSectors : Nat) : Nat → Nat → Nat → List (Nat × Nat)
  | 0, _, _ => []
  | threads + 1, i, currentStart =>
    let threadSectorCount :=
      if i < remainingSectors then (sectorsPerThread + 1) % 2 ^ 64 else sectorsPerThread
    let threadEnd := (currentStart + threadSectorCount) % 2 ^ 64
    (currentStart, threadEnd) ::
      sliceLoop sectorsPerThread remainingSectors threads (i + 1) threadEnd

/-- The thread count `generateChecksumsParallel` works with (lines 189-192): a
non-positive argument is replaced by half of `std::thread::hardware_concurrency()`,
at least 1. -/
def EnhancedDiskSectorCRC.parallelThreadCount (threadCount : Int) (hardwareConcurrency : Nat) :
    Nat :=
  if threadCount ≤ 0 then
    (if hardwareConcurrency > 1 then hardwareConcurrency / 2 else 1)
  else threadCount.toNat

/-- The slices `[currentStart, threadEnd)` that `generateChecksumsParallel` passes to
its workers (lines 217-239). -/
def EnhancedDiskSectorCRC.parallelSlices (startSector sectorCount : Nat) (threadCount : Int)
    (hardwareConcurrency : Nat) : List (Nat × Nat) :=
  let threads := EnhancedDiskSectorCRC.parallelThreadCount threadCount hardwareConcurrency
  sliceLoop (sectorCount / threads) (sectorCount % threads) threads 0 startSector

/-- The reader count `generateChecksumsHighPerformance` works with (line 487). -/
def EnhancedDiskSectorCRC.readerThreadCount (readerThreads : Int) : Nat :=
  if readerThreads ≤ 0 then 1 else readerThreads.toNat

/-- The slices `[currentStart, threadEnd)` that `generateChecksumsHighPerformance`
passes to its reader workers (lines 521-542). -/
def EnhancedDiskSectorCRC.readerSlices (startSector sectorCount : Nat) (readerThreads : Int) :
    List (Nat × Nat) :=
  let readers := EnhancedDiskSectorCRC.readerThreadCount readerThreads
  sliceLoop (sectorCount / readers) (sectorCount % readers) readers 0 startSector

/-- The `while` loop of `checksumWorkerStreaming` (lines 734-778) followed by the
final flush (lines 781-793).  `buffer` holds the first `bufferIndex` entries of
`checksumBuffer`, `written` the records already written to the file, `clock k` is
the clock reading taken for sector `k` and `cancelled k` the value
`isOperationCancelled()` returns before sector `k` is read.  The loop variable
grows by one per pass, so `fuel = endSector - currentSector` passes reach the exit
test. -/
def EnhancedDiskSectorCRC.streamingLoop (disk : Disk) (diskPath : String) (clock : Nat → Nat)
    (cancelled : Nat → Bool) (endSector streamBufferSize : Nat) :
    Nat → Nat → List SectorChecksum → List SectorChecksum → List SectorChecksum
  | 0, _, buffer, written => written ++ buffer
  | fuel + 1, currentSector, buffer, written =>
    if ¬ currentSector < endSector then written ++ buffer
    else if cancelled currentSector = true then written ++ buffer
    else
      let r := DiskSectorCRC.readSector disk diskPath currentSector ""
      if r.ok = true then
        let crc := DiskSectorCRC.calculateCRC32 r.buffer
        let filled := buffer ++ [⟨currentSector, crc, clock currentSector⟩]
        if streamBufferSize ≤ filled.length ∨ endSector ≤ (currentSector + 1) % 2 ^ 64 then
          EnhancedDiskSectorCRC.streamingLoop disk diskPath clock cancelled endSector
            streamBufferSize fuel ((currentSector + 1) % 2 ^ 64) [] (written ++ filled)
        else
          EnhancedDiskSectorCRC.streamingLoop disk diskPath clock cancelled endSector
            streamBufferSize fuel ((currentSector + 1) % 2 ^ 64) filled written
      else
        EnhancedDiskSectorCRC.streamingLoop disk diskPath clock cancelled endSector
          streamBufferSize fuel ((currentSector + 1) % 2 ^ 64) buffer written

/-- The function `EnhancedDiskSectorCRC::checksumWorkerStreaming` (lines 713-801): the
records the worker appends to the output file, in the order it writes them.  `outputOpens` says
whether its `std::ofstream` opens; `bufferSize` is at least 1 (the only call passes
`BATCH_SIZE = 256`).  The worker touches `lastError_` only through `readSector`;
that is not tracked here. -/
def EnhancedDiskSectorCRC.checksumWorkerStreaming (disk : Disk) (diskPath : String)
    (outputOpens : Bool) (clock : Nat → Nat) (cancelled : Nat → Bool)
    (startSector endSector bufferSize : Nat) : List SectorChecksum :=
  if outputOpens = false then []
  else
    EnhancedDiskSectorCRC.streamingLoop disk diskPath clock cancelled endSector
      (min bufferSize 32) (endSector - startSector) startSector [] []

/-- What a run of `generateChecksumsParallel` leaves behind: its return value, the
header bytes the calling thread writes before it starts the workers, and, per
worker in thread order, the records that worker appends. -/
structure ParallelResult where
  ok : Bool
  header : List Byte
  workers : List (List SectorChecksum)

/-- The function `EnhancedDiskSectorCRC::generateChecksumsParallel` (lines 183-247), each
worker run to completion.  `cancelledAtJoin` is the value `isOperationCancelled()` returns
after the workers have been joined. -/
def EnhancedDiskSectorCRC.generateChecksumsParallel (disk : Disk) (diskPath : String)
    (outputOpens : Bool) (timestamp : Nat) (clock : Nat → Nat) (cancelled : Nat → Bool)
    (cancelledAtJoin : Bool) (hardwareConcurrency : Nat)
    (startSector sectorCount : Nat) (threadCount : Int) : ParallelResult :=
  if outputOpens = false then ⟨false, [], []⟩
  else
    ⟨!cancelledAtJoin,
     ledgerHeader startSector sectorCount timestamp,
     (EnhancedDiskSectorCRC.parallelSlices startSector sectorCount threadCount
        hardwareConcurrency).map (fun slice =>
       EnhancedDiskSectorCRC.checksumWorkerStreaming disk diskPath outputOpens clock cancelled
         slice.1 slice.2 256)⟩

/-- The pair `(sectorNumber, crc32)` of a record. -/
def SectorChecksum.pair (c : SectorChecksum) : Nat × Nat := (c.sectorNumber, c.crc32)

/-- The first sector of slice `i` when `sectorCount` sectors from `startSector` on are
split among `threads` threads: the slices before it hold `sectorCount / threads`
sectors each, plus one for each of the first `sectorCount % threads` of them. -/
def sliceStart (startSector sectorCount threads i : Nat) : Nat :=
  startSector + (i * (sectorCount / threads) + min i (sectorCount % threads))

/-- The records a streaming worker appends for the sectors `[a, b)` when it is not
cancelled: one for each sector whose read succeeds, in ascending order. -/
def workerRecords (disk : Disk) (clock : Nat → Nat) (a b : Nat) : List SectorChecksum :=
  ((List.range (b - a)).map (fun j =>
    if disk.readable (a + j) = true then
      [(⟨a + j, DiskSectorCRC.calculateCRC32 (disk.sectorData (a + j)), clock (a + j)⟩ :
        SectorChecksum)]
    else [])).flatten

/-! ## Sequential verification -/

/-- How a call that goes through the checksum file ends: it returns, or
`readChecksumFile` throws `std::length_error`, or the file ends inside the header and
`magic` and the counts are used without having been assigned. -/
inductive Ending where
  | returned
  | lengthError
  | indeterminate
  deriving DecidableEq

/-- The variables of a sequential verification: `lastError_`, `allValid`,
`corruptedSectors`, the numbers of the sectors found corrupted, in order (the base
class prints each of them on `std::cout`), the sector numbers passed to `readSector`
in call order, and the calls of the progress callback. -/
structure VerifyState where
  lastError : String
  allValid : Bool
  corruptedSectors : Nat
  corrupted : List Nat
  reads : List Nat
  progress : List (Int × Int)
  deriving DecidableEq

/-- What a sequential verification leaves behind: how it ends, its return value (when
it returns) and its variables. -/
structure VerifyResult where
  ending : Ending
  ok : Bool
  state : VerifyState
  deriving DecidableEq

/-- The variables at the start of a verification; `lastError` is `lastError_` before
the call. -/
def VerifyState.initial (lastError : String) : VerifyState :=
  ⟨lastError, true, 0, [], [], []⟩

/-- The statements both `verifySectorIntegrity` functions run for one stored record
(`DiskSectorCRC.cpp` lines 252-265, `EnhancedDiskSectorCRC.cpp` lines 91-104): read
the sector, compare the checksums, count a mismatch.  The first component is false
when the function returns false from here.  The counter cannot wrap: it is at most
the number of records. -/
def verifyRecord (disk : Disk) (diskPath : String) (stored : SectorChecksum)
    (st : VerifyState) : Bool × VerifyState :=
  let r := DiskSectorCRC.readSector disk diskPath stored.sectorNumber st.lastError
  if r.ok = false then
    (false,
      { st with
        lastError :=
          "Failed to read sector " ++ toString stored.sectorNumber ++ ": " ++ r.lastError
        reads := st.reads ++ [stored.sectorNumber] })
  else
    let currentCRC := DiskSectorCRC.calculateCRC32 r.buffer
    if currentCRC ≠ stored.crc32 then
      (true,
        { st with
          lastError := r.lastError
          allValid := false
          corruptedSectors := st.corruptedSectors + 1
          corrupted := st.corrupted ++ [stored.sectorNumber]
          reads := st.reads ++ [stored.sectorNumber] })
    else
      (true, { st with lastError := r.lastError, reads := st.reads ++ [stored.sectorNumber] })

/-- The `for` loop of `DiskSectorCRC::verifySectorIntegrity` (`DiskSectorCRC.cpp` lines
242-270) with `remaining` iterations to go and `bytes` left in the file.  The first
component is false when the function returns false from inside the loop. -/
def DiskSectorCRC.verifyLoop (disk : Disk) (diskPath : String) :
    Nat → List Byte → VerifyState → Bool × VerifyState
  | 0, _, st => (true, st)
  | remaining + 1, bytes, st =>
    if bytes.length < sizeofSectorChecksum then
      (false, { st with lastError := "Failed to read checksum data" })
    else
      match verifyRecord disk diskPath (SectorChecksum.ofBytes (bytes.take sizeofSectorChecksum))
          st with
      | (false, st1) => (false, st1)
      | (true, st1) =>
        DiskSectorCRC.verifyLoop disk diskPath remaining (bytes.drop sizeofSectorChecksum) st1

/-- The function `DiskSectorCRC::verifySectorIntegrity` (`DiskSectorCRC.cpp` lines
212-281).  `file` is the content of `checksumFile`, `none` when it does not open. -/
def DiskSectorCRC.verifySectorIntegrity (disk : Disk) (diskPath checksumFile : String)
    (file : Option (List Byte)) (lastError : String) : VerifyResult :=
  match file with
  | none =>
    ⟨.returned, false,
      { VerifyState.initial lastError with
        lastError := "Cannot open checksum file: " ++ checksumFile }⟩
  | some bytes =>
    if bytes.length < 28 then ⟨.indeterminate, false, VerifyState.initial lastError⟩
    else
      let magic := leValue (bytes.take 4)
      let sectorCount := leValue ((bytes.drop 12).take 8)
      if magic ≠ LEDGER_MAGIC then
        ⟨.returned, false,
          { VerifyState.initial lastError with lastError := "Invalid checksum file format" }⟩
      else
        let run := DiskSectorCRC.verifyLoop disk diskPath sectorCount (bytes.drop 28)
          (VerifyState.initial lastError)
        ⟨.returned, run.1 && run.2.allValid, run.2⟩

/-- The `for` loop of `EnhancedDiskSectorCRC::verifySectorIntegrity`
(`EnhancedDiskSectorCRC.cpp` lines 85-109) over the records still to visit, the next
one being record `i`.  `cancelled i` is the value `isOperationCancelled()` returns
at the top of iteration `i`, `total` is `checksums.size()`. -/
def EnhancedDiskSectorCRC.verifyLoop (disk : Disk) (diskPath : String) (cancelled : Nat → Bool)
    (hasCallback : Bool) (total : Nat) :
    List SectorChecksum → Nat → VerifyState → Bool × VerifyState
  | [], _, st => (true, st)
  | stored :: rest, i, st =>
    if cancelled i = true then
      (false, { st with lastError := "Operation cancelled by user" })
    else
      match verifyRecord disk diskPath stored st with
      | (false, st1) => (false, st1)
      | (true, st1) =>
        EnhancedDiskSectorCRC.verifyLoop disk diskPath cancelled hasCallback total rest (i + 1)
          { st1 with
            progress :=
              if hasCallback = true ∧ (i + 1) % 100 = 0 then
                st1.progress ++ [(toInt32 (i + 1), toInt32 total)]
              else st1.progress }

/-- The function `EnhancedDiskSectorCRC::verifySectorIntegrity`
(`EnhancedDiskSectorCRC.cpp` lines 70-112), after `resetCancellation()`. -/
def EnhancedDiskSectorCRC.verifySectorIntegrity (disk : Disk) (diskPath checksumFile : String)
    (file : Option (List Byte)) (cancelled : Nat → Bool) (hasCallback : Bool)
    (lastError : String) : VerifyResult :=
  match EnhancedDiskSectorCRC.readChecksumFile checksumFile file with
  | .failed message =>
    ⟨.returned, false, { VerifyState.initial lastError with lastError := message }⟩
  | .lengthError => ⟨.lengthError, false, VerifyState.initial lastError⟩
  | .indeterminate => ⟨.indeterminate, false, VerifyState.initial lastError⟩
  | .loaded checksums _ _ =>
    let run := EnhancedDiskSectorCRC.verifyLoop disk diskPath cancelled hasCallback
      checksums.length checksums 0 (VerifyState.initial lastError)
    ⟨.returned, run.1 && run.2.allValid, run.2⟩

/-! ## Parallel verification -/

/-- The thread count `verifyIntegrityParallel` and `repairDataParallel` work with
(lines 260-261, 311-312): a non-positive argument is replaced by
`std::thread::hardware_concurrency()` stored into an `int`, and by 4 when that is
not positive either. -/
def EnhancedDiskSectorCRC.workerThreadCount (threadCount : Int) (hardwareConcurrency : Nat) :
    Nat :=
  if threadCount ≤ 0 then
    (if toInt32 hardwareConcurrency ≤ 0 then 4 else (toInt32 hardwareConcurrency).toNat)
  else threadCount.toNat

/-- The loop that hands the loaded records out to the worker threads (lines 273-289,
324-340): `threads` threads are still to be started, the next one is thread `i`, and
`rest` are the records from `currentIndex` on.  The result lists `threadChecksums`
of every thread. -/
def checksumSlices (checksumsPerThread remainingChecksums : Nat) :
    Nat → Nat → List SectorChecksum → List (List SectorChecksum)
  | 0, _, _ => []
  | threads + 1, i, rest =>
    let threadChecksumCount :=
      if i < remainingChecksums then checksumsPerThread + 1 else checksumsPerThread
    rest.take threadChecksumCount ::
      checksumSlices checksumsPerThread remainingChecksums threads (i + 1)
        (rest.drop threadChecksumCount)

/-- The function `EnhancedDiskSectorCRC::verificationWorker` (lines 804-829) over the
records still to visit: the number of times it increments `corruptedCount`, added
to `count`.  `cancelled i` is the value `isOperationCancelled()` returns before the
worker visits its record `i`.  The shared `processedCount` and the progress callback
are not tracked here. -/
def EnhancedDiskSectorCRC.verificationWorker (disk : Disk) (diskPath : String)
    (cancelled : Nat → Bool) : List SectorChecksum → Nat → Nat → Nat
  | [], _, count => count
  | checksum :: rest, i, count =>
    if cancelled i = true then count
    else if (DiskSectorCRC.readSector disk diskPath checksum.sectorNumber "").ok = false then
      EnhancedDiskSectorCRC.verificationWorker disk diskPath cancelled rest (i + 1) count
    else if DiskSectorCRC.calculateCRC32
        (DiskSectorCRC.readSector disk diskPath checksum.sectorNumber "").buffer ≠
        checksum.crc32 then
      EnhancedDiskSectorCRC.verificationWorker disk diskPath cancelled rest (i + 1) (count + 1)
    else
      EnhancedDiskSectorCRC.verificationWorker disk diskPath cancelled rest (i + 1) count

/-- What a run of `verifyIntegrityParallel` leaves behind: how it ends, its return
value and the final value of `corruptedCount`. -/
structure ParallelVerifyResult where
  ending : Ending
  ok : Bool
  corruptedCount : Nat
  deriving DecidableEq

/-- The function `EnhancedDiskSectorCRC::verifyIntegrityParallel` (lines 249-297), each
worker run to completion.  `cancelled t i` is the value `isOperationCancelled()`
returns before worker `t` visits its record `i`, `cancelledAtJoin` the value it
returns after the workers have been joined. -/
def EnhancedDiskSectorCRC.verifyIntegrityParallel (disk : Disk) (diskPath checksumFile : String)
    (file : Option (List Byte)) (cancelled : Nat → Nat → Bool) (cancelledAtJoin : Bool)
    (hardwareConcurrency : Nat) (threadCount : Int) : ParallelVerifyResult :=
  match EnhancedDiskSectorCRC.readChecksumFile checksumFile file with
  | .failed _ => ⟨.returned, false, 0⟩
  | .lengthError => ⟨.lengthError, false, 0⟩
  | .indeterminate => ⟨.indeterminate, false, 0⟩
  | .loaded checksums _ _ =>
    let threads := EnhancedDiskSectorCRC.workerThreadCount threadCount hardwareConcurrency
    let slices := checksumSlices (checksums.length / threads) (checksums.length % threads)
      threads 0 checksums
    let corruptedCount :=
      ((List.range slices.length).map (fun t =>
        EnhancedDiskSectorCRC.verificationWorker disk diskPath (cancelled t)
          (slices.getD t []) 0 0)).sum
    ⟨.returned, decide (corruptedCount = 0) && !cancelledAtJoin, corruptedCount⟩

/-! ## Vocabulary of the statements on verification -/

/-- Whether the sector a record names holds data whose checksum differs from the
stored one. -/
def mismatching (disk : Disk) (r : SectorChecksum) : Bool :=
  decide (DiskSectorCRC.calculateCRC32 (disk.sectorData r.sectorNumber) ≠ r.crc32)

/-- The records of a ledger whose sector does not match, in ledger order. -/
def mismatches (disk : Disk) (checksums : List SectorChecksum) : List SectorChecksum :=
  checksums.filter (mismatching disk)

/-- The byte position `readSector` and `writeSector` compute for a sector:
`sectorNumber * SECTOR_SIZE` as a `uint64_t`. -/
def sectorPosition (sectorNumber : Nat) : Nat :=
  sectorNumber * SECTOR_SIZE % 2 ^ 64

/-- The device with `data` in place of what a read at `position` returns, and
nothing else changed. -/
def Disk.store (disk : Disk) (position : Nat) (data : List Byte) : Disk where
  openError := disk.openError
  seek := disk.seek
  read := fun p => if p = position then some data else disk.read p
  seek_neg := disk.seek_neg


/-! ## Writing a sector -/

/-- The write side of the target device.  `opens disk` says whether
`CreateFileA(diskPath_, GENERIC_WRITE, ...)` returns a handle on the device in the
state `disk`.  `write disk position data` is the call
`WriteFile(hDisk, data.data(), SECTOR_SIZE, &bytesWritten, NULL)` at a byte
position: `none` when the call fails, otherwise `bytesWritten`, together with the
device as the call leaves it. -/
structure Writer where
  opens : Disk → Bool
  write : Disk → Nat → List Byte → Option Nat × Disk

/-- What a call of `writeSector` leaves behind: its return value, `lastError_` and the
device. -/
structure WriteSectorResult where
  ok : Bool
  lastError : String
  disk : Disk

/-- The function `DiskSectorCRC::writeSector` (`DiskSectorCRC.cpp` lines 122-162).  The
argument `lastError` is `lastError_` before the call. -/
def DiskSectorCRC.writeSector (w : Writer) (disk : Disk) (diskPath : String)
    (sectorNumber : Nat) (data : List Byte) (lastError : String) : WriteSectorResult :=
  if data.length ≠ SECTOR_SIZE then
    ⟨false, "Data size does not equal sector size", disk⟩
  else if w.opens disk = false then
    ⟨false, "Cannot open disk for writing: " ++ diskPath, disk⟩
  else
    let distance := (sectorNumber * SECTOR_SIZE) % 2 ^ 64
    if disk.seek (toInt64 distance) = false then
      ⟨false, "Cannot set file pointer to sector: " ++ toString sectorNumber, disk⟩
    else
      match w.write disk distance data with
      | (none, disk2) => ⟨false, "Failed to write sector: " ++ toString sectorNumber, disk2⟩
      | (some bytesWritten, disk2) => ⟨bytesWritten == SECTOR_SIZE, lastError, disk2⟩

/-! ## Sequential repair -/

/-- One call of `writeSector` made by a repair: the sector number and the data passed,
the data `readSector` had returned for that sector of the target just before, and
the return value of the call. -/
structure WriteEvent where
  sectorNumber : Nat
  current : List Byte
  data : List Byte
  ok : Bool
  deriving DecidableEq

/-- The variables of a sequential repair: the target device, `lastError_`,
`repairedSectors`, `totalCorrupted`, the sector numbers passed to `readSector` on
the target in call order, the calls of `writeSector` in call order, and the calls
of the progress callback. -/
structure RepairState where
  target : Disk
  lastError : String
  repairedSectors : Nat
  totalCorrupted : Nat
  reads : List Nat
  writes : List WriteEvent
  progress : List (Int × Int)

/-- What a sequential repair leaves behind: how it ends, its return value (when it
returns) and its variables. -/
structure RepairResult where
  ending : Ending
  ok : Bool
  state : RepairState

/-- The variables at the start of a repair of the device `target`; `lastError` is
`lastError_` before the call. -/
def RepairState.initial (target : Disk) (lastError : String) : RepairState :=
  ⟨target, lastError, 0, 0, [], [], []⟩

/-- The statements both `repairSectorData` functions run for one stored record
(`DiskSectorCRC.cpp` lines 327-368, `EnhancedDiskSectorCRC.cpp` lines 143-172): read
the sector of the target, compare the checksums and, on a mismatch, count it, read
the same sector of the backup device, and write the backup data to the target when
its checksum is the stored one.  The first component is false when the function
returns false from here.  `backupAvailable` is `!backupDiskPath.empty()` and
`backup` is the device `backupDiskObj` reads; the path handed to `backupDiskObj`
shows only in the `lastError_` of that temporary object, which is dropped with it.
The counters cannot wrap: they are at most the number of records. -/
def repairRecord (w : Writer) (diskPath : String) (backupAvailable : Bool) (backup : Disk)
    (backupDisk : String) (stored : SectorChecksum) (st : RepairState) : Bool × RepairState :=
  let r := DiskSectorCRC.readSector st.target diskPath stored.sectorNumber st.lastError
  if r.ok = false then
    (false,
      { st with
        lastError :=
          "Failed to read sector " ++ toString stored.sectorNumber ++ ": " ++ r.lastError
        reads := st.reads ++ [stored.sectorNumber] })
  else
    let currentCRC := DiskSectorCRC.calculateCRC32 r.buffer
    let st1 := { st with lastError := r.lastError, reads := st.reads ++ [stored.sectorNumber] }
    if currentCRC ≠ stored.crc32 then
      let st2 := { st1 with totalCorrupted := st1.totalCorrupted + 1 }
      if backupAvailable = true then
        let b := DiskSectorCRC.readSector backup backupDisk stored.sectorNumber ""
        if b.ok = true then
          let backupCRC := DiskSectorCRC.calculateCRC32 b.buffer
          if backupCRC = stored.crc32 then
            let wr := DiskSectorCRC.writeSector w st2.target diskPath stored.sectorNumber
              b.buffer st2.lastError
            if wr.ok = true then
              (true,
                { st2 with
                  target := wr.disk
                  lastError := wr.lastError
                  repairedSectors := st2.repairedSectors + 1
                  writes := st2.writes ++ [⟨stored.sectorNumber, r.buffer, b.buffer, true⟩] })
            else
              (true,
                { st2 with
                  target := wr.disk
                  lastError := wr.lastError
                  writes := st2.writes ++ [⟨stored.sectorNumber, r.buffer, b.buffer, false⟩] })
          else (true, st2)
        else (true, st2)
      else (true, st2)
    else (true, st1)

/-- The `for` loop of `DiskSectorCRC::repairSectorData` (`DiskSectorCRC.cpp` lines
316-373) with `remaining` iterations to go and `bytes` left in the file.  The first
component is false when the function returns false from inside the loop. -/
def DiskSectorCRC.repairLoop (w : Writer) (diskPath : String) (backupAvailable : Bool)
    (backup : Disk) (backupDisk : String) : Nat → List Byte → RepairState → Bool × RepairState
  | 0, _, st => (true, st)
  | remaining + 1, bytes, st =>
    if bytes.length < sizeofSectorChecksum then
      (false, { st with lastError := "Failed to read checksum data" })
    else
      match repairRecord w diskPath backupAvailable backup backupDisk
          (SectorChecksum.ofBytes (bytes.take sizeofSectorChecksum)) st with
      | (false, st1) => (false, st1)
      | (true, st1) =>
        DiskSectorCRC.repairLoop w diskPath backupAvailable backup backupDisk remaining
          (bytes.drop sizeofSectorChecksum) st1

/-- The function `DiskSectorCRC::repairSectorData` (`DiskSectorCRC.cpp` lines 283-382).
`file` is the content of `checksumFile`, `none` when it does not open; `backup` is
the device `backupDiskPath` names. -/
def DiskSectorCRC.repairSectorData (w : Writer) (target : Disk)
    (diskPath checksumFile : String) (file : Option (List Byte)) (backupDiskPath : String)
    (backup : Disk) (lastError : String) : RepairResult :=
  match file with
  | none =>
    ⟨.returned, false,
      { RepairState.initial target lastError with
        lastError := "Cannot open checksum file: " ++ checksumFile }⟩
  | some bytes =>
    if bytes.length < 28 then ⟨.indeterminate, false, RepairState.initial target lastError⟩
    else
      let magic := leValue (bytes.take 4)
      let sectorCount := leValue ((bytes.drop 12).take 8)
      if magic ≠ LEDGER_MAGIC then
        ⟨.returned, false,
          { RepairState.initial target lastError with
            lastError := "Invalid checksum file format" }⟩
      else
        let backupAvailable := !backupDiskPath.isEmpty
        let run := DiskSectorCRC.repairLoop w diskPath backupAvailable backup backupDiskPath
          sectorCount (bytes.drop 28) (RepairState.initial target lastError)
        ⟨.returned,
          run.1 && (decide (0 < run.2.repairedSectors) || decide (run.2.totalCorrupted = 0)),
          run.2⟩

/-- The `for` loop of `EnhancedDiskSectorCRC::repairSectorData`
(`EnhancedDiskSectorCRC.cpp` lines 137-177) over the records still to visit, the next
one being record `i`.  `cancelled i` is the value `isOperationCancelled()` returns
at the top of iteration `i`, `total` is `checksums.size()`. -/
def EnhancedDiskSectorCRC.repairLoop (w : Writer) (diskPath : String) (backupAvailable : Bool)
    (backup : Disk) (backupDisk : String) (cancelled : Nat → Bool) (hasCallback : Bool)
    (total : Nat) : List SectorChecksum → Nat → RepairState → Bool × RepairState
  | [], _, st => (true, st)
  | stored :: rest, i, st =>
    if cancelled i = true then
      (false, { st with lastError := "Operation cancelled by user" })
    else
      match repairRecord w diskPath backupAvailable backup backupDisk stored st with
      | (false, st1) => (false, st1)
      | (true, st1) =>
        EnhancedDiskSectorCRC.repairLoop w diskPath backupAvailable backup backupDisk cancelled
          hasCallback total rest (i + 1)
          { st1 with
            progress :=
              if hasCallback = true ∧ (i + 1) % 100 = 0 then
                st1.progress ++ [(toInt32 (i + 1), toInt32 total)]
              else st1.progress }

/-- The function `EnhancedDiskSectorCRC::repairSectorData`
(`EnhancedDiskSectorCRC.cpp` lines 114-180), after `resetCancellation()`. -/
def EnhancedDiskSectorCRC.repairSectorData (w : Writer) (target : Disk)
    (diskPath checksumFile : String) (file : Option (List Byte)) (backupDiskPath : String)
    (backup : Disk) (cancelled : Nat → Bool) (hasCallback : Bool) (lastError : String) :
    RepairResult :=
  match EnhancedDiskSectorCRC.readChecksumFile checksumFile file with
  | .failed message =>
    ⟨.returned, false, { RepairState.initial target lastError with lastError := message }⟩
  | .lengthError => ⟨.lengthError, false, RepairState.initial target lastError⟩
  | .indeterminate => ⟨.indeterminate, false, RepairState.initial target lastError⟩
  | .loaded checksums _ _ =>
    let backupAvailable := !backupDiskPath.isEmpty
    let run := EnhancedDiskSectorCRC.repairLoop w diskPath backupAvailable backup backupDiskPath
      cancelled hasCallback checksums.length checksums 0 (RepairState.initial target lastError)
    ⟨.returned,
      run.1 && (decide (0 < run.2.repairedSectors) || decide (run.2.totalCorrupted = 0)),
      run.2⟩

/-! ## Parallel repair -/

/-- The function `EnhancedDiskSectorCRC::repairWorker` (lines 831-879) over the records
still to visit, from the target device and the value of `repairedCount` it finds:
the device and the counter it leaves.  `cancelled i` is the value
`isOperationCancelled()` returns before the worker visits its record `i`.  The
shared `lastError_`, `processedCount` and the progress callback are not tracked. -/
def EnhancedDiskSectorCRC.repairWorker (w : Writer) (diskPath : String) (backupAvailable : Bool)
    (backup : Disk) (backupDisk : String) (cancelled : Nat → Bool) :
    List SectorChecksum → Nat → Disk × Nat → Disk × Nat
  | [], _, st => st
  | checksum :: rest, i, (target, repairedCount) =>
    if cancelled i = true then (target, repairedCount)
    else
      let r := DiskSectorCRC.readSector target diskPath checksum.sectorNumber ""
      if r.ok = false then
        EnhancedDiskSectorCRC.repairWorker w diskPath backupAvailable backup backupDisk cancelled
          rest (i + 1) (target, repairedCount)
      else
        let currentCRC := DiskSectorCRC.calculateCRC32 r.buffer
        let b := DiskSectorCRC.readSector backup backupDisk checksum.sectorNumber ""
        if currentCRC ≠ checksum.crc32 ∧ backupAvailable = true ∧ b.ok = true ∧
            DiskSectorCRC.calculateCRC32 b.buffer = checksum.crc32 then
          let wr := DiskSectorCRC.writeSector w target diskPath checksum.sectorNumber b.buffer ""
          EnhancedDiskSectorCRC.repairWorker w diskPath backupAvailable backup backupDisk
            cancelled rest (i + 1)
            (wr.disk, if wr.ok = true then repairedCount + 1 else repairedCount)
        else
          EnhancedDiskSectorCRC.repairWorker w diskPath backupAvailable backup backupDisk
            cancelled rest (i + 1) (target, repairedCount)

/-- What a run of `repairDataParallel` leaves behind: how it ends, its return value,
the final value of `repairedCount` and the target device. -/
structure ParallelRepairResult where
  ending : Ending
  ok : Bool
  repairedCount : Nat
  target : Disk

/-- The function `EnhancedDiskSectorCRC::repairDataParallel` (lines 299-348), the
workers taken one after the other in thread order, each run to completion (with one
thread this is the only schedule).  `cancelled t i` is the value
`isOperationCancelled()` returns before worker `t` visits its record `i`,
`cancelledAtJoin` the value it returns after the workers have been joined. -/
def EnhancedDiskSectorCRC.repairDataParallel (w : Writer) (target : Disk)
    (diskPath checksumFile : String) (file : Option (List Byte)) (backupDiskPath : String)
    (backup : Disk) (cancelled : Nat → Nat → Bool) (cancelledAtJoin : Bool)
    (hardwareConcurrency : Nat) (threadCount : Int) : ParallelRepairResult :=
  match EnhancedDiskSectorCRC.readChecksumFile checksumFile file with
  | .failed _ => ⟨.returned, false, 0, target⟩
  | .lengthError => ⟨.lengthError, false, 0, target⟩
  | .indeterminate => ⟨.indeterminate, false, 0, target⟩
  | .loaded checksums _ _ =>
    let threads := EnhancedDiskSectorCRC.workerThreadCount threadCount hardwareConcurrency
    let slices := checksumSlices (checksums.length / threads) (checksums.length % threads)
      threads 0 checksums
    let backupAvailable := !backupDiskPath.isEmpty
    let run := (List.range slices.length).foldl
      (fun st t =>
        EnhancedDiskSectorCRC.repairWorker w diskPath backupAvailable backup backupDiskPath
          (cancelled t) (slices.getD t []) 0 st)
      (target, 0)
    ⟨.returned, decide (0 < run.2) && !cancelledAtJoin, run.2, run.1⟩

/-! ## Vocabulary of the statements on repair -/

/-- A writer on which every write succeeds: the handle opens, `WriteFile` reports
`SECTOR_SIZE` bytes written, and afterwards the device returns the data written
at that position and is otherwise as before. -/
def Writer.faithful (w : Writer) : Prop :=
  ∀ (disk : Disk) (position : Nat) (data : List Byte),
    w.opens disk = true ∧ w.write disk position data = (some SECTOR_SIZE, disk.store position data)

/-- A writer whose writes touch nothing but the position written: the device opens
and seeks as before, and reads at every other position return what they did. -/
def Writer.confined (w : Writer) : Prop :=
  ∀ (disk : Disk) (position : Nat) (data : List Byte),
    (w.write disk position data).2.openError = disk.openError ∧
    (w.write disk position data).2.seek = disk.seek ∧
    ∀ q, q ≠ position → (w.write disk position data).2.read q = disk.read q

/-- The device states a target can be in after any number of `WriteFile` calls of
the writer `w` with a full sector of data (`writeSector` makes no other), starting
from `start`. -/
inductive Writer.Reaches (w : Writer) (start : Disk) : Disk → Prop
  | start : Writer.Reaches w start start
  | write (disk : Disk) (position : Nat) (data : List Byte) :
      data.length = SECTOR_SIZE → Writer.Reaches w start disk →
      Writer.Reaches w start (w.write disk position data).2

/-- The writer on which every write succeeds and stores the data. -/
def faithfulWriter : Writer where
  opens := fun _ => true
  write := fun disk position data => (some SECTOR_SIZE, disk.store position data)

/-- A writer whose `WriteFile` reports `SECTOR_SIZE` bytes written and leaves the
device as it was (a write that is lost without an error). -/
def lossyWriter : Writer where
  opens := fun _ => true
  write := fun disk _ _ => (some SECTOR_SIZE, disk)

/-- A writer whose `WriteFile` fails at the byte position `position` and stores the
data everywhere else. -/
def failingWriter (position : Nat) : Writer where
  opens := fun _ => true
  write := fun disk p data =>
    if p = position then (none, disk) else (some SECTOR_SIZE, disk.store p data)

/-- A 512-byte sector whose first byte is `b` and whose other bytes are 0. -/
def markedSector (b : Byte) : List Byte :=
  b :: List.replicate 511 0

/-- Whether a repair that reaches the record `r` with the target in the state
`target` calls `writeSector` for it: the sector of the target does not match, a
backup path was given, and the same sector of the backup device can be read and has
the stored checksum. -/
def repairable (target backup : Disk) (backupAvailable : Bool) (r : SectorChecksum) : Bool :=
  mismatching target r && backupAvailable && backup.readable r.sectorNumber &&
    decide (DiskSectorCRC.calculateCRC32 (backup.sectorData r.sectorNumber) = r.crc32)

/-- The bytes of a ledger file that holds the given records: the header the generators
write, with the number of records as its sector count, followed by the records,
their padding bytes zero. -/
def ledgerFile (startSector timestamp : Nat) (records : List SectorChecksum) : List Byte :=
  ledgerHeader startSector records.length timestamp ++
    (records.map (SectorChecksum.toBytes [])).flatten

/-! ## File-level checksums (`FileSystemCRC.cpp`) -/

/-- The `while` loop shared by `FileSystemCRC::calculateFileCRC32` (lines 645-657) and
`FileSystemCRC::calculateCRC32ForFile` (lines 736-748), with `rest` still unread in
the stream.  The condition `file.read(buffer.data(), buffer.size())` converts to
true only when all 8192 bytes arrive; `gcount()` is then 8192 and the body folds
them into `crc`.  A read that comes short sets `failbit`: the condition is false and
the body does not run for the bytes that did arrive. -/
def FileSystemCRC.readLoop (rest : List Byte) (crc : Nat) : Nat :=
  if rest.length < 8192 then crc
  else
    FileSystemCRC.readLoop (rest.drop 8192)
      ((rest.take 8192).foldl (fun crc byte => crc8Steps (crc ^^^ byte.val)) crc)
termination_by rest.length
decreasing_by
  simp only [List.length_drop]
  omega

/-- The function `FileSystemCRC::calculateCRC32ForFile` (`FileSystemCRC.cpp` lines
727-752).  `file` is the content of the file, `none` when the stream does not
open. -/
def FileSystemCRC.calculateCRC32ForFile (file : Option (List Byte)) : Nat :=
  match file with
  | none => 0
  | some bytes => FileSystemCRC.readLoop bytes 0xFFFFFFFF ^^^ 0xFFFFFFFF

/-- The static function `FileSystemCRC::calculateFileCRC32` (`FileSystemCRC.cpp` lines
636-661), statement for statement the same as `calculateCRC32ForFile`. -/
def FileSystemCRC.calculateFileCRC32 (file : Option (List Byte)) : Nat :=
  match file with
  | none => 0
  | some bytes => FileSystemCRC.readLoop bytes 0xFFFFFFFF ^^^ 0xFFFFFFFF

/-- The structure `FileChecksum` (`FileSystemCRC.h` lines 18-24). -/
structure FileChecksum where
  filePath : String
  fileSize : Nat
  crc32 : Nat
  timestamp : Nat
  lastModified : Nat
  deriving DecidableEq

/-- What a call of `generateFileChecksum` leaves behind: its return value, the last
error and the `checksum` argument. -/
structure FileChecksumResult where
  ok : Bool
  lastError : String
  checksum : FileChecksum
  deriving DecidableEq

/-- The function `FileSystemCRC::generateFileChecksum` (`FileSystemCRC.cpp` lines
19-40).  `isRegularFile` is `fs::exists(path) && fs::is_regular_file(path)`, `file`
the content the stream delivers (`none` when it does not open), `fileSize`,
`lastModified` and `now` what `fs::file_size`, `fs::last_write_time` and the clock
return (the calls are taken to return), `checksum` and `lastError` the argument and
the last error before the call. -/
def FileSystemCRC.generateFileChecksum (filePath : String) (isRegularFile : Bool)
    (file : Option (List Byte)) (fileSize lastModified now : Nat) (checksum : FileChecksum)
    (lastError : String) : FileChecksumResult :=
  if isRegularFile = false then
    ⟨false, "File does not exist or is not a regular file: " ++ filePath, checksum⟩
  else
    ⟨true, lastError,
      ⟨filePath, fileSize, FileSystemCRC.calculateCRC32ForFile file, now, lastModified⟩⟩

/-! ## The single-file backup blob -/

/-- What a call of `backupSector` leaves behind: its return value, `lastError_` and the
content of the backup file (`none` while there is no such file). -/
structure BackupSectorResult where
  ok : Bool
  lastError : String
  blob : Option (List Byte)
  deriving DecidableEq

/-- The function `DiskSectorCRC::backupSector` (`DiskSectorCRC.cpp` lines 424-442).
`blob` is the content of the file at `backupPath` before the call (`none` when there
is none; opening with `std::ios::app` creates it), `blobOpens` whether the
`std::ofstream` opens.  The two `write` calls append the object representation of
`sectorNumber` and the `sectorData.size()` bytes `readSector` returned. -/
def DiskSectorCRC.backupSector (disk : Disk) (diskPath : String) (sectorNumber : Nat)
    (backupPath : String) (blob : Option (List Byte)) (blobOpens : Bool) (lastError : String) :
    BackupSectorResult :=
  let r := DiskSectorCRC.readSector disk diskPath sectorNumber lastError
  if r.ok = false then ⟨false, r.lastError, blob⟩
  else if blobOpens = false then ⟨false, "Cannot create backup file: " ++ backupPath, blob⟩
  else ⟨true, r.lastError, some (blob.getD [] ++ leBytes 8 sectorNumber ++ r.buffer)⟩

/-- The `while (backupFile)` loop of `DiskSectorCRC::restoreSector` (lines 452-470)
and the statements after it, with `rest` still unread in the stream: a read of the
8-byte sector number or of the `SECTOR_SIZE` data bytes that comes short leaves the
loop, and so does the entry whose number is `sectorNumber`, through
`return writeSector(sectorNumber, sectorData)`. -/
def DiskSectorCRC.restoreLoop (w : Writer) (disk : Disk) (diskPath : String)
    (sectorNumber : Nat) (lastError : String) (rest : List Byte) : WriteSectorResult :=
  if h : rest.length < 8 then
    ⟨false, "Sector not found in backup file: " ++ toString sectorNumber, disk⟩
  else if h2 : (rest.drop 8).length < SECTOR_SIZE then
    ⟨false, "Sector not found in backup file: " ++ toString sectorNumber, disk⟩
  else if leValue (rest.take 8) = sectorNumber then
    DiskSectorCRC.writeSector w disk diskPath sectorNumber ((rest.drop 8).take SECTOR_SIZE)
      lastError
  else
    DiskSectorCRC.restoreLoop w disk diskPath sectorNumber lastError
      (rest.drop (8 + SECTOR_SIZE))
termination_by rest.length
decreasing_by
  simp only [List.length_drop, SECTOR_SIZE] at *
  omega

/-- The function `DiskSectorCRC::restoreSector` (`DiskSectorCRC.cpp` lines 444-475).
`blob` is the content of the file at `backupPath`, `none` when it does not open. -/
def DiskSectorCRC.restoreSector (w : Writer) (disk : Disk) (diskPath : String)
    (sectorNumber : Nat) (backupPath : String) (blob : Option (List Byte))
    (lastError : String) : WriteSectorResult :=
  match blob with
  | none => ⟨false, "Cannot open backup file: " ++ backupPath, disk⟩
  | some bytes => DiskSectorCRC.restoreLoop w disk diskPath sectorNumber lastError bytes

/-- A backup blob as the specification words it: a sequence of entries, each the
8-byte sector number followed by the data bytes. -/
def blobOf (entries : List (Nat × List Byte)) : List Byte :=
  (entries.map (fun e => leBytes 8 e.1 ++ e.2)).flatten

/-! ## Parallel verification with the shared variables tracked -/

/-- The variables the workers of `verifyIntegrityParallel` share: `lastError_` (a
failing `readSector` writes it), the atomics `corruptedCount` and `processedCount`,
and the calls of the progress callback in call order. -/
structure WorkerState where
  lastError : String
  corruptedCount : Nat
  processedCount : Nat
  progress : List (Int × Int)
  deriving DecidableEq

/-- The function `EnhancedDiskSectorCRC::verificationWorker` (lines 804-829) over the
records still to visit, on the shared variables.  `cancelled i` is the value
`isOperationCancelled()` returns before the worker visits its record `i`, and `size`
is `checksums.size()`, the number of records handed to this worker.  The callback
takes two `int`.  The counters cannot wrap: they are at most the number of
records. -/
def EnhancedDiskSectorCRC.verificationWorkerTraced (disk : Disk) (diskPath : String)
    (cancelled : Nat → Bool) (hasCallback : Bool) (size : Nat) :
    List SectorChecksum → Nat → WorkerState → WorkerState
  | [], _, st => st
  | checksum :: rest, i, st =>
    if cancelled i = true then st
    else
      let r := DiskSectorCRC.readSector disk diskPath checksum.sectorNumber st.lastError
      if r.ok = false then
        EnhancedDiskSectorCRC.verificationWorkerTraced disk diskPath cancelled hasCallback size
          rest (i + 1) { st with lastError := r.lastError }
      else
        let currentCRC := DiskSectorCRC.calculateCRC32 r.buffer
        let processed := st.processedCount + 1
        EnhancedDiskSectorCRC.verificationWorkerTraced disk diskPath cancelled hasCallback size
          rest (i + 1)
          { lastError := r.lastError
            corruptedCount :=
              if currentCRC ≠ checksum.crc32 then st.corruptedCount + 1 else st.corruptedCount
            processedCount := processed
            progress :=
              if hasCallback = true ∧ processed % 100 = 0 then
                st.progress ++ [(toInt32 processed, toInt32 size)]
              else st.progress }

/-- The workers of `verifyIntegrityParallel` taken one after the other in thread order,
each run to completion on the shared variables; the next one is thread `t`. -/
def EnhancedDiskSectorCRC.verificationWorkersTraced (disk : Disk) (diskPath : String)
    (cancelled : Nat → Nat → Bool) (hasCallback : Bool) :
    List (List SectorChecksum) → Nat → WorkerState → WorkerState
  | [], _, st => st
  | threadChecksums :: rest, t, st =>
    EnhancedDiskSectorCRC.verificationWorkersTraced disk diskPath cancelled hasCallback rest
      (t + 1)
      (EnhancedDiskSectorCRC.verificationWorkerTraced disk diskPath (cancelled t) hasCallback
        threadChecksums.length threadChecksums 0 st)

/-- What a run of `verifyIntegrityParallel` leaves behind: how it ends, its return
value and the shared variables. -/
structure ParallelVerifyTrace where
  ending : Ending
  ok : Bool
  state : WorkerState
  deriving DecidableEq

/-- The function `EnhancedDiskSectorCRC::verifyIntegrityParallel` (lines 249-297) with
`lastError_`, `processedCount` and the progress callback tracked, the workers taken
in thread order.  `lastError` is `lastError_` before the call; the other arguments
are those of `verifyIntegrityParallel`. -/
def EnhancedDiskSectorCRC.verifyIntegrityParallelTraced (disk : Disk)
    (diskPath checksumFile : String) (file : Option (List Byte))
    (cancelled : Nat → Nat → Bool) (cancelledAtJoin : Bool) (hasCallback : Bool)
    (hardwareConcurrency : Nat) (threadCount : Int) (lastError : String) :
    ParallelVerifyTrace :=
  match EnhancedDiskSectorCRC.readChecksumFile checksumFile file with
  | .failed message => ⟨.returned, false, ⟨message, 0, 0, []⟩⟩
  | .lengthError => ⟨.lengthError, false, ⟨lastError, 0, 0, []⟩⟩
  | .indeterminate => ⟨.indeterminate, false, ⟨lastError, 0, 0, []⟩⟩
  | .loaded checksums _ _ =>
    let threads := EnhancedDiskSectorCRC.workerThreadCount threadCount hardwareConcurrency
    let slices := checksumSlices (checksums.length / threads) (checksums.length % threads)
      threads 0 checksums
    let st := EnhancedDiskSectorCRC.verificationWorkersTraced disk diskPath cancelled
      hasCallback slices 0 ⟨lastError, 0, 0, []⟩
    ⟨.returned, decide (st.corruptedCount = 0) && !cancelledAtJoin, st⟩

/-! ## The reader/processor pipeline of `generateChecksumsHighPerformance` -/

/-- The structure `SectorData` (`EnhancedDiskSectorCRC.h` lines 72-77) as the queue
holds it; `crc` is assigned only after the item has left the queue. -/
structure SectorData where
  sectorNumber : Nat
  data : List Byte
  timestamp : Nat
  deriving DecidableEq

/-- The constant `MAX_QUEUE_SIZE` of `readerWorker` (line 588),
`const int MAX_QUEUE_SIZE = batchSize * 4`: the product of two `int`, which keeps
its low 32 bits when it does not fit, from `batchSize = 2^29` on (the one caller
passes 128). -/
def EnhancedDiskSectorCRC.MAX_QUEUE_SIZE (batchSize : Nat) : Int :=
  toInt32 (batchSize * 4)

/-- The value an `int` takes when it is converted to `size_t` for a comparison with
`dataQueue.size()`: a negative value becomes `2^64` more. -/
def toSize (x : Int) : Nat :=
  (x % 2 ^ 64).toNat

/-- The `sectorBatch` one pass of the outer loop of `readerWorker` builds (lines
592-615) from `currentSector`: `actualBatchSize` sectors are read, a failed read
leaves its `batchData[i]` empty, and the non-empty ones are kept. -/
def EnhancedDiskSectorCRC.readerBatch (disk : Disk) (diskPath : String)
    (currentSector endSector batchSize timestamp : Nat) : List SectorData :=
  (List.range (min batchSize (endSector - currentSector))).filterMap (fun i =>
    let r := DiskSectorCRC.readSector disk diskPath (currentSector + i) ""
    let batchData := if r.ok = true then r.buffer else []
    if batchData ≠ [] then some ⟨currentSector + i, batchData, timestamp⟩ else none)

/-- What the reader does with the lock held, at one evaluation of its wait condition. -/
inductive EnqueueOutcome where
  | waits
  | breaks
  | pushed (dataQueue : List SectorData)
  deriving DecidableEq

/-- The statements of `readerWorker` under the queue lock (lines 618-636) at one
evaluation of the wait condition: the reader goes on waiting while the queue holds
`MAX_QUEUE_SIZE` items or more and no cancellation is seen; otherwise it leaves on
cancellation or pushes every item of `sectorBatch`.  The comparison
`dataQueue.size() >= MAX_QUEUE_SIZE` is made in `size_t`, to which the `int` is
converted.  `cancelledInWait` and `cancelledAfter` are the values of
`isOperationCancelled()` in the loop condition and in the `if` after it. -/
def EnhancedDiskSectorCRC.readerEnqueue (batchSize : Nat) (cancelledInWait cancelledAfter : Bool)
    (dataQueue sectorBatch : List SectorData) : EnqueueOutcome :=
  if dataQueue.length ≥ toSize (EnhancedDiskSectorCRC.MAX_QUEUE_SIZE batchSize) ∧
      cancelledInWait = false then .waits
  else if cancelledAfter = true then .breaks
  else .pushed (dataQueue ++ sectorBatch)

/-- The states of the shared queue the pipeline can reach from the empty queue: a
reader that has built a non-empty `sectorBatch` gets past its wait and pushes it,
or a processor takes the front item.  The cancellation flag is not cleared while
the operation runs (`resetCancellation` is called at its start only), so a reader
that saw it set in its wait condition sees it set in the `if` after it. -/
inductive EnhancedDiskSectorCRC.QueueReaches (disk : Disk) (diskPath : String) (batchSize : Nat) :
    List SectorData → Prop
  | start : EnhancedDiskSectorCRC.QueueReaches disk diskPath batchSize []
  | push (dataQueue pushed : List SectorData) (currentSector endSector timestamp : Nat)
      (cancelledInWait cancelledAfter : Bool) :
      EnhancedDiskSectorCRC.QueueReaches disk diskPath batchSize dataQueue →
      EnhancedDiskSectorCRC.readerBatch disk diskPath currentSector endSector batchSize
        timestamp ≠ [] →
      (cancelledInWait = true → cancelledAfter = true) →
      EnhancedDiskSectorCRC.readerEnqueue batchSize cancelledInWait cancelledAfter dataQueue
        (EnhancedDiskSectorCRC.readerBatch disk diskPath currentSector endSector batchSize
          timestamp) = .pushed pushed →
      EnhancedDiskSectorCRC.QueueReaches disk diskPath batchSize pushed
  | pop (data : SectorData) (dataQueue : List SectorData) :
      EnhancedDiskSectorCRC.QueueReaches disk diskPath batchSize (data :: dataQueue) →
      EnhancedDiskSectorCRC.QueueReaches disk diskPath batchSize dataQueue

/-- Where a processor stands in `processorWorker`: at the condition of the outer
`while` (line 656), at the condition of the inner wait loop (line 660), at the two
`if` after it (lines 664-670), or past the outer loop. -/
inductive ProcessorPoint where
  | loopTest
  | waitTest
  | afterWait
  | exited
  deriving DecidableEq

/-- The variables of one processor and the shared ones it works on: where it
stands, the queue, the bytes appended to the output file, `processedCount` and the
calls of the progress callback. -/
structure ProcessorState where
  point : ProcessorPoint
  dataQueue : List SectorData
  out : List Byte
  processedCount : Nat
  progress : List (Int × Int)
  deriving DecidableEq

/-- One step of `EnhancedDiskSectorCRC::processorWorker` (lines 656-689, after the
output file has opened): the evaluation of one loop condition, or the statements
from line 664 to the end of the outer loop body.  `readingComplete` and `cancelled`
are the values of the flag and of `isOperationCancelled()` at this step; a pass of
the wait loop whose condition holds ends in `wait_for` and comes back to the
condition. -/
def EnhancedDiskSectorCRC.processorStep (readingComplete cancelled : Bool) (hasCallback : Bool)
    (totalCount : Nat) (padding : List Byte) (st : ProcessorState) : ProcessorState :=
  match st.point with
  | .loopTest =>
    if cancelled = true then { st with point := .exited } else { st with point := .waitTest }
  | .waitTest =>
    if st.dataQueue.isEmpty = true ∧ ¬(readingComplete = true ∧ cancelled = true) then st
    else { st with point := .afterWait }
  | .afterWait =>
    match st.dataQueue with
    | [] =>
      if readingComplete = true then { st with point := .exited }
      else { st with point := .loopTest }
    | data :: rest =>
      let checksum : SectorChecksum :=
        ⟨data.sectorNumber, DiskSectorCRC.calculateCRC32 data.data, data.timestamp⟩
      let processed := st.processedCount + 1
      { point := .loopTest
        dataQueue := rest
        out := st.out ++ SectorChecksum.toBytes padding checksum
        processedCount := processed
        progress :=
          if hasCallback = true ∧ processed % 100 = 0 then
            st.progress ++ [(toInt32 processed, toInt32 totalCount)]
          else st.progress }
  | .exited => st

/-- The processor after `steps` steps with no other thread touching the queue.
`flags i` gives `readingComplete` and `isOperationCancelled()` as step `i` sees
them; the next step is step `i`. -/
def EnhancedDiskSectorCRC.processorRun (flags : Nat → Bool × Bool) (hasCallback : Bool)
    (totalCount : Nat) (padding : List Byte) : Nat → Nat → ProcessorState → ProcessorState
  | 0, _, st => st
  | steps + 1, i, st =>
    EnhancedDiskSectorCRC.processorRun flags hasCallback totalCount padding steps (i + 1)
      (EnhancedDiskSectorCRC.processorStep (flags i).1 (flags i).2 hasCallback totalCount
        padding st)

/-! ## Loading a ledger, with the allocation of the vector -/

/-- How a call of `readChecksumFile` ends when the storage of the vector is not taken
for granted: in `std::bad_alloc`, thrown by `checksums.resize(sectorCount)` and
caught nowhere, or in one of the ways of `LoadOutcome`. -/
inductive AllocatingOutcome where
  | badAlloc
  | ended (outcome : LoadOutcome)
  deriving DecidableEq

/-- The function `EnhancedDiskSectorCRC::readChecksumFile` (`EnhancedDiskSectorCRC.cpp`
lines 882-919) with the allocation and the short header.  `allocates n` says whether
`checksums.resize(n)` obtains the storage of `n` records; when it does not, the call
throws `std::bad_alloc` (`resize(0)` asks for none).  The four reads of the header
are followed one by one: `magic` is assigned by the first when the file holds 4
bytes, `sectorCount` by the third when it holds 20; a read that comes short leaves
the stream failed, so that every later read delivers nothing and the first record,
if one is asked for, comes short. -/
def EnhancedDiskSectorCRC.readChecksumFileAllocating (allocates : Nat → Bool)
    (checksumFile : String) (file : Option (List Byte)) : AllocatingOutcome :=
  match file with
  | none => .ended (.failed ("Cannot open checksum file: " ++ checksumFile))
  | some bytes =>
    if bytes.length < 4 then .ended .indeterminate
    else
      let magic := leValue (bytes.take 4)
      let startSector := leValue ((bytes.drop 4).take 8)
      let sectorCount := leValue ((bytes.drop 12).take 8)
      if magic ≠ LEDGER_MAGIC then .ended (.failed "Invalid checksum file format")
      else if bytes.length < 20 then .ended .indeterminate
      else if vector_max_size < sectorCount then .ended .lengthError
      else if sectorCount ≠ 0 ∧ allocates sectorCount = false then .badAlloc
      else
        match EnhancedDiskSectorCRC.readRecords sectorCount (bytes.drop 28) with
        | none => .ended (.failed "Failed to read checksum data")
        | some checksums => .ended (.loaded checksums startSector sectorCount)

/-- The function `EnhancedDiskSectorCRC::validateChecksumFile` (lines 431-436) with the
allocation: what `readChecksumFile` does. -/
def EnhancedDiskSectorCRC.validateChecksumFileAllocating (allocates : Nat → Bool)
    (checksumFile : String) (file : Option (List Byte)) : AllocatingOutcome :=
  EnhancedDiskSectorCRC.readChecksumFileAllocating allocates checksumFile file

/-! ## CRC-32: the embedded table against the bitwise definition -/

theorem crc32_table_length : crc32_table.length = 256 := by decide

theorem crc_table_length : FinalUltimateOptimizedCRC.crc_table.length = 256 := by decide

theorem crc32_table_lt : ∀ x ∈ crc32_table, x < 2 ^ 32 := by decide

/-- Every entry of `crc32_table` other than entry 10 is the value the eight
shift/XOR passes give. -/
theorem crc32_table_entries_except_10 :
    ∀ i < 256, i ≠ 10 → crc32_table.getD i 0 = crc8Steps i := by decide

/-- The table `generate_crc32_table` builds at run time is the table embedded in
`FinalUltimateOptimizedGUI.cpp`. -/
theorem generate_crc32_table_eq :
    generate_crc32_table = FinalUltimateOptimizedCRC.crc_table := by decide

/-- C1 (evaluation at the failing input): entry 10 of `crc32_table` is
`0xE0D5E4E8` where the eight shift/XOR passes, and so the table of
`generate_crc32_table`, give `0xE0D5E91E`; hence on the one-byte input `0xF5` the
routine `DiskSectorCRC::calculateCRC32` returns `0x1FD5E4E8` while the standard
reflected CRC-32 is `0x1FD5E91E`. -/
theorem calculateCRC32_not_standard_at_F5 :
    crc32_table.getD 10 0 = 0xE0D5E4E8 ∧ crc8Steps 10 = 0xE0D5E91E ∧
    generate_crc32_table.getD 10 0 = 0xE0D5E91E ∧
    DiskSectorCRC.calculateCRC32 [0xF5] = 0x1FD5E4E8 ∧
    standardCRC32 [0xF5] = 0x1FD5E91E := by decide

/-- C2 (evaluation at the failing input): on the one-byte input `0xF5` the
routine of `DiskSectorCRC` returns `0x1FD5E4E8`, while those of
`FinalUltimateOptimizedCRC` and `FileSystemCRC` both return `0x1FD5E91E`. -/
theorem crc_routines_disagree_at_F5 :
    DiskSectorCRC.calculateCRC32 [0xF5] = 0x1FD5E4E8 ∧
    FinalUltimateOptimizedCRC.calculateCRC32 [0xF5] = 0x1FD5E91E ∧
    FileSystemCRC.calculateCRC32ForData [0xF5] = 0x1FD5E91E := by decide

theorem crc32_table_top_bytes_nodup : (crc32_table.map (· >>> 24)).Nodup := by decide

/-! ## CRC-32: a change of one byte changes the checksum -/

theorem xor_shiftRight_24 (x t : Nat) (hx : x < 2 ^ 24) : (x ^^^ t) >>> 24 = t >>> 24 := by
  apply Nat.eq_of_testBit_eq
  intro k
  have hk : x.testBit (24 + k) = false :=
    Nat.testBit_lt_two_pow (lt_of_lt_of_le hx (Nat.pow_le_pow_right (by norm_num) (by omega)))
  simp [Nat.testBit_shiftRight, Nat.testBit_xor, hk]

theorem crcIndex_lt (c : Nat) (b : Byte) : (c ^^^ b.val) &&& 0xFF < 256 :=
  Nat.lt_succ_of_le Nat.and_le_right

theorem crc32_table_getD_lt (i : Nat) : crc32_table.getD i 0 < 2 ^ 32 := by
  by_cases h : i < crc32_table.length
  · rw [List.getD_eq_getElem _ _ h]
    exact crc32_table_lt _ (List.getElem_mem h)
  · rw [List.getD_eq_default _ _ (by omega)]
    norm_num

theorem crcStep_lt (c : Nat) (b : Byte) (hc : c < 2 ^ 32) :
    DiskSectorCRC.crcStep c b < 2 ^ 32 := by
  unfold DiskSectorCRC.crcStep
  apply Nat.xor_lt_two_pow
  · rw [Nat.shiftRight_eq_div_pow]
    exact lt_of_le_of_lt (Nat.div_le_self _ _) hc
  · exact crc32_table_getD_lt _

theorem crc32_table_index_of_top (i j : Nat) (hi : i < 256) (hj : j < 256)
    (h : crc32_table.getD i 0 >>> 24 = crc32_table.getD j 0 >>> 24) : i = j := by
  have hi2 : i < (crc32_table.map (· >>> 24)).length := by
    rw [List.length_map, crc32_table_length]; exact hi
  have hj2 : j < (crc32_table.map (· >>> 24)).length := by
    rw [List.length_map, crc32_table_length]; exact hj
  have hi1 : i < crc32_table.length := by rw [crc32_table_length]; exact hi
  have hj1 : j < crc32_table.length := by rw [crc32_table_length]; exact hj
  rw [List.getD_eq_getElem _ _ hi1, List.getD_eq_getElem _ _ hj1] at h
  have h2 : (crc32_table.map (· >>> 24))[i] = (crc32_table.map (· >>> 24))[j] := by
    rw [List.getElem_map, List.getElem_map]; exact h
  exact (crc32_table_top_bytes_nodup.getElem_inj_iff).1 h2

/-- Two states below `2^32` give the same next state exactly when they agree above
their low byte and select the same table entry. -/
theorem crcStep_eq_iff (c c2 : Nat) (b b2 : Byte) (hc : c < 2 ^ 32) (hc2 : c2 < 2 ^ 32) :
    DiskSectorCRC.crcStep c b = DiskSectorCRC.crcStep c2 b2 ↔
      c >>> 8 = c2 >>> 8 ∧ (c ^^^ b.val) &&& 0xFF = (c2 ^^^ b2.val) &&& 0xFF := by
  unfold DiskSectorCRC.crcStep
  constructor
  · intro h
    have h8 : c >>> 8 < 2 ^ 24 := by rw [Nat.shiftRight_eq_div_pow]; omega
    have h82 : c2 >>> 8 < 2 ^ 24 := by rw [Nat.shiftRight_eq_div_pow]; omega
    have htop := congrArg (· >>> 24) h
    simp only [xor_shiftRight_24 _ _ h8, xor_shiftRight_24 _ _ h82] at htop
    have hidx := crc32_table_index_of_top _ _ (crcIndex_lt c b) (crcIndex_lt c2 b2) htop
    refine ⟨?_, hidx⟩
    rw [hidx] at h
    exact Nat.xor_left_inj.1 h
  · rintro ⟨h1, h2⟩
    rw [h1, h2]

theorem and_255_eq_mod (x : Nat) : x &&& 0xFF = x % 256 :=
  Nat.and_pow_two_sub_one_eq_mod x 8

theorem crcStep_injective (c c2 : Nat) (b : Byte) (hc : c < 2 ^ 32) (hc2 : c2 < 2 ^ 32)
    (h : DiskSectorCRC.crcStep c b = DiskSectorCRC.crcStep c2 b) : c = c2 := by
  obtain ⟨h1, h2⟩ := (crcStep_eq_iff c c2 b b hc hc2).1 h
  rw [Nat.and_xor_distrib_right, Nat.and_xor_distrib_right] at h2
  have h3 : c &&& 0xFF = c2 &&& 0xFF := Nat.xor_left_inj.1 h2
  rw [and_255_eq_mod, and_255_eq_mod] at h3
  rw [Nat.shiftRight_eq_div_pow, Nat.shiftRight_eq_div_pow] at h1
  omega

theorem crcStep_ne_of_byte_ne (c : Nat) (b b2 : Byte) (hc : c < 2 ^ 32) (hb : b ≠ b2) :
    DiskSectorCRC.crcStep c b ≠ DiskSectorCRC.crcStep c b2 := by
  intro h
  obtain ⟨_, h2⟩ := (crcStep_eq_iff c c b b2 hc hc).1 h
  rw [Nat.and_xor_distrib_right, Nat.and_xor_distrib_right] at h2
  have h3 : b.val &&& 0xFF = b2.val &&& 0xFF := Nat.xor_right_injective h2
  rw [and_255_eq_mod, and_255_eq_mod] at h3
  apply hb
  apply Fin.ext
  have := b.isLt
  have := b2.isLt
  omega

theorem foldl_crcStep_lt (d : List Byte) (c : Nat) (hc : c < 2 ^ 32) :
    d.foldl DiskSectorCRC.crcStep c < 2 ^ 32 := by
  induction d generalizing c with
  | nil => simpa using hc
  | cons b t ih => exact ih _ (crcStep_lt c b hc)

theorem foldl_crcStep_injective (d : List Byte) (c c2 : Nat) (hc : c < 2 ^ 32)
    (hc2 : c2 < 2 ^ 32)
    (h : d.foldl DiskSectorCRC.crcStep c = d.foldl DiskSectorCRC.crcStep c2) : c = c2 := by
  induction d generalizing c c2 with
  | nil => simpa using h
  | cons b t ih =>
    exact crcStep_injective c c2 b hc hc2 (ih _ _ (crcStep_lt c b hc) (crcStep_lt c2 b hc2) h)

theorem calculateCRC32_ne_of_splice (p q : List Byte) (b b2 : Byte) (hb : b ≠ b2) :
    DiskSectorCRC.calculateCRC32 (p ++ b :: q) ≠ DiskSectorCRC.calculateCRC32 (p ++ b2 :: q) := by
  unfold DiskSectorCRC.calculateCRC32
  intro h
  have h1 := Nat.xor_left_inj.1 h
  rw [List.foldl_append, List.foldl_append, List.foldl_cons, List.foldl_cons] at h1
  have hp : p.foldl DiskSectorCRC.crcStep 0xFFFFFFFF < 2 ^ 32 :=
    foldl_crcStep_lt p _ (by norm_num)
  exact crcStep_ne_of_byte_ne _ b b2 hp hb
    (foldl_crcStep_injective q _ _ (crcStep_lt _ b hp) (crcStep_lt _ b2 hp) h1)

theorem list_eq_splice_of_differ_at (d d2 : List Byte) (i : Nat) (hlen : d.length = d2.length)
    (hi : i < d.length) (hsame : ∀ j, j ≠ i → d[j]? = d2[j]?) :
    d = d.take i ++ d[i] :: d.drop (i + 1) ∧
      d2 = d.take i ++ (d2[i]) :: d.drop (i + 1) := by
  have hi2 : i < d2.length := hlen ▸ hi
  have ht : d2.take i = d.take i := by
    apply List.ext_getElem?
    intro j
    by_cases hj : j < i
    · rw [List.getElem?_take_of_lt hj, List.getElem?_take_of_lt hj]
      exact (hsame j (by omega)).symm
    · simp [List.getElem?_take, hj]
  have hd : d2.drop (i + 1) = d.drop (i + 1) := by
    apply List.ext_getElem?
    intro j
    rw [List.getElem?_drop, List.getElem?_drop]
    exact (hsame _ (by omega)).symm
  constructor
  · simp
  · conv_lhs => rw [← List.take_append_drop i d2, List.drop_eq_getElem_cons hi2, ht, hd]

/-- C3: two byte sequences of the same length that differ in exactly one byte
position (in particular in exactly one bit) get different values from
`DiskSectorCRC::calculateCRC32`, and the value is a function of the input bytes
alone: equal inputs give equal results. -/
theorem calculateCRC32_detects_single_byte_change :
    (∀ (d d2 : List Byte) (i : Nat) (hlen : d.length = d2.length) (hi : i < d.length),
      d[i] ≠ d2[i] → (∀ j, j ≠ i → d[j]? = d2[j]?) →
      DiskSectorCRC.calculateCRC32 d ≠ DiskSectorCRC.calculateCRC32 d2) ∧
    (∀ d d2 : List Byte, d = d2 →
      DiskSectorCRC.calculateCRC32 d = DiskSectorCRC.calculateCRC32 d2) := by
  refine ⟨?_, fun d d2 h => by rw [h]⟩
  intro d d2 i hlen hi hne hsame
  obtain ⟨h1, h2⟩ := list_eq_splice_of_differ_at d d2 i hlen hi hsame
  rw [h1, h2]
  exact calculateCRC32_ne_of_splice _ _ _ _ hne

/-- C3, at a concrete input: the one-byte inputs `0xF5` and `0xF4`, which differ in
one bit, get different checksums. -/
theorem calculateCRC32_detects_single_byte_change_witness :
    DiskSectorCRC.calculateCRC32 [0xF5] ≠ DiskSectorCRC.calculateCRC32 [0xF4] :=
  calculateCRC32_detects_single_byte_change.1 [0xF5] [0xF4] 0 rfl (by decide) (by decide)
    (fun j hj => by
      cases j with
      | zero => exact absurd rfl hj
      | succ k => rfl)

/-! ## The device and the codec -/

theorem readSector_ok (disk : Disk) (diskPath : String) (k : Nat) (lastError : String) :
    (DiskSectorCRC.readSector disk diskPath k lastError).ok = disk.readable k := by
  unfold Disk.readable DiskSectorCRC.readSector
  cases disk.openError with
  | some e => rfl
  | none =>
    simp only
    split
    · rfl
    · cases disk.read (k * SECTOR_SIZE % 2 ^ 64) <;> rfl

theorem readSector_buffer (disk : Disk) (diskPath : String) (k : Nat) (lastError : String) :
    (DiskSectorCRC.readSector disk diskPath k lastError).buffer = disk.sectorData k := by
  unfold Disk.sectorData DiskSectorCRC.readSector
  cases disk.openError with
  | some e => rfl
  | none =>
    simp only
    split
    · rfl
    · cases disk.read (k * SECTOR_SIZE % 2 ^ 64) <;> rfl

theorem readSector_lastError_of_ok (disk : Disk) (diskPath : String) (k : Nat)
    (lastError : String) (h : disk.readable k = true) :
    (DiskSectorCRC.readSector disk diskPath k lastError).lastError = lastError := by
  rw [← readSector_ok disk diskPath k lastError] at h
  unfold DiskSectorCRC.readSector at h ⊢
  cases hd : disk.openError with
  | some e => rw [hd] at h; simp at h
  | none =>
    rw [hd] at h
    simp only at h ⊢
    split
    · rename_i hs; rw [if_pos hs] at h; simp at h
    · rename_i hs
      rw [if_neg hs] at h
      cases hr : disk.read (k * SECTOR_SIZE % 2 ^ 64) with
      | none => rw [hr] at h; simp at h
      | some b => rfl

/-- A readable sector lies at a byte position below `2^63`. -/
theorem readable_position (disk : Disk) (k : Nat) (h : disk.readable k = true) :
    k * SECTOR_SIZE % 2 ^ 64 < 2 ^ 63 := by
  unfold Disk.readable DiskSectorCRC.readSector at h
  cases hd : disk.openError with
  | some e => rw [hd] at h; simp at h
  | none =>
    rw [hd] at h
    simp only at h
    by_contra hlt
    have hneg : toInt64 (k * SECTOR_SIZE % 2 ^ 64) < 0 := by
      unfold toInt64
      rw [Nat.mod_mod, if_neg hlt]
      have : k * SECTOR_SIZE % 2 ^ 64 < 2 ^ 64 := Nat.mod_lt _ (by norm_num)
      omega
    rw [if_pos (disk.seek_neg _ hneg)] at h
    simp at h

theorem leBytes_length (width x : Nat) : (leBytes width x).length = width := by
  induction width generalizing x with
  | zero => rfl
  | succ w ih => simp [leBytes, ih]

theorem leValue_leBytes (width x : Nat) : leValue (leBytes width x) = x % 256 ^ width := by
  induction width generalizing x with
  | zero => simp [leBytes, leValue, Nat.mod_one]
  | succ w ih =>
    simp only [leBytes, leValue, ih]
    rw [pow_succ, Nat.mul_comm (256 ^ w) 256, Nat.mod_mul]

theorem sizeofSectorChecksum_eq : sizeofSectorChecksum = 24 := by decide

theorem SectorChecksum_offsets : memberOffsets SectorChecksum.memberSizes 0 = [0, 8, 16] := by
  decide

theorem paddingBytes_length (padding : List Byte) : (paddingBytes padding).length = 4 := by
  simp [paddingBytes, List.length_take]

theorem toBytes_length (padding : List Byte) (c : SectorChecksum) :
    (c.toBytes padding).length = 24 := by
  simp [SectorChecksum.toBytes, leBytes_length, paddingBytes_length]

theorem ledgerHeader_length (s n t : Nat) : (ledgerHeader s n t).length = 28 := by
  simp [ledgerHeader, leBytes_length]

/-! ## The loops of the sequential generators -/

theorem range_map_shift {α : Type} (f : Nat → α) (i k : Nat) :
    (List.range (k + 1)).map (fun j => f (i + j)) =
      f i :: (List.range k).map (fun j => f (i + 1 + j)) := by
  rw [List.range_succ_eq_map, List.map_cons, List.map_map]
  refine congrArg₂ _ rfl ?_
  apply List.map_congr_left
  intro j _
  show f (i + (j + 1)) = f (i + 1 + j)
  rw [Nat.add_assoc, Nat.add_comm 1 j]

theorem generatedBytes_zero (disk : Disk) (t : Nat) (padding : Nat → List Byte) (s i : Nat) :
    generatedBytes disk t padding s i 0 = [] := rfl

theorem generatedBytes_succ (disk : Disk) (t : Nat) (padding : Nat → List Byte) (s i k : Nat) :
    generatedBytes disk t padding s i (k + 1) =
      (generatedRecord disk t ((s + i) % 2 ^ 64)).toBytes (padding i) ++
        generatedBytes disk t padding s (i + 1) k := by
  unfold generatedBytes
  rw [range_map_shift (fun x => (generatedRecord disk t ((s + x) % 2 ^ 64)).toBytes (padding x))]
  rfl

theorem sectorsFrom_succ (s i k : Nat) :
    sectorsFrom s i (k + 1) = (s + i) % 2 ^ 64 :: sectorsFrom s (i + 1) k := by
  unfold sectorsFrom
  rw [range_map_shift (fun x => (s + x) % 2 ^ 64)]

theorem generatedRecords_succ (disk : Disk) (t s i k : Nat) :
    generatedRecords disk t s i (k + 1) =
      generatedRecord disk t ((s + i) % 2 ^ 64) :: generatedRecords disk t s (i + 1) k := by
  unfold generatedRecords
  rw [range_map_shift (fun x => generatedRecord disk t ((s + x) % 2 ^ 64))]

theorem generatedBytes_length (disk : Disk) (t : Nat) (padding : Nat → List Byte) (s i k : Nat) :
    (generatedBytes disk t padding s i k).length = 24 * k := by
  induction k generalizing i with
  | zero => rfl
  | succ k ih =>
    rw [generatedBytes_succ, List.length_append, toBytes_length, ih]
    omega

/-- The base loop when the first `k` reads succeed and the next one fails. -/
theorem baseGenerateLoop_fails (disk : Disk) (diskPath : String) (t : Nat)
    (padding : Nat → List Byte) (s : Nat) (k m i : Nat) (st : GenResult) (hk : k < m)
    (hread : ∀ j < k, disk.readable ((s + (i + j)) % 2 ^ 64) = true)
    (hfail : disk.readable ((s + (i + k)) % 2 ^ 64) = false) :
    DiskSectorCRC.generateLoop disk diskPath t padding s m i st =
      ⟨false,
       "Failed to read sector " ++ toString ((s + (i + k)) % 2 ^ 64) ++ ": " ++
         (DiskSectorCRC.readSector disk diskPath ((s + (i + k)) % 2 ^ 64) st.lastError).lastError,
       st.out ++ generatedBytes disk t padding s i k,
       st.reads ++ sectorsFrom s i (k + 1),
       st.progress⟩ := by
  induction k generalizing m i st with
  | zero =>
    obtain ⟨m, rfl⟩ : ∃ m2, m = m2 + 1 := ⟨m - 1, by omega⟩
    rw [Nat.add_zero] at hfail
    simp only [DiskSectorCRC.generateLoop, readSector_ok, hfail, if_true, Nat.add_zero,
      generatedBytes_zero, List.append_nil, sectorsFrom_succ]
    rfl
  | succ k ih =>
    obtain ⟨m, rfl⟩ : ∃ m2, m = m2 + 1 := ⟨m - 1, by omega⟩
    have h0 : disk.readable ((s + i) % 2 ^ 64) = true := by
      have := hread 0 (by omega)
      rwa [Nat.add_zero] at this
    have hread2 : ∀ j < k, disk.readable ((s + (i + 1 + j)) % 2 ^ 64) = true := by
      intro j hj
      have := hread (j + 1) (by omega)
      rwa [show i + (j + 1) = i + 1 + j by omega] at this
    have hfail2 : disk.readable ((s + (i + 1 + k)) % 2 ^ 64) = false := by
      rwa [show i + (k + 1) = i + 1 + k by omega] at hfail
    rw [DiskSectorCRC.generateLoop]
    simp only [readSector_ok, h0, Bool.true_eq_false, if_false]
    rw [ih m (i + 1) _ (by omega) hread2 hfail2]
    simp only [readSector_buffer, readSector_lastError_of_ok _ _ _ _ h0, generatedBytes_succ,
      sectorsFrom_succ, List.append_assoc, List.singleton_append, generatedRecord,
      show i + (k + 1) = i + 1 + k by omega]

/-- The base loop when all its reads succeed. -/
theorem baseGenerateLoop_succeeds (disk : Disk) (diskPath : String) (t : Nat)
    (padding : Nat → List Byte) (s : Nat) (m i : Nat) (st : GenResult)
    (hread : ∀ j < m, disk.readable ((s + (i + j)) % 2 ^ 64) = true) :
    DiskSectorCRC.generateLoop disk diskPath t padding s m i st =
      ⟨true, st.lastError, st.out ++ generatedBytes disk t padding s i m,
       st.reads ++ sectorsFrom s i m, st.progress⟩ := by
  induction m generalizing i st with
  | zero =>
    simp [DiskSectorCRC.generateLoop, generatedBytes_zero, sectorsFrom]
  | succ m ih =>
    have h0 : disk.readable ((s + i) % 2 ^ 64) = true := by
      have := hread 0 (by omega)
      rwa [Nat.add_zero] at this
    have hread2 : ∀ j < m, disk.readable ((s + (i + 1 + j)) % 2 ^ 64) = true := by
      intro j hj
      have := hread (j + 1) (by omega)
      rwa [show i + (j + 1) = i + 1 + j by omega] at this
    rw [DiskSectorCRC.generateLoop]
    simp only [readSector_ok, h0, Bool.true_eq_false, if_false]
    rw [ih (i + 1) _ hread2]
    simp only [readSector_buffer, readSector_lastError_of_ok _ _ _ _ h0, generatedBytes_succ,
      sectorsFrom_succ, List.append_assoc, List.singleton_append, generatedRecord]

theorem progressCalls_succ (hasCallback : Bool) (n i k : Nat) :
    progressCalls hasCallback n i (k + 1) =
      (if hasCallback = true ∧ (i + 1) % 100 = 0 then [(toInt32 (i + 1), toInt32 n)] else []) ++
        progressCalls hasCallback n (i + 1) k := by
  unfold progressCalls
  rw [range_map_shift (fun x =>
    if hasCallback = true ∧ (x + 1) % 100 = 0 then [(toInt32 (x + 1), toInt32 n)] else [])]
  rfl

/-- The cancellation-aware loop when the first `k` reads succeed, the next one fails
and no cancellation is observed up to there. -/
theorem enhancedGenerateLoop_fails (disk : Disk) (diskPath : String) (t : Nat)
    (padding : Nat → List Byte) (cancelled : Nat → Bool) (cb : Bool) (s n : Nat)
    (k m i : Nat) (st : GenResult) (hk : k < m)
    (hcancel : ∀ j ≤ k, cancelled (i + j) = false)
    (hread : ∀ j < k, disk.readable ((s + (i + j)) % 2 ^ 64) = true)
    (hfail : disk.readable ((s + (i + k)) % 2 ^ 64) = false) :
    EnhancedDiskSectorCRC.generateLoop disk diskPath t padding cancelled cb s n m i st =
      ⟨false,
       "Failed to read sector " ++ toString ((s + (i + k)) % 2 ^ 64) ++ ": " ++
         (DiskSectorCRC.readSector disk diskPath ((s + (i + k)) % 2 ^ 64) st.lastError).lastError,
       st.out ++ generatedBytes disk t padding s i k,
       st.reads ++ sectorsFrom s i (k + 1),
       st.progress ++ progressCalls cb n i k⟩ := by
  induction k generalizing m i st with
  | zero =>
    obtain ⟨m, rfl⟩ : ∃ m2, m = m2 + 1 := ⟨m - 1, by omega⟩
    have hc0 : cancelled i = false := by simpa using hcancel 0 (by omega)
    rw [Nat.add_zero] at hfail
    simp only [EnhancedDiskSectorCRC.generateLoop, hc0, readSector_ok, hfail, if_true,
      Nat.add_zero, generatedBytes_zero, List.append_nil, sectorsFrom_succ, Bool.false_eq_true,
      if_false]
    simp [sectorsFrom, progressCalls]
  | succ k ih =>
    obtain ⟨m, rfl⟩ : ∃ m2, m = m2 + 1 := ⟨m - 1, by omega⟩
    have hc0 : cancelled i = false := by simpa using hcancel 0 (by omega)
    have hcancel2 : ∀ j ≤ k, cancelled (i + 1 + j) = false := by
      intro j hj
      have := hcancel (j + 1) (by omega)
      rwa [show i + (j + 1) = i + 1 + j by omega] at this
    have h0 : disk.readable ((s + i) % 2 ^ 64) = true := by
      have := hread 0 (by omega)
      rwa [Nat.add_zero] at this
    have hread2 : ∀ j < k, disk.readable ((s + (i + 1 + j)) % 2 ^ 64) = true := by
      intro j hj
      have := hread (j + 1) (by omega)
      rwa [show i + (j + 1) = i + 1 + j by omega] at this
    have hfail2 : disk.readable ((s + (i + 1 + k)) % 2 ^ 64) = false := by
      rwa [show i + (k + 1) = i + 1 + k by omega] at hfail
    rw [EnhancedDiskSectorCRC.generateLoop]
    simp only [hc0, readSector_ok, h0, Bool.true_eq_false, Bool.false_eq_true, if_false]
    rw [ih m (i + 1) _ (by omega) hcancel2 hread2 hfail2]
    simp only [readSector_buffer, readSector_lastError_of_ok _ _ _ _ h0, generatedBytes_succ,
      sectorsFrom_succ, progressCalls_succ, List.append_assoc, List.singleton_append,
      generatedRecord, show i + (k + 1) = i + 1 + k by omega]
    split <;> simp

/-- The cancellation-aware loop when all its reads succeed and no cancellation is
observed. -/
theorem enhancedGenerateLoop_succeeds (disk : Disk) (diskPath : String) (t : Nat)
    (padding : Nat → List Byte) (cancelled : Nat → Bool) (cb : Bool) (s n : Nat)
    (m i : Nat) (st : GenResult)
    (hcancel : ∀ j < m, cancelled (i + j) = false)
    (hread : ∀ j < m, disk.readable ((s + (i + j)) % 2 ^ 64) = true) :
    EnhancedDiskSectorCRC.generateLoop disk diskPath t padding cancelled cb s n m i st =
      ⟨true, st.lastError, st.out ++ generatedBytes disk t padding s i m,
       st.reads ++ sectorsFrom s i m, st.progress ++ progressCalls cb n i m⟩ := by
  induction m generalizing i st with
  | zero =>
    simp [EnhancedDiskSectorCRC.generateLoop, generatedBytes_zero, sectorsFrom, progressCalls]
  | succ m ih =>
    have hc0 : cancelled i = false := by simpa using hcancel 0 (by omega)
    have hcancel2 : ∀ j < m, cancelled (i + 1 + j) = false := by
      intro j hj
      have := hcancel (j + 1) (by omega)
      rwa [show i + (j + 1) = i + 1 + j by omega] at this
    have h0 : disk.readable ((s + i) % 2 ^ 64) = true := by
      have := hread 0 (by omega)
      rwa [Nat.add_zero] at this
    have hread2 : ∀ j < m, disk.readable ((s + (i + 1 + j)) % 2 ^ 64) = true := by
      intro j hj
      have := hread (j + 1) (by omega)
      rwa [show i + (j + 1) = i + 1 + j by omega] at this
    rw [EnhancedDiskSectorCRC.generateLoop]
    simp only [hc0, readSector_ok, h0, Bool.true_eq_false, Bool.false_eq_true, if_false]
    rw [ih (i + 1) _ hcancel2 hread2]
    simp only [readSector_buffer, readSector_lastError_of_ok _ _ _ _ h0, generatedBytes_succ,
      sectorsFrom_succ, progressCalls_succ, List.append_assoc, List.singleton_append,
      generatedRecord]
    split <;> simp

/-! ## Sequential generation: the byte stream and the abort on a failed read -/

/-- C4 (claim as stated, refuted): on a one-sector zero-filled image the read of
sector 0 succeeds and `DiskSectorCRC::generateSectorChecksums(0, 1, out)` writes
52 bytes, not `28 + 20 * 1 = 48`. -/
theorem generateSectorChecksums_stream_not_20_per_record :
    (∀ i < 1, (zeroImage 1).readable ((0 + i) % 2 ^ 64) = true) ∧
    (DiskSectorCRC.generateSectorChecksums (zeroImage 1) "disk" "out" true 0 (fun _ => []) ""
      0 1).out.length = 52 ∧
    (DiskSectorCRC.generateSectorChecksums (zeroImage 1) "disk" "out" true 0 (fun _ => []) ""
      0 1).out.length ≠ 28 + 20 * 1 := by decide

/-- C4 (amended): when all sector reads succeed, the byte stream written by
`DiskSectorCRC::generateSectorChecksums` is the 28-byte little-endian header
magic(4) = 0x43524344, startSector(8), sectorCount(8), timestamp(8) followed by
`n` records of `sizeof(SectorChecksum) = 24` bytes each: sectorNumber(8),
crc32(4), the 4 padding bytes of the struct, timestamp(8); it is `28 + 24 * n`
bytes long and the call returns true.  Sector numbers are the `uint64_t` sums
`startSector + i`. -/
theorem generateSectorChecksums_stream (disk : Disk) (diskPath outputFile : String)
    (timestamp : Nat) (padding : Nat → List Byte) (lastError : String) (s n : Nat)
    (hread : ∀ i < n, disk.readable ((s + i) % 2 ^ 64) = true) :
    (DiskSectorCRC.generateSectorChecksums disk diskPath outputFile true timestamp padding
        lastError s n).ok = true ∧
    (DiskSectorCRC.generateSectorChecksums disk diskPath outputFile true timestamp padding
        lastError s n).out =
      leBytes 4 0x43524344 ++ leBytes 8 s ++ leBytes 8 n ++ leBytes 8 timestamp ++
        ((List.range n).map (fun i =>
          leBytes 8 ((s + i) % 2 ^ 64) ++
          leBytes 4 (DiskSectorCRC.calculateCRC32 (disk.sectorData ((s + i) % 2 ^ 64))) ++
          paddingBytes (padding i) ++
          leBytes 8 timestamp)).flatten ∧
    (DiskSectorCRC.generateSectorChecksums disk diskPath outputFile true timestamp padding
        lastError s n).out.length = 28 + 24 * n ∧
    sizeofSectorChecksum = 24 := by
  have hread2 : ∀ j < n, disk.readable ((s + (0 + j)) % 2 ^ 64) = true := by
    intro j hj; rw [Nat.zero_add]; exact hread j hj
  have h := baseGenerateLoop_succeeds disk diskPath timestamp padding s n 0
    ⟨true, lastError, ledgerHeader s n timestamp, [], []⟩ hread2
  have hout : (DiskSectorCRC.generateSectorChecksums disk diskPath outputFile true timestamp
      padding lastError s n).out =
      ledgerHeader s n timestamp ++ generatedBytes disk timestamp padding s 0 n := by
    simp [DiskSectorCRC.generateSectorChecksums, h]
  refine ⟨?_, ?_, ?_, sizeofSectorChecksum_eq⟩
  · simp [DiskSectorCRC.generateSectorChecksums, h]
  · rw [hout]
    simp [ledgerHeader, LEDGER_MAGIC, generatedBytes, generatedRecord, SectorChecksum.toBytes]
  · rw [hout, List.length_append, ledgerHeader_length, generatedBytes_length]

/-- C4 (amended), at a concrete input: three sectors of a zero-filled image from
sector 2 on give a stream of `28 + 24 * 3 = 100` bytes. -/
theorem generateSectorChecksums_stream_witness :
    (DiskSectorCRC.generateSectorChecksums (zeroImage 8) "disk" "out" true 1700000000
        (fun _ => []) "" 2 3).out.length = 28 + 24 * 3 :=
  (generateSectorChecksums_stream (zeroImage 8) "disk" "out" 1700000000 (fun _ => []) "" 2 3
    (by decide)).2.2.1

/-- C9: when sector `startSector + k` (as a `uint64_t` sum) is the first one whose
read fails, both `DiskSectorCRC::generateSectorChecksums` and (with no
cancellation observed up to that iteration)
`EnhancedDiskSectorCRC::generateSectorChecksums` return false, `lastError_` is
"Failed to read sector <startSector + k>: " followed by what `readSector` left
in `lastError_`, the output holds the header followed by exactly the `k` records
of the sectors before it, and the sectors passed to `readSector` are
`startSector, ..., startSector + k` and no later one. -/
theorem generateSectorChecksums_aborts_on_first_failure (disk : Disk)
    (diskPath outputFile : String) (timestamp : Nat) (padding : Nat → List Byte)
    (cancelled : Nat → Bool) (hasCallback : Bool) (lastError : String) (s n k : Nat)
    (hk : k < n)
    (hread : ∀ j < k, disk.readable ((s + j) % 2 ^ 64) = true)
    (hfail : disk.readable ((s + k) % 2 ^ 64) = false)
    (hcancel : ∀ j ≤ k, cancelled j = false) :
    DiskSectorCRC.generateSectorChecksums disk diskPath outputFile true timestamp padding
        lastError s n =
      ⟨false,
       "Failed to read sector " ++ toString ((s + k) % 2 ^ 64) ++ ": " ++
         (DiskSectorCRC.readSector disk diskPath ((s + k) % 2 ^ 64) lastError).lastError,
       ledgerHeader s n timestamp ++
         ((List.range k).map (fun j =>
           (generatedRecord disk timestamp ((s + j) % 2 ^ 64)).toBytes (padding j))).flatten,
       (List.range (k + 1)).map (fun j => (s + j) % 2 ^ 64),
       []⟩ ∧
    (EnhancedDiskSectorCRC.generateSectorChecksums disk diskPath outputFile true timestamp
        padding cancelled hasCallback lastError s n).ok = false ∧
    (EnhancedDiskSectorCRC.generateSectorChecksums disk diskPath outputFile true timestamp
        padding cancelled hasCallback lastError s n).lastError =
      "Failed to read sector " ++ toString ((s + k) % 2 ^ 64) ++ ": " ++
         (DiskSectorCRC.readSector disk diskPath ((s + k) % 2 ^ 64) lastError).lastError ∧
    (EnhancedDiskSectorCRC.generateSectorChecksums disk diskPath outputFile true timestamp
        padding cancelled hasCallback lastError s n).out =
      ledgerHeader s n timestamp ++
         ((List.range k).map (fun j =>
           (generatedRecord disk timestamp ((s + j) % 2 ^ 64)).toBytes (padding j))).flatten ∧
    (EnhancedDiskSectorCRC.generateSectorChecksums disk diskPath outputFile true timestamp
        padding cancelled hasCallback lastError s n).reads =
      (List.range (k + 1)).map (fun j => (s + j) % 2 ^ 64) := by
  have hread2 : ∀ j < k, disk.readable ((s + (0 + j)) % 2 ^ 64) = true := by
    intro j hj; rw [Nat.zero_add]; exact hread j hj
  have hfail2 : disk.readable ((s + (0 + k)) % 2 ^ 64) = false := by
    rw [Nat.zero_add]; exact hfail
  have hcancel2 : ∀ j ≤ k, cancelled (0 + j) = false := by
    intro j hj; rw [Nat.zero_add]; exact hcancel j hj
  have h1 := baseGenerateLoop_fails disk diskPath timestamp padding s k n 0
    ⟨true, lastError, ledgerHeader s n timestamp, [], []⟩ hk hread2 hfail2
  have h2 := enhancedGenerateLoop_fails disk diskPath timestamp padding cancelled
    hasCallback s n k n 0 ⟨true, lastError, ledgerHeader s n timestamp, [], []⟩ hk hcancel2
    hread2 hfail2
  refine ⟨?_, ?_, ?_, ?_, ?_⟩
  · simp [DiskSectorCRC.generateSectorChecksums, h1, generatedBytes, sectorsFrom]
  · simp [EnhancedDiskSectorCRC.generateSectorChecksums, h2]
  · simp [EnhancedDiskSectorCRC.generateSectorChecksums, h2]
  · simp [EnhancedDiskSectorCRC.generateSectorChecksums, h2, generatedBytes]
  · simp [EnhancedDiskSectorCRC.generateSectorChecksums, h2, sectorsFrom]

/-- C9, at a concrete input: on a two-sector image, generating five sectors from
sector 0 stops at sector 2, whose read comes short, after reading sectors 0, 1
and 2 only. -/
theorem generateSectorChecksums_aborts_on_first_failure_witness :
    (∀ j < 2, (zeroImage 2).readable ((0 + j) % 2 ^ 64) = true) ∧
    (zeroImage 2).readable ((0 + 2) % 2 ^ 64) = false ∧
    (EnhancedDiskSectorCRC.generateSectorChecksums (zeroImage 2) "disk" "out" true 0
        (fun _ => []) (fun _ => false) false "" 0 5).ok = false ∧
    (EnhancedDiskSectorCRC.generateSectorChecksums (zeroImage 2) "disk" "out" true 0
        (fun _ => []) (fun _ => false) false "" 0 5).reads =
      (List.range (2 + 1)).map (fun j => (0 + j) % 2 ^ 64) :=
  have h := generateSectorChecksums_aborts_on_first_failure (zeroImage 2) "disk" "out" 0
    (fun _ => []) (fun _ => false) false "" 0 5 2 (by decide) (by decide) (by decide)
    (fun _ _ => rfl)
  ⟨by decide, by decide, h.2.1, h.2.2.2.2⟩

/-! ## Loading a ledger -/

/-- C5 (evaluation at the failing input): on a 28-byte file holding only a header
with the right magic and `sectorCount = 0xFFFFFFFFFFFFFFFF`, the call
`checksums.resize(sectorCount)` of `readChecksumFile` throws `std::length_error`;
the function does not return false with "Failed to read checksum data". -/
theorem readChecksumFile_throws_on_huge_count :
    (ledgerHeader 0 0xFFFFFFFFFFFFFFFF 0).length = 28 ∧
    EnhancedDiskSectorCRC.readChecksumFile "ledger.crc"
        (some (ledgerHeader 0 0xFFFFFFFFFFFFFFFF 0)) = LoadOutcome.lengthError ∧
    EnhancedDiskSectorCRC.readChecksumFile "ledger.crc"
        (some (ledgerHeader 0 0xFFFFFFFFFFFFFFFF 0)) ≠
      LoadOutcome.failed "Failed to read checksum data" := by decide

theorem calculateCRC32_lt (d : List Byte) : DiskSectorCRC.calculateCRC32 d < 2 ^ 32 := by
  unfold DiskSectorCRC.calculateCRC32
  exact Nat.xor_lt_two_pow (foldl_crcStep_lt d _ (by norm_num)) (by norm_num)

theorem ofBytes_toBytes (padding : List Byte) (c : SectorChecksum) :
    SectorChecksum.ofBytes (c.toBytes padding) =
      ⟨c.sectorNumber % 2 ^ 64, c.crc32 % 2 ^ 32, c.timestamp % 2 ^ 64⟩ := by
  have h8 : (leBytes 8 c.sectorNumber).length = 8 := leBytes_length _ _
  have h4 : (leBytes 4 c.crc32).length = 4 := leBytes_length _ _
  have hp : (paddingBytes padding).length = 4 := paddingBytes_length _
  have ht : (leBytes 8 c.timestamp).length = 8 := leBytes_length _ _
  unfold SectorChecksum.ofBytes SectorChecksum.toBytes
  have e1 : List.take 8 (leBytes 8 c.sectorNumber ++ leBytes 4 c.crc32 ++ paddingBytes padding ++
      leBytes 8 c.timestamp) = leBytes 8 c.sectorNumber := by
    rw [List.append_assoc, List.append_assoc]
    exact List.take_left' h8
  have e2 : List.take 4 (List.drop 8 (leBytes 8 c.sectorNumber ++ leBytes 4 c.crc32 ++
      paddingBytes padding ++ leBytes 8 c.timestamp)) = leBytes 4 c.crc32 := by
    rw [List.append_assoc, List.append_assoc, List.drop_left' h8]
    exact List.take_left' h4
  have e3 : List.take 8 (List.drop 16 (leBytes 8 c.sectorNumber ++ leBytes 4 c.crc32 ++
      paddingBytes padding ++ leBytes 8 c.timestamp)) = leBytes 8 c.timestamp := by
    rw [List.drop_left' (by simp [h8, h4, hp])]
    rw [List.take_of_length_le (by omega)]
  rw [e1, e2, e3, leValue_leBytes, leValue_leBytes, leValue_leBytes]
  norm_num

/-- Reading back `k` freshly generated records, whatever follows them. -/
theorem readRecords_generatedBytes (disk : Disk) (t : Nat) (padding : Nat → List Byte)
    (s i k : Nat) (rest : List Byte) :
    EnhancedDiskSectorCRC.readRecords k (generatedBytes disk t padding s i k ++ rest) =
      some (generatedRecords disk (t % 2 ^ 64) s i k) := by
  induction k generalizing i with
  | zero => rfl
  | succ k ih =>
    have hlen : ((generatedRecord disk t ((s + i) % 2 ^ 64)).toBytes (padding i)).length =
        sizeofSectorChecksum := by rw [toBytes_length, sizeofSectorChecksum_eq]
    rw [generatedBytes_succ, generatedRecords_succ, EnhancedDiskSectorCRC.readRecords,
      List.append_assoc]
    rw [if_neg (by rw [List.length_append, hlen]; omega), List.drop_left' hlen, ih,
      List.take_left' hlen, ofBytes_toBytes]
    simp only [generatedRecord]
    rw [Nat.mod_mod, Nat.mod_eq_of_lt (calculateCRC32_lt _)]

/-- A range of sectors that can all be read has at most `2^54` sectors: beyond
that one of the byte positions `sector * 512` is negative as a `LONGLONG`. -/
theorem readable_range_le (disk : Disk) (s n : Nat)
    (hread : ∀ i < n, disk.readable ((s + i) % 2 ^ 64) = true) : n ≤ 2 ^ 54 := by
  by_contra hn
  have key : ∀ i < n, ((s + i) % 2 ^ 64) * 512 % 2 ^ 64 < 2 ^ 63 := fun i hi =>
    readable_position disk _ (hread i hi)
  by_cases hr : s % 2 ^ 55 < 2 ^ 54
  · have := key (2 ^ 54 - s % 2 ^ 55) (by omega)
    omega
  · have := key 0 (by omega)
    omega

/-- The record loop of `readChecksumFile` succeeds exactly when the bytes hold
`count` complete records, and then returns `count` records. -/
theorem readRecords_isSome_iff (count : Nat) (bytes : List Byte) :
    (EnhancedDiskSectorCRC.readRecords count bytes).isSome = true ↔
      24 * count ≤ bytes.length := by
  induction count generalizing bytes with
  | zero => simp [EnhancedDiskSectorCRC.readRecords]
  | succ count ih =>
    rw [EnhancedDiskSectorCRC.readRecords, sizeofSectorChecksum_eq]
    by_cases hlen : bytes.length < 24
    · rw [if_pos hlen]
      simp only [Option.isSome_none, Bool.false_eq_true, false_iff]
      omega
    · rw [if_neg hlen]
      have hrest := ih (bytes.drop 24)
      rw [List.length_drop] at hrest
      cases hr : EnhancedDiskSectorCRC.readRecords count (bytes.drop 24) with
      | none =>
        rw [hr] at hrest
        simp only [Option.isSome_none, Bool.false_eq_true, false_iff] at hrest ⊢
        omega
      | some rest =>
        rw [hr] at hrest
        simp only [Option.isSome_some, true_iff] at hrest ⊢
        omega

theorem readRecords_length (count : Nat) (bytes : List Byte) (records : List SectorChecksum)
    (h : EnhancedDiskSectorCRC.readRecords count bytes = some records) :
    records.length = count := by
  induction count generalizing bytes records with
  | zero =>
    rw [EnhancedDiskSectorCRC.readRecords] at h
    rw [← Option.some.inj h]; rfl
  | succ count ih =>
    rw [EnhancedDiskSectorCRC.readRecords] at h
    split at h
    · exact absurd h (by simp)
    · cases hr : EnhancedDiskSectorCRC.readRecords count
          (bytes.drop sizeofSectorChecksum) with
      | none => rw [hr] at h; exact absurd h (by simp)
      | some rest =>
        rw [hr] at h
        rw [← Option.some.inj h, List.length_cons, ih _ _ hr]

/-- On a file with a complete header whose declared count does not exceed
`vector_max_size`, `readChecksumFile` returns true exactly when the magic is
`0x43524344` and the file holds the declared number of complete records after
the header; a wrong magic gives "Invalid checksum file format", too few records
give "Failed to read checksum data". -/
theorem readChecksumFile_returns (checksumFile : String) (bytes : List Byte)
    (hlen : 28 ≤ bytes.length)
    (hmax : leValue ((bytes.drop 12).take 8) ≤ vector_max_size) :
    (leValue (bytes.take 4) ≠ LEDGER_MAGIC →
      EnhancedDiskSectorCRC.readChecksumFile checksumFile (some bytes) =
        LoadOutcome.failed "Invalid checksum file format") ∧
    (leValue (bytes.take 4) = LEDGER_MAGIC →
      bytes.length < 28 + 24 * leValue ((bytes.drop 12).take 8) →
      EnhancedDiskSectorCRC.readChecksumFile checksumFile (some bytes) =
        LoadOutcome.failed "Failed to read checksum data") ∧
    (leValue (bytes.take 4) = LEDGER_MAGIC →
      28 + 24 * leValue ((bytes.drop 12).take 8) ≤ bytes.length →
      ∃ checksums, checksums.length = leValue ((bytes.drop 12).take 8) ∧
        EnhancedDiskSectorCRC.readRecords (leValue ((bytes.drop 12).take 8)) (bytes.drop 28) =
          some checksums ∧
        EnhancedDiskSectorCRC.readChecksumFile checksumFile (some bytes) =
          LoadOutcome.loaded checksums (leValue ((bytes.drop 4).take 8))
            (leValue ((bytes.drop 12).take 8))) := by
  have h28 : ¬ bytes.length < 28 := by omega
  have hmax2 : ¬ vector_max_size < leValue ((bytes.drop 12).take 8) := by omega
  have hiff := readRecords_isSome_iff (leValue ((bytes.drop 12).take 8)) (bytes.drop 28)
  rw [List.length_drop] at hiff
  refine ⟨?_, ?_, ?_⟩
  · intro hm
    simp [EnhancedDiskSectorCRC.readChecksumFile, h28, hm]
  · intro hm hshort
    cases hr : EnhancedDiskSectorCRC.readRecords (leValue ((bytes.drop 12).take 8))
        (bytes.drop 28) with
    | none => simp [EnhancedDiskSectorCRC.readChecksumFile, h28, hm, hmax2, hr]
    | some cs =>
      rw [hr] at hiff
      simp only [Option.isSome_some, true_iff] at hiff
      omega
  · intro hm hfull
    cases hr : EnhancedDiskSectorCRC.readRecords (leValue ((bytes.drop 12).take 8))
        (bytes.drop 28) with
    | none =>
      rw [hr] at hiff
      simp only [Option.isSome_none, Bool.false_eq_true, false_iff] at hiff
      omega
    | some cs =>
      refine ⟨cs, readRecords_length _ _ _ hr, rfl, ?_⟩
      simp [EnhancedDiskSectorCRC.readChecksumFile, h28, hm, hmax2, hr]

theorem ledgerHeader_fields (s n t : Nat) (rest : List Byte) :
    (ledgerHeader s n t ++ rest).take 4 = leBytes 4 LEDGER_MAGIC ∧
    ((ledgerHeader s n t ++ rest).drop 4).take 8 = leBytes 8 s ∧
    ((ledgerHeader s n t ++ rest).drop 12).take 8 = leBytes 8 n ∧
    (ledgerHeader s n t ++ rest).drop 28 = rest := by
  have hm : (leBytes 4 LEDGER_MAGIC).length = 4 := leBytes_length _ _
  have hs : (leBytes 8 s).length = 8 := leBytes_length _ _
  have hn : (leBytes 8 n).length = 8 := leBytes_length _ _
  have ht : (leBytes 8 t).length = 8 := leBytes_length _ _
  unfold ledgerHeader
  simp only [List.append_assoc]
  refine ⟨List.take_left' hm, ?_, ?_, ?_⟩
  · rw [List.drop_left' hm]
    exact List.take_left' hs
  · rw [← List.append_assoc, List.drop_left' (by simp [hm, hs])]
    exact List.take_left' hn
  · rw [← List.append_assoc, ← List.append_assoc, ← List.append_assoc]
    exact List.drop_left' (by simp [hm, hs, hn, ht])

/-- What `readChecksumFile` does with a file that starts with a well-formed header. -/
theorem readChecksumFile_of_header (checksumFile : String) (s n t : Nat) (rest : List Byte)
    (hs : s < 2 ^ 64) (hn : n < 2 ^ 64) :
    EnhancedDiskSectorCRC.readChecksumFile checksumFile (some (ledgerHeader s n t ++ rest)) =
      if vector_max_size < n then LoadOutcome.lengthError
      else
        match EnhancedDiskSectorCRC.readRecords n rest with
        | none => LoadOutcome.failed "Failed to read checksum data"
        | some checksums => LoadOutcome.loaded checksums s n := by
  obtain ⟨h1, h2, h3, h4⟩ := ledgerHeader_fields s n t rest
  have hlen : ¬ (ledgerHeader s n t ++ rest).length < 28 := by
    rw [List.length_append, ledgerHeader_length]; omega
  unfold EnhancedDiskSectorCRC.readChecksumFile
  simp only [hlen, if_false, h1, h2, h3, h4, leValue_leBytes]
  have e1 : LEDGER_MAGIC % 256 ^ 4 = LEDGER_MAGIC := by decide
  have e2 : s % 256 ^ 8 = s := Nat.mod_eq_of_lt (by norm_num; omega)
  have e3 : n % 256 ^ 8 = n := Nat.mod_eq_of_lt (by norm_num; omega)
  rw [e1, e2, e3]
  simp

/-! ## Round trip of the sequential path -/

/-- C6: when all reads of the sectors `[s, s+n)` succeed, `s + n` does not
overflow and no cancellation is observed, the file written by
`EnhancedDiskSectorCRC::generateSectorChecksums(s, n, out)` is loaded by
`readChecksumFile` with `startSector = s`, `sectorCount = n` and exactly the `n`
records whose `i`-th has `sectorNumber = s + i` and
`crc32 = calculateCRC32(content of sector s + i)`. -/
theorem generate_then_readChecksumFile (disk : Disk) (diskPath outputFile checksumFile : String)
    (timestamp : Nat) (padding : Nat → List Byte) (cancelled : Nat → Bool) (hasCallback : Bool)
    (lastError : String) (s n : Nat) (hs : s + n < 2 ^ 64)
    (hread : ∀ i < n, disk.readable (s + i) = true)
    (hcancel : ∀ i < n, cancelled i = false) :
    (EnhancedDiskSectorCRC.generateSectorChecksums disk diskPath outputFile true timestamp
        padding cancelled hasCallback lastError s n).ok = true ∧
    EnhancedDiskSectorCRC.readChecksumFile checksumFile
        (some (EnhancedDiskSectorCRC.generateSectorChecksums disk diskPath outputFile true
          timestamp padding cancelled hasCallback lastError s n).out) =
      LoadOutcome.loaded
        ((List.range n).map (fun i =>
          (⟨s + i, DiskSectorCRC.calculateCRC32 (disk.sectorData (s + i)),
            timestamp % 2 ^ 64⟩ : SectorChecksum)))
        s n := by
  have hmod : ∀ i < n, (s + i) % 2 ^ 64 = s + i := fun i hi => Nat.mod_eq_of_lt (by omega)
  have hread1 : ∀ i < n, disk.readable ((s + i) % 2 ^ 64) = true := by
    intro i hi; rw [hmod i hi]; exact hread i hi
  have hread2 : ∀ j < n, disk.readable ((s + (0 + j)) % 2 ^ 64) = true := by
    intro j hj; rw [Nat.zero_add]; exact hread1 j hj
  have hcancel2 : ∀ j < n, cancelled (0 + j) = false := by
    intro j hj; rw [Nat.zero_add]; exact hcancel j hj
  have hloop := enhancedGenerateLoop_succeeds disk diskPath timestamp padding
    cancelled hasCallback s n n 0 ⟨true, lastError, ledgerHeader s n timestamp, [], []⟩
    hcancel2 hread2
  have hn54 : n ≤ 2 ^ 54 := readable_range_le disk s n hread1
  have hmax : ¬ vector_max_size < n := by
    have : (2 : Nat) ^ 54 ≤ vector_max_size := by decide
    omega
  have hrecords : generatedRecords disk (timestamp % 2 ^ 64) s 0 n =
      (List.range n).map (fun i =>
        (⟨s + i, DiskSectorCRC.calculateCRC32 (disk.sectorData (s + i)),
          timestamp % 2 ^ 64⟩ : SectorChecksum)) := by
    unfold generatedRecords generatedRecord
    apply List.map_congr_left
    intro i hi
    rw [Nat.zero_add, hmod i (List.mem_range.1 hi)]
  constructor
  · simp [EnhancedDiskSectorCRC.generateSectorChecksums, hloop]
  · have hout : (EnhancedDiskSectorCRC.generateSectorChecksums disk diskPath outputFile true
        timestamp padding cancelled hasCallback lastError s n).out =
        ledgerHeader s n timestamp ++ (generatedBytes disk timestamp padding s 0 n ++ []) := by
      simp [EnhancedDiskSectorCRC.generateSectorChecksums, hloop]
    rw [hout, readChecksumFile_of_header _ _ _ _ _ (by omega) (by omega), if_neg hmax,
      readRecords_generatedBytes, hrecords]

theorem zeroImage_readSector (sectors k : Nat) (hk : k < sectors) (hs : sectors ≤ 2 ^ 54) :
    (zeroImage sectors).readable k = true ∧
    (zeroImage sectors).sectorData k = List.replicate 512 0 := by
  have hpos : k * SECTOR_SIZE % 2 ^ 64 = k * 512 := by
    unfold SECTOR_SIZE; exact Nat.mod_eq_of_lt (by omega)
  have hopen : (zeroImage sectors).openError = none := rfl
  have hseek : (zeroImage sectors).seek (toInt64 (k * 512)) = true := by
    unfold zeroImage toInt64
    simp only [decide_eq_true_eq]
    split <;> omega
  have hget : (zeroImage sectors).read (k * 512) = some (List.replicate 512 0) := by
    have hmin : min SECTOR_SIZE (sectors * SECTOR_SIZE - k * 512) = 512 := by
      unfold SECTOR_SIZE; omega
    simp only [zeroImage, hmin]
  simp only [Disk.readable, Disk.sectorData, DiskSectorCRC.readSector, hopen, hpos, hseek, hget]
  simp [SECTOR_SIZE]

/-- C6, the concrete scenario: generating sectors `[0, 1000)` of a zero-filled image
of 1000 sectors of 512 bytes and loading the file gives 1000 records, the `i`-th
for sector `i`, every `crc32` equal to `calculateCRC32` of 512 zero bytes. -/
theorem generate_then_readChecksumFile_witness :
    (EnhancedDiskSectorCRC.generateSectorChecksums (zeroImage 1000) "disk" "out" true
        1700000000 (fun _ => []) (fun _ => false) false "" 0 1000).ok = true ∧
    EnhancedDiskSectorCRC.readChecksumFile "out"
        (some (EnhancedDiskSectorCRC.generateSectorChecksums (zeroImage 1000) "disk" "out" true
          1700000000 (fun _ => []) (fun _ => false) false "" 0 1000).out) =
      LoadOutcome.loaded
        ((List.range 1000).map (fun i =>
          (⟨i, DiskSectorCRC.calculateCRC32 (List.replicate 512 0), 1700000000⟩ :
            SectorChecksum)))
        0 1000 := by
  have h := generate_then_readChecksumFile (zeroImage 1000) "disk" "out" "out" 1700000000
    (fun _ => []) (fun _ => false) false "" 0 1000 (by norm_num)
    (fun i hi => (zeroImage_readSector 1000 (0 + i) (by omega) (by norm_num)).1)
    (fun _ _ => rfl)
  have hdata : (List.range 1000).map (fun i =>
      (⟨0 + i, DiskSectorCRC.calculateCRC32 ((zeroImage 1000).sectorData (0 + i)),
        1700000000 % 2 ^ 64⟩ : SectorChecksum)) =
      (List.range 1000).map (fun i =>
        (⟨i, DiskSectorCRC.calculateCRC32 (List.replicate 512 0), 1700000000⟩ :
          SectorChecksum)) := by
    apply List.map_congr_left
    intro i hi
    rw [(zeroImage_readSector 1000 (0 + i) (by have := List.mem_range.1 hi; omega)
      (by norm_num)).2, Nat.zero_add, Nat.mod_eq_of_lt (by norm_num)]
  exact ⟨h.1, h.2.trans (congrArg (fun l => LoadOutcome.loaded l 0 1000) hdata)⟩

/-! ## The range split of the parallel generators -/

theorem sliceStart_zero (s n N : Nat) : sliceStart s n N 0 = s := by
  simp [sliceStart]

theorem sliceStart_succ (s n N i : Nat) :
    sliceStart s n N (i + 1) = sliceStart s n N i + (n / N + if i < n % N then 1 else 0) := by
  unfold sliceStart
  rw [Nat.succ_mul]
  split <;> omega

theorem sliceStart_last (s n N : Nat) (hN : 1 ≤ N) : sliceStart s n N N = s + n := by
  unfold sliceStart
  have h1 : n % N < N := Nat.mod_lt _ (by omega)
  have h2 : N * (n / N) + n % N = n := Nat.div_add_mod n N
  rw [Nat.min_eq_right (by omega)]
  omega

theorem sliceStart_mono (s n N i j : Nat) (hij : i ≤ j) :
    sliceStart s n N i ≤ sliceStart s n N j := by
  unfold sliceStart
  have h1 : i * (n / N) ≤ j * (n / N) := Nat.mul_le_mul_right _ hij
  omega

theorem sliceLoop_eq (s n N : Nat) (T i : Nat) (hT : i + T ≤ N)
    (hs : sliceStart s n N (i + T) < 2 ^ 64) :
    sliceLoop (n / N) (n % N) T i (sliceStart s n N i) =
      (List.range T).map (fun j => (sliceStart s n N (i + j), sliceStart s n N (i + j + 1))) := by
  induction T generalizing i with
  | zero => rfl
  | succ T ih =>
    have hmono : sliceStart s n N (i + 1) ≤ sliceStart s n N (i + (T + 1)) :=
      sliceStart_mono s n N _ _ (by omega)
    have hstep := sliceStart_succ s n N i
    have hcount : (if i < n % N then (n / N + 1) % 2 ^ 64 else n / N) =
        n / N + if i < n % N then 1 else 0 := by
      by_cases hi : i < n % N
      · rw [if_pos hi] at hstep
        rw [if_pos hi, if_pos hi, Nat.mod_eq_of_lt (by omega)]
      · rw [if_neg hi, if_neg hi, Nat.add_zero]
    have hend : (sliceStart s n N i + (n / N + if i < n % N then 1 else 0)) % 2 ^ 64 =
        sliceStart s n N (i + 1) := by
      rw [← hstep]; exact Nat.mod_eq_of_lt (by omega)
    rw [sliceLoop]
    simp only [hcount, hend]
    rw [ih (i + 1) (by omega) (by rwa [show i + 1 + T = i + (T + 1) by omega])]
    rw [range_map_shift (fun x => (sliceStart s n N x, sliceStart s n N (x + 1)))]

theorem parallelSlices_eq (s n N hardwareConcurrency : Nat) (hN : 1 ≤ N)
    (hs : s + n < 2 ^ 64) :
    EnhancedDiskSectorCRC.parallelSlices s n (N : Int) hardwareConcurrency =
      (List.range N).map (fun i => (sliceStart s n N i, sliceStart s n N (i + 1))) := by
  have hloop := sliceLoop_eq s n N N 0 (by omega)
    (by rw [Nat.zero_add, sliceStart_last s n N hN]; exact hs)
  rw [sliceStart_zero] at hloop
  simp only [Nat.zero_add] at hloop
  have hpos : ¬ ((N : Int) ≤ 0) := by omega
  simp only [EnhancedDiskSectorCRC.parallelSlices, EnhancedDiskSectorCRC.parallelThreadCount,
    hpos, if_false, Int.toNat_ofNat]
  exact hloop

theorem readerSlices_eq (s n N : Nat) (hN : 1 ≤ N) (hs : s + n < 2 ^ 64) :
    EnhancedDiskSectorCRC.readerSlices s n (N : Int) =
      (List.range N).map (fun i => (sliceStart s n N i, sliceStart s n N (i + 1))) := by
  have hloop := sliceLoop_eq s n N N 0 (by omega)
    (by rw [Nat.zero_add, sliceStart_last s n N hN]; exact hs)
  rw [sliceStart_zero] at hloop
  simp only [Nat.zero_add] at hloop
  have hpos : ¬ ((N : Int) ≤ 0) := by omega
  simp only [EnhancedDiskSectorCRC.readerSlices, EnhancedDiskSectorCRC.readerThreadCount,
    hpos, if_false, Int.toNat_ofNat]
  exact hloop

/-- C8: for a start `s`, a count `n` and `N >= 1` workers with `s + n` not
overflowing, `generateChecksumsParallel` and `generateChecksumsHighPerformance`
compute the same `N` slices; slice `i` is `[start_i, start_(i+1))` with
`start_i = s + i * (n / N) + min i (n % N)`, so `start_0 = s`, each slice ends
where the next begins and the last ends at `s + n`; slice `i` has
`n / N + 1` sectors when `i < n % N` and `n / N` otherwise; every sector of
`[s, s + n)` lies in exactly one slice. -/
theorem slices_partition_range (s n N hardwareConcurrency : Nat) (hN : 1 ≤ N)
    (hs : s + n < 2 ^ 64) :
    EnhancedDiskSectorCRC.parallelSlices s n (N : Int) hardwareConcurrency =
      (List.range N).map (fun i => (sliceStart s n N i, sliceStart s n N (i + 1))) ∧
    EnhancedDiskSectorCRC.readerSlices s n (N : Int) =
      (List.range N).map (fun i => (sliceStart s n N i, sliceStart s n N (i + 1))) ∧
    sliceStart s n N 0 = s ∧
    sliceStart s n N N = s + n ∧
    (∀ i, sliceStart s n N (i + 1) =
      sliceStart s n N i + (n / N + if i < n % N then 1 else 0)) ∧
    (∀ x, s ≤ x → x < s + n →
      ∃! i, i < N ∧ sliceStart s n N i ≤ x ∧ x < sliceStart s n N (i + 1)) := by
  have hlast := sliceStart_last s n N hN
  refine ⟨parallelSlices_eq s n N hardwareConcurrency hN hs, readerSlices_eq s n N hN hs,
    sliceStart_zero s n N, hlast, sliceStart_succ s n N, ?_⟩
  · intro x hx1 hx2
    have hex : ∀ M, x < sliceStart s n N M →
        ∃ i, i < M ∧ sliceStart s n N i ≤ x ∧ x < sliceStart s n N (i + 1) := by
      intro M
      induction M with
      | zero => intro h; rw [sliceStart_zero] at h; omega
      | succ M ih =>
        intro h
        by_cases hM : x < sliceStart s n N M
        · obtain ⟨i, hi, h1, h2⟩ := ih hM
          exact ⟨i, by omega, h1, h2⟩
        · exact ⟨M, by omega, by omega, h⟩
    obtain ⟨i, hi, h1, h2⟩ := hex N (by rw [hlast]; exact hx2)
    refine ⟨i, ⟨hi, h1, h2⟩, ?_⟩
    rintro j ⟨_, hj1, hj2⟩
    by_contra hne
    rcases Nat.lt_or_gt_of_ne hne with hlt | hgt
    · have := sliceStart_mono s n N (j + 1) i (by omega)
      omega
    · have := sliceStart_mono s n N (i + 1) j (by omega)
      omega

/-- C8, at a concrete input: 7 sectors from sector 10 on split among 3 workers give
the slices `[10, 13)`, `[13, 15)`, `[15, 17)`. -/
theorem slices_partition_range_witness :
    EnhancedDiskSectorCRC.parallelSlices 10 7 (3 : Nat) 8 = [(10, 13), (13, 15), (15, 17)] ∧
    EnhancedDiskSectorCRC.readerSlices 10 7 (3 : Nat) = [(10, 13), (13, 15), (15, 17)] := by
  have h := slices_partition_range 10 7 3 8 (by decide) (by decide)
  exact ⟨h.1.trans (by decide), h.2.1.trans (by decide)⟩

/-! ## The streaming workers of `generateChecksumsParallel` -/

theorem workerRecords_of_le (disk : Disk) (clock : Nat → Nat) (a b : Nat) (h : b ≤ a) :
    workerRecords disk clock a b = [] := by
  unfold workerRecords
  rw [Nat.sub_eq_zero_of_le h]
  rfl

theorem workerRecords_step (disk : Disk) (clock : Nat → Nat) (a b : Nat) (h : a < b) :
    workerRecords disk clock a b =
      (if disk.readable a = true then
        [(⟨a, DiskSectorCRC.calculateCRC32 (disk.sectorData a), clock a⟩ : SectorChecksum)]
       else []) ++ workerRecords disk clock (a + 1) b := by
  unfold workerRecords
  rw [show b - a = (b - (a + 1)) + 1 by omega]
  rw [range_map_shift (fun x =>
    if disk.readable x = true then
      [(⟨x, DiskSectorCRC.calculateCRC32 (disk.sectorData x), clock x⟩ : SectorChecksum)]
    else [])]
  rfl

/-- The loop of the streaming worker, never cancelled, appends to what it has written
and buffered exactly the records of the readable sectors left in its slice. -/
theorem streamingLoop_eq (disk : Disk) (diskPath : String) (clock : Nat → Nat)
    (endSector size : Nat) (hend : endSector < 2 ^ 64) (fuel cur : Nat)
    (buffer written : List SectorChecksum) (hfuel : endSector - cur ≤ fuel) :
    EnhancedDiskSectorCRC.streamingLoop disk diskPath clock (fun _ => false) endSector size
        fuel cur buffer written =
      written ++ buffer ++ workerRecords disk clock cur endSector := by
  induction fuel generalizing cur buffer written with
  | zero =>
    rw [EnhancedDiskSectorCRC.streamingLoop, workerRecords_of_le _ _ _ _ (by omega),
      List.append_nil]
  | succ fuel ih =>
    rw [EnhancedDiskSectorCRC.streamingLoop]
    by_cases hlt : cur < endSector
    · have hnext : (cur + 1) % 2 ^ 64 = cur + 1 := Nat.mod_eq_of_lt (by omega)
      rw [if_neg (by simpa using hlt), if_neg (by simp)]
      simp only [readSector_ok, readSector_buffer, hnext]
      rw [workerRecords_step _ _ _ _ hlt]
      by_cases hr : disk.readable cur = true
      · rw [if_pos hr, if_pos hr]
        split
        · rw [ih _ _ _ (by omega)]
          simp
        · rw [ih _ _ _ (by omega)]
          simp
      · rw [if_neg hr, if_neg hr, ih _ _ _ (by omega)]
        simp
    · rw [if_pos (by simpa using hlt), workerRecords_of_le _ _ _ _ (by omega), List.append_nil]

theorem workerRecords_all_readable (disk : Disk) (clock : Nat → Nat) (a k : Nat)
    (hread : ∀ j < k, disk.readable (a + j) = true) :
    workerRecords disk clock a (a + k) =
      (List.range k).map (fun j =>
        (⟨a + j, DiskSectorCRC.calculateCRC32 (disk.sectorData (a + j)), clock (a + j)⟩ :
          SectorChecksum)) := by
  induction k generalizing a with
  | zero => exact workerRecords_of_le _ _ _ _ (by omega)
  | succ k ih =>
    have h0 : disk.readable a = true := by simpa using hread 0 (by omega)
    have hread2 : ∀ j < k, disk.readable (a + 1 + j) = true := by
      intro j hj
      have := hread (j + 1) (by omega)
      rwa [show a + (j + 1) = a + 1 + j by omega] at this
    rw [workerRecords_step _ _ _ _ (by omega), if_pos h0,
      show a + (k + 1) = a + 1 + k by omega, ih (a + 1) hread2,
      range_map_shift (fun x =>
        (⟨x, DiskSectorCRC.calculateCRC32 (disk.sectorData x), clock x⟩ : SectorChecksum))]
    rfl

/-- Consecutive runs laid end to end: the runs `[off i, off (i+1))` for `i < N` make
up the run `[off 0, off N)`. -/
theorem flatten_consecutive_runs {α : Type} (f : Nat → α) (off : Nat → Nat)
    (hmono : ∀ i, off i ≤ off (i + 1)) (N : Nat) :
    ((List.range N).map (fun i =>
      (List.range (off (i + 1) - off i)).map (fun j => f (off i + j)))).flatten =
      (List.range (off N - off 0)).map (fun x => f (off 0 + x)) := by
  induction N with
  | zero => simp
  | succ N ih =>
    have hle : off 0 ≤ off N := by
      clear ih
      induction N with
      | zero => exact Nat.le_refl _
      | succ M ihM => exact Nat.le_trans ihM (hmono M)
    have hm := hmono N
    rw [List.range_succ, List.map_append, List.flatten_append, ih]
    rw [show off (N + 1) - off 0 = (off N - off 0) + (off (N + 1) - off N) by omega]
    rw [List.range_add, List.map_append, List.map_map]
    simp only [List.map_cons, List.map_nil, List.flatten_cons, List.flatten_nil,
      List.append_nil]
    congr 1
    apply List.map_congr_left
    intro j _
    show f (off N + j) = f (off 0 + (off N - off 0 + j))
    congr 1
    omega

theorem checksumWorkerStreaming_eq (disk : Disk) (diskPath : String) (clock : Nat → Nat)
    (a b bufferSize : Nat) (hb : b < 2 ^ 64) :
    EnhancedDiskSectorCRC.checksumWorkerStreaming disk diskPath true clock (fun _ => false)
        a b bufferSize = workerRecords disk clock a b := by
  unfold EnhancedDiskSectorCRC.checksumWorkerStreaming
  rw [if_neg (by simp), streamingLoop_eq disk diskPath clock b _ hb _ _ _ _ (Nat.le_refl _)]
  rfl

/-- With every sector of `[s, s+n)` readable and no cancellation, the workers of
`generateChecksumsParallel`, taken in thread order, append the records of the
sectors `s, s+1, ..., s+n-1` in this order. -/
theorem generateChecksumsParallel_workers (disk : Disk) (diskPath : String) (timestamp : Nat)
    (clock : Nat → Nat) (hardwareConcurrency s n N : Nat) (hN : 1 ≤ N) (hs : s + n < 2 ^ 64)
    (hread : ∀ i < n, disk.readable (s + i) = true) :
    (EnhancedDiskSectorCRC.generateChecksumsParallel disk diskPath true timestamp clock
        (fun _ => false) false hardwareConcurrency s n (N : Int)).workers.flatten =
      (List.range n).map (fun i =>
        (⟨s + i, DiskSectorCRC.calculateCRC32 (disk.sectorData (s + i)), clock (s + i)⟩ :
          SectorChecksum)) := by
  have hsl := parallelSlices_eq s n N hardwareConcurrency hN hs
  have hlast := sliceStart_last s n N hN
  have hworker : ∀ i ∈ List.range N,
      EnhancedDiskSectorCRC.checksumWorkerStreaming disk diskPath true clock (fun _ => false)
        (sliceStart s n N i) (sliceStart s n N (i + 1)) 256 =
      (List.range (sliceStart s n N (i + 1) - sliceStart s n N i)).map (fun j =>
        (⟨sliceStart s n N i + j,
          DiskSectorCRC.calculateCRC32 (disk.sectorData (sliceStart s n N i + j)),
          clock (sliceStart s n N i + j)⟩ : SectorChecksum)) := by
    intro i hi
    have hiN : i < N := List.mem_range.1 hi
    have h1 : sliceStart s n N i ≤ sliceStart s n N (i + 1) :=
      sliceStart_mono s n N _ _ (by omega)
    have h2 : sliceStart s n N (i + 1) ≤ sliceStart s n N N :=
      sliceStart_mono s n N _ _ (by omega)
    have h0 : s ≤ sliceStart s n N i := by
      have := sliceStart_mono s n N 0 i (by omega)
      rwa [sliceStart_zero] at this
    rw [checksumWorkerStreaming_eq _ _ _ _ _ _ (by omega)]
    have hk : sliceStart s n N (i + 1) =
        sliceStart s n N i + (sliceStart s n N (i + 1) - sliceStart s n N i) := by omega
    conv_lhs => rw [hk]
    apply workerRecords_all_readable
    intro j hj
    have := hread (sliceStart s n N i + j - s) (by omega)
    rwa [show s + (sliceStart s n N i + j - s) = sliceStart s n N i + j by omega] at this
  simp only [EnhancedDiskSectorCRC.generateChecksumsParallel, Bool.true_eq_false, if_false, hsl,
    List.map_map]
  have hmap : List.map
      ((fun slice : Nat × Nat =>
          EnhancedDiskSectorCRC.checksumWorkerStreaming disk diskPath true clock
            (fun _ => false) slice.1 slice.2 256) ∘
        fun i => (sliceStart s n N i, sliceStart s n N (i + 1)))
      (List.range N) =
      List.map (fun i =>
        (List.range (sliceStart s n N (i + 1) - sliceStart s n N i)).map (fun j =>
          (⟨sliceStart s n N i + j,
            DiskSectorCRC.calculateCRC32 (disk.sectorData (sliceStart s n N i + j)),
            clock (sliceStart s n N i + j)⟩ : SectorChecksum)))
      (List.range N) :=
    List.map_congr_left (fun i hi => hworker i hi)
  rw [hmap]
  rw [flatten_consecutive_runs (fun x =>
    (⟨x, DiskSectorCRC.calculateCRC32 (disk.sectorData x), clock x⟩ : SectorChecksum))
    (sliceStart s n N) (fun i => sliceStart_mono s n N _ _ (by omega)) N]
  rw [hlast, sliceStart_zero, Nat.add_sub_cancel_left]

/-- C7: for `N >= 1` threads and a range `[s, s+n)` on which all reads succeed
(`s + n` not overflowing), without cancellation, `generateChecksumsParallel`
returns true, starts `N` workers, and the multiset of `(sectorNumber, crc32)`
pairs of the records its `checksumWorkerStreaming` workers append is the
multiset with one pair `(s + i, calculateCRC32(sector s + i))` per `i < n`; the
records of the file the sequential `generateSectorChecksums` writes for the same
range have the same multiset of pairs. -/
theorem generateChecksumsParallel_same_records (disk : Disk) (diskPath outputFile : String)
    (timestamp : Nat) (clock : Nat → Nat) (padding : Nat → List Byte) (hasCallback : Bool)
    (lastError : String) (hardwareConcurrency s n N : Nat) (hN : 1 ≤ N)
    (hs : s + n < 2 ^ 64) (hread : ∀ i < n, disk.readable (s + i) = true) :
    (EnhancedDiskSectorCRC.generateChecksumsParallel disk diskPath true timestamp clock
        (fun _ => false) false hardwareConcurrency s n (N : Int)).ok = true ∧
    (EnhancedDiskSectorCRC.generateChecksumsParallel disk diskPath true timestamp clock
        (fun _ => false) false hardwareConcurrency s n (N : Int)).workers.length = N ∧
    Multiset.ofList
        ((EnhancedDiskSectorCRC.generateChecksumsParallel disk diskPath true timestamp clock
          (fun _ => false) false hardwareConcurrency s n (N : Int)).workers.flatten.map
            SectorChecksum.pair) =
      Multiset.ofList ((List.range n).map (fun i =>
        (s + i, DiskSectorCRC.calculateCRC32 (disk.sectorData (s + i))))) ∧
    ∃ records,
      EnhancedDiskSectorCRC.readRecords n
        ((EnhancedDiskSectorCRC.generateSectorChecksums disk diskPath outputFile true timestamp
          padding (fun _ => false) hasCallback lastError s n).out.drop 28) = some records ∧
      Multiset.ofList (records.map SectorChecksum.pair) =
        Multiset.ofList
          ((EnhancedDiskSectorCRC.generateChecksumsParallel disk diskPath true timestamp clock
            (fun _ => false) false hardwareConcurrency s n (N : Int)).workers.flatten.map
              SectorChecksum.pair) := by
  have hworkers := generateChecksumsParallel_workers disk diskPath timestamp clock
    hardwareConcurrency s n N hN hs hread
  have hpairs : (EnhancedDiskSectorCRC.generateChecksumsParallel disk diskPath true timestamp
      clock (fun _ => false) false hardwareConcurrency s n (N : Int)).workers.flatten.map
        SectorChecksum.pair =
      (List.range n).map (fun i =>
        (s + i, DiskSectorCRC.calculateCRC32 (disk.sectorData (s + i)))) := by
    rw [hworkers, List.map_map]
    rfl
  have hmod : ∀ i < n, (s + i) % 2 ^ 64 = s + i := fun i hi => Nat.mod_eq_of_lt (by omega)
  have hread2 : ∀ j < n, disk.readable ((s + (0 + j)) % 2 ^ 64) = true := by
    intro j hj; rw [Nat.zero_add, hmod j hj]; exact hread j hj
  have hloop := enhancedGenerateLoop_succeeds disk diskPath timestamp padding
    (fun _ => false) hasCallback s n n 0 ⟨true, lastError, ledgerHeader s n timestamp, [], []⟩
    (fun _ _ => rfl) hread2
  have hout : (EnhancedDiskSectorCRC.generateSectorChecksums disk diskPath outputFile true
      timestamp padding (fun _ => false) hasCallback lastError s n).out =
      ledgerHeader s n timestamp ++ (generatedBytes disk timestamp padding s 0 n ++ []) := by
    simp [EnhancedDiskSectorCRC.generateSectorChecksums, hloop]
  refine ⟨?_, ?_, congrArg _ hpairs, generatedRecords disk (timestamp % 2 ^ 64) s 0 n, ?_, ?_⟩
  · simp [EnhancedDiskSectorCRC.generateChecksumsParallel]
  · simp [EnhancedDiskSectorCRC.generateChecksumsParallel,
      parallelSlices_eq s n N hardwareConcurrency hN hs]
  · rw [hout, (ledgerHeader_fields s n timestamp _).2.2.2, readRecords_generatedBytes]
  · rw [hpairs]
    congr 1
    unfold generatedRecords generatedRecord
    rw [List.map_map]
    apply List.map_congr_left
    intro i hi
    simp only [Function.comp, SectorChecksum.pair, Nat.zero_add, hmod i (List.mem_range.1 hi)]

/-- C7, at a concrete input: three threads over the sectors `[10, 17)` of a
zero-filled image append, taken together, one record per sector. -/
theorem generateChecksumsParallel_same_records_witness :
    Multiset.ofList
        ((EnhancedDiskSectorCRC.generateChecksumsParallel (zeroImage 100) "disk" true 5
          (fun _ => 6) (fun _ => false) false 8 10 7 (3 : Nat)).workers.flatten.map
            SectorChecksum.pair) =
      Multiset.ofList ((List.range 7).map (fun i =>
        (10 + i, DiskSectorCRC.calculateCRC32 ((zeroImage 100).sectorData (10 + i))))) :=
  (generateChecksumsParallel_same_records (zeroImage 100) "disk" "out" 5 (fun _ => 6)
    (fun _ => []) false "" 8 10 7 3 (by decide) (by decide)
    (fun i hi => (zeroImage_readSector 100 (10 + i) (by omega) (by norm_num)).1)).2.2.1

/-- The return value of `generateChecksumsParallel`, once the output file is open,
is the negated cancellation flag, whatever the reads of the workers did. -/
theorem generateChecksumsParallel_ok (disk : Disk) (diskPath : String) (timestamp : Nat)
    (clock : Nat → Nat) (cancelled : Nat → Bool) (cancelledAtJoin : Bool)
    (hardwareConcurrency s n : Nat) (threadCount : Int) :
    (EnhancedDiskSectorCRC.generateChecksumsParallel disk diskPath true timestamp clock
        cancelled cancelledAtJoin hardwareConcurrency s n threadCount).ok =
      !cancelledAtJoin := by
  simp [EnhancedDiskSectorCRC.generateChecksumsParallel]

/-- C10 (evaluation at the failing input): with one thread and the one-sector range
`[0, 1)` of a device whose handle does not open, the read of sector 0 fails, yet
`generateChecksumsParallel` returns true; its header declares one sector, its
single worker appends no record, and `readChecksumFile` rejects the resulting
file with "Failed to read checksum data". -/
theorem generateChecksumsParallel_true_despite_failed_read :
    lockedDisk.readable 0 = false ∧
    (EnhancedDiskSectorCRC.generateChecksumsParallel lockedDisk "disk" true 0 (fun _ => 0)
        (fun _ => false) false 8 0 1 1).ok = true ∧
    (EnhancedDiskSectorCRC.generateChecksumsParallel lockedDisk "disk" true 0 (fun _ => 0)
        (fun _ => false) false 8 0 1 1).header = ledgerHeader 0 1 0 ∧
    (EnhancedDiskSectorCRC.generateChecksumsParallel lockedDisk "disk" true 0 (fun _ => 0)
        (fun _ => false) false 8 0 1 1).workers = [[]] ∧
    EnhancedDiskSectorCRC.readChecksumFile "out"
        (some (EnhancedDiskSectorCRC.generateChecksumsParallel lockedDisk "disk" true 0
          (fun _ => 0) (fun _ => false) false 8 0 1 1).header) =
      LoadOutcome.failed "Failed to read checksum data" := by decide

/-! ## CRC-32: the table-driven routine with a correct table is the bitwise one -/

theorem shiftRight_xor (a b k : Nat) : (a ^^^ b) >>> k = a >>> k ^^^ b >>> k := by
  apply Nat.eq_of_testBit_eq
  intro i
  simp [Nat.testBit_shiftRight, Nat.testBit_xor]

theorem xor_mod_two (a b : Nat) : (a ^^^ b) % 2 = (a % 2 + b % 2) % 2 := by
  have h := Nat.testBit_xor a b 0
  simp only [Nat.testBit_zero] at h
  have ha : a % 2 = 0 ∨ a % 2 = 1 := by omega
  have hb : b % 2 = 0 ∨ b % 2 = 1 := by omega
  have hx : (a ^^^ b) % 2 = 0 ∨ (a ^^^ b) % 2 = 1 := by omega
  rcases ha with ha | ha <;> rcases hb with hb | hb <;> rcases hx with hx | hx <;>
    simp [ha, hb, hx] at h ⊢

theorem crcBitStep_eq (x : Nat) :
    crcBitStep x = (x >>> 1) ^^^ (if x % 2 = 1 then 0xEDB88320 else 0) := by
  unfold crcBitStep
  rw [Nat.and_one_is_mod]
  have hx : x % 2 = 0 ∨ x % 2 = 1 := by omega
  rcases hx with hx | hx <;> simp [hx]

theorem crcBitStep_xor (a b : Nat) :
    crcBitStep (a ^^^ b) = crcBitStep a ^^^ crcBitStep b := by
  rw [crcBitStep_eq, crcBitStep_eq, crcBitStep_eq, shiftRight_xor, xor_mod_two]
  have ha : a % 2 = 0 ∨ a % 2 = 1 := by omega
  have hb : b % 2 = 0 ∨ b % 2 = 1 := by omega
  rcases ha with ha | ha <;> rcases hb with hb | hb <;> simp [ha, hb] <;>
    first
    | ac_rfl
    | (have hP : a >>> 1 ^^^ b >>> 1 =
          a >>> 1 ^^^ b >>> 1 ^^^ (0xEDB88320 ^^^ 0xEDB88320) := by
        rw [Nat.xor_self, Nat.xor_zero]
       rw [hP]
       ac_rfl)

theorem crc8Steps_xor (a b : Nat) : crc8Steps (a ^^^ b) = crc8Steps a ^^^ crc8Steps b := by
  unfold crc8Steps
  simp only [crcBitStep_xor]

theorem crcBitStep_double (y : Nat) : crcBitStep (2 * y) = y := by
  rw [crcBitStep_eq, Nat.shiftRight_eq_div_pow]
  have h1 : 2 * y % 2 = 0 := by omega
  have h2 : 2 * y / 2 ^ 1 = y := by omega
  simp [h1, h2]

theorem crc8Steps_shifted (h : Nat) : crc8Steps (256 * h) = h := by
  unfold crc8Steps
  rw [show 256 * h = 2 * (2 * (2 * (2 * (2 * (2 * (2 * (2 * h))))))) by omega]
  simp only [crcBitStep_double]

theorem split_low_byte (x : Nat) : x = (256 * (x >>> 8)) ^^^ (x % 256) := by
  apply Nat.eq_of_testBit_eq
  intro i
  rw [Nat.testBit_xor, show (256 : Nat) = 2 ^ 8 by norm_num, Nat.testBit_mod_two_pow,
    Nat.testBit_mul_pow_two, Nat.testBit_shiftRight]
  by_cases hi : i < 8
  · have h8 : ¬ 8 ≤ i := by omega
    simp [hi, h8]
  · have h8 : 8 ≤ i := by omega
    simp [hi, h8, show 8 + (i - 8) = i by omega]

theorem crc8Steps_split (x : Nat) : crc8Steps x = (x >>> 8) ^^^ crc8Steps (x % 256) := by
  conv_lhs => rw [split_low_byte x]
  rw [crc8Steps_xor, crc8Steps_shifted]

theorem crc_table_entries :
    ∀ i < 256, FinalUltimateOptimizedCRC.crc_table.getD i 0 = crc8Steps i := by decide

theorem FinalUltimateOptimizedCRC.crcStep_eq (c : Nat) (b : Byte) :
    FinalUltimateOptimizedCRC.crcStep c b = crc8Steps (c ^^^ b.val) := by
  unfold FinalUltimateOptimizedCRC.crcStep
  have hb : b.val >>> 8 = 0 := by
    rw [Nat.shiftRight_eq_div_pow]
    have := b.isLt
    omega
  rw [crc8Steps_split, shiftRight_xor, hb, Nat.xor_zero, and_255_eq_mod,
    crc_table_entries _ (Nat.mod_lt _ (by norm_num))]

/-- The table-driven routine of `FinalUltimateOptimizedCRC`, the bitwise routine of
`FileSystemCRC` and the standard reflected CRC-32 return the same value on every
byte sequence. -/
theorem FinalUltimateOptimizedCRC.calculateCRC32_eq_standard (d : List Byte) :
    FinalUltimateOptimizedCRC.calculateCRC32 d = standardCRC32 d ∧
    FileSystemCRC.calculateCRC32ForData d = standardCRC32 d := by
  refine ⟨?_, rfl⟩
  unfold FinalUltimateOptimizedCRC.calculateCRC32 standardCRC32
  have hfun : FinalUltimateOptimizedCRC.crcStep = fun crc (byte : Byte) =>
      crc8Steps (crc ^^^ byte.val) := by
    funext c b
    exact FinalUltimateOptimizedCRC.crcStep_eq c b
  rw [hfun]

/-! ## Sequential verification -/

theorem verifyRecord_readable (disk : Disk) (diskPath : String) (r : SectorChecksum)
    (st : VerifyState) (h : disk.readable r.sectorNumber = true) :
    verifyRecord disk diskPath r st =
      (true,
        ⟨st.lastError, st.allValid && !mismatching disk r,
         st.corruptedSectors + (if mismatching disk r = true then 1 else 0),
         st.corrupted ++ (if mismatching disk r = true then [r.sectorNumber] else []),
         st.reads ++ [r.sectorNumber], st.progress⟩) := by
  unfold verifyRecord
  simp only [readSector_ok, h, Bool.true_eq_false, if_false, readSector_buffer,
    readSector_lastError_of_ok _ _ _ _ h]
  by_cases hm : DiskSectorCRC.calculateCRC32 (disk.sectorData r.sectorNumber) = r.crc32
  · simp [mismatching, hm]
  · simp [mismatching, hm]

theorem verifyRecord_unreadable (disk : Disk) (diskPath : String) (r : SectorChecksum)
    (st : VerifyState) (h : disk.readable r.sectorNumber = false) :
    verifyRecord disk diskPath r st =
      (false,
        ⟨"Failed to read sector " ++ toString r.sectorNumber ++ ": " ++
           (DiskSectorCRC.readSector disk diskPath r.sectorNumber st.lastError).lastError,
         st.allValid, st.corruptedSectors, st.corrupted, st.reads ++ [r.sectorNumber],
         st.progress⟩) := by
  unfold verifyRecord
  simp only [readSector_ok, h, if_true]

theorem progressCalls_zero (cb : Bool) (n i : Nat) : progressCalls cb n i 0 = [] := rfl

theorem mismatches_cons (disk : Disk) (r : SectorChecksum) (cs : List SectorChecksum) :
    mismatches disk (r :: cs) =
      (if mismatching disk r = true then [r] else []) ++ mismatches disk cs := by
  unfold mismatches
  by_cases h : mismatching disk r = true
  · simp [List.filter_cons, h]
  · simp [List.filter_cons, h]

/-- The loop of the cancellation-aware verification when every listed sector can be
read and no cancellation is observed. -/
theorem enhancedVerifyLoop_succeeds (disk : Disk) (diskPath : String) (cancelled : Nat → Bool)
    (cb : Bool) (total : Nat) (cs : List SectorChecksum) (i : Nat) (st : VerifyState)
    (hcancel : ∀ j < cs.length, cancelled (i + j) = false)
    (hread : ∀ r ∈ cs, disk.readable r.sectorNumber = true) :
    EnhancedDiskSectorCRC.verifyLoop disk diskPath cancelled cb total cs i st =
      (true,
        ⟨st.lastError, st.allValid && (mismatches disk cs).isEmpty,
         st.corruptedSectors + (mismatches disk cs).length,
         st.corrupted ++ (mismatches disk cs).map (fun r => r.sectorNumber),
         st.reads ++ cs.map (fun r => r.sectorNumber),
         st.progress ++ progressCalls cb total i cs.length⟩) := by
  induction cs generalizing i st with
  | nil =>
    simp [EnhancedDiskSectorCRC.verifyLoop, mismatches, progressCalls_zero]
  | cons r rest ih =>
    have hc0 : cancelled i = false := by simpa using hcancel 0 (by simp)
    have hcancel2 : ∀ j < rest.length, cancelled (i + 1 + j) = false := by
      intro j hj
      have := hcancel (j + 1) (by simp; omega)
      rwa [show i + (j + 1) = i + 1 + j by omega] at this
    have hr : disk.readable r.sectorNumber = true := hread r (by simp)
    have hread2 : ∀ x ∈ rest, disk.readable x.sectorNumber = true :=
      fun x hx => hread x (by simp [hx])
    rw [EnhancedDiskSectorCRC.verifyLoop]
    simp only [hc0, Bool.false_eq_true, if_false, verifyRecord_readable _ _ _ _ hr]
    rw [ih _ _ hcancel2 hread2]
    simp only [mismatches_cons, List.length_cons, progressCalls_succ, List.map_cons]
    by_cases hm : mismatching disk r = true
    · by_cases hp : cb = true ∧ (i + 1) % 100 = 0
      · simp [hm, hp]; omega
      · simp [hm, hp]; omega
    · by_cases hp : cb = true ∧ (i + 1) % 100 = 0
      · simp [hm, hp]
      · simp [hm, hp]

/-- The loop of the cancellation-aware verification when the first sector that cannot
be read is that of record `r`, after the records `pre`. -/
theorem enhancedVerifyLoop_fails (disk : Disk) (diskPath : String) (cancelled : Nat → Bool)
    (cb : Bool) (total : Nat) (pre : List SectorChecksum) (r : SectorChecksum)
    (post : List SectorChecksum) (i : Nat) (st : VerifyState)
    (hcancel : ∀ j ≤ pre.length, cancelled (i + j) = false)
    (hread : ∀ x ∈ pre, disk.readable x.sectorNumber = true)
    (hfail : disk.readable r.sectorNumber = false) :
    EnhancedDiskSectorCRC.verifyLoop disk diskPath cancelled cb total (pre ++ r :: post) i st =
      (false,
        ⟨"Failed to read sector " ++ toString r.sectorNumber ++ ": " ++
           (DiskSectorCRC.readSector disk diskPath r.sectorNumber st.lastError).lastError,
         st.allValid && (mismatches disk pre).isEmpty,
         st.corruptedSectors + (mismatches disk pre).length,
         st.corrupted ++ (mismatches disk pre).map (fun x => x.sectorNumber),
         st.reads ++ pre.map (fun x => x.sectorNumber) ++ [r.sectorNumber],
         st.progress ++ progressCalls cb total i pre.length⟩) := by
  induction pre generalizing i st with
  | nil =>
    have hc0 : cancelled i = false := by simpa using hcancel 0 (by simp)
    rw [List.nil_append, EnhancedDiskSectorCRC.verifyLoop]
    simp only [hc0, Bool.false_eq_true, if_false, verifyRecord_unreadable _ _ _ _ hfail]
    simp [mismatches, progressCalls_zero]
  | cons x pre ih =>
    have hc0 : cancelled i = false := by simpa using hcancel 0 (by simp)
    have hcancel2 : ∀ j ≤ pre.length, cancelled (i + 1 + j) = false := by
      intro j hj
      have := hcancel (j + 1) (by simp; omega)
      rwa [show i + (j + 1) = i + 1 + j by omega] at this
    have hx : disk.readable x.sectorNumber = true := hread x (by simp)
    have hread2 : ∀ y ∈ pre, disk.readable y.sectorNumber = true :=
      fun y hy => hread y (by simp [hy])
    rw [List.cons_append, EnhancedDiskSectorCRC.verifyLoop]
    simp only [hc0, Bool.false_eq_true, if_false, verifyRecord_readable _ _ _ _ hx]
    rw [ih _ _ hcancel2 hread2]
    simp only [mismatches_cons, List.length_cons, progressCalls_succ, List.map_cons]
    by_cases hm : mismatching disk x = true
    · by_cases hp : cb = true ∧ (i + 1) % 100 = 0
      · simp [hm, hp]; omega
      · simp [hm, hp]; omega
    · by_cases hp : cb = true ∧ (i + 1) % 100 = 0
      · simp [hm, hp]
      · simp [hm, hp]

/-- On a file that holds its records, the loop of the base class does what the loop of
the derived class does on the loaded records when it is never cancelled and has no
callback. -/
theorem baseVerifyLoop_eq (disk : Disk) (diskPath : String) (total : Nat) (n : Nat)
    (bytes : List Byte) (cs : List SectorChecksum) (i : Nat) (st : VerifyState)
    (h : EnhancedDiskSectorCRC.readRecords n bytes = some cs) :
    DiskSectorCRC.verifyLoop disk diskPath n bytes st =
      EnhancedDiskSectorCRC.verifyLoop disk diskPath (fun _ => false) false total cs i st := by
  induction n generalizing bytes cs i st with
  | zero =>
    rw [EnhancedDiskSectorCRC.readRecords] at h
    rw [← Option.some.inj h]
    rfl
  | succ n ih =>
    rw [EnhancedDiskSectorCRC.readRecords] at h
    by_cases hlen : bytes.length < sizeofSectorChecksum
    · rw [if_pos hlen] at h
      exact absurd h (by simp)
    · rw [if_neg hlen] at h
      cases hr : EnhancedDiskSectorCRC.readRecords n (bytes.drop sizeofSectorChecksum) with
      | none => rw [hr] at h; exact absurd h (by simp)
      | some rest =>
        rw [hr] at h
        rw [← Option.some.inj h, DiskSectorCRC.verifyLoop, if_neg hlen,
          EnhancedDiskSectorCRC.verifyLoop]
        simp only [Bool.false_eq_true, if_false, false_and]
        cases hv : verifyRecord disk diskPath
            (SectorChecksum.ofBytes (bytes.take sizeofSectorChecksum)) st with
        | mk completed st1 =>
          cases completed with
          | false => rfl
          | true => exact ih _ _ (i + 1) _ hr

theorem readChecksumFile_loaded (checksumFile : String) (bytes : List Byte)
    (cs : List SectorChecksum) (s n : Nat)
    (h : EnhancedDiskSectorCRC.readChecksumFile checksumFile (some bytes) =
      LoadOutcome.loaded cs s n) :
    ¬ bytes.length < 28 ∧ leValue (bytes.take 4) = LEDGER_MAGIC ∧
    leValue ((bytes.drop 12).take 8) = n ∧
    EnhancedDiskSectorCRC.readRecords n (bytes.drop 28) = some cs := by
  unfold EnhancedDiskSectorCRC.readChecksumFile at h
  simp only at h
  by_cases h28 : bytes.length < 28
  · rw [if_pos h28] at h; exact absurd h (by simp)
  · rw [if_neg h28] at h
    by_cases hm : leValue (bytes.take 4) ≠ LEDGER_MAGIC
    · rw [if_pos hm] at h; exact absurd h (by simp)
    · rw [if_neg hm] at h
      by_cases hmax : vector_max_size < leValue ((bytes.drop 12).take 8)
      · rw [if_pos hmax] at h; exact absurd h (by simp)
      · rw [if_neg hmax] at h
        cases hr : EnhancedDiskSectorCRC.readRecords (leValue ((bytes.drop 12).take 8))
            (bytes.drop 28) with
        | none => rw [hr] at h; exact absurd h (by simp)
        | some cs2 =>
          rw [hr] at h
          simp only [LoadOutcome.loaded.injEq] at h
          obtain ⟨h1, _, h3⟩ := h
          refine ⟨h28, not_not.1 hm, h3, ?_⟩
          rw [← h3, hr, h1]

theorem mismatches_isEmpty (disk : Disk) (cs : List SectorChecksum) :
    (mismatches disk cs).isEmpty = decide ((mismatches disk cs).length = 0) := by
  cases mismatches disk cs <;> simp

theorem baseVerify_of_loaded (disk : Disk) (diskPath checksumFile : String) (bytes : List Byte)
    (checksums : List SectorChecksum) (s n : Nat) (lastError : String)
    (hload : EnhancedDiskSectorCRC.readChecksumFile checksumFile (some bytes) =
      LoadOutcome.loaded checksums s n) :
    DiskSectorCRC.verifySectorIntegrity disk diskPath checksumFile (some bytes) lastError =
      ⟨Ending.returned,
       (EnhancedDiskSectorCRC.verifyLoop disk diskPath (fun _ => false) false checksums.length
          checksums 0 (VerifyState.initial lastError)).1 &&
         (EnhancedDiskSectorCRC.verifyLoop disk diskPath (fun _ => false) false checksums.length
          checksums 0 (VerifyState.initial lastError)).2.allValid,
       (EnhancedDiskSectorCRC.verifyLoop disk diskPath (fun _ => false) false checksums.length
          checksums 0 (VerifyState.initial lastError)).2⟩ := by
  obtain ⟨h28, hm, hn, hr⟩ := readChecksumFile_loaded _ _ _ _ _ hload
  unfold DiskSectorCRC.verifySectorIntegrity
  simp only [h28, if_false, hm, ne_eq, not_true_eq_false, hn]
  rw [baseVerifyLoop_eq disk diskPath checksums.length n _ checksums 0 _ hr]

theorem enhancedVerify_of_loaded (disk : Disk) (diskPath checksumFile : String)
    (bytes : List Byte) (checksums : List SectorChecksum) (s n : Nat) (cancelled : Nat → Bool)
    (cb : Bool) (lastError : String)
    (hload : EnhancedDiskSectorCRC.readChecksumFile checksumFile (some bytes) =
      LoadOutcome.loaded checksums s n) :
    EnhancedDiskSectorCRC.verifySectorIntegrity disk diskPath checksumFile (some bytes)
        cancelled cb lastError =
      ⟨Ending.returned,
       (EnhancedDiskSectorCRC.verifyLoop disk diskPath cancelled cb checksums.length
          checksums 0 (VerifyState.initial lastError)).1 &&
         (EnhancedDiskSectorCRC.verifyLoop disk diskPath cancelled cb checksums.length
          checksums 0 (VerifyState.initial lastError)).2.allValid,
       (EnhancedDiskSectorCRC.verifyLoop disk diskPath cancelled cb checksums.length
          checksums 0 (VerifyState.initial lastError)).2⟩ := by
  unfold EnhancedDiskSectorCRC.verifySectorIntegrity
  rw [hload]

/-- C11: on a ledger file that loads (header with the right magic followed by the
declared records) the sequential verification of both classes, not cancelled, does
the following.  When every listed sector can be read it returns after having read
the sector of every record in ledger order, its corrupted-sector count is the
number of records whose stored `crc32` differs from `calculateCRC32` of the
sector's current content, and it returns true exactly when that count is 0.  When
the sector of record `r` is the first that cannot be read it returns false with
`lastError_` = "Failed to read sector <r.sectorNumber>: " followed by what
`readSector` left there, having read no later sector. -/
theorem verifySectorIntegrity_counts_mismatches (disk : Disk) (diskPath checksumFile : String)
    (bytes : List Byte) (checksums : List SectorChecksum) (s n : Nat)
    (cancelled : Nat → Bool) (hasCallback : Bool) (lastError : String)
    (hload : EnhancedDiskSectorCRC.readChecksumFile checksumFile (some bytes) =
      LoadOutcome.loaded checksums s n)
    (hcancel : ∀ i, cancelled i = false) :
    ((∀ r ∈ checksums, disk.readable r.sectorNumber = true) →
      DiskSectorCRC.verifySectorIntegrity disk diskPath checksumFile (some bytes) lastError =
        ⟨Ending.returned, decide ((mismatches disk checksums).length = 0),
         ⟨lastError, decide ((mismatches disk checksums).length = 0),
          (mismatches disk checksums).length,
          (mismatches disk checksums).map (fun r => r.sectorNumber),
          checksums.map (fun r => r.sectorNumber), []⟩⟩ ∧
      EnhancedDiskSectorCRC.verifySectorIntegrity disk diskPath checksumFile (some bytes)
          cancelled hasCallback lastError =
        ⟨Ending.returned, decide ((mismatches disk checksums).length = 0),
         ⟨lastError, decide ((mismatches disk checksums).length = 0),
          (mismatches disk checksums).length,
          (mismatches disk checksums).map (fun r => r.sectorNumber),
          checksums.map (fun r => r.sectorNumber),
          progressCalls hasCallback checksums.length 0 checksums.length⟩⟩) ∧
    (∀ (pre : List SectorChecksum) (r : SectorChecksum) (post : List SectorChecksum),
      checksums = pre ++ r :: post →
      (∀ x ∈ pre, disk.readable x.sectorNumber = true) →
      disk.readable r.sectorNumber = false →
      (DiskSectorCRC.verifySectorIntegrity disk diskPath checksumFile (some bytes)
          lastError).ending = Ending.returned ∧
      (DiskSectorCRC.verifySectorIntegrity disk diskPath checksumFile (some bytes)
          lastError).ok = false ∧
      (DiskSectorCRC.verifySectorIntegrity disk diskPath checksumFile (some bytes)
          lastError).state.lastError =
        "Failed to read sector " ++ toString r.sectorNumber ++ ": " ++
          (DiskSectorCRC.readSector disk diskPath r.sectorNumber lastError).lastError ∧
      (DiskSectorCRC.verifySectorIntegrity disk diskPath checksumFile (some bytes)
          lastError).state.reads = pre.map (fun x => x.sectorNumber) ++ [r.sectorNumber] ∧
      (EnhancedDiskSectorCRC.verifySectorIntegrity disk diskPath checksumFile (some bytes)
          cancelled hasCallback lastError).ending = Ending.returned ∧
      (EnhancedDiskSectorCRC.verifySectorIntegrity disk diskPath checksumFile (some bytes)
          cancelled hasCallback lastError).ok = false ∧
      (EnhancedDiskSectorCRC.verifySectorIntegrity disk diskPath checksumFile (some bytes)
          cancelled hasCallback lastError).state.lastError =
        "Failed to read sector " ++ toString r.sectorNumber ++ ": " ++
          (DiskSectorCRC.readSector disk diskPath r.sectorNumber lastError).lastError ∧
      (EnhancedDiskSectorCRC.verifySectorIntegrity disk diskPath checksumFile (some bytes)
          cancelled hasCallback lastError).state.reads =
        pre.map (fun x => x.sectorNumber) ++ [r.sectorNumber]) := by
  have hbase := baseVerify_of_loaded disk diskPath checksumFile bytes checksums s n lastError
    hload
  have henh := enhancedVerify_of_loaded disk diskPath checksumFile bytes checksums s n
    cancelled hasCallback lastError hload
  constructor
  · intro hread
    have h1 := enhancedVerifyLoop_succeeds disk diskPath (fun _ => false) false
      checksums.length checksums 0 (VerifyState.initial lastError) (fun _ _ => rfl) hread
    have h2 := enhancedVerifyLoop_succeeds disk diskPath cancelled hasCallback
      checksums.length checksums 0 (VerifyState.initial lastError)
      (fun j _ => hcancel (0 + j)) hread
    constructor
    · rw [hbase, h1]
      simp [VerifyState.initial, mismatches_isEmpty, progressCalls]
    · rw [henh, h2]
      simp [VerifyState.initial, mismatches_isEmpty]
  · intro pre r post hsplit hread hfail
    have h1 := enhancedVerifyLoop_fails disk diskPath (fun _ => false) false
      checksums.length pre r post 0 (VerifyState.initial lastError) (fun _ _ => rfl) hread hfail
    have h2 := enhancedVerifyLoop_fails disk diskPath cancelled hasCallback
      checksums.length pre r post 0 (VerifyState.initial lastError)
      (fun j _ => hcancel (0 + j)) hread hfail
    rw [← hsplit] at h1 h2
    rw [hbase, henh, h1, h2]
    simp [VerifyState.initial]

/-- C11, at a concrete input: a two-record ledger for the sectors 0 and 5 on a
two-sector image; sector 5 cannot be read, and the base verification returns false
after having read the sectors 0 and 5. -/
theorem verifySectorIntegrity_counts_mismatches_witness :
    EnhancedDiskSectorCRC.readChecksumFile "ledger"
        (some (ledgerHeader 0 2 0 ++ (SectorChecksum.toBytes [] ⟨0, 0, 0⟩ ++
          SectorChecksum.toBytes [] ⟨5, 7, 0⟩))) =
      LoadOutcome.loaded [⟨0, 0, 0⟩, ⟨5, 7, 0⟩] 0 2 ∧
    (DiskSectorCRC.verifySectorIntegrity (zeroImage 2) "disk" "ledger"
        (some (ledgerHeader 0 2 0 ++ (SectorChecksum.toBytes [] ⟨0, 0, 0⟩ ++
          SectorChecksum.toBytes [] ⟨5, 7, 0⟩))) "").ok = false ∧
    (DiskSectorCRC.verifySectorIntegrity (zeroImage 2) "disk" "ledger"
        (some (ledgerHeader 0 2 0 ++ (SectorChecksum.toBytes [] ⟨0, 0, 0⟩ ++
          SectorChecksum.toBytes [] ⟨5, 7, 0⟩))) "").state.reads = [0, 5] :=
  have hload : EnhancedDiskSectorCRC.readChecksumFile "ledger"
        (some (ledgerHeader 0 2 0 ++ (SectorChecksum.toBytes [] ⟨0, 0, 0⟩ ++
          SectorChecksum.toBytes [] ⟨5, 7, 0⟩))) =
      LoadOutcome.loaded [⟨0, 0, 0⟩, ⟨5, 7, 0⟩] 0 2 := by decide
  have h := (verifySectorIntegrity_counts_mismatches (zeroImage 2) "disk" "ledger" _ _ 0 2
    (fun _ => false) false "" hload (fun _ => rfl)).2 [⟨0, 0, 0⟩] ⟨5, 7, 0⟩ [] rfl
    (by decide) (by decide)
  ⟨hload, h.2.1, h.2.2.2.1⟩

/-! ## Generate, then verify -/

theorem readable_sectorData_length (disk : Disk) (k : Nat) (h : disk.readable k = true) :
    (disk.sectorData k).length = SECTOR_SIZE := by
  unfold Disk.readable DiskSectorCRC.readSector at h
  unfold Disk.sectorData DiskSectorCRC.readSector
  cases hd : disk.openError with
  | some e => rw [hd] at h; simp at h
  | none =>
    rw [hd] at h
    simp only at h ⊢
    by_cases hs : disk.seek (toInt64 (k * SECTOR_SIZE % 2 ^ 64)) = false
    · rw [if_pos hs] at h; simp at h
    · rw [if_neg hs] at h ⊢
      cases hr : disk.read (k * SECTOR_SIZE % 2 ^ 64) with
      | none => rw [hr] at h; simp at h
      | some b =>
        rw [hr] at h
        simpa using h

/-- Reading a sector whose byte position is not the stored one sees the old device. -/
theorem readSector_store_other (disk : Disk) (diskPath : String) (k k2 : Nat) (data : List Byte)
    (lastError : String) (h : sectorPosition k2 ≠ sectorPosition k) :
    DiskSectorCRC.readSector (disk.store (sectorPosition k) data) diskPath k2 lastError =
      DiskSectorCRC.readSector disk diskPath k2 lastError := by
  unfold sectorPosition at h
  unfold DiskSectorCRC.readSector Disk.store sectorPosition
  simp only [if_neg h]

/-- Reading the sector at the stored position returns the stored bytes, when the
sector could be read before. -/
theorem readSector_store_same (disk : Disk) (diskPath : String) (k : Nat) (data : List Byte)
    (lastError : String) (h : disk.readable k = true) :
    DiskSectorCRC.readSector (disk.store (sectorPosition k) data) diskPath k lastError =
      ⟨data.length == SECTOR_SIZE, data, lastError⟩ := by
  unfold Disk.readable DiskSectorCRC.readSector at h
  unfold DiskSectorCRC.readSector Disk.store sectorPosition
  cases hd : disk.openError with
  | some e => rw [hd] at h; simp at h
  | none =>
    rw [hd] at h
    simp only at h ⊢
    by_cases hs : disk.seek (toInt64 (k * SECTOR_SIZE % 2 ^ 64)) = false
    · rw [if_pos hs] at h; simp at h
    · rw [if_neg hs]
      simp

/-- Two sector numbers that differ modulo `2^55` have different byte positions. -/
theorem sectorPosition_ne (a b : Nat) (hab : a % 2 ^ 55 ≠ b % 2 ^ 55) :
    sectorPosition a ≠ sectorPosition b := by
  unfold sectorPosition SECTOR_SIZE at *
  omega

theorem filter_range_eq (n j : Nat) (hj : j < n) :
    (List.range n).filter (fun i => decide (i = j)) = [j] := by
  induction n with
  | zero => omega
  | succ n ih =>
    rw [List.range_succ, List.filter_append]
    by_cases h : j < n
    · rw [ih h]
      have : n ≠ j := by omega
      simp [this]
    · have hjn : j = n := by omega
      subst hjn
      have : (List.range j).filter (fun i => decide (i = j)) = [] := by
        rw [List.filter_eq_nil_iff]
        intro a ha
        have := List.mem_range.1 ha
        simp only [decide_eq_true_eq]
        omega
      rw [this]
      simp

theorem mismatches_generatedRecords (disk : Disk) (t s i k : Nat) :
    mismatches disk (generatedRecords disk t s i k) = [] := by
  unfold mismatches generatedRecords
  rw [List.filter_eq_nil_iff]
  intro r hr
  obtain ⟨j, _, rfl⟩ := List.mem_map.1 hr
  simp [mismatching, generatedRecord]

theorem generatedRecords_sectorNumbers (disk : Disk) (t s i k : Nat) :
    (generatedRecords disk t s i k).map (fun r => r.sectorNumber) = sectorsFrom s i k := by
  unfold generatedRecords sectorsFrom
  rw [List.map_map]
  rfl

/-- The base verification of the ledger the base generator wrote for the device
`disk`, run against a device `disk2` on which the listed sectors can be read. -/
theorem verify_generated (disk disk2 : Disk) (diskPath outputFile checksumFile : String)
    (timestamp : Nat) (padding : Nat → List Byte) (lastError lastError2 : String) (s n : Nat)
    (hread : ∀ i < n, disk.readable ((s + i) % 2 ^ 64) = true)
    (hread2 : ∀ i < n, disk2.readable ((s + i) % 2 ^ 64) = true) :
    DiskSectorCRC.verifySectorIntegrity disk2 diskPath checksumFile
        (some (DiskSectorCRC.generateSectorChecksums disk diskPath outputFile true timestamp
          padding lastError s n).out) lastError2 =
      ⟨Ending.returned,
       decide ((mismatches disk2 (generatedRecords disk (timestamp % 2 ^ 64) s 0 n)).length = 0),
       ⟨lastError2,
        decide ((mismatches disk2 (generatedRecords disk (timestamp % 2 ^ 64) s 0 n)).length = 0),
        (mismatches disk2 (generatedRecords disk (timestamp % 2 ^ 64) s 0 n)).length,
        (mismatches disk2 (generatedRecords disk (timestamp % 2 ^ 64) s 0 n)).map
          (fun r => r.sectorNumber),
        sectorsFrom s 0 n, []⟩⟩ := by
  have hn : n ≤ 2 ^ 54 := readable_range_le disk s n hread
  have hgen : (DiskSectorCRC.generateSectorChecksums disk diskPath outputFile true timestamp
      padding lastError s n).out =
      ledgerHeader s n timestamp ++ generatedBytes disk timestamp padding s 0 n := by
    unfold DiskSectorCRC.generateSectorChecksums
    rw [if_neg (by simp), baseGenerateLoop_succeeds disk diskPath timestamp padding s n 0 _
      (fun j hj => by rw [Nat.zero_add]; exact hread j hj)]
  obtain ⟨h1, _, h3, h4⟩ := ledgerHeader_fields s n timestamp
    (generatedBytes disk timestamp padding s 0 n)
  have hrec := readRecords_generatedBytes disk timestamp padding s 0 n []
  rw [List.append_nil] at hrec
  have hlen : ¬ (ledgerHeader s n timestamp ++
      generatedBytes disk timestamp padding s 0 n).length < 28 := by
    rw [List.length_append, ledgerHeader_length]; omega
  have e1 : LEDGER_MAGIC % 256 ^ 4 = LEDGER_MAGIC := by decide
  have e3 : n % 256 ^ 8 = n := Nat.mod_eq_of_lt (by norm_num; omega)
  have hcs : ∀ r ∈ generatedRecords disk (timestamp % 2 ^ 64) s 0 n,
      disk2.readable r.sectorNumber = true := by
    intro r hr
    unfold generatedRecords at hr
    obtain ⟨j, hj, rfl⟩ := List.mem_map.1 hr
    have := hread2 j (List.mem_range.1 hj)
    simpa [generatedRecord] using this
  rw [hgen]
  unfold DiskSectorCRC.verifySectorIntegrity
  simp only [hlen, if_false, h1, h3, h4, leValue_leBytes, e1, e3, ne_eq, not_true_eq_false]
  rw [baseVerifyLoop_eq disk2 diskPath n n _ _ 0 _ hrec,
    enhancedVerifyLoop_succeeds disk2 diskPath (fun _ => false) false n _ 0 _ (fun _ _ => rfl)
      hcs]
  simp [VerifyState.initial, mismatches_isEmpty, progressCalls, generatedRecords_sectorNumbers]

/-- C12: when every sector of the range `[s, s+n)` can be read and the device is
the same at both calls, `DiskSectorCRC::verifySectorIntegrity` on the file written
by `DiskSectorCRC::generateSectorChecksums(s, n, out)` returns true with zero
corrupted sectors, having read the sectors of the range in order. -/
theorem generate_then_verify (disk : Disk) (diskPath outputFile checksumFile : String)
    (timestamp : Nat) (padding : Nat → List Byte) (lastError lastError2 : String) (s n : Nat)
    (hread : ∀ i < n, disk.readable ((s + i) % 2 ^ 64) = true) :
    (DiskSectorCRC.generateSectorChecksums disk diskPath outputFile true timestamp padding
        lastError s n).ok = true ∧
    DiskSectorCRC.verifySectorIntegrity disk diskPath checksumFile
        (some (DiskSectorCRC.generateSectorChecksums disk diskPath outputFile true timestamp
          padding lastError s n).out) lastError2 =
      ⟨Ending.returned, true, ⟨lastError2, true, 0, [], sectorsFrom s 0 n, []⟩⟩ := by
  constructor
  · unfold DiskSectorCRC.generateSectorChecksums
    rw [if_neg (by simp), baseGenerateLoop_succeeds disk diskPath timestamp padding s n 0 _
      (fun j hj => by rw [Nat.zero_add]; exact hread j hj)]
  · rw [verify_generated disk disk diskPath outputFile checksumFile timestamp padding lastError
      lastError2 s n hread hread, mismatches_generatedRecords]
    rfl

/-- C12, at a concrete input: the sectors `[10, 910)` of a zero-filled image of 1000
sectors. -/
theorem generate_then_verify_witness :
    (DiskSectorCRC.verifySectorIntegrity (zeroImage 1000) "disk" "out"
        (some (DiskSectorCRC.generateSectorChecksums (zeroImage 1000) "disk" "out" true
          1700000000 (fun _ => []) "" 10 900).out) "").ok = true ∧
    (DiskSectorCRC.verifySectorIntegrity (zeroImage 1000) "disk" "out"
        (some (DiskSectorCRC.generateSectorChecksums (zeroImage 1000) "disk" "out" true
          1700000000 (fun _ => []) "" 10 900).out) "").state.corruptedSectors = 0 := by
  have h := (generate_then_verify (zeroImage 1000) "disk" "out" "out" 1700000000
    (fun _ => []) "" "" 10 900
    (fun i hi => by
      rw [Nat.mod_eq_of_lt (by omega)]
      exact (zeroImage_readSector 1000 (10 + i) (by omega) (by norm_num)).1)).2
  rw [h]
  exact ⟨rfl, rfl⟩

/-! ## Detection of a changed byte -/

theorem calculateCRC32_ne_of_differ_at (d d2 : List Byte) (i : Nat)
    (hlen : d.length = d2.length) (hi : i < d.length) (hne : d[i]? ≠ d2[i]?)
    (hsame : ∀ j, j ≠ i → d[j]? = d2[j]?) :
    DiskSectorCRC.calculateCRC32 d ≠ DiskSectorCRC.calculateCRC32 d2 := by
  have hi2 : i < d2.length := hlen ▸ hi
  obtain ⟨h1, h2⟩ := list_eq_splice_of_differ_at d d2 i hlen hi hsame
  rw [h1, h2]
  apply calculateCRC32_ne_of_splice
  intro h
  apply hne
  rw [List.getElem?_eq_getElem hi, List.getElem?_eq_getElem hi2, h]

/-- The mismatching records of a generated ledger after the bytes of sector `s + j`
have been replaced by bytes with another checksum. -/
theorem mismatches_store (disk : Disk) (t s n j : Nat) (data2 : List Byte)
    (hread : ∀ i < n, disk.readable ((s + i) % 2 ^ 64) = true) (hj : j < n)
    (hcrc : DiskSectorCRC.calculateCRC32 data2 ≠
      DiskSectorCRC.calculateCRC32 (disk.sectorData ((s + j) % 2 ^ 64))) :
    mismatches (disk.store (sectorPosition ((s + j) % 2 ^ 64)) data2)
        (generatedRecords disk t s 0 n) =
      [generatedRecord disk t ((s + j) % 2 ^ 64)] := by
  have hn : n ≤ 2 ^ 54 := readable_range_le disk s n hread
  unfold mismatches generatedRecords
  rw [List.filter_map]
  have hfilter : (List.range n).filter
      (mismatching (disk.store (sectorPosition ((s + j) % 2 ^ 64)) data2) ∘
        fun x => generatedRecord disk t ((s + (0 + x)) % 2 ^ 64)) =
      (List.range n).filter (fun i => decide (i = j)) := by
    apply List.filter_congr
    intro x hx
    have hxn : x < n := List.mem_range.1 hx
    simp only [Function.comp, mismatching, generatedRecord, Disk.sectorData, Nat.zero_add]
    by_cases hxj : x = j
    · subst hxj
      rw [readSector_store_same disk "" _ data2 "" (hread x hxn)]
      simpa [Disk.sectorData] using hcrc
    · rw [readSector_store_other disk "" _ _ data2 ""
        (sectorPosition_ne _ _ (by omega))]
      simp [hxj]
  rw [hfilter, filter_range_eq n j hj]
  simp

/-- C13: generate a ledger for the range `[s, s+n)` of a device on which all of it
can be read, then change exactly one byte of sector `s + j` (`j < n`) to another
value and nothing else.  `DiskSectorCRC::verifySectorIntegrity` with that ledger
then returns false, its corrupted-sector count is exactly 1, and the one sector it
reports is `s + j`; all `n` sectors have been read. -/
theorem verify_detects_single_byte_change (disk : Disk)
    (diskPath outputFile checksumFile : String) (timestamp : Nat) (padding : Nat → List Byte)
    (lastError lastError2 : String) (s n j k : Nat) (data2 : List Byte)
    (hread : ∀ i < n, disk.readable ((s + i) % 2 ^ 64) = true) (hj : j < n)
    (hlen : data2.length = (disk.sectorData ((s + j) % 2 ^ 64)).length)
    (hk : k < data2.length)
    (hne : data2[k]? ≠ (disk.sectorData ((s + j) % 2 ^ 64))[k]?)
    (hsame : ∀ m, m ≠ k → data2[m]? = (disk.sectorData ((s + j) % 2 ^ 64))[m]?) :
    DiskSectorCRC.verifySectorIntegrity (disk.store (sectorPosition ((s + j) % 2 ^ 64)) data2)
        diskPath checksumFile
        (some (DiskSectorCRC.generateSectorChecksums disk diskPath outputFile true timestamp
          padding lastError s n).out) lastError2 =
      ⟨Ending.returned, false,
        ⟨lastError2, false, 1, [(s + j) % 2 ^ 64], sectorsFrom s 0 n, []⟩⟩ := by
  have hn : n ≤ 2 ^ 54 := readable_range_le disk s n hread
  have hcrc := calculateCRC32_ne_of_differ_at data2 _ k hlen hk hne hsame
  have hread2 : ∀ i < n,
      (disk.store (sectorPosition ((s + j) % 2 ^ 64)) data2).readable ((s + i) % 2 ^ 64) =
        true := by
    intro i hi
    unfold Disk.readable
    by_cases hij : i = j
    · subst hij
      rw [readSector_store_same disk "" _ data2 "" (hread i hi), hlen,
        readable_sectorData_length disk _ (hread i hi)]
      simp
    · rw [readSector_store_other disk "" _ _ data2 "" (sectorPosition_ne _ _ (by omega))]
      exact hread i hi
  rw [verify_generated disk _ diskPath outputFile checksumFile timestamp padding lastError
    lastError2 s n hread hread2, mismatches_store disk _ s n j data2 hread hj hcrc]
  simp [generatedRecord]

/-- C13, at a concrete input: the ledger of the sectors `[2, 5)` of a zero-filled
image, then the first byte of sector 3 set to 1. -/
theorem verify_detects_single_byte_change_witness :
    DiskSectorCRC.verifySectorIntegrity
        ((zeroImage 8).store (sectorPosition ((2 + 1) % 2 ^ 64)) (1 :: List.replicate 511 0))
        "disk" "out"
        (some (DiskSectorCRC.generateSectorChecksums (zeroImage 8) "disk" "out" true
          1700000000 (fun _ => []) "" 2 3).out) "" =
      ⟨Ending.returned, false, ⟨"", false, 1, [(2 + 1) % 2 ^ 64], sectorsFrom 2 0 3, []⟩⟩ := by
  have hdata : (zeroImage 8).sectorData ((2 + 1) % 2 ^ 64) = 0 :: List.replicate 511 0 :=
    (zeroImage_readSector 8 3 (by omega) (by norm_num)).2
  exact verify_detects_single_byte_change (zeroImage 8) "disk" "out" "out" 1700000000
    (fun _ => []) "" "" 2 3 1 0 (1 :: List.replicate 511 0)
    (fun i hi => by
      rw [Nat.mod_eq_of_lt (by omega)]
      exact (zeroImage_readSector 8 (2 + i) (by omega) (by norm_num)).1)
    (by omega) (by rw [hdata]; rfl) (by simp)
    (by rw [hdata]; simp)
    (fun m hm => by
      rw [hdata]
      obtain ⟨q, rfl⟩ : ∃ q, m = q + 1 := ⟨m - 1, by omega⟩
      rw [List.getElem?_cons_succ, List.getElem?_cons_succ])

/-! ## Parallel verification -/

/-- C14 (evaluation at the failing input): the ledger holds the one record of
sector 0 and the handle of the device does not open, so the read of sector 0
fails.  With one thread and no cancellation `verifyIntegrityParallel` returns true
with a corrupted count of 0, while `EnhancedDiskSectorCRC::verifySectorIntegrity`
and `DiskSectorCRC::verifySectorIntegrity` return false on the same ledger and
device, with an error that names sector 0. -/
theorem verifyIntegrityParallel_true_despite_failed_read :
    lockedDisk.readable 0 = false ∧
    EnhancedDiskSectorCRC.readChecksumFile "ledger"
        (some (ledgerHeader 0 1 0 ++ SectorChecksum.toBytes [] ⟨0, 0, 0⟩)) =
      LoadOutcome.loaded [⟨0, 0, 0⟩] 0 1 ∧
    EnhancedDiskSectorCRC.verifyIntegrityParallel lockedDisk "disk" "ledger"
        (some (ledgerHeader 0 1 0 ++ SectorChecksum.toBytes [] ⟨0, 0, 0⟩))
        (fun _ _ => false) false 8 1 = ⟨Ending.returned, true, 0⟩ ∧
    (EnhancedDiskSectorCRC.verifySectorIntegrity lockedDisk "disk" "ledger"
        (some (ledgerHeader 0 1 0 ++ SectorChecksum.toBytes [] ⟨0, 0, 0⟩))
        (fun _ => false) false "").ok = false ∧
    (EnhancedDiskSectorCRC.verifySectorIntegrity lockedDisk "disk" "ledger"
        (some (ledgerHeader 0 1 0 ++ SectorChecksum.toBytes [] ⟨0, 0, 0⟩))
        (fun _ => false) false "").state.lastError =
      "Failed to read sector 0: Access denied. Please run the program with administrator privileges" ∧
    (DiskSectorCRC.verifySectorIntegrity lockedDisk "disk" "ledger"
        (some (ledgerHeader 0 1 0 ++ SectorChecksum.toBytes [] ⟨0, 0, 0⟩)) "").ok = false := by
  decide

/-! ## Writing a sector -/

theorem readable_seek (disk : Disk) (k : Nat) (h : disk.readable k = true) :
    disk.seek (toInt64 (k * SECTOR_SIZE % 2 ^ 64)) = true := by
  unfold Disk.readable DiskSectorCRC.readSector at h
  cases hd : disk.openError with
  | some e => rw [hd] at h; simp at h
  | none =>
    rw [hd] at h
    simp only at h
    by_cases hs : disk.seek (toInt64 (k * SECTOR_SIZE % 2 ^ 64)) = false
    · rw [if_pos hs] at h; simp at h
    · simpa using hs

/-- On a writer whose writes succeed, `writeSector` with a full sector of data, for a
sector the device lets one seek to, returns true, leaves `lastError_` alone and
stores the data. -/
theorem writeSector_faithful (w : Writer) (hw : w.faithful) (disk : Disk) (diskPath : String)
    (k : Nat) (data : List Byte) (lastError : String) (hlen : data.length = SECTOR_SIZE)
    (hseek : disk.seek (toInt64 (k * SECTOR_SIZE % 2 ^ 64)) = true) :
    DiskSectorCRC.writeSector w disk diskPath k data lastError =
      ⟨true, lastError, disk.store (sectorPosition k) data⟩ := by
  have h1 := (hw disk (k * SECTOR_SIZE % 2 ^ 64) data).1
  have h2 := (hw disk (k * SECTOR_SIZE % 2 ^ 64) data).2
  unfold DiskSectorCRC.writeSector
  simp only [hlen, ne_eq, not_true_eq_false, if_false, h1, hseek, Bool.true_eq_false, h2]
  simp [sectorPosition]

/-- The device after `writeSector` is the device before it or the one its
`WriteFile` call, made with a full sector of data, leaves. -/
theorem writeSector_disk (w : Writer) (disk : Disk) (diskPath : String) (k : Nat)
    (data : List Byte) (lastError : String) :
    (DiskSectorCRC.writeSector w disk diskPath k data lastError).disk = disk ∨
    (data.length = SECTOR_SIZE ∧
      (DiskSectorCRC.writeSector w disk diskPath k data lastError).disk =
        (w.write disk (sectorPosition k) data).2) := by
  unfold DiskSectorCRC.writeSector sectorPosition
  by_cases h1 : data.length ≠ SECTOR_SIZE
  · rw [if_pos h1]; exact Or.inl rfl
  · rw [if_neg h1]
    by_cases h2 : w.opens disk = false
    · rw [if_pos h2]; exact Or.inl rfl
    · rw [if_neg h2]
      simp only
      by_cases h3 : disk.seek (toInt64 (k * SECTOR_SIZE % 2 ^ 64)) = false
      · rw [if_pos h3]; exact Or.inl rfl
      · rw [if_neg h3]
        right
        refine ⟨not_not.1 h1, ?_⟩
        rcases hwr : w.write disk (k * SECTOR_SIZE % 2 ^ 64) data with ⟨res, disk2⟩
        cases res <;> rfl

theorem writeSector_confined (w : Writer) (hw : w.confined) (disk : Disk) (diskPath : String)
    (k : Nat) (data : List Byte) (lastError : String) :
    (DiskSectorCRC.writeSector w disk diskPath k data lastError).disk.openError =
      disk.openError ∧
    (DiskSectorCRC.writeSector w disk diskPath k data lastError).disk.seek = disk.seek ∧
    ∀ q, q ≠ sectorPosition k →
      (DiskSectorCRC.writeSector w disk diskPath k data lastError).disk.read q =
        disk.read q := by
  rcases writeSector_disk w disk diskPath k data lastError with h | ⟨_, h⟩
  · rw [h]; exact ⟨rfl, rfl, fun _ _ => rfl⟩
  · rw [h]; exact hw disk (sectorPosition k) data

theorem writeSector_reaches (w : Writer) (start disk : Disk) (diskPath : String) (k : Nat)
    (data : List Byte) (lastError : String) (h : w.Reaches start disk) :
    w.Reaches start (DiskSectorCRC.writeSector w disk diskPath k data lastError).disk := by
  rcases writeSector_disk w disk diskPath k data lastError with h2 | ⟨hlen, h2⟩
  · rw [h2]; exact h
  · rw [h2]; exact Writer.Reaches.write disk _ data hlen h

/-! ## One record of a repair -/

theorem repairRecord_unreadable (w : Writer) (diskPath : String) (ba : Bool) (backup : Disk)
    (bd : String) (r : SectorChecksum) (st : RepairState)
    (h : st.target.readable r.sectorNumber = false) :
    repairRecord w diskPath ba backup bd r st =
      (false,
        ⟨st.target,
         "Failed to read sector " ++ toString r.sectorNumber ++ ": " ++
           (DiskSectorCRC.readSector st.target diskPath r.sectorNumber st.lastError).lastError,
         st.repairedSectors, st.totalCorrupted, st.reads ++ [r.sectorNumber], st.writes,
         st.progress⟩) := by
  unfold repairRecord
  simp only [readSector_ok, h, if_true]

/-- A record for which `writeSector` is not called: at most the corrupted count
changes, and the scan goes on. -/
theorem repairRecord_skip (w : Writer) (diskPath : String) (ba : Bool) (backup : Disk)
    (bd : String) (r : SectorChecksum) (st : RepairState)
    (h : st.target.readable r.sectorNumber = true)
    (hr : repairable st.target backup ba r = false) :
    repairRecord w diskPath ba backup bd r st =
      (true,
        ⟨st.target, st.lastError, st.repairedSectors,
         st.totalCorrupted + (if mismatching st.target r = true then 1 else 0),
         st.reads ++ [r.sectorNumber], st.writes, st.progress⟩) := by
  unfold repairRecord
  simp only [readSector_ok, h, Bool.true_eq_false, if_false, readSector_buffer,
    readSector_lastError_of_ok _ _ _ _ h]
  unfold repairable at hr
  by_cases hm : DiskSectorCRC.calculateCRC32 (st.target.sectorData r.sectorNumber) = r.crc32
  · simp [mismatching, hm]
  · have hm2 : mismatching st.target r = true := by simp [mismatching, hm]
    simp only [hm2, Bool.true_and, Bool.and_eq_false_imp, decide_eq_false_iff_not,
      Bool.and_eq_true] at hr
    simp only [ne_eq, hm, not_false_eq_true, if_true]
    by_cases hba : ba = true
    · by_cases hb : backup.readable r.sectorNumber = true
      · have := hr ⟨hba, hb⟩
        simp [hba, hb, this, hm2, readSector_ok, readSector_buffer]
      · simp [hba, hb, hm2, readSector_ok]
    · simp [hba, hm2]

/-- A record for which `writeSector` is called: the call gets the data of the backup
sector, and the sector counts as repaired exactly when the call returns true. -/
theorem repairRecord_write (w : Writer) (diskPath : String) (ba : Bool) (backup : Disk)
    (bd : String) (r : SectorChecksum) (st : RepairState)
    (h : st.target.readable r.sectorNumber = true)
    (hr : repairable st.target backup ba r = true) :
    repairRecord w diskPath ba backup bd r st =
      (true,
        ⟨(DiskSectorCRC.writeSector w st.target diskPath r.sectorNumber
            (backup.sectorData r.sectorNumber) st.lastError).disk,
         (DiskSectorCRC.writeSector w st.target diskPath r.sectorNumber
            (backup.sectorData r.sectorNumber) st.lastError).lastError,
         st.repairedSectors +
           (if (DiskSectorCRC.writeSector w st.target diskPath r.sectorNumber
              (backup.sectorData r.sectorNumber) st.lastError).ok = true then 1 else 0),
         st.totalCorrupted + 1, st.reads ++ [r.sectorNumber],
         st.writes ++ [⟨r.sectorNumber, st.target.sectorData r.sectorNumber,
           backup.sectorData r.sectorNumber,
           (DiskSectorCRC.writeSector w st.target diskPath r.sectorNumber
              (backup.sectorData r.sectorNumber) st.lastError).ok⟩],
         st.progress⟩) := by
  unfold repairable at hr
  simp only [Bool.and_eq_true, decide_eq_true_eq, mismatching] at hr
  obtain ⟨⟨⟨hm, hba⟩, hb⟩, hc⟩ := hr
  unfold repairRecord
  simp only [readSector_ok, h, Bool.true_eq_false, if_false, readSector_buffer,
    readSector_lastError_of_ok _ _ _ _ h, hm, ne_eq, not_false_eq_true, if_true, hba, hb, hc]
  by_cases hw : (DiskSectorCRC.writeSector w st.target diskPath r.sectorNumber
      (backup.sectorData r.sectorNumber) st.lastError).ok = true
  · simp [hw]
  · simp [hw]

/-! ## The repair loops -/

/-- On a file that holds its records, the repair loop of the base class does what the
loop of the derived class does on the loaded records when it is never cancelled and
has no callback. -/
theorem baseRepairLoop_eq (w : Writer) (diskPath : String) (ba : Bool) (backup : Disk)
    (bd : String) (total : Nat) (n : Nat) (bytes : List Byte) (cs : List SectorChecksum)
    (i : Nat) (st : RepairState)
    (h : EnhancedDiskSectorCRC.readRecords n bytes = some cs) :
    DiskSectorCRC.repairLoop w diskPath ba backup bd n bytes st =
      EnhancedDiskSectorCRC.repairLoop w diskPath ba backup bd (fun _ => false) false total
        cs i st := by
  induction n generalizing bytes cs i st with
  | zero =>
    rw [EnhancedDiskSectorCRC.readRecords] at h
    rw [← Option.some.inj h]
    rfl
  | succ n ih =>
    rw [EnhancedDiskSectorCRC.readRecords] at h
    by_cases hlen : bytes.length < sizeofSectorChecksum
    · rw [if_pos hlen] at h
      exact absurd h (by simp)
    · rw [if_neg hlen] at h
      cases hr : EnhancedDiskSectorCRC.readRecords n (bytes.drop sizeofSectorChecksum) with
      | none => rw [hr] at h; exact absurd h (by simp)
      | some rest =>
        rw [hr] at h
        rw [← Option.some.inj h, DiskSectorCRC.repairLoop, if_neg hlen,
          EnhancedDiskSectorCRC.repairLoop]
        simp only [Bool.false_eq_true, if_false, false_and]
        cases hv : repairRecord w diskPath ba backup bd
            (SectorChecksum.ofBytes (bytes.take sizeofSectorChecksum)) st with
        | mk completed st1 =>
          cases completed with
          | false => rfl
          | true => exact ih _ _ (i + 1) _ hr

theorem baseRepair_of_loaded (w : Writer) (target : Disk) (diskPath checksumFile : String)
    (bytes : List Byte) (backupDiskPath : String) (backup : Disk) (lastError : String)
    (checksums : List SectorChecksum) (s n : Nat)
    (hload : EnhancedDiskSectorCRC.readChecksumFile checksumFile (some bytes) =
      LoadOutcome.loaded checksums s n) :
    DiskSectorCRC.repairSectorData w target diskPath checksumFile (some bytes) backupDiskPath
        backup lastError =
      ⟨Ending.returned,
       (EnhancedDiskSectorCRC.repairLoop w diskPath (!backupDiskPath.isEmpty) backup
          backupDiskPath (fun _ => false) false checksums.length checksums 0
          (RepairState.initial target lastError)).1 &&
        (decide (0 < (EnhancedDiskSectorCRC.repairLoop w diskPath (!backupDiskPath.isEmpty)
            backup backupDiskPath (fun _ => false) false checksums.length checksums 0
            (RepairState.initial target lastError)).2.repairedSectors) ||
         decide ((EnhancedDiskSectorCRC.repairLoop w diskPath (!backupDiskPath.isEmpty)
            backup backupDiskPath (fun _ => false) false checksums.length checksums 0
            (RepairState.initial target lastError)).2.totalCorrupted = 0)),
       (EnhancedDiskSectorCRC.repairLoop w diskPath (!backupDiskPath.isEmpty) backup
          backupDiskPath (fun _ => false) false checksums.length checksums 0
          (RepairState.initial target lastError)).2⟩ := by
  obtain ⟨h28, hm, hn, hr⟩ := readChecksumFile_loaded _ _ _ _ _ hload
  unfold DiskSectorCRC.repairSectorData
  simp only [h28, if_false, hm, ne_eq, not_true_eq_false, hn]
  rw [baseRepairLoop_eq w diskPath _ backup _ checksums.length n _ checksums 0 _ hr]

theorem enhancedRepair_of_loaded (w : Writer) (target : Disk) (diskPath checksumFile : String)
    (bytes : List Byte) (backupDiskPath : String) (backup : Disk) (cancelled : Nat → Bool)
    (cb : Bool) (lastError : String) (checksums : List SectorChecksum) (s n : Nat)
    (hload : EnhancedDiskSectorCRC.readChecksumFile checksumFile (some bytes) =
      LoadOutcome.loaded checksums s n) :
    EnhancedDiskSectorCRC.repairSectorData w target diskPath checksumFile (some bytes)
        backupDiskPath backup cancelled cb lastError =
      ⟨Ending.returned,
       (EnhancedDiskSectorCRC.repairLoop w diskPath (!backupDiskPath.isEmpty) backup
          backupDiskPath cancelled cb checksums.length checksums 0
          (RepairState.initial target lastError)).1 &&
        (decide (0 < (EnhancedDiskSectorCRC.repairLoop w diskPath (!backupDiskPath.isEmpty)
            backup backupDiskPath cancelled cb checksums.length checksums 0
            (RepairState.initial target lastError)).2.repairedSectors) ||
         decide ((EnhancedDiskSectorCRC.repairLoop w diskPath (!backupDiskPath.isEmpty)
            backup backupDiskPath cancelled cb checksums.length checksums 0
            (RepairState.initial target lastError)).2.totalCorrupted = 0)),
       (EnhancedDiskSectorCRC.repairLoop w diskPath (!backupDiskPath.isEmpty) backup
          backupDiskPath cancelled cb checksums.length checksums 0
          (RepairState.initial target lastError)).2⟩ := by
  unfold EnhancedDiskSectorCRC.repairSectorData
  rw [hload]

/-- A property of the variables that every record keeps, and that does not depend on
`lastError_` or on the progress calls, holds when the loop is left. -/
theorem enhancedRepairLoop_invariant (w : Writer) (diskPath : String) (ba : Bool)
    (backup : Disk) (bd : String) (cancelled : Nat → Bool) (cb : Bool) (total : Nat)
    (P : RepairState → Prop) (cs : List SectorChecksum)
    (hstep : ∀ r ∈ cs, ∀ st, P st → P (repairRecord w diskPath ba backup bd r st).2)
    (herr : ∀ st message, P st → P { st with lastError := message })
    (hprog : ∀ st calls, P st → P { st with progress := calls })
    (i : Nat) (st : RepairState) (h : P st) :
    P (EnhancedDiskSectorCRC.repairLoop w diskPath ba backup bd cancelled cb total cs i st).2 := by
  induction cs generalizing i st with
  | nil => exact h
  | cons r rest ih =>
    rw [EnhancedDiskSectorCRC.repairLoop]
    by_cases hc : cancelled i = true
    · rw [if_pos hc]; exact herr st _ h
    · rw [if_neg hc]
      have h1 := hstep r (List.mem_cons_self _ _) st h
      cases hv : repairRecord w diskPath ba backup bd r st with
      | mk completed st1 =>
        rw [hv] at h1
        cases completed with
        | false => exact h1
        | true =>
          exact ih (fun r2 hr2 => hstep r2 (List.mem_cons_of_mem _ hr2)) _ _ (hprog st1 _ h1)

/-- One record of a repair whose target sector can be read lets the scan go on and
adds the sector to the reads. -/
theorem repairRecord_readable (w : Writer) (diskPath : String) (ba : Bool) (backup : Disk)
    (bd : String) (r : SectorChecksum) (st : RepairState)
    (h : st.target.readable r.sectorNumber = true) :
    (repairRecord w diskPath ba backup bd r st).1 = true ∧
    (repairRecord w diskPath ba backup bd r st).2.reads = st.reads ++ [r.sectorNumber] ∧
    (repairRecord w diskPath ba backup bd r st).2.progress = st.progress := by
  cases hr : repairable st.target backup ba r with
  | false => rw [repairRecord_skip w diskPath ba backup bd r st h hr]; exact ⟨rfl, rfl, rfl⟩
  | true => rw [repairRecord_write w diskPath ba backup bd r st h hr]; exact ⟨rfl, rfl, rfl⟩

theorem repairRecord_reaches (w : Writer) (start : Disk) (diskPath : String) (ba : Bool)
    (backup : Disk) (bd : String) (r : SectorChecksum) (st : RepairState)
    (h : w.Reaches start st.target) :
    w.Reaches start (repairRecord w diskPath ba backup bd r st).2.target := by
  cases hread : st.target.readable r.sectorNumber with
  | false => rw [repairRecord_unreadable w diskPath ba backup bd r st hread]; exact h
  | true =>
    cases hr : repairable st.target backup ba r with
    | false => rw [repairRecord_skip w diskPath ba backup bd r st hread hr]; exact h
    | true =>
      rw [repairRecord_write w diskPath ba backup bd r st hread hr]
      exact writeSector_reaches w start _ _ _ _ _ h

/-- When the listed sectors of the target can be read whatever the writes have done
to it, and no cancellation is observed, the loop visits every record. -/
theorem enhancedRepairLoop_completes (w : Writer) (start : Disk) (diskPath : String)
    (ba : Bool) (backup : Disk) (bd : String) (cancelled : Nat → Bool) (cb : Bool)
    (total : Nat) (cs : List SectorChecksum) (i : Nat) (st : RepairState)
    (hread : ∀ d, w.Reaches start d → ∀ r ∈ cs, d.readable r.sectorNumber = true)
    (hcancel : ∀ j < cs.length, cancelled (i + j) = false)
    (h : w.Reaches start st.target) :
    (EnhancedDiskSectorCRC.repairLoop w diskPath ba backup bd cancelled cb total cs i st).1 =
      true ∧
    (EnhancedDiskSectorCRC.repairLoop w diskPath ba backup bd cancelled cb total cs i
      st).2.reads = st.reads ++ cs.map (fun r => r.sectorNumber) ∧
    (EnhancedDiskSectorCRC.repairLoop w diskPath ba backup bd cancelled cb total cs i
      st).2.progress = st.progress ++ progressCalls cb total i cs.length := by
  induction cs generalizing i st with
  | nil => simp [EnhancedDiskSectorCRC.repairLoop, progressCalls_zero]
  | cons r rest ih =>
    have hc0 : cancelled i = false := by simpa using hcancel 0 (by simp)
    have hcancel2 : ∀ j < rest.length, cancelled (i + 1 + j) = false := by
      intro j hj
      have := hcancel (j + 1) (by simp; omega)
      rwa [show i + (j + 1) = i + 1 + j by omega] at this
    have hr0 := hread st.target h r (List.mem_cons_self _ _)
    obtain ⟨h1, h2, h3⟩ := repairRecord_readable w diskPath ba backup bd r st hr0
    have h4 := repairRecord_reaches w start diskPath ba backup bd r st h
    rw [EnhancedDiskSectorCRC.repairLoop, if_neg (by simp [hc0])]
    cases hv : repairRecord w diskPath ba backup bd r st with
    | mk completed st1 =>
      rw [hv] at h1 h2 h3 h4
      simp only at h1 h2 h3 h4
      subst h1
      simp only
      obtain ⟨g1, g2, g3⟩ := ih (i + 1)
        { st1 with
          progress :=
            if cb = true ∧ (i + 1) % 100 = 0 then
              st1.progress ++ [(toInt32 (i + 1), toInt32 total)]
            else st1.progress }
        (fun d hd r2 hr2 => hread d hd r2 (List.mem_cons_of_mem _ hr2)) hcancel2 h4
      refine ⟨g1, ?_, ?_⟩
      · rw [g2, h2]; simp
      · rw [g3, h3, List.length_cons, progressCalls_succ]
        by_cases hp : cb = true ∧ (i + 1) % 100 = 0
        · simp [hp]
        · simp [hp]

/-- The counters of a repair against its calls of `writeSector`: the repaired count
is the number of calls that returned true, and every call was made for a sector
counted as corrupted. -/
theorem enhancedRepairLoop_counts (w : Writer) (diskPath : String) (ba : Bool) (backup : Disk)
    (bd : String) (cancelled : Nat → Bool) (cb : Bool) (total : Nat)
    (cs : List SectorChecksum) (i : Nat) (target : Disk) (lastError : String) :
    (EnhancedDiskSectorCRC.repairLoop w diskPath ba backup bd cancelled cb total cs i
        (RepairState.initial target lastError)).2.repairedSectors =
      ((EnhancedDiskSectorCRC.repairLoop w diskPath ba backup bd cancelled cb total cs i
        (RepairState.initial target lastError)).2.writes.filter (fun e => e.ok)).length ∧
    (EnhancedDiskSectorCRC.repairLoop w diskPath ba backup bd cancelled cb total cs i
        (RepairState.initial target lastError)).2.writes.length ≤
      (EnhancedDiskSectorCRC.repairLoop w diskPath ba backup bd cancelled cb total cs i
        (RepairState.initial target lastError)).2.totalCorrupted := by
  apply enhancedRepairLoop_invariant w diskPath ba backup bd cancelled cb total
    (fun st => st.repairedSectors = (st.writes.filter (fun e => e.ok)).length ∧
      st.writes.length ≤ st.totalCorrupted)
  · intro r _ st hst
    obtain ⟨h1, h2⟩ := hst
    cases hread : st.target.readable r.sectorNumber with
    | false =>
      rw [repairRecord_unreadable w diskPath ba backup bd r st hread]
      exact ⟨h1, h2⟩
    | true =>
      cases hr : repairable st.target backup ba r with
      | false =>
        rw [repairRecord_skip w diskPath ba backup bd r st hread hr]
        exact ⟨h1, Nat.le_trans h2 (Nat.le_add_right _ _)⟩
      | true =>
        rw [repairRecord_write w diskPath ba backup bd r st hread hr]
        simp only [List.filter_append, List.length_append, List.length_cons, List.length_nil]
        refine ⟨?_, by omega⟩
        by_cases hok : (DiskSectorCRC.writeSector w st.target diskPath r.sectorNumber
            (backup.sectorData r.sectorNumber) st.lastError).ok = true
        · simp [hok, h1]
        · simp [hok, h1]
  · intro st _ h; exact h
  · intro st _ h; exact h
  · exact ⟨rfl, Nat.le_refl _⟩

theorem lossyWriter_reaches (start d : Disk) (h : lossyWriter.Reaches start d) : d = start := by
  induction h with
  | start => rfl
  | write disk position data _ _ ih => exact ih

/-! ## Result of the sequential repair -/

/-- On a ledger that loads, when the listed sectors of the target can be read whatever
the writes of the run have done to it and no cancellation is observed, a sequential
repair of either class returns after having visited every record, with the return
value `repairedSectors > 0 || totalCorrupted == 0`. -/
theorem repairSectorData_completes (w : Writer) (target backup : Disk)
    (diskPath checksumFile backupDiskPath : String) (bytes : List Byte)
    (checksums : List SectorChecksum) (s n : Nat) (cancelled : Nat → Bool)
    (hasCallback : Bool) (lastError : String)
    (hload : EnhancedDiskSectorCRC.readChecksumFile checksumFile (some bytes) =
      LoadOutcome.loaded checksums s n)
    (hcancel : ∀ i, cancelled i = false)
    (hread : ∀ d, w.Reaches target d → ∀ r ∈ checksums, d.readable r.sectorNumber = true)
    (res : RepairResult)
    (hres : res = DiskSectorCRC.repairSectorData w target diskPath checksumFile (some bytes)
          backupDiskPath backup lastError ∨
       res = EnhancedDiskSectorCRC.repairSectorData w target diskPath checksumFile (some bytes)
          backupDiskPath backup cancelled hasCallback lastError) :
    res.ending = Ending.returned ∧
    res.state.reads = checksums.map (fun r => r.sectorNumber) ∧
    res.ok = decide (0 < res.state.repairedSectors ∨ res.state.totalCorrupted = 0) ∧
    res.state.repairedSectors = (res.state.writes.filter (fun e => e.ok)).length ∧
    res.state.writes.length ≤ res.state.totalCorrupted := by
  have key : ∀ (cancelled2 : Nat → Bool) (cb : Bool), (∀ i, cancelled2 i = false) →
      ∀ res : RepairResult,
      res = ⟨Ending.returned,
       (EnhancedDiskSectorCRC.repairLoop w diskPath (!backupDiskPath.isEmpty) backup
          backupDiskPath cancelled2 cb checksums.length checksums 0
          (RepairState.initial target lastError)).1 &&
        (decide (0 < (EnhancedDiskSectorCRC.repairLoop w diskPath (!backupDiskPath.isEmpty)
            backup backupDiskPath cancelled2 cb checksums.length checksums 0
            (RepairState.initial target lastError)).2.repairedSectors) ||
         decide ((EnhancedDiskSectorCRC.repairLoop w diskPath (!backupDiskPath.isEmpty)
            backup backupDiskPath cancelled2 cb checksums.length checksums 0
            (RepairState.initial target lastError)).2.totalCorrupted = 0)),
       (EnhancedDiskSectorCRC.repairLoop w diskPath (!backupDiskPath.isEmpty) backup
          backupDiskPath cancelled2 cb checksums.length checksums 0
          (RepairState.initial target lastError)).2⟩ →
      res.ending = Ending.returned ∧
      res.state.reads = checksums.map (fun r => r.sectorNumber) ∧
      res.ok = decide (0 < res.state.repairedSectors ∨ res.state.totalCorrupted = 0) ∧
      res.state.repairedSectors = (res.state.writes.filter (fun e => e.ok)).length ∧
      res.state.writes.length ≤ res.state.totalCorrupted := by
    intro cancelled2 cb hc res hres
    obtain ⟨h1, h2, _⟩ := enhancedRepairLoop_completes w target diskPath
      (!backupDiskPath.isEmpty) backup backupDiskPath cancelled2 cb checksums.length checksums 0
      (RepairState.initial target lastError) hread (fun j _ => hc (0 + j))
      Writer.Reaches.start
    obtain ⟨h3, h4⟩ := enhancedRepairLoop_counts w diskPath (!backupDiskPath.isEmpty) backup
      backupDiskPath cancelled2 cb checksums.length checksums 0 target lastError
    refine ⟨by rw [hres], ?_, ?_, ?_, ?_⟩
    · rw [hres]
      simpa [RepairState.initial] using h2
    · rw [hres]
      simp only [h1, Bool.true_and, Bool.decide_or]
    · rw [hres]; exact h3
    · rw [hres]; exact h4
  rcases hres with h | h
  · rw [baseRepair_of_loaded w target diskPath checksumFile bytes backupDiskPath backup
      lastError checksums s n hload] at h
    exact key (fun _ => false) false (fun _ => rfl) res h
  · rw [enhancedRepair_of_loaded w target diskPath checksumFile bytes backupDiskPath backup
      cancelled hasCallback lastError checksums s n hload] at h
    exact key cancelled hasCallback hcancel res h

/-! ## Ledger files, writers and devices of the examples -/

theorem readRecords_records (cs : List SectorChecksum) (rest : List Byte)
    (hcs : ∀ r ∈ cs, r.sectorNumber < 2 ^ 64 ∧ r.crc32 < 2 ^ 32 ∧ r.timestamp < 2 ^ 64) :
    EnhancedDiskSectorCRC.readRecords cs.length
        ((cs.map (SectorChecksum.toBytes [])).flatten ++ rest) = some cs := by
  induction cs with
  | nil => rfl
  | cons r tail ih =>
    have hlen : (r.toBytes []).length = sizeofSectorChecksum := by
      rw [toBytes_length, sizeofSectorChecksum_eq]
    obtain ⟨h1, h2, h3⟩ := hcs r (List.mem_cons_self _ _)
    rw [List.map_cons, List.flatten_cons, List.length_cons, EnhancedDiskSectorCRC.readRecords,
      List.append_assoc]
    rw [if_neg (by rw [List.length_append, hlen]; omega), List.drop_left' hlen,
      ih (fun r2 hr2 => hcs r2 (List.mem_cons_of_mem _ hr2)), List.take_left' hlen,
      ofBytes_toBytes, Nat.mod_eq_of_lt h1, Nat.mod_eq_of_lt h2, Nat.mod_eq_of_lt h3]

/-- A ledger file whose fields fit their widths loads with the records it was built
from. -/
theorem readChecksumFile_ledgerFile (checksumFile : String) (s t : Nat)
    (cs : List SectorChecksum) (hs : s < 2 ^ 64) (hlen : cs.length ≤ 2 ^ 32)
    (hcs : ∀ r ∈ cs, r.sectorNumber < 2 ^ 64 ∧ r.crc32 < 2 ^ 32 ∧ r.timestamp < 2 ^ 64) :
    EnhancedDiskSectorCRC.readChecksumFile checksumFile (some (ledgerFile s t cs)) =
      LoadOutcome.loaded cs s cs.length := by
  have h := readRecords_records cs [] hcs
  rw [List.append_nil] at h
  unfold ledgerFile
  rw [readChecksumFile_of_header checksumFile s cs.length t _ hs (by omega),
    if_neg (by unfold vector_max_size; rw [sizeofSectorChecksum_eq]; omega), h]

theorem writeSector_lossy (disk : Disk) (diskPath : String) (k : Nat) (data : List Byte)
    (lastError : String) (hlen : data.length = SECTOR_SIZE)
    (hseek : disk.seek (toInt64 (k * SECTOR_SIZE % 2 ^ 64)) = true) :
    DiskSectorCRC.writeSector lossyWriter disk diskPath k data lastError =
      ⟨true, lastError, disk⟩ := by
  unfold DiskSectorCRC.writeSector
  simp only [hlen, ne_eq, not_true_eq_false, if_false, hseek, Bool.true_eq_false, lossyWriter]
  simp

theorem writeSector_failing (position : Nat) (disk : Disk) (diskPath : String) (k : Nat)
    (data : List Byte) (lastError : String) (hlen : data.length = SECTOR_SIZE)
    (hseek : disk.seek (toInt64 (k * SECTOR_SIZE % 2 ^ 64)) = true) :
    DiskSectorCRC.writeSector (failingWriter position) disk diskPath k data lastError =
      if sectorPosition k = position then
        ⟨false, "Failed to write sector: " ++ toString k, disk⟩
      else ⟨true, lastError, disk.store (sectorPosition k) data⟩ := by
  unfold DiskSectorCRC.writeSector sectorPosition
  simp only [hlen, ne_eq, not_true_eq_false, if_false, hseek, Bool.true_eq_false, failingWriter]
  by_cases hp : k * SECTOR_SIZE % 2 ^ 64 = position
  · simp only [hp, if_true]
  · simp only [hp, if_false]
    simp

/-- One iteration of the repair loop that is not cancelled and has no callback. -/
theorem enhancedRepairLoop_cons (w : Writer) (diskPath : String) (ba : Bool) (backup : Disk)
    (bd : String) (total : Nat) (r : SectorChecksum) (rest : List SectorChecksum) (i : Nat)
    (st st1 : RepairState)
    (h : repairRecord w diskPath ba backup bd r st = (true, st1)) :
    EnhancedDiskSectorCRC.repairLoop w diskPath ba backup bd (fun _ => false) false total
        (r :: rest) i st =
      EnhancedDiskSectorCRC.repairLoop w diskPath ba backup bd (fun _ => false) false total
        rest (i + 1) st1 := by
  rw [EnhancedDiskSectorCRC.repairLoop, if_neg (by simp), h]
  simp

theorem repairable_of_mismatch (target backup : Disk) (r : SectorChecksum)
    (h1 : DiskSectorCRC.calculateCRC32 (target.sectorData r.sectorNumber) ≠ r.crc32)
    (h2 : backup.readable r.sectorNumber = true)
    (h3 : DiskSectorCRC.calculateCRC32 (backup.sectorData r.sectorNumber) = r.crc32) :
    repairable target backup true r = true := by
  simp [repairable, mismatching, h1, h2, h3]

theorem repairable_of_match (target backup : Disk) (ba : Bool) (r : SectorChecksum)
    (h1 : DiskSectorCRC.calculateCRC32 (target.sectorData r.sectorNumber) = r.crc32) :
    repairable target backup ba r = false := by
  simp [repairable, mismatching, h1]

theorem mismatching_of_ne (disk : Disk) (r : SectorChecksum)
    (h : DiskSectorCRC.calculateCRC32 (disk.sectorData r.sectorNumber) ≠ r.crc32) :
    mismatching disk r = true := by
  simp [mismatching, h]

theorem mismatching_of_eq (disk : Disk) (r : SectorChecksum)
    (h : DiskSectorCRC.calculateCRC32 (disk.sectorData r.sectorNumber) = r.crc32) :
    mismatching disk r = false := by
  simp [mismatching, h]

/-- The zero-filled sector and the sector marked with a 1 in its first byte have
different checksums: they differ in one byte. -/
theorem calculateCRC32_marked_ne :
    DiskSectorCRC.calculateCRC32 (List.replicate 512 0) ≠
      DiskSectorCRC.calculateCRC32 (markedSector 1) :=
  calculateCRC32_ne_of_splice [] (List.replicate 511 0) 0 1 (by decide)

theorem markedSector_length (b : Byte) : (markedSector b).length = SECTOR_SIZE := by
  simp [markedSector, SECTOR_SIZE]

theorem readSector_store_ne (disk : Disk) (diskPath : String) (position k : Nat)
    (data : List Byte) (lastError : String) (h : sectorPosition k ≠ position) :
    DiskSectorCRC.readSector (disk.store position data) diskPath k lastError =
      DiskSectorCRC.readSector disk diskPath k lastError := by
  unfold sectorPosition at h
  unfold DiskSectorCRC.readSector Disk.store
  simp only [if_neg h]

/-- Storing a full sector of data keeps every readable sector readable. -/
theorem store_readable (disk : Disk) (position : Nat) (data : List Byte)
    (hlen : data.length = SECTOR_SIZE) (k : Nat) (h : disk.readable k = true) :
    (disk.store position data).readable k = true := by
  by_cases hp : sectorPosition k = position
  · subst hp
    have h2 := congrArg ReadSectorResult.ok (readSector_store_same disk "" k data "" h)
    simp only [hlen, beq_self_eq_true] at h2
    exact h2
  · unfold Disk.readable
    rw [readSector_store_ne disk "" position k data "" hp]
    exact h

theorem failingWriter_reaches (position : Nat) (start d : Disk)
    (h : (failingWriter position).Reaches start d) (k : Nat) (hk : start.readable k = true) :
    d.readable k = true := by
  induction h with
  | start => exact hk
  | write disk p data hlen _ ih =>
    by_cases hp : p = position
    · simpa [failingWriter, hp] using ih
    · simp only [failingWriter, hp, if_false]
      exact store_readable disk p data hlen k ih

/-- Two sector numbers with the same byte position name the same bytes. -/
theorem readSector_same_position (disk : Disk) (k k2 : Nat)
    (h : sectorPosition k = sectorPosition k2) :
    disk.readable k = disk.readable k2 ∧ disk.sectorData k = disk.sectorData k2 := by
  unfold sectorPosition at h
  unfold Disk.readable Disk.sectorData DiskSectorCRC.readSector
  rw [h]
  cases disk.openError with
  | some e => exact ⟨rfl, rfl⟩
  | none =>
    simp only
    split
    · exact ⟨rfl, rfl⟩
    · cases disk.read (k2 * SECTOR_SIZE % 2 ^ 64) <;> exact ⟨rfl, rfl⟩

/-- What a device returns for a sector after a full sector of data has been stored
at its byte position. -/
theorem store_sectorData (disk : Disk) (k : Nat) (data : List Byte)
    (h : disk.readable k = true) :
    (disk.store (sectorPosition k) data).sectorData k = data := by
  have h2 := congrArg ReadSectorResult.buffer (readSector_store_same disk "" k data "" h)
  exact h2

/-- A record whose sector does not match, with good backup data, on a writer whose
writes succeed: the data is stored and the sector counted as repaired. -/
theorem repairRecord_restores (w : Writer) (hw : w.faithful) (diskPath : String)
    (backup : Disk) (bd : String) (r : SectorChecksum) (st : RepairState)
    (h : st.target.readable r.sectorNumber = true)
    (h1 : DiskSectorCRC.calculateCRC32 (st.target.sectorData r.sectorNumber) ≠ r.crc32)
    (h2 : backup.readable r.sectorNumber = true)
    (h3 : DiskSectorCRC.calculateCRC32 (backup.sectorData r.sectorNumber) = r.crc32) :
    repairRecord w diskPath true backup bd r st =
      (true,
        ⟨st.target.store (sectorPosition r.sectorNumber) (backup.sectorData r.sectorNumber),
         st.lastError, st.repairedSectors + 1, st.totalCorrupted + 1,
         st.reads ++ [r.sectorNumber],
         st.writes ++ [⟨r.sectorNumber, st.target.sectorData r.sectorNumber,
           backup.sectorData r.sectorNumber, true⟩],
         st.progress⟩) := by
  rw [repairRecord_write w diskPath true backup bd r st h
      (repairable_of_mismatch st.target backup r h1 h2 h3),
    writeSector_faithful w hw st.target diskPath r.sectorNumber _ st.lastError
      (readable_sectorData_length backup _ h2) (readable_seek _ _ h)]
  simp

/-- The same record on a writer that reports success and stores nothing: the sector
is counted as repaired and the target is as before. -/
theorem repairRecord_lost (diskPath : String) (backup : Disk) (bd : String)
    (r : SectorChecksum) (st : RepairState)
    (h : st.target.readable r.sectorNumber = true)
    (h1 : DiskSectorCRC.calculateCRC32 (st.target.sectorData r.sectorNumber) ≠ r.crc32)
    (h2 : backup.readable r.sectorNumber = true)
    (h3 : DiskSectorCRC.calculateCRC32 (backup.sectorData r.sectorNumber) = r.crc32) :
    repairRecord lossyWriter diskPath true backup bd r st =
      (true,
        ⟨st.target, st.lastError, st.repairedSectors + 1, st.totalCorrupted + 1,
         st.reads ++ [r.sectorNumber],
         st.writes ++ [⟨r.sectorNumber, st.target.sectorData r.sectorNumber,
           backup.sectorData r.sectorNumber, true⟩],
         st.progress⟩) := by
  rw [repairRecord_write lossyWriter diskPath true backup bd r st h
      (repairable_of_mismatch st.target backup r h1 h2 h3),
    writeSector_lossy st.target diskPath r.sectorNumber _ st.lastError
      (readable_sectorData_length backup _ h2) (readable_seek _ _ h)]
  simp

/-- The same record on a writer whose `WriteFile` fails at the position of the
sector: `writeSector` sets its message, nothing is counted as repaired, and the scan
goes on. -/
theorem repairRecord_refused (diskPath : String) (backup : Disk) (bd : String)
    (r : SectorChecksum) (st : RepairState)
    (h : st.target.readable r.sectorNumber = true)
    (h1 : DiskSectorCRC.calculateCRC32 (st.target.sectorData r.sectorNumber) ≠ r.crc32)
    (h2 : backup.readable r.sectorNumber = true)
    (h3 : DiskSectorCRC.calculateCRC32 (backup.sectorData r.sectorNumber) = r.crc32) :
    repairRecord (failingWriter (sectorPosition r.sectorNumber)) diskPath true backup bd r st =
      (true,
        ⟨st.target, "Failed to write sector: " ++ toString r.sectorNumber,
         st.repairedSectors, st.totalCorrupted + 1, st.reads ++ [r.sectorNumber],
         st.writes ++ [⟨r.sectorNumber, st.target.sectorData r.sectorNumber,
           backup.sectorData r.sectorNumber, false⟩],
         st.progress⟩) := by
  rw [repairRecord_write _ diskPath true backup bd r st h
      (repairable_of_mismatch st.target backup r h1 h2 h3),
    writeSector_failing _ st.target diskPath r.sectorNumber _ st.lastError
      (readable_sectorData_length backup _ h2) (readable_seek _ _ h), if_pos rfl]
  simp

/-- A record whose sector matches: nothing changes but the reads. -/
theorem repairRecord_match (w : Writer) (diskPath : String) (ba : Bool) (backup : Disk)
    (bd : String) (r : SectorChecksum) (st : RepairState)
    (h : st.target.readable r.sectorNumber = true)
    (h1 : DiskSectorCRC.calculateCRC32 (st.target.sectorData r.sectorNumber) = r.crc32) :
    repairRecord w diskPath ba backup bd r st =
      (true,
        ⟨st.target, st.lastError, st.repairedSectors, st.totalCorrupted,
         st.reads ++ [r.sectorNumber], st.writes, st.progress⟩) := by
  rw [repairRecord_skip w diskPath ba backup bd r st h
    (repairable_of_match st.target backup ba r h1), mismatching_of_eq _ _ h1]
  simp

/-- What the sequential repairs return once the loop over the loaded records is
known to have run through. -/
theorem repairSectorData_of_run (w : Writer) (target backup : Disk)
    (diskPath checksumFile backupDiskPath : String) (bytes : List Byte)
    (checksums : List SectorChecksum) (s n : Nat) (lastError : String) (st : RepairState)
    (hload : EnhancedDiskSectorCRC.readChecksumFile checksumFile (some bytes) =
      LoadOutcome.loaded checksums s n)
    (hpath : backupDiskPath.isEmpty = false)
    (hrun : EnhancedDiskSectorCRC.repairLoop w diskPath true backup backupDiskPath
      (fun _ => false) false checksums.length checksums 0
      (RepairState.initial target lastError) = (true, st)) :
    DiskSectorCRC.repairSectorData w target diskPath checksumFile (some bytes) backupDiskPath
        backup lastError =
      ⟨Ending.returned, decide (0 < st.repairedSectors) || decide (st.totalCorrupted = 0), st⟩ ∧
    EnhancedDiskSectorCRC.repairSectorData w target diskPath checksumFile (some bytes)
        backupDiskPath backup (fun _ => false) false lastError =
      ⟨Ending.returned, decide (0 < st.repairedSectors) || decide (st.totalCorrupted = 0),
        st⟩ := by
  have hba : (!backupDiskPath.isEmpty) = true := by rw [hpath]; rfl
  rw [baseRepair_of_loaded w target diskPath checksumFile bytes backupDiskPath backup
      lastError checksums s n hload,
    enhancedRepair_of_loaded w target diskPath checksumFile bytes backupDiskPath backup
      (fun _ => false) false lastError checksums s n hload, hba, hrun]
  exact ⟨rfl, rfl⟩

theorem store_sectorData_ne (disk : Disk) (position k : Nat) (data : List Byte)
    (h : sectorPosition k ≠ position) :
    (disk.store position data).sectorData k = disk.sectorData k := by
  unfold Disk.sectorData
  rw [readSector_store_ne disk "" position k data "" h]

/-- A record whose sector does not match, with good backup data, for which
`writeSector` returns true and stores the data. -/
theorem repairRecord_written (w : Writer) (diskPath : String) (backup : Disk) (bd : String)
    (r : SectorChecksum) (st : RepairState)
    (h : st.target.readable r.sectorNumber = true)
    (h1 : DiskSectorCRC.calculateCRC32 (st.target.sectorData r.sectorNumber) ≠ r.crc32)
    (h2 : backup.readable r.sectorNumber = true)
    (h3 : DiskSectorCRC.calculateCRC32 (backup.sectorData r.sectorNumber) = r.crc32)
    (h4 : DiskSectorCRC.writeSector w st.target diskPath r.sectorNumber
        (backup.sectorData r.sectorNumber) st.lastError =
      ⟨true, st.lastError,
        st.target.store (sectorPosition r.sectorNumber) (backup.sectorData r.sectorNumber)⟩) :
    repairRecord w diskPath true backup bd r st =
      (true,
        ⟨st.target.store (sectorPosition r.sectorNumber) (backup.sectorData r.sectorNumber),
         st.lastError, st.repairedSectors + 1, st.totalCorrupted + 1,
         st.reads ++ [r.sectorNumber],
         st.writes ++ [⟨r.sectorNumber, st.target.sectorData r.sectorNumber,
           backup.sectorData r.sectorNumber, true⟩],
         st.progress⟩) := by
  rw [repairRecord_write w diskPath true backup bd r st h
      (repairable_of_mismatch st.target backup r h1 h2 h3), h4]
  simp

/-- A worker of the parallel repair passes over a record whose sector matches. -/
theorem repairWorker_match (w : Writer) (diskPath : String) (ba : Bool) (backup : Disk)
    (bd : String) (cancelled : Nat → Bool) (r : SectorChecksum) (rest : List SectorChecksum)
    (i : Nat) (target : Disk) (repairedCount : Nat)
    (hc : cancelled i = false) (h : target.readable r.sectorNumber = true)
    (h1 : DiskSectorCRC.calculateCRC32 (target.sectorData r.sectorNumber) = r.crc32) :
    EnhancedDiskSectorCRC.repairWorker w diskPath ba backup bd cancelled (r :: rest) i
        (target, repairedCount) =
      EnhancedDiskSectorCRC.repairWorker w diskPath ba backup bd cancelled rest (i + 1)
        (target, repairedCount) := by
  rw [EnhancedDiskSectorCRC.repairWorker]
  simp only [hc, Bool.false_eq_true, if_false, readSector_ok, h, Bool.true_eq_false,
    readSector_buffer, h1, ne_eq, not_true_eq_false, false_and]

/-- With one thread `repairDataParallel` runs one worker over all the loaded
records. -/
theorem repairDataParallel_one_thread (w : Writer) (target backup : Disk)
    (diskPath checksumFile backupDiskPath : String) (bytes : List Byte)
    (checksums : List SectorChecksum) (s n : Nat) (cancelled : Nat → Nat → Bool)
    (cancelledAtJoin : Bool) (hardwareConcurrency : Nat)
    (hload : EnhancedDiskSectorCRC.readChecksumFile checksumFile (some bytes) =
      LoadOutcome.loaded checksums s n) :
    EnhancedDiskSectorCRC.repairDataParallel w target diskPath checksumFile (some bytes)
        backupDiskPath backup cancelled cancelledAtJoin hardwareConcurrency 1 =
      ⟨Ending.returned,
       decide (0 < (EnhancedDiskSectorCRC.repairWorker w diskPath (!backupDiskPath.isEmpty)
          backup backupDiskPath (cancelled 0) checksums 0 (target, 0)).2) && !cancelledAtJoin,
       (EnhancedDiskSectorCRC.repairWorker w diskPath (!backupDiskPath.isEmpty)
          backup backupDiskPath (cancelled 0) checksums 0 (target, 0)).2,
       (EnhancedDiskSectorCRC.repairWorker w diskPath (!backupDiskPath.isEmpty)
          backup backupDiskPath (cancelled 0) checksums 0 (target, 0)).1⟩ := by
  have ht : EnhancedDiskSectorCRC.workerThreadCount 1 hardwareConcurrency = 1 := rfl
  have hs : checksumSlices (checksums.length / 1) (checksums.length % 1) 1 0 checksums =
      [checksums] := by
    simp [checksumSlices, Nat.mod_one]
  unfold EnhancedDiskSectorCRC.repairDataParallel
  rw [hload]
  simp only [ht, hs]
  rfl

/-! ## Parallel repair -/

/-- C18 (evaluation at the failing inputs): with one thread, no cancellation, a
writer that stores what it is given and a backup device, `repairDataParallel`
returns false for the ledger without records, and false for the one-record ledger
whose sector 0 matches, where the sequential `repairSectorData` of both classes
returns true for the same ledger, target and backup. -/
theorem repairDataParallel_false_without_corruption :
    EnhancedDiskSectorCRC.readChecksumFile "ledger" (some (ledgerFile 0 0 [])) =
      LoadOutcome.loaded [] 0 0 ∧
    (EnhancedDiskSectorCRC.repairDataParallel faithfulWriter (zeroImage 1) "disk" "ledger"
        (some (ledgerFile 0 0 [])) "backup" (zeroImage 1) (fun _ _ => false) false 8 1).ok =
      false ∧
    (EnhancedDiskSectorCRC.repairSectorData faithfulWriter (zeroImage 1) "disk" "ledger"
        (some (ledgerFile 0 0 [])) "backup" (zeroImage 1) (fun _ => false) false "").ok =
      true ∧
    (DiskSectorCRC.repairSectorData faithfulWriter (zeroImage 1) "disk" "ledger"
        (some (ledgerFile 0 0 [])) "backup" (zeroImage 1) "").ok = true ∧
    mismatches (zeroImage 1)
        [⟨0, DiskSectorCRC.calculateCRC32 ((zeroImage 1).sectorData 0), 0⟩] = [] ∧
    (EnhancedDiskSectorCRC.repairDataParallel faithfulWriter (zeroImage 1) "disk" "ledger"
        (some (ledgerFile 0 0
          [⟨0, DiskSectorCRC.calculateCRC32 ((zeroImage 1).sectorData 0), 0⟩]))
        "backup" (zeroImage 1) (fun _ _ => false) false 8 1).ok = false ∧
    (EnhancedDiskSectorCRC.repairSectorData faithfulWriter (zeroImage 1) "disk" "ledger"
        (some (ledgerFile 0 0
          [⟨0, DiskSectorCRC.calculateCRC32 ((zeroImage 1).sectorData 0), 0⟩]))
        "backup" (zeroImage 1) (fun _ => false) false "").ok = true ∧
    (DiskSectorCRC.repairSectorData faithfulWriter (zeroImage 1) "disk" "ledger"
        (some (ledgerFile 0 0
          [⟨0, DiskSectorCRC.calculateCRC32 ((zeroImage 1).sectorData 0), 0⟩]))
        "backup" (zeroImage 1) "").ok = true := by
  have hT1 := (zeroImage_readSector 1 0 (by omega) (by norm_num)).1
  have hload := readChecksumFile_ledgerFile "ledger" 0 0
    [⟨0, DiskSectorCRC.calculateCRC32 ((zeroImage 1).sectorData 0), 0⟩] (by norm_num)
    (by simp)
    (fun r hr => by
      rw [List.mem_singleton.1 hr]
      exact ⟨by norm_num, calculateCRC32_lt _, by norm_num⟩)
  obtain ⟨hb, he⟩ := repairSectorData_of_run faithfulWriter (zeroImage 1) (zeroImage 1) "disk"
    "ledger" "backup" _ _ 0 _ "" _ hload (by decide)
    (enhancedRepairLoop_cons _ _ _ _ _ _ _ [] 0 _ _
      (repairRecord_match faithfulWriter "disk" true (zeroImage 1) "backup"
        ⟨0, DiskSectorCRC.calculateCRC32 ((zeroImage 1).sectorData 0), 0⟩
        (RepairState.initial (zeroImage 1) "") hT1 rfl))
  refine ⟨by decide, by decide, by decide, by decide, ?_, ?_, ?_, ?_⟩
  · rw [mismatches_cons, mismatching_of_eq _ _ rfl]
    rfl
  · rw [repairDataParallel_one_thread faithfulWriter (zeroImage 1) (zeroImage 1) "disk"
      "ledger" "backup" _ _ 0 _ (fun _ _ => false) false 8 hload,
      repairWorker_match faithfulWriter "disk" _ (zeroImage 1) "backup" (fun _ => false)
        ⟨0, DiskSectorCRC.calculateCRC32 ((zeroImage 1).sectorData 0), 0⟩ [] 0 (zeroImage 1) 0
        rfl hT1 rfl]
    rfl
  · rw [he]; rfl
  · rw [hb]; rfl

/-! ## Repair from a backup that holds the recorded data -/

theorem mismatching_congr (d d2 : Disk) (r : SectorChecksum)
    (h : DiskSectorCRC.readSector d2 "" r.sectorNumber "" =
      DiskSectorCRC.readSector d "" r.sectorNumber "") :
    d2.readable r.sectorNumber = d.readable r.sectorNumber ∧
    d2.sectorData r.sectorNumber = d.sectorData r.sectorNumber ∧
    mismatching d2 r = mismatching d r := by
  unfold mismatching Disk.readable Disk.sectorData
  rw [h]
  exact ⟨rfl, rfl, rfl⟩

/-- One record of a repair on a writer whose writes succeed, when the sector of the
target can be read and, if it does not match, the backup holds data with the stored
checksum: afterwards the sector matches, and no other byte position has changed. -/
theorem repairRecord_faithful (w : Writer) (hw : w.faithful) (diskPath : String)
    (backup : Disk) (bd : String) (r : SectorChecksum) (st : RepairState)
    (hread : st.target.readable r.sectorNumber = true)
    (hback : mismatching st.target r = true →
      backup.readable r.sectorNumber = true ∧
      DiskSectorCRC.calculateCRC32 (backup.sectorData r.sectorNumber) = r.crc32) :
    (repairRecord w diskPath true backup bd r st).1 = true ∧
    (repairRecord w diskPath true backup bd r st).2.repairedSectors =
      st.repairedSectors + (if mismatching st.target r = true then 1 else 0) ∧
    (repairRecord w diskPath true backup bd r st).2.totalCorrupted =
      st.totalCorrupted + (if mismatching st.target r = true then 1 else 0) ∧
    (∀ k, sectorPosition k ≠ sectorPosition r.sectorNumber → ∀ path lastError,
      DiskSectorCRC.readSector (repairRecord w diskPath true backup bd r st).2.target path k
          lastError =
        DiskSectorCRC.readSector st.target path k lastError) ∧
    (repairRecord w diskPath true backup bd r st).2.target.readable r.sectorNumber = true ∧
    mismatching (repairRecord w diskPath true backup bd r st).2.target r = false ∧
    (mismatching st.target r = true →
      (repairRecord w diskPath true backup bd r st).2.target.sectorData r.sectorNumber =
        backup.sectorData r.sectorNumber) := by
  cases hm : mismatching st.target r with
  | false =>
    have hr : repairable st.target backup true r = false := by simp [repairable, hm]
    rw [repairRecord_skip w diskPath true backup bd r st hread hr]
    simp [hm, hread]
  | true =>
    obtain ⟨hb, hc⟩ := hback hm
    have hr : repairable st.target backup true r = true := by simp [repairable, hm, hb, hc]
    have hlen := readable_sectorData_length backup _ hb
    rw [repairRecord_write w diskPath true backup bd r st hread hr,
      writeSector_faithful w hw st.target diskPath r.sectorNumber _ st.lastError hlen
        (readable_seek _ _ hread)]
    have hsame := readSector_store_same st.target "" r.sectorNumber
      (backup.sectorData r.sectorNumber) "" hread
    have hdata : (st.target.store (sectorPosition r.sectorNumber)
        (backup.sectorData r.sectorNumber)).sectorData r.sectorNumber =
        backup.sectorData r.sectorNumber := by
      have h2 := congrArg ReadSectorResult.buffer hsame
      exact h2
    have hok : (st.target.store (sectorPosition r.sectorNumber)
        (backup.sectorData r.sectorNumber)).readable r.sectorNumber = true := by
      have h2 := congrArg ReadSectorResult.ok hsame
      simp only [hlen, beq_self_eq_true] at h2
      exact h2
    refine ⟨rfl, by simp, by simp, ?_, hok, ?_, fun _ => hdata⟩
    · intro k hk path lastError
      exact readSector_store_other st.target path r.sectorNumber k _ lastError hk
    · unfold mismatching
      rw [hdata, hc]
      simp

/-- The loop of a repair on a writer whose writes succeed, over records at pairwise
different byte positions whose target sectors can be read and whose backup sectors
hold the recorded data where the target does not. -/
theorem enhancedRepairLoop_faithful (w : Writer) (hw : w.faithful) (diskPath : String)
    (backup : Disk) (bd : String) (cancelled : Nat → Bool) (cb : Bool) (total : Nat)
    (cs : List SectorChecksum) (i : Nat) (st : RepairState)
    (hcancel : ∀ j < cs.length, cancelled (i + j) = false)
    (hpos : cs.Pairwise (fun a b =>
      sectorPosition a.sectorNumber ≠ sectorPosition b.sectorNumber))
    (hread : ∀ r ∈ cs, st.target.readable r.sectorNumber = true)
    (hback : ∀ r ∈ cs, mismatching st.target r = true →
      backup.readable r.sectorNumber = true ∧
      DiskSectorCRC.calculateCRC32 (backup.sectorData r.sectorNumber) = r.crc32) :
    (EnhancedDiskSectorCRC.repairLoop w diskPath true backup bd cancelled cb total cs i st).1 =
      true ∧
    (EnhancedDiskSectorCRC.repairLoop w diskPath true backup bd cancelled cb total cs i
        st).2.repairedSectors = st.repairedSectors + (mismatches st.target cs).length ∧
    (EnhancedDiskSectorCRC.repairLoop w diskPath true backup bd cancelled cb total cs i
        st).2.totalCorrupted = st.totalCorrupted + (mismatches st.target cs).length ∧
    (∀ k, (∀ r ∈ cs, sectorPosition k ≠ sectorPosition r.sectorNumber) → ∀ path lastError,
      DiskSectorCRC.readSector
          (EnhancedDiskSectorCRC.repairLoop w diskPath true backup bd cancelled cb total cs i
            st).2.target path k lastError =
        DiskSectorCRC.readSector st.target path k lastError) ∧
    (∀ r ∈ cs,
      (EnhancedDiskSectorCRC.repairLoop w diskPath true backup bd cancelled cb total cs i
          st).2.target.readable r.sectorNumber = true ∧
      mismatching (EnhancedDiskSectorCRC.repairLoop w diskPath true backup bd cancelled cb
          total cs i st).2.target r = false ∧
      (mismatching st.target r = true →
        (EnhancedDiskSectorCRC.repairLoop w diskPath true backup bd cancelled cb total cs i
            st).2.target.sectorData r.sectorNumber = backup.sectorData r.sectorNumber)) := by
  induction cs generalizing i st with
  | nil =>
    simp [EnhancedDiskSectorCRC.repairLoop, mismatches]
  | cons r rest ih =>
    have hc0 : cancelled i = false := by simpa using hcancel 0 (by simp)
    have hcancel2 : ∀ j < rest.length, cancelled (i + 1 + j) = false := by
      intro j hj
      have := hcancel (j + 1) (by simp; omega)
      rwa [show i + (j + 1) = i + 1 + j by omega] at this
    obtain ⟨hposr, hposrest⟩ := List.pairwise_cons.1 hpos
    obtain ⟨s1, s2, s3, s4, s5, s6, s7⟩ := repairRecord_faithful w hw diskPath backup bd r st
      (hread r (List.mem_cons_self _ _)) (hback r (List.mem_cons_self _ _))
    rw [EnhancedDiskSectorCRC.repairLoop, if_neg (by simp [hc0])]
    cases hv : repairRecord w diskPath true backup bd r st with
    | mk completed st1 =>
      rw [hv] at s1 s2 s3 s4 s5 s6 s7
      simp only at s1 s2 s3 s4 s5 s6 s7
      subst s1
      simp only
      have hagree : ∀ r2 ∈ rest,
          st1.target.readable r2.sectorNumber = st.target.readable r2.sectorNumber ∧
          st1.target.sectorData r2.sectorNumber = st.target.sectorData r2.sectorNumber ∧
          mismatching st1.target r2 = mismatching st.target r2 := fun r2 hr2 =>
        mismatching_congr _ _ r2 (s4 _ (fun h => hposr r2 hr2 h.symm) "" "")
      obtain ⟨g1, g2, g3, g4, g5⟩ := ih (i + 1)
        { st1 with
          progress :=
            if cb = true ∧ (i + 1) % 100 = 0 then
              st1.progress ++ [(toInt32 (i + 1), toInt32 total)]
            else st1.progress }
        hcancel2 hposrest
        (fun r2 hr2 => by
          rw [(hagree r2 hr2).1]; exact hread r2 (List.mem_cons_of_mem _ hr2))
        (fun r2 hr2 hm2 => by
          have hm3 : mismatching st1.target r2 = true := hm2
          rw [(hagree r2 hr2).2.2] at hm3
          exact hback r2 (List.mem_cons_of_mem _ hr2) hm3)
      have hmis : mismatches st1.target rest = mismatches st.target rest := by
        unfold mismatches
        exact List.filter_congr (fun r2 hr2 => (hagree r2 hr2).2.2)
      simp only at g2 g3 g4 g5
      refine ⟨g1, ?_, ?_, ?_, ?_⟩
      · rw [g2, s2, hmis, mismatches_cons, List.length_append]
        by_cases hm : mismatching st.target r = true
        · simp [hm]; omega
        · simp [hm]
      · rw [g3, s3, hmis, mismatches_cons, List.length_append]
        by_cases hm : mismatching st.target r = true
        · simp [hm]; omega
        · simp [hm]
      · intro k hk path lastError
        rw [g4 k (fun r2 hr2 => hk r2 (List.mem_cons_of_mem _ hr2)) path lastError]
        exact s4 k (hk r (List.mem_cons_self _ _)) path lastError
      · intro r2 hr2
        rcases List.mem_cons.1 hr2 with h | h
        · subst h
          obtain ⟨e1, e2, e3⟩ := mismatching_congr st1.target _ r2
            (g4 r2.sectorNumber (fun r3 hr3 => hposr r3 hr3) "" "")
          rw [e1, e2, e3]
          exact ⟨s5, s6, s7⟩
        · obtain ⟨e1, e2, e3⟩ := g5 r2 h
          refine ⟨e1, e2, fun hm => e3 ?_⟩
          rw [(hagree r2 h).2.2]
          exact hm

theorem faithfulWriter_faithful : faithfulWriter.faithful := fun _ _ _ => ⟨rfl, rfl⟩

/-- The ledger of the two-record examples loads: sector 0 with the checksum of the
zero-filled sector, sector 1 with the checksum of the marked sector. -/
theorem twoRecord_ledger :
    EnhancedDiskSectorCRC.readChecksumFile "ledger"
        (some (ledgerFile 0 0
          [⟨0, DiskSectorCRC.calculateCRC32 (List.replicate 512 0), 0⟩,
           ⟨1, DiskSectorCRC.calculateCRC32 (markedSector 1), 0⟩])) =
      LoadOutcome.loaded
        [⟨0, DiskSectorCRC.calculateCRC32 (List.replicate 512 0), 0⟩,
         ⟨1, DiskSectorCRC.calculateCRC32 (markedSector 1), 0⟩] 0 2 :=
  readChecksumFile_ledgerFile "ledger" 0 0
    [⟨0, DiskSectorCRC.calculateCRC32 (List.replicate 512 0), 0⟩,
     ⟨1, DiskSectorCRC.calculateCRC32 (markedSector 1), 0⟩] (by norm_num) (by simp)
    (fun r hr => by
      simp only [List.mem_cons, List.mem_singleton, List.not_mem_nil, or_false] at hr
      rcases hr with h | h <;> rw [h] <;>
        exact ⟨by norm_num, calculateCRC32_lt _, by norm_num⟩)

/-- C15 (claim as stated, refuted): the ledger lists the distinct sector numbers 0
and `2^55`, whose byte positions `sectorNumber * 512` are both 0 as a `uint64_t`.
The sector at position 0 of the target is zero-filled and matches the first record;
the backup holds there the data of the second record.  All reads and writes
succeed.  `repairSectorData` writes the backup data for the second record and
returns true, the sector `2^55` then holds the backup bytes, and a subsequent
`verifySectorIntegrity` with the same ledger reports one corrupted sector, sector
0, and returns false. -/
theorem repairSectorData_then_verify_aliased :
    EnhancedDiskSectorCRC.readChecksumFile "ledger"
        (some (ledgerFile 0 0
          [⟨0, DiskSectorCRC.calculateCRC32 (List.replicate 512 0), 0⟩,
           ⟨2 ^ 55, DiskSectorCRC.calculateCRC32 (markedSector 1), 0⟩])) =
      LoadOutcome.loaded
        [⟨0, DiskSectorCRC.calculateCRC32 (List.replicate 512 0), 0⟩,
         ⟨2 ^ 55, DiskSectorCRC.calculateCRC32 (markedSector 1), 0⟩] 0 2 ∧
    (zeroImage 1).readable 0 = true ∧ (zeroImage 1).readable (2 ^ 55) = true ∧
    ((zeroImage 1).store (sectorPosition 0) (markedSector 1)).readable (2 ^ 55) = true ∧
    ((zeroImage 1).store (sectorPosition 0) (markedSector 1)).sectorData (2 ^ 55) =
      markedSector 1 ∧
    mismatches (zeroImage 1)
        [⟨0, DiskSectorCRC.calculateCRC32 (List.replicate 512 0), 0⟩,
         ⟨2 ^ 55, DiskSectorCRC.calculateCRC32 (markedSector 1), 0⟩] =
      [⟨2 ^ 55, DiskSectorCRC.calculateCRC32 (markedSector 1), 0⟩] ∧
    (DiskSectorCRC.repairSectorData faithfulWriter (zeroImage 1) "disk" "ledger"
        (some (ledgerFile 0 0
          [⟨0, DiskSectorCRC.calculateCRC32 (List.replicate 512 0), 0⟩,
           ⟨2 ^ 55, DiskSectorCRC.calculateCRC32 (markedSector 1), 0⟩]))
        "backup" ((zeroImage 1).store (sectorPosition 0) (markedSector 1)) "").ok = true ∧
    (DiskSectorCRC.repairSectorData faithfulWriter (zeroImage 1) "disk" "ledger"
        (some (ledgerFile 0 0
          [⟨0, DiskSectorCRC.calculateCRC32 (List.replicate 512 0), 0⟩,
           ⟨2 ^ 55, DiskSectorCRC.calculateCRC32 (markedSector 1), 0⟩]))
        "backup" ((zeroImage 1).store (sectorPosition 0) (markedSector 1))
        "").state.target.sectorData (2 ^ 55) = markedSector 1 ∧
    DiskSectorCRC.verifySectorIntegrity
        (DiskSectorCRC.repairSectorData faithfulWriter (zeroImage 1) "disk" "ledger"
          (some (ledgerFile 0 0
            [⟨0, DiskSectorCRC.calculateCRC32 (List.replicate 512 0), 0⟩,
             ⟨2 ^ 55, DiskSectorCRC.calculateCRC32 (markedSector 1), 0⟩]))
          "backup" ((zeroImage 1).store (sectorPosition 0) (markedSector 1)) "").state.target
        "disk" "ledger"
        (some (ledgerFile 0 0
          [⟨0, DiskSectorCRC.calculateCRC32 (List.replicate 512 0), 0⟩,
           ⟨2 ^ 55, DiskSectorCRC.calculateCRC32 (markedSector 1), 0⟩])) "" =
      ⟨Ending.returned, false, ⟨"", false, 1, [0], [0, 2 ^ 55], []⟩⟩ := by
  have hpos : sectorPosition (2 ^ 55) = sectorPosition 0 := by decide
  obtain ⟨hT0, hD0⟩ := zeroImage_readSector 1 0 (by omega) (by norm_num)
  obtain ⟨hTa, hDa⟩ := readSector_same_position (zeroImage 1) (2 ^ 55) 0 hpos
  have hB0 := store_readable (zeroImage 1) (sectorPosition 0) (markedSector 1)
    (markedSector_length 1) 0 hT0
  obtain ⟨hBa, hEa⟩ := readSector_same_position
    ((zeroImage 1).store (sectorPosition 0) (markedSector 1)) (2 ^ 55) 0 hpos
  have hE0 := store_sectorData (zeroImage 1) 0 (markedSector 1) hT0
  have hload := readChecksumFile_ledgerFile "ledger" 0 0
    [⟨0, DiskSectorCRC.calculateCRC32 (List.replicate 512 0), 0⟩,
     ⟨2 ^ 55, DiskSectorCRC.calculateCRC32 (markedSector 1), 0⟩] (by norm_num) (by simp)
    (fun r hr => by
      simp only [List.mem_cons, List.mem_singleton, List.not_mem_nil, or_false] at hr
      rcases hr with h | h <;> rw [h] <;>
        exact ⟨by norm_num, calculateCRC32_lt _, by norm_num⟩)
  have hstep0 := repairRecord_match faithfulWriter "disk" true
    ((zeroImage 1).store (sectorPosition 0) (markedSector 1)) "backup"
    ⟨0, DiskSectorCRC.calculateCRC32 (List.replicate 512 0), 0⟩
    (RepairState.initial (zeroImage 1) "") hT0
    (congrArg DiskSectorCRC.calculateCRC32 hD0)
  have hstep1 := repairRecord_restores faithfulWriter faithfulWriter_faithful "disk"
    ((zeroImage 1).store (sectorPosition 0) (markedSector 1)) "backup"
    ⟨2 ^ 55, DiskSectorCRC.calculateCRC32 (markedSector 1), 0⟩
    ⟨zeroImage 1, "", 0, 0, [0], [], []⟩
    (hTa.trans hT0)
    (by simp only [hDa, hD0]; exact calculateCRC32_marked_ne)
    (hBa.trans hB0) (by simp only [hEa, hE0])
  simp only [hEa, hE0, hpos, hDa, hD0] at hstep1
  obtain ⟨hb, _⟩ := repairSectorData_of_run faithfulWriter (zeroImage 1)
    ((zeroImage 1).store (sectorPosition 0) (markedSector 1)) "disk" "ledger" "backup" _ _
    0 _ "" _ hload (by decide)
    ((enhancedRepairLoop_cons _ _ _ _ _ _ _ _ 0 _ _ hstep0).trans
      (enhancedRepairLoop_cons _ _ _ _ _ _ _ [] 1 _ _ hstep1))
  have hF0 : ((zeroImage 1).store (sectorPosition 0) (markedSector 1)).readable 0 = true := hB0
  have hm0 : mismatching ((zeroImage 1).store (sectorPosition 0) (markedSector 1))
      ⟨0, DiskSectorCRC.calculateCRC32 (List.replicate 512 0), 0⟩ = true :=
    mismatching_of_ne _ _ (by simp only [hE0]; exact fun h => calculateCRC32_marked_ne h.symm)
  have hm1 : mismatching ((zeroImage 1).store (sectorPosition 0) (markedSector 1))
      ⟨2 ^ 55, DiskSectorCRC.calculateCRC32 (markedSector 1), 0⟩ = false :=
    mismatching_of_eq _ _ (by simp only [hEa, hE0])
  have hn0 : mismatching (zeroImage 1)
      ⟨0, DiskSectorCRC.calculateCRC32 (List.replicate 512 0), 0⟩ = false :=
    mismatching_of_eq _ _ (congrArg DiskSectorCRC.calculateCRC32 hD0)
  have hn1 : mismatching (zeroImage 1)
      ⟨2 ^ 55, DiskSectorCRC.calculateCRC32 (markedSector 1), 0⟩ = true :=
    mismatching_of_ne _ _ (by simp only [hDa, hD0]; exact calculateCRC32_marked_ne)
  refine ⟨hload, hT0, hTa.trans hT0, hBa.trans hB0, hEa.trans hE0, ?_, ?_, ?_, ?_⟩
  · rw [mismatches_cons, mismatches_cons, hn0, hn1]
    rfl
  · rw [hb]; rfl
  · rw [hb]; exact hEa.trans hE0
  · rw [hb]
    rw [baseVerify_of_loaded _ "disk" "ledger" _ _ 0 _ "" hload,
      enhancedVerifyLoop_succeeds _ "disk" (fun _ => false) false _ _ 0 _ (fun _ _ => rfl)
        (fun r hr => by
          simp only [List.mem_cons, List.mem_singleton, List.not_mem_nil, or_false] at hr
          rcases hr with h | h
          · rw [h]; exact hB0
          · rw [h]; exact hBa.trans hB0),
      mismatches_cons, mismatches_cons, hm0, hm1]
    rfl

/-- Distinct sector numbers below `2^55` are distinct byte positions. -/
theorem pairwise_positions (cs : List SectorChecksum)
    (hlt : ∀ r ∈ cs, r.sectorNumber < 2 ^ 55)
    (hnodup : (cs.map (fun r => r.sectorNumber)).Nodup) :
    cs.Pairwise (fun a b => sectorPosition a.sectorNumber ≠ sectorPosition b.sectorNumber) := by
  have h1 : cs.Pairwise (fun a b => a.sectorNumber ≠ b.sectorNumber) :=
    List.pairwise_map.1 hnodup
  refine List.Pairwise.imp_of_mem ?_ h1
  intro a b ha hb hab
  have h2 := hlt a ha
  have h3 := hlt b hb
  exact sectorPosition_ne _ _ (by omega)

/-- C15 (amended, the sector numbers bounded): on a ledger that loads and whose sector
numbers are distinct and below `2^55`, with a backup path given, when every listed
sector of the target can be read, every write succeeds and stores its data, and for
every record whose target sector does not match the backup sector of the same number
can be read and has the stored `crc32`, `DiskSectorCRC::repairSectorData` returns
true, it has repaired as many sectors as did not match, every such sector of the
target then holds the bytes of the backup, and a subsequent
`DiskSectorCRC::verifySectorIntegrity` with the same ledger visits every record,
reports zero corrupted sectors and returns true. -/
theorem repairSectorData_then_verify (w : Writer) (target backup : Disk)
    (diskPath checksumFile backupDiskPath : String) (bytes : List Byte)
    (checksums : List SectorChecksum) (s n : Nat) (lastError lastError2 : String)
    (hw : w.faithful)
    (hload : EnhancedDiskSectorCRC.readChecksumFile checksumFile (some bytes) =
      LoadOutcome.loaded checksums s n)
    (hpath : backupDiskPath.isEmpty = false)
    (hlt : ∀ r ∈ checksums, r.sectorNumber < 2 ^ 55)
    (hnodup : (checksums.map (fun r => r.sectorNumber)).Nodup)
    (hread : ∀ r ∈ checksums, target.readable r.sectorNumber = true)
    (hback : ∀ r ∈ checksums, mismatching target r = true →
      backup.readable r.sectorNumber = true ∧
      DiskSectorCRC.calculateCRC32 (backup.sectorData r.sectorNumber) = r.crc32) :
    (DiskSectorCRC.repairSectorData w target diskPath checksumFile (some bytes) backupDiskPath
        backup lastError).ending = Ending.returned ∧
    (DiskSectorCRC.repairSectorData w target diskPath checksumFile (some bytes) backupDiskPath
        backup lastError).ok = true ∧
    (DiskSectorCRC.repairSectorData w target diskPath checksumFile (some bytes) backupDiskPath
        backup lastError).state.repairedSectors = (mismatches target checksums).length ∧
    (∀ r ∈ checksums, mismatching target r = true →
      (DiskSectorCRC.repairSectorData w target diskPath checksumFile (some bytes)
        backupDiskPath backup lastError).state.target.sectorData r.sectorNumber =
        backup.sectorData r.sectorNumber) ∧
    DiskSectorCRC.verifySectorIntegrity
        (DiskSectorCRC.repairSectorData w target diskPath checksumFile (some bytes)
          backupDiskPath backup lastError).state.target
        diskPath checksumFile (some bytes) lastError2 =
      ⟨Ending.returned, true,
        ⟨lastError2, true, 0, [], checksums.map (fun r => r.sectorNumber), []⟩⟩ := by
  have hba : (!backupDiskPath.isEmpty) = true := by rw [hpath]; rfl
  obtain ⟨g1, g2, g3, _, g5⟩ := enhancedRepairLoop_faithful w hw diskPath backup backupDiskPath
    (fun _ => false) false checksums.length checksums 0 (RepairState.initial target lastError)
    (fun _ _ => rfl) (pairwise_positions checksums hlt hnodup) hread hback
  have e2 : (EnhancedDiskSectorCRC.repairLoop w diskPath true backup backupDiskPath
      (fun _ => false) false checksums.length checksums 0
      (RepairState.initial target lastError)).2.repairedSectors =
      (mismatches target checksums).length := by
    rw [g2]; simp [RepairState.initial]
  have e3 : (EnhancedDiskSectorCRC.repairLoop w diskPath true backup backupDiskPath
      (fun _ => false) false checksums.length checksums 0
      (RepairState.initial target lastError)).2.totalCorrupted =
      (mismatches target checksums).length := by
    rw [g3]; simp [RepairState.initial]
  rw [baseRepair_of_loaded w target diskPath checksumFile bytes backupDiskPath backup
    lastError checksums s n hload, hba]
  simp only
  refine ⟨trivial, ?_, e2, fun r hr hm => (g5 r hr).2.2 hm, ?_⟩
  · rw [g1, e2, e3]
    simp only [Bool.true_and, Bool.or_eq_true, decide_eq_true_eq]
    omega
  · have hmis : mismatches (EnhancedDiskSectorCRC.repairLoop w diskPath true backup
        backupDiskPath (fun _ => false) false checksums.length checksums 0
        (RepairState.initial target lastError)).2.target checksums = [] := by
      unfold mismatches
      rw [List.filter_eq_nil_iff]
      intro r hr
      rw [(g5 r hr).2.1]
      simp
    rw [baseVerify_of_loaded _ diskPath checksumFile bytes checksums s n lastError2 hload,
      enhancedVerifyLoop_succeeds _ diskPath (fun _ => false) false checksums.length
        checksums 0 _ (fun _ _ => rfl) (fun r hr => (g5 r hr).1), hmis]
    simp [VerifyState.initial, progressCalls]

/-- C15 (amended), at a concrete input: sector 0 of the zero-filled target matches,
sector 1 does not, and the backup holds the recorded data of sector 1. -/
theorem repairSectorData_then_verify_witness :
    (DiskSectorCRC.repairSectorData faithfulWriter (zeroImage 2) "disk" "ledger"
        (some (ledgerFile 0 0
          [⟨0, DiskSectorCRC.calculateCRC32 (List.replicate 512 0), 0⟩,
           ⟨1, DiskSectorCRC.calculateCRC32 (markedSector 1), 0⟩]))
        "backup" ((zeroImage 2).store (sectorPosition 1) (markedSector 1)) "").ok = true ∧
    DiskSectorCRC.verifySectorIntegrity
        (DiskSectorCRC.repairSectorData faithfulWriter (zeroImage 2) "disk" "ledger"
          (some (ledgerFile 0 0
            [⟨0, DiskSectorCRC.calculateCRC32 (List.replicate 512 0), 0⟩,
             ⟨1, DiskSectorCRC.calculateCRC32 (markedSector 1), 0⟩]))
          "backup" ((zeroImage 2).store (sectorPosition 1) (markedSector 1)) "").state.target
        "disk" "ledger"
        (some (ledgerFile 0 0
          [⟨0, DiskSectorCRC.calculateCRC32 (List.replicate 512 0), 0⟩,
           ⟨1, DiskSectorCRC.calculateCRC32 (markedSector 1), 0⟩])) "" =
      ⟨Ending.returned, true, ⟨"", true, 0, [], [0, 1], []⟩⟩ :=
  have h := repairSectorData_then_verify faithfulWriter (zeroImage 2)
    ((zeroImage 2).store (sectorPosition 1) (markedSector 1)) "disk" "ledger" "backup"
    (ledgerFile 0 0
      [⟨0, DiskSectorCRC.calculateCRC32 (List.replicate 512 0), 0⟩,
       ⟨1, DiskSectorCRC.calculateCRC32 (markedSector 1), 0⟩])
    [⟨0, DiskSectorCRC.calculateCRC32 (List.replicate 512 0), 0⟩,
     ⟨1, DiskSectorCRC.calculateCRC32 (markedSector 1), 0⟩] 0 2 "" ""
    faithfulWriter_faithful twoRecord_ledger (by decide) (by decide) (by decide) (by decide)
    (fun r hr hm => by
      simp only [List.mem_cons, List.mem_singleton, List.not_mem_nil, or_false] at hr
      rcases hr with h | h
      · rw [h] at hm
        have hn0 : mismatching (zeroImage 2)
            ⟨0, DiskSectorCRC.calculateCRC32 (List.replicate 512 0), 0⟩ = false :=
          mismatching_of_eq _ _ (congrArg DiskSectorCRC.calculateCRC32
            (zeroImage_readSector 2 0 (by omega) (by norm_num)).2)
        rw [hn0] at hm
        exact absurd hm (by decide)
      · rw [h]
        have hT1 := (zeroImage_readSector 2 1 (by omega) (by norm_num)).1
        exact ⟨store_readable _ _ _ (markedSector_length 1) 1 hT1,
          congrArg DiskSectorCRC.calculateCRC32 (store_sectorData (zeroImage 2) 1 _ hT1)⟩)
  ⟨h.2.1, h.2.2.2.2⟩

/-! ## What a repair writes -/

/-- The function `readSector` looks at the handle, at the seek and at the read at the
position of the sector, and at nothing else of the device. -/
theorem readSector_congr (d d2 : Disk) (path : String) (k : Nat) (lastError : String)
    (h1 : d2.openError = d.openError) (h2 : d2.seek = d.seek)
    (h3 : d2.read (sectorPosition k) = d.read (sectorPosition k)) :
    DiskSectorCRC.readSector d2 path k lastError = DiskSectorCRC.readSector d path k lastError := by
  unfold sectorPosition at h3
  unfold DiskSectorCRC.readSector
  rw [h1, h2]
  simp only [h3]

/-- Every call of `writeSector` a repair makes is made for a listed record whose
target sector, as just read, does not have the stored checksum, and passes the data
of the same sector of the backup, which has the stored checksum. -/
theorem enhancedRepairLoop_writes (w : Writer) (diskPath : String) (ba : Bool) (backup : Disk)
    (bd : String) (cancelled : Nat → Bool) (cb : Bool) (total : Nat)
    (cs : List SectorChecksum) (i : Nat) (target : Disk) (lastError : String) :
    ∀ e ∈ (EnhancedDiskSectorCRC.repairLoop w diskPath ba backup bd cancelled cb total cs i
        (RepairState.initial target lastError)).2.writes,
      ∃ r ∈ cs, r.sectorNumber = e.sectorNumber ∧
        DiskSectorCRC.calculateCRC32 e.current ≠ r.crc32 ∧
        ba = true ∧ backup.readable r.sectorNumber = true ∧
        e.data = backup.sectorData r.sectorNumber ∧
        DiskSectorCRC.calculateCRC32 e.data = r.crc32 := by
  apply enhancedRepairLoop_invariant w diskPath ba backup bd cancelled cb total
    (fun st => ∀ e ∈ st.writes,
      ∃ r ∈ cs, r.sectorNumber = e.sectorNumber ∧
        DiskSectorCRC.calculateCRC32 e.current ≠ r.crc32 ∧
        ba = true ∧ backup.readable r.sectorNumber = true ∧
        e.data = backup.sectorData r.sectorNumber ∧
        DiskSectorCRC.calculateCRC32 e.data = r.crc32)
  · intro r hr st hst
    cases hread : st.target.readable r.sectorNumber with
    | false =>
      rw [repairRecord_unreadable w diskPath ba backup bd r st hread]
      exact hst
    | true =>
      cases hrep : repairable st.target backup ba r with
      | false =>
        rw [repairRecord_skip w diskPath ba backup bd r st hread hrep]
        exact hst
      | true =>
        rw [repairRecord_write w diskPath ba backup bd r st hread hrep]
        intro e he
        rcases List.mem_append.1 he with h | h
        · exact hst e h
        · rw [List.mem_singleton] at h
          unfold repairable at hrep
          simp only [Bool.and_eq_true, decide_eq_true_eq, mismatching] at hrep
          obtain ⟨⟨⟨hm, hba⟩, hb⟩, hc⟩ := hrep
          subst h
          exact ⟨r, hr, rfl, hm, hba, hb, rfl, hc⟩
  · intro st _ h; exact h
  · intro st _ h; exact h
  · intro e he
    simp [RepairState.initial] at he

theorem repairRecord_reads (w : Writer) (diskPath : String) (ba : Bool) (backup : Disk)
    (bd : String) (r : SectorChecksum) (st : RepairState) :
    (repairRecord w diskPath ba backup bd r st).2.reads = st.reads ++ [r.sectorNumber] := by
  cases hread : st.target.readable r.sectorNumber with
  | false => rw [repairRecord_unreadable w diskPath ba backup bd r st hread]
  | true => exact (repairRecord_readable w diskPath ba backup bd r st hread).2.1

/-- The sectors of the target a repair reads are those of the records it visits, in
ledger order, each read once. -/
theorem enhancedRepairLoop_reads (w : Writer) (diskPath : String) (ba : Bool) (backup : Disk)
    (bd : String) (cancelled : Nat → Bool) (cb : Bool) (total : Nat)
    (cs : List SectorChecksum) (i : Nat) (st : RepairState) :
    ∃ visited : Nat, visited ≤ cs.length ∧
      (EnhancedDiskSectorCRC.repairLoop w diskPath ba backup bd cancelled cb total cs i
        st).2.reads = st.reads ++ (cs.take visited).map (fun r => r.sectorNumber) := by
  induction cs generalizing i st with
  | nil => exact ⟨0, Nat.le_refl _, by simp [EnhancedDiskSectorCRC.repairLoop]⟩
  | cons r rest ih =>
    rw [EnhancedDiskSectorCRC.repairLoop]
    by_cases hc : cancelled i = true
    · rw [if_pos hc]
      exact ⟨0, Nat.zero_le _, by simp⟩
    · rw [if_neg hc]
      have h1 := repairRecord_reads w diskPath ba backup bd r st
      cases hv : repairRecord w diskPath ba backup bd r st with
      | mk completed st1 =>
        rw [hv] at h1
        simp only at h1
        cases completed with
        | false => exact ⟨1, by simp, by simp [h1]⟩
        | true =>
          obtain ⟨v, hv1, hv2⟩ := ih (i + 1)
            { st1 with
              progress :=
                if cb = true ∧ (i + 1) % 100 = 0 then
                  st1.progress ++ [(toInt32 (i + 1), toInt32 total)]
                else st1.progress }
          refine ⟨v + 1, by simp; omega, ?_⟩
          simp only at hv2 ⊢
          rw [hv2, h1]
          simp

/-- On a writer whose writes touch only the position written, a repair leaves alone
every sector below `2^55` for which no listed record calls for a write on the target
as it was at the start. -/
theorem enhancedRepairLoop_frame (w : Writer) (hw : w.confined) (diskPath : String) (ba : Bool)
    (backup : Disk) (bd : String) (cancelled : Nat → Bool) (cb : Bool) (total : Nat)
    (cs : List SectorChecksum) (i : Nat) (target : Disk) (lastError : String)
    (hlt : ∀ r ∈ cs, r.sectorNumber < 2 ^ 55) (k : Nat) (hk : k < 2 ^ 55)
    (hnone : ∀ r ∈ cs, r.sectorNumber = k → repairable target backup ba r = false)
    (path lastError2 : String) :
    DiskSectorCRC.readSector
        (EnhancedDiskSectorCRC.repairLoop w diskPath ba backup bd cancelled cb total cs i
          (RepairState.initial target lastError)).2.target path k lastError2 =
      DiskSectorCRC.readSector target path k lastError2 := by
  have hinv := enhancedRepairLoop_invariant w diskPath ba backup bd cancelled cb total
    (fun st => st.target.openError = target.openError ∧ st.target.seek = target.seek ∧
      st.target.read (sectorPosition k) = target.read (sectorPosition k)) cs
    (by
      intro r hr st hst
      obtain ⟨h1, h2, h3⟩ := hst
      cases hread : st.target.readable r.sectorNumber with
      | false =>
        rw [repairRecord_unreadable w diskPath ba backup bd r st hread]
        exact ⟨h1, h2, h3⟩
      | true =>
        cases hrep : repairable st.target backup ba r with
        | false =>
          rw [repairRecord_skip w diskPath ba backup bd r st hread hrep]
          exact ⟨h1, h2, h3⟩
        | true =>
          rw [repairRecord_write w diskPath ba backup bd r st hread hrep]
          obtain ⟨c1, c2, c3⟩ := writeSector_confined w hw st.target diskPath r.sectorNumber
            (backup.sectorData r.sectorNumber) st.lastError
          refine ⟨c1.trans h1, c2.trans h2, ?_⟩
          have hne : sectorPosition k ≠ sectorPosition r.sectorNumber := by
            by_cases hrk : r.sectorNumber = k
            · exfalso
              have hsame := mismatching_congr target st.target r
                (readSector_congr target st.target "" r.sectorNumber "" h1 h2
                  (by rw [hrk]; exact h3))
              have hfalse := hnone r hr hrk
              unfold repairable at hrep hfalse
              rw [hsame.2.2] at hrep
              rw [hrep] at hfalse
              exact absurd hfalse (by simp)
            · have := hlt r hr
              exact sectorPosition_ne _ _ (by omega)
          exact (c3 _ hne).trans h3)
    (fun st _ h => h) (fun st _ h => h) i (RepairState.initial target lastError)
    ⟨rfl, rfl, rfl⟩
  exact readSector_congr _ _ path k lastError2 hinv.1 hinv.2.1 hinv.2.2

theorem faithfulWriter_confined : faithfulWriter.confined := by
  intro disk position data
  refine ⟨rfl, rfl, fun q hq => ?_⟩
  simp [faithfulWriter, Disk.store, hq]

/-- C16 (claim as stated, refuted): the ledger lists the one sector number `2^55`,
whose byte position `2^55 * 512` is 0 as a `uint64_t`, the position of sector 0; the
backup holds at that position the data the record describes.  `repairSectorData`
of both classes calls `writeSector` for sector `2^55`, and the bytes of sector 0, a
sector that is not listed, change from zeros to the backup data. -/
theorem repairSectorData_changes_unlisted_sector :
    EnhancedDiskSectorCRC.readChecksumFile "ledger"
        (some (ledgerFile (2 ^ 55) 0
          [⟨2 ^ 55, DiskSectorCRC.calculateCRC32 (markedSector 1), 0⟩])) =
      LoadOutcome.loaded [⟨2 ^ 55, DiskSectorCRC.calculateCRC32 (markedSector 1), 0⟩]
        (2 ^ 55) 1 ∧
    sectorPosition (2 ^ 55) = sectorPosition 0 ∧
    (zeroImage 1).sectorData 0 = List.replicate 512 0 ∧
    (DiskSectorCRC.repairSectorData faithfulWriter (zeroImage 1) "disk" "ledger"
        (some (ledgerFile (2 ^ 55) 0
          [⟨2 ^ 55, DiskSectorCRC.calculateCRC32 (markedSector 1), 0⟩]))
        "backup" ((zeroImage 1).store (sectorPosition 0) (markedSector 1)) "").state.writes =
      [⟨2 ^ 55, List.replicate 512 0, markedSector 1, true⟩] ∧
    (DiskSectorCRC.repairSectorData faithfulWriter (zeroImage 1) "disk" "ledger"
        (some (ledgerFile (2 ^ 55) 0
          [⟨2 ^ 55, DiskSectorCRC.calculateCRC32 (markedSector 1), 0⟩]))
        "backup" ((zeroImage 1).store (sectorPosition 0) (markedSector 1))
        "").state.target.sectorData 0 = markedSector 1 ∧
    (EnhancedDiskSectorCRC.repairSectorData faithfulWriter (zeroImage 1) "disk" "ledger"
        (some (ledgerFile (2 ^ 55) 0
          [⟨2 ^ 55, DiskSectorCRC.calculateCRC32 (markedSector 1), 0⟩]))
        "backup" ((zeroImage 1).store (sectorPosition 0) (markedSector 1)) (fun _ => false)
        false "").state.target.sectorData 0 = markedSector 1 ∧
    List.replicate 512 0 ≠ markedSector 1 := by
  have hpos : sectorPosition (2 ^ 55) = sectorPosition 0 := by decide
  obtain ⟨hT0, hD0⟩ := zeroImage_readSector 1 0 (by omega) (by norm_num)
  obtain ⟨hTa, hDa⟩ := readSector_same_position (zeroImage 1) (2 ^ 55) 0 hpos
  have hB0 := store_readable (zeroImage 1) (sectorPosition 0) (markedSector 1)
    (markedSector_length 1) 0 hT0
  obtain ⟨hBa, hEa⟩ := readSector_same_position
    ((zeroImage 1).store (sectorPosition 0) (markedSector 1)) (2 ^ 55) 0 hpos
  have hE0 := store_sectorData (zeroImage 1) 0 (markedSector 1) hT0
  have hload := readChecksumFile_ledgerFile "ledger" (2 ^ 55) 0
    [⟨2 ^ 55, DiskSectorCRC.calculateCRC32 (markedSector 1), 0⟩] (by norm_num) (by simp)
    (fun r hr => by
      rw [List.mem_singleton.1 hr]
      exact ⟨by norm_num, calculateCRC32_lt _, by norm_num⟩)
  have hstep := repairRecord_restores faithfulWriter faithfulWriter_faithful "disk"
    ((zeroImage 1).store (sectorPosition 0) (markedSector 1)) "backup"
    ⟨2 ^ 55, DiskSectorCRC.calculateCRC32 (markedSector 1), 0⟩
    (RepairState.initial (zeroImage 1) "")
    (hTa.trans hT0)
    (by rw [show (RepairState.initial (zeroImage 1) "").target = zeroImage 1 from rfl];
        simp only [hDa, hD0]; exact calculateCRC32_marked_ne)
    (hBa.trans hB0) (by simp only [hEa, hE0])
  simp only [hEa, hE0, hpos] at hstep
  obtain ⟨hb, he⟩ := repairSectorData_of_run faithfulWriter (zeroImage 1)
    ((zeroImage 1).store (sectorPosition 0) (markedSector 1)) "disk" "ledger" "backup" _ _
    (2 ^ 55) _ "" _ hload (by decide) (enhancedRepairLoop_cons _ _ _ _ _ _ _ [] 0 _ _ hstep)
  rw [hb, he]
  refine ⟨hload, hpos, hD0, ?_, hE0, hE0, ?_⟩
  · simp only [RepairState.initial, hDa, hD0]
    rfl
  · intro h
    have h2 := congrArg (fun l => l.head?) h
    exact absurd h2 (by decide)

/-- C16 (amended, the sector numbers bounded and the writes confined to the position
written, for the last part only): over any run of `repairSectorData` of either class
on a ledger that loads,
every call of `writeSector` is made for a listed record whose target sector, as just
read, does not have the stored `crc32`, and passes the bytes of the same sector of
the backup, which could be read and have the stored `crc32`; the repaired count is
the number of such calls that returned true.  A record whose backup sector cannot
be read or has another checksum gets no call, is not counted as repaired, and the
scan goes on.  When the writes touch nothing but the position written and the
listed sector numbers are below `2^55`, every sector below
`2^55` for which no listed record calls for a write (it is not listed, or it
matches, or its backup is missing, unreadable or has another checksum) reads
after the run as it did before. -/
theorem repairSectorData_writes_verified (w : Writer) (target backup : Disk)
    (diskPath checksumFile backupDiskPath : String) (bytes : List Byte)
    (checksums : List SectorChecksum) (s n : Nat) (cancelled : Nat → Bool)
    (hasCallback : Bool) (lastError : String)
    (hload : EnhancedDiskSectorCRC.readChecksumFile checksumFile (some bytes) =
      LoadOutcome.loaded checksums s n) :
    (∀ res : RepairResult,
      (res = DiskSectorCRC.repairSectorData w target diskPath checksumFile (some bytes)
          backupDiskPath backup lastError ∨
       res = EnhancedDiskSectorCRC.repairSectorData w target diskPath checksumFile (some bytes)
          backupDiskPath backup cancelled hasCallback lastError) →
      (∀ e ∈ res.state.writes,
        ∃ r ∈ checksums, r.sectorNumber = e.sectorNumber ∧
          DiskSectorCRC.calculateCRC32 e.current ≠ r.crc32 ∧
          backup.readable r.sectorNumber = true ∧
          e.data = backup.sectorData r.sectorNumber ∧
          DiskSectorCRC.calculateCRC32 e.data = r.crc32) ∧
      res.state.repairedSectors = (res.state.writes.filter (fun e => e.ok)).length ∧
      (w.confined → (∀ r ∈ checksums, r.sectorNumber < 2 ^ 55) →
        ∀ k, k < 2 ^ 55 →
        (∀ r ∈ checksums, r.sectorNumber = k →
          repairable target backup (!backupDiskPath.isEmpty) r = false) →
        ∀ path lastError2,
          DiskSectorCRC.readSector res.state.target path k lastError2 =
            DiskSectorCRC.readSector target path k lastError2)) ∧
    (∀ (r : SectorChecksum) (st : RepairState),
      st.target.readable r.sectorNumber = true →
      (backup.readable r.sectorNumber = false ∨
        DiskSectorCRC.calculateCRC32 (backup.sectorData r.sectorNumber) ≠ r.crc32) →
      repairRecord w diskPath (!backupDiskPath.isEmpty) backup backupDiskPath r st =
        (true,
          ⟨st.target, st.lastError, st.repairedSectors,
           st.totalCorrupted + (if mismatching st.target r = true then 1 else 0),
           st.reads ++ [r.sectorNumber], st.writes, st.progress⟩)) := by
  constructor
  · have key : ∀ (cancelled2 : Nat → Bool) (cb : Bool) (st : RepairState),
        st = (EnhancedDiskSectorCRC.repairLoop w diskPath (!backupDiskPath.isEmpty) backup
          backupDiskPath cancelled2 cb checksums.length checksums 0
          (RepairState.initial target lastError)).2 →
        (∀ e ∈ st.writes,
          ∃ r ∈ checksums, r.sectorNumber = e.sectorNumber ∧
            DiskSectorCRC.calculateCRC32 e.current ≠ r.crc32 ∧
            backup.readable r.sectorNumber = true ∧
            e.data = backup.sectorData r.sectorNumber ∧
            DiskSectorCRC.calculateCRC32 e.data = r.crc32) ∧
        st.repairedSectors = (st.writes.filter (fun e => e.ok)).length ∧
        (w.confined → (∀ r ∈ checksums, r.sectorNumber < 2 ^ 55) →
          ∀ k, k < 2 ^ 55 →
          (∀ r ∈ checksums, r.sectorNumber = k →
            repairable target backup (!backupDiskPath.isEmpty) r = false) →
          ∀ path lastError2,
            DiskSectorCRC.readSector st.target path k lastError2 =
              DiskSectorCRC.readSector target path k lastError2) := by
      intro cancelled2 cb st hst
      subst hst
      refine ⟨?_, ?_, ?_⟩
      · intro e he
        obtain ⟨r, hr, h1, h2, _, h4, h5, h6⟩ := enhancedRepairLoop_writes w diskPath
          (!backupDiskPath.isEmpty) backup backupDiskPath cancelled2 cb checksums.length
          checksums 0 target lastError e he
        exact ⟨r, hr, h1, h2, h4, h5, h6⟩
      · exact (enhancedRepairLoop_counts w diskPath (!backupDiskPath.isEmpty) backup
          backupDiskPath cancelled2 cb checksums.length checksums 0 target lastError).1
      · intro hconfined hlt k hk hnone path lastError2
        exact enhancedRepairLoop_frame w hconfined diskPath (!backupDiskPath.isEmpty) backup
          backupDiskPath cancelled2 cb checksums.length checksums 0 target lastError hlt k hk
          hnone path lastError2
    intro res hres
    rcases hres with h | h
    · rw [baseRepair_of_loaded w target diskPath checksumFile bytes backupDiskPath backup
        lastError checksums s n hload] at h
      exact key (fun _ => false) false res.state (by rw [h])
    · rw [enhancedRepair_of_loaded w target diskPath checksumFile bytes backupDiskPath backup
        cancelled hasCallback lastError checksums s n hload] at h
      exact key cancelled hasCallback res.state (by rw [h])
  · intro r st hread hrefuse
    apply repairRecord_skip w diskPath _ backup backupDiskPath r st hread
    unfold repairable
    rcases hrefuse with h | h
    · simp [h]
    · simp [h]

/-- C16 (amended), at a concrete input: sector 0 of the zero-filled target matches its
record, sector 1 is repaired from the backup, and sector 0 reads after the run as
before. -/
theorem repairSectorData_writes_verified_witness :
    DiskSectorCRC.readSector
        (DiskSectorCRC.repairSectorData faithfulWriter (zeroImage 2) "disk" "ledger"
          (some (ledgerFile 0 0
            [⟨0, DiskSectorCRC.calculateCRC32 (List.replicate 512 0), 0⟩,
             ⟨1, DiskSectorCRC.calculateCRC32 (markedSector 1), 0⟩]))
          "backup" ((zeroImage 2).store (sectorPosition 1) (markedSector 1))
          "").state.target "disk" 0 "" =
      DiskSectorCRC.readSector (zeroImage 2) "disk" 0 "" :=
  ((repairSectorData_writes_verified faithfulWriter (zeroImage 2)
    ((zeroImage 2).store (sectorPosition 1) (markedSector 1)) "disk" "ledger" "backup"
    (ledgerFile 0 0
      [⟨0, DiskSectorCRC.calculateCRC32 (List.replicate 512 0), 0⟩,
       ⟨1, DiskSectorCRC.calculateCRC32 (markedSector 1), 0⟩])
    [⟨0, DiskSectorCRC.calculateCRC32 (List.replicate 512 0), 0⟩,
     ⟨1, DiskSectorCRC.calculateCRC32 (markedSector 1), 0⟩] 0 2 (fun _ => false) false ""
    twoRecord_ledger).1 _ (Or.inl rfl)).2.2 faithfulWriter_confined (by decide) 0 (by decide)
    (fun r hr hk => by
      simp only [List.mem_cons, List.mem_singleton, List.not_mem_nil, or_false] at hr
      rcases hr with h | h
      · rw [h]
        exact repairable_of_match _ _ _ _
          (congrArg DiskSectorCRC.calculateCRC32
            (zeroImage_readSector 2 0 (by omega) (by norm_num)).2)
      · rw [h] at hk
        exact absurd hk (by decide))
    "disk" ""

/-! ## What counts as repaired -/

/-- C19 (claim as stated, refuted): the writer reports `SECTOR_SIZE` bytes written
and leaves the device as it was.  The one listed sector does not match, the backup
holds the recorded data, `writeSector` returns true, and `repairSectorData` of both
classes counts the sector as repaired and returns true, although the target still
holds the old bytes, whose checksum is not the stored one; the sector of the target
was read once, before the write. -/
theorem repairSectorData_counts_lost_write :
    (DiskSectorCRC.repairSectorData lossyWriter (zeroImage 1) "disk" "ledger"
        (some (ledgerFile 0 0 [⟨0, DiskSectorCRC.calculateCRC32 (markedSector 1), 0⟩]))
        "backup" ((zeroImage 1).store (sectorPosition 0) (markedSector 1)) "").ok = true ∧
    (DiskSectorCRC.repairSectorData lossyWriter (zeroImage 1) "disk" "ledger"
        (some (ledgerFile 0 0 [⟨0, DiskSectorCRC.calculateCRC32 (markedSector 1), 0⟩]))
        "backup" ((zeroImage 1).store (sectorPosition 0) (markedSector 1))
        "").state.repairedSectors = 1 ∧
    (DiskSectorCRC.repairSectorData lossyWriter (zeroImage 1) "disk" "ledger"
        (some (ledgerFile 0 0 [⟨0, DiskSectorCRC.calculateCRC32 (markedSector 1), 0⟩]))
        "backup" ((zeroImage 1).store (sectorPosition 0) (markedSector 1))
        "").state.reads = [0] ∧
    (DiskSectorCRC.repairSectorData lossyWriter (zeroImage 1) "disk" "ledger"
        (some (ledgerFile 0 0 [⟨0, DiskSectorCRC.calculateCRC32 (markedSector 1), 0⟩]))
        "backup" ((zeroImage 1).store (sectorPosition 0) (markedSector 1))
        "").state.writes = [⟨0, List.replicate 512 0, markedSector 1, true⟩] ∧
    (DiskSectorCRC.repairSectorData lossyWriter (zeroImage 1) "disk" "ledger"
        (some (ledgerFile 0 0 [⟨0, DiskSectorCRC.calculateCRC32 (markedSector 1), 0⟩]))
        "backup" ((zeroImage 1).store (sectorPosition 0) (markedSector 1))
        "").state.target.sectorData 0 = List.replicate 512 0 ∧
    DiskSectorCRC.calculateCRC32 (List.replicate 512 0) ≠
      DiskSectorCRC.calculateCRC32 (markedSector 1) ∧
    (EnhancedDiskSectorCRC.repairSectorData lossyWriter (zeroImage 1) "disk" "ledger"
        (some (ledgerFile 0 0 [⟨0, DiskSectorCRC.calculateCRC32 (markedSector 1), 0⟩]))
        "backup" ((zeroImage 1).store (sectorPosition 0) (markedSector 1)) (fun _ => false)
        false "").state.repairedSectors = 1 := by
  obtain ⟨hT1, hT2⟩ := zeroImage_readSector 1 0 (by omega) (by norm_num)
  have hB1 := store_readable (zeroImage 1) (sectorPosition 0) (markedSector 1)
    (markedSector_length 1) 0 hT1
  have hB2 := store_sectorData (zeroImage 1) 0 (markedSector 1) hT1
  have hload := readChecksumFile_ledgerFile "ledger" 0 0
    [⟨0, DiskSectorCRC.calculateCRC32 (markedSector 1), 0⟩] (by norm_num) (by simp)
    (fun r hr => by
      rw [List.mem_singleton.1 hr]
      exact ⟨by norm_num, calculateCRC32_lt _, by norm_num⟩)
  have hstep := repairRecord_lost "disk"
    ((zeroImage 1).store (sectorPosition 0) (markedSector 1)) "backup"
    ⟨0, DiskSectorCRC.calculateCRC32 (markedSector 1), 0⟩ (RepairState.initial (zeroImage 1) "")
    hT1 (by rw [show (RepairState.initial (zeroImage 1) "").target = zeroImage 1 from rfl];
            simp only [hT2]; exact calculateCRC32_marked_ne)
    hB1 (by simp only [hB2])
  obtain ⟨hb, he⟩ := repairSectorData_of_run lossyWriter (zeroImage 1)
    ((zeroImage 1).store (sectorPosition 0) (markedSector 1)) "disk" "ledger" "backup" _ _ 0 _
    "" _ hload (by decide)
    (enhancedRepairLoop_cons _ _ _ _ _ _ _ [] 0 _ _ hstep)
  rw [hb, he]
  refine ⟨rfl, rfl, rfl, ?_, hT2, calculateCRC32_marked_ne, rfl⟩
  simp only [RepairState.initial, hT2, hB2]
  rfl

/-- C19 (amended): over any run of `repairSectorData` of either class on a
ledger that loads, the repaired count is the number of `writeSector` calls that
returned true, each of them made with the bytes of the backup sector, whose
`calculateCRC32` is the stored `crc32`; and the sectors of the target passed to
`readSector` are those of the records visited, in ledger order, one read per
record: no sector is read again after its write. -/
theorem repairSectorData_repaired_count (w : Writer) (target backup : Disk)
    (diskPath checksumFile backupDiskPath : String) (bytes : List Byte)
    (checksums : List SectorChecksum) (s n : Nat) (cancelled : Nat → Bool)
    (hasCallback : Bool) (lastError : String)
    (hload : EnhancedDiskSectorCRC.readChecksumFile checksumFile (some bytes) =
      LoadOutcome.loaded checksums s n) :
    ∀ res : RepairResult,
      (res = DiskSectorCRC.repairSectorData w target diskPath checksumFile (some bytes)
          backupDiskPath backup lastError ∨
       res = EnhancedDiskSectorCRC.repairSectorData w target diskPath checksumFile (some bytes)
          backupDiskPath backup cancelled hasCallback lastError) →
      res.state.repairedSectors = (res.state.writes.filter (fun e => e.ok)).length ∧
      (∀ e ∈ res.state.writes,
        ∃ r ∈ checksums, r.sectorNumber = e.sectorNumber ∧
          e.data = backup.sectorData r.sectorNumber ∧
          DiskSectorCRC.calculateCRC32 e.data = r.crc32) ∧
      (∃ visited : Nat, visited ≤ checksums.length ∧
        res.state.reads = (checksums.take visited).map (fun r => r.sectorNumber)) := by
  have key : ∀ (cancelled2 : Nat → Bool) (cb : Bool) (st : RepairState),
      st = (EnhancedDiskSectorCRC.repairLoop w diskPath (!backupDiskPath.isEmpty) backup
        backupDiskPath cancelled2 cb checksums.length checksums 0
        (RepairState.initial target lastError)).2 →
      st.repairedSectors = (st.writes.filter (fun e => e.ok)).length ∧
      (∀ e ∈ st.writes,
        ∃ r ∈ checksums, r.sectorNumber = e.sectorNumber ∧
          e.data = backup.sectorData r.sectorNumber ∧
          DiskSectorCRC.calculateCRC32 e.data = r.crc32) ∧
      (∃ visited : Nat, visited ≤ checksums.length ∧
        st.reads = (checksums.take visited).map (fun r => r.sectorNumber)) := by
    intro cancelled2 cb st hst
    subst hst
    refine ⟨?_, ?_, ?_⟩
    · exact (enhancedRepairLoop_counts w diskPath (!backupDiskPath.isEmpty) backup
        backupDiskPath cancelled2 cb checksums.length checksums 0 target lastError).1
    · intro e he
      obtain ⟨r, hr, h1, _, _, _, h5, h6⟩ := enhancedRepairLoop_writes w diskPath
        (!backupDiskPath.isEmpty) backup backupDiskPath cancelled2 cb checksums.length
        checksums 0 target lastError e he
      exact ⟨r, hr, h1, h5, h6⟩
    · obtain ⟨v, hv1, hv2⟩ := enhancedRepairLoop_reads w diskPath (!backupDiskPath.isEmpty)
        backup backupDiskPath cancelled2 cb checksums.length checksums 0
        (RepairState.initial target lastError)
      exact ⟨v, hv1, by rw [hv2]; simp [RepairState.initial]⟩
  intro res hres
  rcases hres with h | h
  · rw [baseRepair_of_loaded w target diskPath checksumFile bytes backupDiskPath backup
      lastError checksums s n hload] at h
    exact key (fun _ => false) false res.state (by rw [h])
  · rw [enhancedRepair_of_loaded w target diskPath checksumFile bytes backupDiskPath backup
      cancelled hasCallback lastError checksums s n hload] at h
    exact key cancelled hasCallback res.state (by rw [h])

/-- C19 (amended), at a concrete input: the one-record ledger, target and backup of
the lost write above. -/
theorem repairSectorData_repaired_count_witness :
    (DiskSectorCRC.repairSectorData lossyWriter (zeroImage 1) "disk" "ledger"
        (some (ledgerFile 0 0 [⟨0, DiskSectorCRC.calculateCRC32 (markedSector 1), 0⟩]))
        "backup" ((zeroImage 1).store (sectorPosition 0) (markedSector 1))
        "").state.repairedSectors =
      ((DiskSectorCRC.repairSectorData lossyWriter (zeroImage 1) "disk" "ledger"
        (some (ledgerFile 0 0 [⟨0, DiskSectorCRC.calculateCRC32 (markedSector 1), 0⟩]))
        "backup" ((zeroImage 1).store (sectorPosition 0) (markedSector 1))
        "").state.writes.filter (fun e => e.ok)).length :=
  (repairSectorData_repaired_count lossyWriter (zeroImage 1)
    ((zeroImage 1).store (sectorPosition 0) (markedSector 1)) "disk" "ledger" "backup"
    (ledgerFile 0 0 [⟨0, DiskSectorCRC.calculateCRC32 (markedSector 1), 0⟩])
    [⟨0, DiskSectorCRC.calculateCRC32 (markedSector 1), 0⟩] 0 1 (fun _ => false) false ""
    (readChecksumFile_ledgerFile "ledger" 0 0
      [⟨0, DiskSectorCRC.calculateCRC32 (markedSector 1), 0⟩] (by norm_num) (by simp)
      (fun r hr => by
        rw [List.mem_singleton.1 hr]
        exact ⟨by norm_num, calculateCRC32_lt _, by norm_num⟩))
    _ (Or.inl rfl)).1

/-! ## A write that fails -/

/-- The run of the example with a failing write: `WriteFile` fails at the position of
sector 0 and stores the data elsewhere, both listed sectors of the zero-filled
target do not match, and the backup holds the recorded data for both. -/
theorem failedWrite_run :
    EnhancedDiskSectorCRC.readChecksumFile "ledger"
        (some (ledgerFile 0 0
          [⟨0, DiskSectorCRC.calculateCRC32 (markedSector 1), 0⟩,
           ⟨1, DiskSectorCRC.calculateCRC32 (markedSector 1), 0⟩])) =
      LoadOutcome.loaded
        [⟨0, DiskSectorCRC.calculateCRC32 (markedSector 1), 0⟩,
         ⟨1, DiskSectorCRC.calculateCRC32 (markedSector 1), 0⟩] 0 2 ∧
    DiskSectorCRC.repairSectorData (failingWriter (sectorPosition 0)) (zeroImage 2) "disk"
        "ledger"
        (some (ledgerFile 0 0
          [⟨0, DiskSectorCRC.calculateCRC32 (markedSector 1), 0⟩,
           ⟨1, DiskSectorCRC.calculateCRC32 (markedSector 1), 0⟩]))
        "backup"
        (((zeroImage 2).store (sectorPosition 0) (markedSector 1)).store (sectorPosition 1)
          (markedSector 1)) "" =
      ⟨Ending.returned, true,
        ⟨(zeroImage 2).store (sectorPosition 1) (markedSector 1),
         "Failed to write sector: 0", 1, 2, [0, 1],
         [⟨0, List.replicate 512 0, markedSector 1, false⟩,
          ⟨1, List.replicate 512 0, markedSector 1, true⟩], []⟩⟩ := by
  obtain ⟨hT0, hD0⟩ := zeroImage_readSector 2 0 (by omega) (by norm_num)
  obtain ⟨hT1, hD1⟩ := zeroImage_readSector 2 1 (by omega) (by norm_num)
  have hne : sectorPosition 0 ≠ sectorPosition 1 := by decide
  have hI0 := store_readable (zeroImage 2) (sectorPosition 0) (markedSector 1)
    (markedSector_length 1) 0 hT0
  have hI1 := store_readable (zeroImage 2) (sectorPosition 0) (markedSector 1)
    (markedSector_length 1) 1 hT1
  have hB0 := store_readable _ (sectorPosition 1) (markedSector 1) (markedSector_length 1) 0 hI0
  have hB1 := store_readable _ (sectorPosition 1) (markedSector 1) (markedSector_length 1) 1 hI1
  have hE0 : (((zeroImage 2).store (sectorPosition 0) (markedSector 1)).store (sectorPosition 1)
      (markedSector 1)).sectorData 0 = markedSector 1 := by
    rw [store_sectorData_ne _ (sectorPosition 1) 0 _ hne]
    exact store_sectorData (zeroImage 2) 0 (markedSector 1) hT0
  have hE1 : (((zeroImage 2).store (sectorPosition 0) (markedSector 1)).store (sectorPosition 1)
      (markedSector 1)).sectorData 1 = markedSector 1 :=
    store_sectorData _ 1 (markedSector 1) hI1
  have hload := readChecksumFile_ledgerFile "ledger" 0 0
    [⟨0, DiskSectorCRC.calculateCRC32 (markedSector 1), 0⟩,
     ⟨1, DiskSectorCRC.calculateCRC32 (markedSector 1), 0⟩] (by norm_num) (by simp)
    (fun r hr => by
      simp only [List.mem_cons, List.mem_singleton, List.not_mem_nil, or_false] at hr
      rcases hr with h | h <;> rw [h] <;>
        exact ⟨by norm_num, calculateCRC32_lt _, by norm_num⟩)
  have hstep0 := repairRecord_refused "disk"
    (((zeroImage 2).store (sectorPosition 0) (markedSector 1)).store (sectorPosition 1)
      (markedSector 1)) "backup"
    ⟨0, DiskSectorCRC.calculateCRC32 (markedSector 1), 0⟩ (RepairState.initial (zeroImage 2) "")
    hT0
    (by rw [show (RepairState.initial (zeroImage 2) "").target = zeroImage 2 from rfl];
        simp only [hD0]; exact calculateCRC32_marked_ne)
    hB0 (by simp only [hE0])
  have hstep1 := repairRecord_written (failingWriter (sectorPosition 0)) "disk"
    (((zeroImage 2).store (sectorPosition 0) (markedSector 1)).store (sectorPosition 1)
      (markedSector 1)) "backup"
    ⟨1, DiskSectorCRC.calculateCRC32 (markedSector 1), 0⟩
    ⟨zeroImage 2, "Failed to write sector: 0", 0, 1, [0],
      [⟨0, List.replicate 512 0, markedSector 1, false⟩], []⟩
    hT1 (by simp only [hD1]; exact calculateCRC32_marked_ne) hB1 (by simp only [hE1])
    (by
      rw [writeSector_failing (sectorPosition 0) (zeroImage 2) "disk" 1 _ _
        (by simp only [hE1]; exact markedSector_length 1) (readable_seek _ _ hT1),
        if_neg (fun h => hne h.symm)])
  simp only [hE0, hE1, hD0, hD1] at hstep0 hstep1
  refine ⟨hload, ?_⟩
  rw [(repairSectorData_of_run (failingWriter (sectorPosition 0)) (zeroImage 2) _ "disk"
    "ledger" "backup" _ _ 0 _ "" _ hload (by decide)
    ((enhancedRepairLoop_cons _ _ _ _ _ _ _ _ 0 _ _ hstep0).trans
      (enhancedRepairLoop_cons _ _ _ _ _ _ _ [] 1 _ _ hstep1))).1]
  rfl

/-- C20 (claim as stated, refuted): `WriteFile` fails at byte position 0 and stores
the data everywhere else.  Both listed sectors do not match and the backup holds the
recorded data for both.  `writeSector` fails for sector 0 with "Failed to write
sector: 0"; `repairSectorData` goes on to sector 1, repairs it, and returns true. -/
theorem repairSectorData_continues_after_failed_write :
    (DiskSectorCRC.repairSectorData (failingWriter (sectorPosition 0)) (zeroImage 2) "disk"
        "ledger"
        (some (ledgerFile 0 0
          [⟨0, DiskSectorCRC.calculateCRC32 (markedSector 1), 0⟩,
           ⟨1, DiskSectorCRC.calculateCRC32 (markedSector 1), 0⟩]))
        "backup"
        (((zeroImage 2).store (sectorPosition 0) (markedSector 1)).store (sectorPosition 1)
          (markedSector 1)) "").state.writes =
      [⟨0, List.replicate 512 0, markedSector 1, false⟩,
       ⟨1, List.replicate 512 0, markedSector 1, true⟩] ∧
    (DiskSectorCRC.repairSectorData (failingWriter (sectorPosition 0)) (zeroImage 2) "disk"
        "ledger"
        (some (ledgerFile 0 0
          [⟨0, DiskSectorCRC.calculateCRC32 (markedSector 1), 0⟩,
           ⟨1, DiskSectorCRC.calculateCRC32 (markedSector 1), 0⟩]))
        "backup"
        (((zeroImage 2).store (sectorPosition 0) (markedSector 1)).store (sectorPosition 1)
          (markedSector 1)) "").state.reads = [0, 1] ∧
    (DiskSectorCRC.repairSectorData (failingWriter (sectorPosition 0)) (zeroImage 2) "disk"
        "ledger"
        (some (ledgerFile 0 0
          [⟨0, DiskSectorCRC.calculateCRC32 (markedSector 1), 0⟩,
           ⟨1, DiskSectorCRC.calculateCRC32 (markedSector 1), 0⟩]))
        "backup"
        (((zeroImage 2).store (sectorPosition 0) (markedSector 1)).store (sectorPosition 1)
          (markedSector 1)) "").state.lastError = "Failed to write sector: 0" ∧
    (DiskSectorCRC.repairSectorData (failingWriter (sectorPosition 0)) (zeroImage 2) "disk"
        "ledger"
        (some (ledgerFile 0 0
          [⟨0, DiskSectorCRC.calculateCRC32 (markedSector 1), 0⟩,
           ⟨1, DiskSectorCRC.calculateCRC32 (markedSector 1), 0⟩]))
        "backup"
        (((zeroImage 2).store (sectorPosition 0) (markedSector 1)).store (sectorPosition 1)
          (markedSector 1)) "").ok = true := by
  rw [failedWrite_run.2]
  exact ⟨rfl, rfl, rfl, rfl⟩

/-- C20 (amended): on a ledger that loads, when the listed sectors of the
target can be read whatever the writes of the run have done to it (and, for the
derived class, no cancellation is observed), a `writeSector` call that returns false
does not end `repairSectorData`: the function visits every record and returns, and
its return value is true exactly when some other call of `writeSector` returned
true. -/
theorem repairSectorData_after_failed_write (w : Writer) (target backup : Disk)
    (diskPath checksumFile backupDiskPath : String) (bytes : List Byte)
    (checksums : List SectorChecksum) (s n : Nat) (cancelled : Nat → Bool)
    (hasCallback : Bool) (lastError : String)
    (hload : EnhancedDiskSectorCRC.readChecksumFile checksumFile (some bytes) =
      LoadOutcome.loaded checksums s n)
    (hcancel : ∀ i, cancelled i = false)
    (hread : ∀ d, w.Reaches target d → ∀ r ∈ checksums, d.readable r.sectorNumber = true) :
    ∀ res : RepairResult,
      (res = DiskSectorCRC.repairSectorData w target diskPath checksumFile (some bytes)
          backupDiskPath backup lastError ∨
       res = EnhancedDiskSectorCRC.repairSectorData w target diskPath checksumFile (some bytes)
          backupDiskPath backup cancelled hasCallback lastError) →
      (∃ e ∈ res.state.writes, e.ok = false) →
      res.ending = Ending.returned ∧
      res.state.reads = checksums.map (fun r => r.sectorNumber) ∧
      0 < res.state.totalCorrupted ∧
      (res.ok = true ↔ ∃ e ∈ res.state.writes, e.ok = true) := by
  intro res hres hfail
  obtain ⟨h1, h2, h3, h4, h5⟩ := repairSectorData_completes w target backup diskPath
    checksumFile backupDiskPath bytes checksums s n cancelled hasCallback lastError hload
    hcancel hread res hres
  obtain ⟨e, he, _⟩ := hfail
  have hpos : 0 < res.state.writes.length := List.length_pos_of_mem he
  have hc : 0 < res.state.totalCorrupted := Nat.lt_of_lt_of_le hpos h5
  refine ⟨h1, h2, hc, ?_⟩
  rw [h3, h4]
  simp only [decide_eq_true_eq, List.length_pos, ne_eq, List.filter_eq_nil_iff, not_forall]
  constructor
  · intro h
    rcases h with h | h
    · obtain ⟨e2, he2, hok⟩ := h
      exact ⟨e2, he2, by simpa using hok⟩
    · omega
  · rintro ⟨e2, he2, hok⟩
    exact Or.inl ⟨e2, he2, by simpa using hok⟩

/-- C20 (amended), at a concrete input: the write of sector 0 fails, the scan goes on
to sector 1. -/
theorem repairSectorData_after_failed_write_witness :
    (DiskSectorCRC.repairSectorData (failingWriter (sectorPosition 0)) (zeroImage 2) "disk"
        "ledger"
        (some (ledgerFile 0 0
          [⟨0, DiskSectorCRC.calculateCRC32 (markedSector 1), 0⟩,
           ⟨1, DiskSectorCRC.calculateCRC32 (markedSector 1), 0⟩]))
        "backup"
        (((zeroImage 2).store (sectorPosition 0) (markedSector 1)).store (sectorPosition 1)
          (markedSector 1)) "").state.reads = [0, 1] :=
  (repairSectorData_after_failed_write (failingWriter (sectorPosition 0)) (zeroImage 2)
    (((zeroImage 2).store (sectorPosition 0) (markedSector 1)).store (sectorPosition 1)
      (markedSector 1)) "disk" "ledger" "backup"
    (ledgerFile 0 0
      [⟨0, DiskSectorCRC.calculateCRC32 (markedSector 1), 0⟩,
       ⟨1, DiskSectorCRC.calculateCRC32 (markedSector 1), 0⟩])
    [⟨0, DiskSectorCRC.calculateCRC32 (markedSector 1), 0⟩,
     ⟨1, DiskSectorCRC.calculateCRC32 (markedSector 1), 0⟩] 0 2 (fun _ => false) false ""
    failedWrite_run.1 (fun _ => rfl)
    (fun d hd r hr => by
      have h0 : (zeroImage 2).readable r.sectorNumber = true := by
        revert r; decide
      exact failingWriter_reaches _ _ d hd _ h0)
    _ (Or.inl rfl)
    ⟨⟨0, List.replicate 512 0, markedSector 1, false⟩,
      by rw [failedWrite_run.2]; exact List.mem_cons_self _ _, rfl⟩).2.1

/-! ## File-level checksums -/

/-- The read loop folds in the bytes of the complete 8192-byte blocks and nothing
else. -/
theorem readLoop_eq (rest : List Byte) (crc : Nat) :
    FileSystemCRC.readLoop rest crc =
      (rest.take (8192 * (rest.length / 8192))).foldl
        (fun crc byte => crc8Steps (crc ^^^ byte.val)) crc := by
  generalize hn : rest.length = n
  induction n using Nat.strong_induction_on generalizing rest crc with
  | _ n ih =>
    subst hn
    rw [FileSystemCRC.readLoop]
    by_cases hlt : rest.length < 8192
    · rw [if_pos hlt, Nat.div_eq_of_lt hlt]
      rfl
    · rw [if_neg hlt, ih (rest.drop 8192).length (by rw [List.length_drop]; omega)
        (rest.drop 8192) _ rfl, List.length_drop]
      have hq : rest.length / 8192 = (rest.length - 8192) / 8192 + 1 := by omega
      rw [hq, Nat.mul_add, Nat.mul_one, ← List.foldl_append]
      congr 1
      rw [Nat.add_comm, List.take_add]

/-- What `calculateCRC32ForFile` returns for a file that opens: the checksum of its
complete 8192-byte blocks. -/
theorem calculateCRC32ForFile_eq (bytes : List Byte) :
    FileSystemCRC.calculateCRC32ForFile (some bytes) =
      FileSystemCRC.calculateCRC32ForData (bytes.take (8192 * (bytes.length / 8192))) := by
  show FileSystemCRC.readLoop bytes 0xFFFFFFFF ^^^ 0xFFFFFFFF = _
  rw [readLoop_eq]
  rfl

/-- The static `calculateFileCRC32` returns the same value. -/
theorem calculateFileCRC32_eq (bytes : List Byte) :
    FileSystemCRC.calculateFileCRC32 (some bytes) =
      FileSystemCRC.calculateCRC32ForData (bytes.take (8192 * (bytes.length / 8192))) := by
  show FileSystemCRC.readLoop bytes 0xFFFFFFFF ^^^ 0xFFFFFFFF = _
  rw [readLoop_eq]
  rfl

/-- A file shorter than the read buffer gets the checksum of the empty sequence,
which is 0. -/
theorem calculateCRC32ForFile_short (bytes : List Byte) (h : bytes.length < 8192) :
    FileSystemCRC.calculateCRC32ForFile (some bytes) = 0 ∧
    FileSystemCRC.calculateFileCRC32 (some bytes) = 0 := by
  rw [calculateCRC32ForFile_eq, calculateFileCRC32_eq, Nat.div_eq_of_lt h, Nat.mul_zero,
    List.take_zero]
  exact ⟨by decide, by decide⟩

/-- C28 (evaluation at the failing input): `calculateCRC32ForFile` and
`calculateFileCRC32` return the `calculateCRC32ForData` of the complete 8192-byte
blocks of the file, the bytes after the last complete block left out.  For the file
that holds the single byte 1 both return 0, while `calculateCRC32ForData` of that
byte is `0xA505DF1B`; and `generateFileChecksum` stores the same `crc32` for the
one-byte files holding 0 and 1, two files of equal size that differ in a byte. -/
theorem calculateCRC32ForFile_drops_final_block :
    (∀ bytes : List Byte,
      FileSystemCRC.calculateCRC32ForFile (some bytes) =
        FileSystemCRC.calculateCRC32ForData (bytes.take (8192 * (bytes.length / 8192))) ∧
      FileSystemCRC.calculateFileCRC32 (some bytes) =
        FileSystemCRC.calculateCRC32ForData (bytes.take (8192 * (bytes.length / 8192)))) ∧
    FileSystemCRC.calculateCRC32ForFile (some [1]) = 0 ∧
    FileSystemCRC.calculateFileCRC32 (some [1]) = 0 ∧
    FileSystemCRC.calculateCRC32ForData [1] = 0xA505DF1B ∧
    (FileSystemCRC.generateFileChecksum "a" true (some [0]) 1 0 0 ⟨"", 0, 0, 0, 0⟩ "").ok = true ∧
    (FileSystemCRC.generateFileChecksum "b" true (some [1]) 1 0 0 ⟨"", 0, 0, 0, 0⟩ "").ok = true ∧
    (FileSystemCRC.generateFileChecksum "a" true (some [0]) 1 0 0 ⟨"", 0, 0, 0, 0⟩
        "").checksum.crc32 =
      (FileSystemCRC.generateFileChecksum "b" true (some [1]) 1 0 0 ⟨"", 0, 0, 0, 0⟩
        "").checksum.crc32 := by
  refine ⟨fun bytes => ⟨calculateCRC32ForFile_eq bytes, calculateFileCRC32_eq bytes⟩,
    (calculateCRC32ForFile_short [1] (by decide)).1,
    (calculateCRC32ForFile_short [1] (by decide)).2, by decide, rfl, rfl, ?_⟩
  show FileSystemCRC.calculateCRC32ForFile (some [0]) =
    FileSystemCRC.calculateCRC32ForFile (some [1])
  rw [(calculateCRC32ForFile_short [0] (by decide)).1,
    (calculateCRC32ForFile_short [1] (by decide)).1]

/-! ## The backup blob -/

/-- With less than one entry left in the stream, the scan of `restoreSector` ends
without a write. -/
theorem restoreLoop_short (w : Writer) (disk : Disk) (diskPath : String) (n : Nat)
    (lastError : String) (rest : List Byte) (h : rest.length < 8 + SECTOR_SIZE) :
    DiskSectorCRC.restoreLoop w disk diskPath n lastError rest =
      ⟨false, "Sector not found in backup file: " ++ toString n, disk⟩ := by
  rw [DiskSectorCRC.restoreLoop]
  by_cases h8 : rest.length < 8
  · rw [dif_pos h8]
  · rw [dif_neg h8, dif_pos (by rw [List.length_drop]; omega)]

/-- One complete entry at the front of the stream: the scan ends in `writeSector` with
its data when it is the entry of the sector, and goes on behind it otherwise. -/
theorem restoreLoop_entry (w : Writer) (disk : Disk) (diskPath : String) (n : Nat)
    (lastError : String) (k : Nat) (data rest : List Byte) (hk : k < 2 ^ 64)
    (hd : data.length = SECTOR_SIZE) :
    DiskSectorCRC.restoreLoop w disk diskPath n lastError (leBytes 8 k ++ data ++ rest) =
      if k = n then DiskSectorCRC.writeSector w disk diskPath n data lastError
      else DiskSectorCRC.restoreLoop w disk diskPath n lastError rest := by
  have h8 : (leBytes 8 k).length = 8 := leBytes_length 8 k
  have hlen : (leBytes 8 k ++ data).length = 8 + SECTOR_SIZE := by
    rw [List.length_append, h8, hd]
  have hv : leValue (leBytes 8 k) = k := by
    rw [leValue_leBytes]
    exact Nat.mod_eq_of_lt (by norm_num; exact hk)
  have e1 : List.take 8 (leBytes 8 k ++ data ++ rest) = leBytes 8 k := by
    rw [List.append_assoc]
    exact List.take_left' h8
  have e2 : List.drop 8 (leBytes 8 k ++ data ++ rest) = data ++ rest := by
    rw [List.append_assoc]
    exact List.drop_left' h8
  have e3 : List.drop (8 + SECTOR_SIZE) (leBytes 8 k ++ data ++ rest) = rest :=
    List.drop_left' hlen
  rw [DiskSectorCRC.restoreLoop]
  rw [dif_neg (by rw [List.length_append, hlen]; omega),
    dif_neg (by rw [e2, List.length_append, hd]; omega), e1, e2, e3, hv, List.take_left' hd]

/-- The scan of `restoreSector` over a sequence of complete entries followed by less
than one entry: the first entry of the sector decides. -/
theorem restoreLoop_blobOf (w : Writer) (disk : Disk) (diskPath : String) (n : Nat)
    (lastError : String) (entries : List (Nat × List Byte)) (tail : List Byte)
    (hentries : ∀ e ∈ entries, e.1 < 2 ^ 64 ∧ e.2.length = SECTOR_SIZE)
    (htail : tail.length < 8 + SECTOR_SIZE) :
    DiskSectorCRC.restoreLoop w disk diskPath n lastError (blobOf entries ++ tail) =
      match entries.find? (fun e => decide (e.1 = n)) with
      | some e => DiskSectorCRC.writeSector w disk diskPath n e.2 lastError
      | none => ⟨false, "Sector not found in backup file: " ++ toString n, disk⟩ := by
  induction entries with
  | nil => exact restoreLoop_short w disk diskPath n lastError _ htail
  | cons e rest ih =>
    obtain ⟨h1, h2⟩ := hentries e (List.mem_cons_self _ _)
    have hb : blobOf (e :: rest) ++ tail = leBytes 8 e.1 ++ e.2 ++ (blobOf rest ++ tail) := by
      simp only [blobOf, List.map_cons, List.flatten_cons, List.append_assoc]
    rw [hb, restoreLoop_entry w disk diskPath n lastError e.1 e.2 _ h1 h2, List.find?_cons]
    by_cases hn : e.1 = n
    · rw [if_pos hn]
      simp only [hn, decide_True]
    · rw [if_neg hn, ih (fun e2 he2 => hentries e2 (List.mem_cons_of_mem _ he2))]
      simp only [hn, decide_False]

/-- The blob after `backupSector` of a readable sector: one more entry. -/
theorem backupSector_appends (disk : Disk) (diskPath backupPath : String) (n : Nat)
    (blob : Option (List Byte)) (lastError : String) (h : disk.readable n = true) :
    DiskSectorCRC.backupSector disk diskPath n backupPath blob true lastError =
      ⟨true, lastError, some (blob.getD [] ++ leBytes 8 n ++ disk.sectorData n)⟩ := by
  unfold DiskSectorCRC.backupSector
  simp only [readSector_ok, h, Bool.true_eq_false, if_false, readSector_buffer,
    readSector_lastError_of_ok _ _ _ _ h]

/-- C29: `restoreSector` on a blob made of complete entries (8-byte sector number,
then 512 data bytes), followed by less than one entry, ends in `writeSector` of the
data of the first entry whose number is `n` and returns what that call returns; when
there is no such entry it writes nothing and sets the error
"Sector not found in backup file: n".  Hence, when the blob holds complete entries
and none for `n`, sector `n` can be read and the blob opens for appending,
`backupSector` returns true, and a later `restoreSector` on the device in any state
in which sector `n` can be read, through a writer whose writes succeed, returns true
and leaves sector `n` holding the bytes it had at the time of the backup. -/
theorem restoreSector_round_trip (w : Writer) (disk modified : Disk)
    (diskPath backupPath : String) (n : Nat) (entries : List (Nat × List Byte))
    (tail : List Byte) (lastError : String)
    (hentries : ∀ e ∈ entries, e.1 < 2 ^ 64 ∧ e.2.length = SECTOR_SIZE)
    (htail : tail.length < 8 + SECTOR_SIZE) :
    DiskSectorCRC.restoreSector w modified diskPath n backupPath
        (some (blobOf entries ++ tail)) lastError =
      (match entries.find? (fun e => decide (e.1 = n)) with
       | some e => DiskSectorCRC.writeSector w modified diskPath n e.2 lastError
       | none => ⟨false, "Sector not found in backup file: " ++ toString n, modified⟩) ∧
    (w.faithful → n < 2 ^ 64 → disk.readable n = true → modified.readable n = true →
      (∀ e ∈ entries, e.1 ≠ n) →
      ∀ blob : Option (List Byte), blob.getD [] = blobOf entries →
        (DiskSectorCRC.backupSector disk diskPath n backupPath blob true lastError).ok = true ∧
        (DiskSectorCRC.restoreSector w modified diskPath n backupPath
          (DiskSectorCRC.backupSector disk diskPath n backupPath blob true lastError).blob
          lastError).ok = true ∧
        DiskSectorCRC.readSector
          (DiskSectorCRC.restoreSector w modified diskPath n backupPath
            (DiskSectorCRC.backupSector disk diskPath n backupPath blob true lastError).blob
            lastError).disk diskPath n lastError =
          ⟨true, (DiskSectorCRC.readSector disk diskPath n lastError).buffer, lastError⟩) := by
  refine ⟨restoreLoop_blobOf w modified diskPath n lastError entries tail hentries htail, ?_⟩
  intro hw hn hread hmod hnone blob hblob
  have hlen := readable_sectorData_length disk n hread
  have hall : ∀ e ∈ entries ++ [(n, disk.sectorData n)], e.1 < 2 ^ 64 ∧ e.2.length = SECTOR_SIZE := by
    intro e he
    rcases List.mem_append.1 he with h1 | h1
    · exact hentries e h1
    · rw [List.mem_singleton.1 h1]; exact ⟨hn, hlen⟩
  have hfind : (entries ++ [(n, disk.sectorData n)]).find? (fun e => decide (e.1 = n)) =
      some (n, disk.sectorData n) := by
    rw [List.find?_append, List.find?_eq_none.2 (fun e he => by simpa using hnone e he)]
    simp
  have hb : blob.getD [] ++ leBytes 8 n ++ disk.sectorData n =
      blobOf (entries ++ [(n, disk.sectorData n)]) ++ [] := by
    rw [hblob]
    simp only [blobOf, List.map_append, List.flatten_append, List.map_cons, List.map_nil,
      List.flatten_cons, List.flatten_nil, List.append_nil, List.append_assoc]
  have hrestore : DiskSectorCRC.restoreSector w modified diskPath n backupPath
      (some (blob.getD [] ++ leBytes 8 n ++ disk.sectorData n)) lastError =
      ⟨true, lastError, modified.store (sectorPosition n) (disk.sectorData n)⟩ := by
    rw [hb]
    show DiskSectorCRC.restoreLoop w modified diskPath n lastError _ = _
    rw [restoreLoop_blobOf w modified diskPath n lastError _ [] hall (by simp [SECTOR_SIZE]),
      hfind]
    exact writeSector_faithful w hw modified diskPath n _ lastError hlen
      (readable_seek modified n hmod)
  rw [backupSector_appends disk diskPath backupPath n blob lastError hread, hrestore]
  refine ⟨rfl, rfl, ?_⟩
  rw [readSector_store_same modified diskPath n _ lastError hmod, readSector_buffer, hlen]
  rfl

/-- C29, at a concrete input: the blob holds one entry, for sector 7; sector 0 of the
device holds the marked sector at the time of the backup and zeros at the time of
the restore. -/
theorem restoreSector_round_trip_witness :
    (DiskSectorCRC.backupSector ((zeroImage 1).store (sectorPosition 0) (markedSector 1))
        "disk" 0 "blob" (some (blobOf [(7, List.replicate 512 0)])) true "").ok = true ∧
    (DiskSectorCRC.restoreSector faithfulWriter (zeroImage 1) "disk" 0 "blob"
      (DiskSectorCRC.backupSector ((zeroImage 1).store (sectorPosition 0) (markedSector 1))
        "disk" 0 "blob" (some (blobOf [(7, List.replicate 512 0)])) true "").blob "").ok = true ∧
    DiskSectorCRC.readSector
      (DiskSectorCRC.restoreSector faithfulWriter (zeroImage 1) "disk" 0 "blob"
        (DiskSectorCRC.backupSector ((zeroImage 1).store (sectorPosition 0) (markedSector 1))
          "disk" 0 "blob" (some (blobOf [(7, List.replicate 512 0)])) true "").blob "").disk
      "disk" 0 "" =
      ⟨true, (DiskSectorCRC.readSector
        ((zeroImage 1).store (sectorPosition 0) (markedSector 1)) "disk" 0 "").buffer, ""⟩ :=
  (restoreSector_round_trip faithfulWriter
    ((zeroImage 1).store (sectorPosition 0) (markedSector 1)) (zeroImage 1) "disk" "blob" 0
    [(7, List.replicate 512 0)] [] "" (by decide) (by decide)).2
    (fun _ _ _ => ⟨rfl, rfl⟩) (by norm_num) (by decide) (by decide) (by decide) _ rfl

/-! ## The sources a repair takes data from -/

/-- A repair without a backup path never calls `writeSector`: the calls, the repaired
count and the target stay as they are. -/
theorem enhancedRepairLoop_no_backup (w : Writer) (diskPath : String) (backup : Disk)
    (bd : String) (cancelled : Nat → Bool) (cb : Bool) (total : Nat)
    (cs : List SectorChecksum) (i : Nat) (st : RepairState) :
    (EnhancedDiskSectorCRC.repairLoop w diskPath false backup bd cancelled cb total cs i
        st).2.writes = st.writes ∧
    (EnhancedDiskSectorCRC.repairLoop w diskPath false backup bd cancelled cb total cs i
        st).2.repairedSectors = st.repairedSectors ∧
    (EnhancedDiskSectorCRC.repairLoop w diskPath false backup bd cancelled cb total cs i
        st).2.target = st.target := by
  apply enhancedRepairLoop_invariant w diskPath false backup bd cancelled cb total
    (fun s => s.writes = st.writes ∧ s.repairedSectors = st.repairedSectors ∧
      s.target = st.target)
  · intro r _ s hs
    cases hread : s.target.readable r.sectorNumber with
    | false =>
      rw [repairRecord_unreadable w diskPath false backup bd r s hread]
      exact hs
    | true =>
      rw [repairRecord_skip w diskPath false backup bd r s hread (by simp [repairable])]
      exact hs
  · intro s _ hs; exact hs
  · intro s _ hs; exact hs
  · exact ⟨rfl, rfl, rfl⟩

/-- C21 (claim as stated, refuted): sector 0 of the target holds zeros, the ledger
records for it the checksum of the marked sector, and a backup blob holds an entry for
sector 0 with the marked sector, from which `restoreSector` would restore it.
Called without a backup path, `repairSectorData` of both classes counts the sector as
corrupted, makes no call of `writeSector`, leaves the target as it was and returns
false: the blob is not tried (the functions take no blob, and no repair function of
the program calls `restoreSector`). -/
theorem repairSectorData_ignores_backup_blob :
    (DiskSectorCRC.restoreSector faithfulWriter (zeroImage 1) "disk" 0 "blob"
        (some (blobOf [(0, markedSector 1)])) "").ok = true ∧
    (DiskSectorCRC.restoreSector faithfulWriter (zeroImage 1) "disk" 0 "blob"
        (some (blobOf [(0, markedSector 1)])) "").disk.sectorData 0 = markedSector 1 ∧
    (DiskSectorCRC.repairSectorData faithfulWriter (zeroImage 1) "disk" "ledger"
        (some (ledgerFile 0 0 [⟨0, DiskSectorCRC.calculateCRC32 (markedSector 1), 0⟩]))
        "" lockedDisk "").ok = false ∧
    (DiskSectorCRC.repairSectorData faithfulWriter (zeroImage 1) "disk" "ledger"
        (some (ledgerFile 0 0 [⟨0, DiskSectorCRC.calculateCRC32 (markedSector 1), 0⟩]))
        "" lockedDisk "").state.totalCorrupted = 1 ∧
    (DiskSectorCRC.repairSectorData faithfulWriter (zeroImage 1) "disk" "ledger"
        (some (ledgerFile 0 0 [⟨0, DiskSectorCRC.calculateCRC32 (markedSector 1), 0⟩]))
        "" lockedDisk "").state.writes = [] ∧
    (DiskSectorCRC.repairSectorData faithfulWriter (zeroImage 1) "disk" "ledger"
        (some (ledgerFile 0 0 [⟨0, DiskSectorCRC.calculateCRC32 (markedSector 1), 0⟩]))
        "" lockedDisk "").state.target.sectorData 0 = List.replicate 512 0 ∧
    (EnhancedDiskSectorCRC.repairSectorData faithfulWriter (zeroImage 1) "disk" "ledger"
        (some (ledgerFile 0 0 [⟨0, DiskSectorCRC.calculateCRC32 (markedSector 1), 0⟩]))
        "" lockedDisk (fun _ => false) false "").ok = false ∧
    (EnhancedDiskSectorCRC.repairSectorData faithfulWriter (zeroImage 1) "disk" "ledger"
        (some (ledgerFile 0 0 [⟨0, DiskSectorCRC.calculateCRC32 (markedSector 1), 0⟩]))
        "" lockedDisk (fun _ => false) false "").state.writes = [] := by
  obtain ⟨hT1, hT2⟩ := zeroImage_readSector 1 0 (by omega) (by norm_num)
  have hload := readChecksumFile_ledgerFile "ledger" 0 0
    [⟨0, DiskSectorCRC.calculateCRC32 (markedSector 1), 0⟩] (by norm_num) (by simp)
    (fun r hr => by
      rw [List.mem_singleton.1 hr]
      exact ⟨by norm_num, calculateCRC32_lt _, by norm_num⟩)
  have hne : DiskSectorCRC.calculateCRC32 ((zeroImage 1).sectorData 0) ≠
      DiskSectorCRC.calculateCRC32 (markedSector 1) := by
    rw [hT2]; exact calculateCRC32_marked_ne
  have hm : mismatching (zeroImage 1) ⟨0, DiskSectorCRC.calculateCRC32 (markedSector 1), 0⟩ =
      true := mismatching_of_ne (zeroImage 1) ⟨0, _, 0⟩ hne
  have hstep : repairRecord faithfulWriter "disk" false lockedDisk ""
      ⟨0, DiskSectorCRC.calculateCRC32 (markedSector 1), 0⟩
      (RepairState.initial (zeroImage 1) "") =
      (true, ⟨zeroImage 1, "", 0, 1, [0], [], []⟩) := by
    rw [repairRecord_skip faithfulWriter "disk" false lockedDisk ""
      ⟨0, DiskSectorCRC.calculateCRC32 (markedSector 1), 0⟩
      (RepairState.initial (zeroImage 1) "") hT1 (by simp [repairable])]
    rw [show (RepairState.initial (zeroImage 1) "").target = zeroImage 1 from rfl, hm]
    rfl
  have hrun : EnhancedDiskSectorCRC.repairLoop faithfulWriter "disk" false lockedDisk ""
      (fun _ => false) false 1 [⟨0, DiskSectorCRC.calculateCRC32 (markedSector 1), 0⟩] 0
      (RepairState.initial (zeroImage 1) "") =
      (true, ⟨zeroImage 1, "", 0, 1, [0], [], []⟩) := by
    rw [enhancedRepairLoop_cons faithfulWriter "disk" false lockedDisk "" 1 _ [] 0 _ _ hstep]
    rfl
  have hba : (!("" : String).isEmpty) = false := by decide
  have hb := baseRepair_of_loaded faithfulWriter (zeroImage 1) "disk" "ledger" _ ""
    lockedDisk "" _ 0 _ hload
  have he := enhancedRepair_of_loaded faithfulWriter (zeroImage 1) "disk" "ledger" _ ""
    lockedDisk (fun _ => false) false "" _ 0 _ hload
  rw [hba, List.length_singleton, hrun] at hb he
  have hlenM : (markedSector 1).length = SECTOR_SIZE := markedSector_length 1
  have hrestore : DiskSectorCRC.restoreSector faithfulWriter (zeroImage 1) "disk" 0 "blob"
      (some (blobOf [(0, markedSector 1)])) "" =
      ⟨true, "", (zeroImage 1).store (sectorPosition 0) (markedSector 1)⟩ := by
    have h1 := restoreLoop_blobOf faithfulWriter (zeroImage 1) "disk" 0 ""
      [(0, markedSector 1)] []
      (fun e he => by rw [List.mem_singleton.1 he]; exact ⟨by norm_num, hlenM⟩)
      (by simp [SECTOR_SIZE])
    rw [List.append_nil] at h1
    show DiskSectorCRC.restoreLoop faithfulWriter (zeroImage 1) "disk" 0 ""
      (blobOf [(0, markedSector 1)]) = _
    rw [h1]
    exact writeSector_faithful faithfulWriter (fun _ _ _ => ⟨rfl, rfl⟩) (zeroImage 1) "disk" 0
      (markedSector 1) "" hlenM (readable_seek (zeroImage 1) 0 hT1)
  rw [hrestore, hb, he]
  exact ⟨rfl, store_sectorData (zeroImage 1) 0 (markedSector 1) hT1, rfl, rfl, rfl, hT2, rfl,
    rfl⟩

/-- C21 (amended): over any run of `repairSectorData` of either class on a ledger that
loads, the backup device named by `backupDiskPath` is the only source: every call of
`writeSector` is made with a backup path given, for a listed record whose target
sector, as just read, does not have the stored `crc32`, and passes the bytes read
from the same sector of that device, which have the stored `crc32`; without a backup
path no call of `writeSector` is made, no
sector is counted as repaired, the target is left as it was, and the call returns
true only when no sector was counted as corrupted. -/
theorem repairSectorData_backup_device_only (w : Writer) (target backup : Disk)
    (diskPath checksumFile backupDiskPath : String) (bytes : List Byte)
    (checksums : List SectorChecksum) (s n : Nat) (cancelled : Nat → Bool)
    (hasCallback : Bool) (lastError : String)
    (hload : EnhancedDiskSectorCRC.readChecksumFile checksumFile (some bytes) =
      LoadOutcome.loaded checksums s n) :
    ∀ res : RepairResult,
      (res = DiskSectorCRC.repairSectorData w target diskPath checksumFile (some bytes)
          backupDiskPath backup lastError ∨
       res = EnhancedDiskSectorCRC.repairSectorData w target diskPath checksumFile (some bytes)
          backupDiskPath backup cancelled hasCallback lastError) →
      (∀ e ∈ res.state.writes,
        backupDiskPath.isEmpty = false ∧ backup.readable e.sectorNumber = true ∧
        e.data = backup.sectorData e.sectorNumber ∧
        ∃ r ∈ checksums, r.sectorNumber = e.sectorNumber ∧
          DiskSectorCRC.calculateCRC32 e.current ≠ r.crc32 ∧
          DiskSectorCRC.calculateCRC32 e.data = r.crc32) ∧
      (backupDiskPath.isEmpty = true →
        res.state.writes = [] ∧ res.state.repairedSectors = 0 ∧ res.state.target = target ∧
        (res.ok = true → res.state.totalCorrupted = 0)) := by
  have key : ∀ (cancelled2 : Nat → Bool) (cb : Bool) (res : RepairResult),
      res = ⟨Ending.returned,
       (EnhancedDiskSectorCRC.repairLoop w diskPath (!backupDiskPath.isEmpty) backup
          backupDiskPath cancelled2 cb checksums.length checksums 0
          (RepairState.initial target lastError)).1 &&
        (decide (0 < (EnhancedDiskSectorCRC.repairLoop w diskPath (!backupDiskPath.isEmpty)
            backup backupDiskPath cancelled2 cb checksums.length checksums 0
            (RepairState.initial target lastError)).2.repairedSectors) ||
         decide ((EnhancedDiskSectorCRC.repairLoop w diskPath (!backupDiskPath.isEmpty)
            backup backupDiskPath cancelled2 cb checksums.length checksums 0
            (RepairState.initial target lastError)).2.totalCorrupted = 0)),
       (EnhancedDiskSectorCRC.repairLoop w diskPath (!backupDiskPath.isEmpty) backup
          backupDiskPath cancelled2 cb checksums.length checksums 0
          (RepairState.initial target lastError)).2⟩ →
      (∀ e ∈ res.state.writes,
        backupDiskPath.isEmpty = false ∧ backup.readable e.sectorNumber = true ∧
        e.data = backup.sectorData e.sectorNumber ∧
        ∃ r ∈ checksums, r.sectorNumber = e.sectorNumber ∧
          DiskSectorCRC.calculateCRC32 e.current ≠ r.crc32 ∧
          DiskSectorCRC.calculateCRC32 e.data = r.crc32) ∧
      (backupDiskPath.isEmpty = true →
        res.state.writes = [] ∧ res.state.repairedSectors = 0 ∧ res.state.target = target ∧
        (res.ok = true → res.state.totalCorrupted = 0)) := by
    intro cancelled2 cb res hres
    rw [hres]
    refine ⟨?_, ?_⟩
    · intro e he
      obtain ⟨r, hr, h1, h2, h3, h4, h5, h6⟩ := enhancedRepairLoop_writes w diskPath
        (!backupDiskPath.isEmpty) backup backupDiskPath cancelled2 cb checksums.length checksums
        0 target lastError e he
      refine ⟨?_, ?_, ?_, r, hr, h1, h2, h6⟩
      · simpa using h3
      · rw [← h1]; exact h4
      · rw [← h1]; exact h5
    · intro hempty
      have hba : (!backupDiskPath.isEmpty) = false := by rw [hempty]; rfl
      obtain ⟨h1, h2, h3⟩ := enhancedRepairLoop_no_backup w diskPath backup backupDiskPath
        cancelled2 cb checksums.length checksums 0 (RepairState.initial target lastError)
      simp only [hba]
      refine ⟨h1, h2, h3, ?_⟩
      rw [h2]
      simp [RepairState.initial]
  intro res hres
  rcases hres with h | h
  · rw [baseRepair_of_loaded w target diskPath checksumFile bytes backupDiskPath backup
      lastError checksums s n hload] at h
    exact key (fun _ => false) false res h
  · rw [enhancedRepair_of_loaded w target diskPath checksumFile bytes backupDiskPath backup
      cancelled hasCallback lastError checksums s n hload] at h
    exact key cancelled hasCallback res h

/-- C21 (amended), at a concrete input: a one-record ledger on a one-sector image,
no backup path. -/
theorem repairSectorData_backup_device_only_witness :
    (EnhancedDiskSectorCRC.repairSectorData faithfulWriter (zeroImage 1) "disk" "ledger"
        (some (ledgerFile 0 0 [⟨0, 7, 0⟩])) "" lockedDisk (fun _ => false) false
        "").state.writes = [] ∧
    (EnhancedDiskSectorCRC.repairSectorData faithfulWriter (zeroImage 1) "disk" "ledger"
        (some (ledgerFile 0 0 [⟨0, 7, 0⟩])) "" lockedDisk (fun _ => false) false
        "").state.repairedSectors = 0 :=
  have h := (repairSectorData_backup_device_only faithfulWriter (zeroImage 1) lockedDisk "disk"
    "ledger" "" (ledgerFile 0 0 [⟨0, 7, 0⟩]) [⟨0, 7, 0⟩] 0 1 (fun _ => false) false ""
    (readChecksumFile_ledgerFile "ledger" 0 0 [⟨0, 7, 0⟩] (by norm_num) (by simp)
      (fun r hr => by rw [List.mem_singleton.1 hr]; exact ⟨by norm_num, by norm_num, by norm_num⟩))
    _ (Or.inr rfl)).2 rfl
  ⟨h.1, h.2.1⟩

/-! ## The contract of `writeSector` -/

/-- Reading the sector at the stored position returns the stored bytes, when the
handle opens and the position can be set. -/
theorem readSector_store_opened (disk : Disk) (diskPath : String) (k : Nat) (data : List Byte)
    (lastError : String) (hopen : disk.openError = none)
    (hseek : disk.seek (toInt64 (k * SECTOR_SIZE % 2 ^ 64)) = true) :
    DiskSectorCRC.readSector (disk.store (sectorPosition k) data) diskPath k lastError =
      ⟨data.length == SECTOR_SIZE, data, lastError⟩ := by
  unfold DiskSectorCRC.readSector Disk.store sectorPosition
  simp only [hopen, hseek, Bool.true_eq_false, if_false, if_true]

/-- What `writeSector` does with a full sector of data when the handle opens, the
position can be set and `WriteFile` reports `SECTOR_SIZE` bytes written. -/
theorem writeSector_succeeds (w : Writer) (disk disk2 : Disk) (diskPath : String) (k : Nat)
    (data : List Byte) (lastError : String) (hlen : data.length = SECTOR_SIZE)
    (hopens : w.opens disk = true)
    (hseek : disk.seek (toInt64 (k * SECTOR_SIZE % 2 ^ 64)) = true)
    (hwrite : w.write disk (sectorPosition k) data = (some SECTOR_SIZE, disk2)) :
    DiskSectorCRC.writeSector w disk diskPath k data lastError = ⟨true, lastError, disk2⟩ := by
  unfold sectorPosition at hwrite
  unfold DiskSectorCRC.writeSector
  simp only [hlen, ne_eq, not_true_eq_false, if_false, hopens, hseek, Bool.true_eq_false,
    hwrite]
  simp

/-- C22 (claim as stated, refuted): sector numbers `0` and `2^55` have the same byte
position, `2^55 * 512` being `0` as a `uint64_t`.  On a one-sector image of zeros,
`writeSector(2^55, data)` with the marked sector as data returns true, and afterwards
sector 0, another sector, holds the marked sector instead of zeros. -/
theorem writeSector_changes_aliased_sector :
    (DiskSectorCRC.writeSector faithfulWriter (zeroImage 1) "disk" (2 ^ 55) (markedSector 1)
        "").ok = true ∧
    (DiskSectorCRC.readSector (zeroImage 1) "disk" 0 "").buffer = List.replicate 512 0 ∧
    (DiskSectorCRC.readSector
      (DiskSectorCRC.writeSector faithfulWriter (zeroImage 1) "disk" (2 ^ 55) (markedSector 1)
        "").disk "disk" 0 "").buffer = markedSector 1 ∧
    (0 : Nat) ≠ 2 ^ 55 := by
  obtain ⟨hT1, hT2⟩ := zeroImage_readSector 1 0 (by omega) (by norm_num)
  have hpos : sectorPosition (2 ^ 55) = sectorPosition 0 := by
    unfold sectorPosition SECTOR_SIZE; norm_num
  have hseek : (zeroImage 1).seek (toInt64 (2 ^ 55 * SECTOR_SIZE % 2 ^ 64)) = true := by
    have h := readable_seek (zeroImage 1) 0 hT1
    have e : 2 ^ 55 * SECTOR_SIZE % 2 ^ 64 = 0 * SECTOR_SIZE % 2 ^ 64 := by
      unfold SECTOR_SIZE; norm_num
    rw [e]; exact h
  rw [writeSector_succeeds faithfulWriter (zeroImage 1)
    ((zeroImage 1).store (sectorPosition (2 ^ 55)) (markedSector 1)) "disk" (2 ^ 55)
    (markedSector 1) "" (markedSector_length 1) rfl hseek rfl, hpos]
  refine ⟨rfl, ?_, ?_, by norm_num⟩
  · rw [readSector_buffer]; exact hT2
  · rw [readSector_store_same (zeroImage 1) "disk" 0 (markedSector 1) "" hT1]

/-- C22 (amended): for every sector number and every data whose length is not 512,
`writeSector` returns false with the error "Data size does not equal sector size"
and leaves the device as it was, whatever the device and the writer.  When the
length is 512, the write handle opens, the position can be set and `WriteFile`
reports 512 bytes written and stores the data, `writeSector` returns true, and
`readSector` of every sector at another byte position returns what it did before,
in particular of every other sector number when both numbers are below `2^55`; on a
device whose read handle opens, `readSector` of the sector written then returns
exactly the data. -/
theorem writeSector_contract (w : Writer) (disk : Disk) (diskPath : String) (k : Nat)
    (data : List Byte) (lastError : String) :
    (data.length ≠ SECTOR_SIZE →
      DiskSectorCRC.writeSector w disk diskPath k data lastError =
        ⟨false, "Data size does not equal sector size", disk⟩) ∧
    (data.length = SECTOR_SIZE → w.opens disk = true →
      disk.seek (toInt64 (k * SECTOR_SIZE % 2 ^ 64)) = true →
      w.write disk (sectorPosition k) data =
        (some SECTOR_SIZE, disk.store (sectorPosition k) data) →
      (DiskSectorCRC.writeSector w disk diskPath k data lastError).ok = true ∧
      (disk.openError = none → ∀ lastError2 : String,
        DiskSectorCRC.readSector
          (DiskSectorCRC.writeSector w disk diskPath k data lastError).disk diskPath k
          lastError2 = ⟨true, data, lastError2⟩) ∧
      (∀ (k2 : Nat) (lastError2 : String), sectorPosition k2 ≠ sectorPosition k →
        DiskSectorCRC.readSector
          (DiskSectorCRC.writeSector w disk diskPath k data lastError).disk diskPath k2
          lastError2 = DiskSectorCRC.readSector disk diskPath k2 lastError2) ∧
      (k < 2 ^ 55 → ∀ (k2 : Nat) (lastError2 : String), k2 < 2 ^ 55 → k2 ≠ k →
        DiskSectorCRC.readSector
          (DiskSectorCRC.writeSector w disk diskPath k data lastError).disk diskPath k2
          lastError2 = DiskSectorCRC.readSector disk diskPath k2 lastError2)) := by
  refine ⟨?_, ?_⟩
  · intro hlen
    unfold DiskSectorCRC.writeSector
    rw [if_pos hlen]
  · intro hlen hopens hseek hwrite
    rw [writeSector_succeeds w disk _ diskPath k data lastError hlen hopens hseek hwrite]
    refine ⟨rfl, ?_, ?_, ?_⟩
    · intro hopen lastError2
      rw [readSector_store_opened disk diskPath k data lastError2 hopen hseek, hlen]
      rfl
    · intro k2 lastError2 hne
      exact readSector_store_other disk diskPath k k2 data lastError2 hne
    · intro hk k2 lastError2 hk2 hne
      refine readSector_store_other disk diskPath k k2 data lastError2
        (sectorPosition_ne k2 k ?_)
      rw [Nat.mod_eq_of_lt hk2, Nat.mod_eq_of_lt hk]
      exact hne

/-- C22 (amended), at a concrete input: data of the wrong length for sector 3, and
the marked sector written to sector 1 of a two-sector image of zeros. -/
theorem writeSector_contract_witness :
    DiskSectorCRC.writeSector faithfulWriter (zeroImage 2) "disk" 3 [] "" =
      ⟨false, "Data size does not equal sector size", zeroImage 2⟩ ∧
    DiskSectorCRC.readSector
      (DiskSectorCRC.writeSector faithfulWriter (zeroImage 2) "disk" 1 (markedSector 1)
        "").disk "disk" 1 "" = ⟨true, markedSector 1, ""⟩ ∧
    DiskSectorCRC.readSector
      (DiskSectorCRC.writeSector faithfulWriter (zeroImage 2) "disk" 1 (markedSector 1)
        "").disk "disk" 0 "" = DiskSectorCRC.readSector (zeroImage 2) "disk" 0 "" :=
  ⟨(writeSector_contract faithfulWriter (zeroImage 2) "disk" 3 [] "").1 (by decide),
   ((writeSector_contract faithfulWriter (zeroImage 2) "disk" 1 (markedSector 1) "").2
      (markedSector_length 1) rfl (by decide) rfl).2.1 rfl "",
   ((writeSector_contract faithfulWriter (zeroImage 2) "disk" 1 (markedSector 1) "").2
      (markedSector_length 1) rfl (by decide) rfl).2.2.2 (by norm_num) 0 ""
      (by norm_num) (by norm_num)⟩

/-! ## The ledger a cancelled generation leaves -/

/-- The cancellation-aware loop when the first `k` reads succeed and the
cancellation is observed at the top of iteration `k`. -/
theorem enhancedGenerateLoop_cancelled (disk : Disk) (diskPath : String) (t : Nat)
    (padding : Nat → List Byte) (cancelled : Nat → Bool) (cb : Bool) (s n : Nat)
    (k m i : Nat) (st : GenResult) (hk : k < m)
    (hcancel : ∀ j < k, cancelled (i + j) = false)
    (hstop : cancelled (i + k) = true)
    (hread : ∀ j < k, disk.readable ((s + (i + j)) % 2 ^ 64) = true) :
    EnhancedDiskSectorCRC.generateLoop disk diskPath t padding cancelled cb s n m i st =
      ⟨false, "Operation cancelled by user",
       st.out ++ generatedBytes disk t padding s i k,
       st.reads ++ sectorsFrom s i k,
       st.progress ++ progressCalls cb n i k⟩ := by
  induction k generalizing m i st with
  | zero =>
    obtain ⟨m, rfl⟩ : ∃ m2, m = m2 + 1 := ⟨m - 1, by omega⟩
    rw [Nat.add_zero] at hstop
    simp only [EnhancedDiskSectorCRC.generateLoop, hstop, if_true, generatedBytes_zero,
      List.append_nil]
    simp [sectorsFrom, progressCalls]
  | succ k ih =>
    obtain ⟨m, rfl⟩ : ∃ m2, m = m2 + 1 := ⟨m - 1, by omega⟩
    have hc0 : cancelled i = false := by simpa using hcancel 0 (by omega)
    have hcancel2 : ∀ j < k, cancelled (i + 1 + j) = false := by
      intro j hj
      have := hcancel (j + 1) (by omega)
      rwa [show i + (j + 1) = i + 1 + j by omega] at this
    have h0 : disk.readable ((s + i) % 2 ^ 64) = true := by
      have := hread 0 (by omega)
      rwa [Nat.add_zero] at this
    have hread2 : ∀ j < k, disk.readable ((s + (i + 1 + j)) % 2 ^ 64) = true := by
      intro j hj
      have := hread (j + 1) (by omega)
      rwa [show i + (j + 1) = i + 1 + j by omega] at this
    have hstop2 : cancelled (i + 1 + k) = true := by
      rwa [show i + (k + 1) = i + 1 + k by omega] at hstop
    rw [EnhancedDiskSectorCRC.generateLoop]
    simp only [hc0, readSector_ok, h0, Bool.true_eq_false, Bool.false_eq_true, if_false]
    rw [ih m (i + 1) _ (by omega) hcancel2 hstop2 hread2]
    simp only [readSector_buffer, generatedBytes_succ, sectorsFrom_succ, progressCalls_succ,
      List.append_assoc, List.singleton_append, generatedRecord]
    split <;> simp

/-- What a generation cancelled at the top of iteration `k` returns and leaves in the
output file, and what loading that file gives. -/
theorem generateSectorChecksums_cancelled (disk : Disk) (diskPath outputFile : String)
    (t : Nat) (padding : Nat → List Byte) (cancelled : Nat → Bool) (cb : Bool)
    (lastError checksumFile : String) (s n k : Nat) (hs : s < 2 ^ 64) (hn : n < 2 ^ 64)
    (hk : k < n) (hcancel : ∀ j < k, cancelled j = false) (hstop : cancelled k = true)
    (hread : ∀ j < k, disk.readable ((s + j) % 2 ^ 64) = true) :
    EnhancedDiskSectorCRC.generateSectorChecksums disk diskPath outputFile true t padding
        cancelled cb lastError s n =
      ⟨false, "Operation cancelled by user",
       ledgerHeader s n t ++ generatedBytes disk t padding s 0 k,
       sectorsFrom s 0 k, progressCalls cb n 0 k⟩ ∧
    EnhancedDiskSectorCRC.readChecksumFile checksumFile
        (some (ledgerHeader s n t ++ generatedBytes disk t padding s 0 k)) =
      (if vector_max_size < n then LoadOutcome.lengthError
       else LoadOutcome.failed "Failed to read checksum data") := by
  refine ⟨?_, ?_⟩
  · unfold EnhancedDiskSectorCRC.generateSectorChecksums
    rw [if_neg (by simp),
      enhancedGenerateLoop_cancelled disk diskPath t padding cancelled cb s n k n 0 _ hk
        (fun j hj => by rw [Nat.zero_add]; exact hcancel j hj)
        (by rw [Nat.zero_add]; exact hstop)
        (fun j hj => by rw [Nat.zero_add]; exact hread j hj)]
    simp
  · rw [readChecksumFile_of_header checksumFile s n t _ hs hn]
    have hnone : EnhancedDiskSectorCRC.readRecords n (generatedBytes disk t padding s 0 k) =
        none := by
      cases h : EnhancedDiskSectorCRC.readRecords n (generatedBytes disk t padding s 0 k) with
      | none => rfl
      | some cs =>
        have h2 := (readRecords_isSome_iff n (generatedBytes disk t padding s 0 k)).1
          (by rw [h]; rfl)
        rw [generatedBytes_length] at h2
        omega
    rw [hnone]

/-- On a file that holds the whole header, when the storage of the vector is
obtained, `readChecksumFileAllocating` ends as `readChecksumFile` says. -/
theorem readChecksumFileAllocating_eq (allocates : Nat → Bool) (checksumFile : String)
    (bytes : List Byte) (h28 : 28 ≤ bytes.length)
    (halloc : allocates (leValue ((bytes.drop 12).take 8)) = true) :
    EnhancedDiskSectorCRC.readChecksumFileAllocating allocates checksumFile (some bytes) =
      .ended (EnhancedDiskSectorCRC.readChecksumFile checksumFile (some bytes)) := by
  have h4 : ¬ bytes.length < 4 := by omega
  have h20 : ¬ bytes.length < 20 := by omega
  have h28b : ¬ bytes.length < 28 := by omega
  unfold EnhancedDiskSectorCRC.readChecksumFileAllocating
    EnhancedDiskSectorCRC.readChecksumFile
  simp only [h4, h20, h28b, if_false, halloc]
  by_cases hm : leValue (bytes.take 4) = LEDGER_MAGIC
  · simp only [hm, ne_eq, not_true_eq_false, if_false]
    by_cases hmax : vector_max_size < leValue ((bytes.drop 12).take 8)
    · simp only [hmax, if_true]
    · simp only [hmax, if_false, Bool.true_eq_false, and_false]
      cases EnhancedDiskSectorCRC.readRecords (leValue ((bytes.drop 12).take 8))
        (bytes.drop 28) <;> rfl
  · simp only [hm, ne_eq, not_false_eq_true, if_true]

/-- What `readChecksumFileAllocating` does with a file that starts with a well-formed
header declaring at least one record. -/
theorem readChecksumFileAllocating_of_header (allocates : Nat → Bool) (checksumFile : String)
    (s n t : Nat) (rest : List Byte) (hs : s < 2 ^ 64) (hn : n < 2 ^ 64) (hpos : 0 < n) :
    EnhancedDiskSectorCRC.readChecksumFileAllocating allocates checksumFile
        (some (ledgerHeader s n t ++ rest)) =
      if vector_max_size < n then .ended LoadOutcome.lengthError
      else if allocates n = false then .badAlloc
      else
        match EnhancedDiskSectorCRC.readRecords n rest with
        | none => .ended (LoadOutcome.failed "Failed to read checksum data")
        | some checksums => .ended (LoadOutcome.loaded checksums s n) := by
  obtain ⟨h1, h2, h3, h4⟩ := ledgerHeader_fields s n t rest
  have hlen : (ledgerHeader s n t ++ rest).length = 28 + rest.length := by
    rw [List.length_append, ledgerHeader_length]
  have e1 : LEDGER_MAGIC % 256 ^ 4 = LEDGER_MAGIC := by decide
  have e2 : s % 256 ^ 8 = s := Nat.mod_eq_of_lt (by norm_num; omega)
  have e3 : n % 256 ^ 8 = n := Nat.mod_eq_of_lt (by norm_num; omega)
  unfold EnhancedDiskSectorCRC.readChecksumFileAllocating
  simp only [h1, h2, h3, h4, leValue_leBytes, e1, e2, e3, hlen]
  rw [if_neg (by omega), if_neg (by simp), if_neg (by omega)]
  by_cases hmax : vector_max_size < n
  · rw [if_pos hmax, if_pos hmax]
  · rw [if_neg hmax, if_neg hmax]
    by_cases ha : allocates n = false
    · rw [if_pos ⟨by omega, ha⟩, if_pos ha]
    · rw [if_neg (fun h => ha h.2), if_neg ha]

/-- C23 (claim as stated, refuted): a generation over the two sectors of a
two-sector image is cancelled at the top of its second iteration, after one record
has been written.  It returns false with "Operation cancelled by user"; the output
file holds the header, which declares 2 records, and one record, 52 bytes in all;
and `readChecksumFile`, hence `validateChecksumFile`, fails on it with
"Failed to read checksum data". -/
theorem generateSectorChecksums_cancelled_not_loadable :
    (EnhancedDiskSectorCRC.generateSectorChecksums (zeroImage 2) "disk" "ledger" true 7
        (fun _ => []) (fun i => decide (i = 1)) false "" 0 2).ok = false ∧
    (EnhancedDiskSectorCRC.generateSectorChecksums (zeroImage 2) "disk" "ledger" true 7
        (fun _ => []) (fun i => decide (i = 1)) false "" 0 2).lastError =
      "Operation cancelled by user" ∧
    (EnhancedDiskSectorCRC.generateSectorChecksums (zeroImage 2) "disk" "ledger" true 7
        (fun _ => []) (fun i => decide (i = 1)) false "" 0 2).out =
      ledgerHeader 0 2 7 ++ generatedBytes (zeroImage 2) 7 (fun _ => []) 0 0 1 ∧
    (EnhancedDiskSectorCRC.generateSectorChecksums (zeroImage 2) "disk" "ledger" true 7
        (fun _ => []) (fun i => decide (i = 1)) false "" 0 2).out.length = 28 + 24 * 1 ∧
    EnhancedDiskSectorCRC.readChecksumFile "ledger"
        (some (EnhancedDiskSectorCRC.generateSectorChecksums (zeroImage 2) "disk" "ledger" true 7
          (fun _ => []) (fun i => decide (i = 1)) false "" 0 2).out) =
      LoadOutcome.failed "Failed to read checksum data" ∧
    EnhancedDiskSectorCRC.validateChecksumFile "ledger"
        (some (EnhancedDiskSectorCRC.generateSectorChecksums (zeroImage 2) "disk" "ledger" true 7
          (fun _ => []) (fun i => decide (i = 1)) false "" 0 2).out) =
      LoadOutcome.failed "Failed to read checksum data" := by
  obtain ⟨h1, h2⟩ := generateSectorChecksums_cancelled (zeroImage 2) "disk" "ledger" 7
    (fun _ => []) (fun i => decide (i = 1)) false "" "ledger" 0 2 1 (by norm_num) (by norm_num)
    (by norm_num) (fun j hj => by simp; omega) (by simp)
    (fun j hj => by
      have hj0 : j = 0 := by omega
      rw [hj0]
      exact (zeroImage_readSector 2 0 (by omega) (by norm_num)).1)
  rw [if_neg (by decide)] at h2
  unfold EnhancedDiskSectorCRC.validateChecksumFile
  rw [h1]
  refine ⟨rfl, rfl, rfl, ?_, h2, h2⟩
  show (ledgerHeader 0 2 7 ++ generatedBytes (zeroImage 2) 7 (fun _ => []) 0 0 1).length = _
  rw [List.length_append, ledgerHeader_length, generatedBytes_length]

/-- C23 (amended): for every range of `n` sectors and every `k < n`, when the first
`k` sectors can be read and `generateSectorChecksums` observes the cancellation at
the top of iteration `k`, after `k` records have been written, it returns false with
"Operation cancelled by user" and leaves an output file made of the header, which
declares `n` records, and the `k` records written, `28 + 24 * k` bytes.  That file
does not load, for no record count at all: `readChecksumFile`, and
`validateChecksumFile` with it, throws `std::length_error` when `n` exceeds the
capacity of the vector, throws `std::bad_alloc` when the storage of `n` records is
not obtained, and otherwise returns false with "Failed to read checksum data". -/
theorem generateSectorChecksums_cancelled_file (disk : Disk) (diskPath outputFile : String)
    (t : Nat) (padding : Nat → List Byte) (cancelled : Nat → Bool) (cb : Bool)
    (lastError checksumFile : String) (allocates : Nat → Bool) (s n k : Nat)
    (hs : s < 2 ^ 64) (hn : n < 2 ^ 64)
    (hk : k < n) (hcancel : ∀ j < k, cancelled j = false) (hstop : cancelled k = true)
    (hread : ∀ j < k, disk.readable ((s + j) % 2 ^ 64) = true) :
    (EnhancedDiskSectorCRC.generateSectorChecksums disk diskPath outputFile true t padding
        cancelled cb lastError s n).ok = false ∧
    (EnhancedDiskSectorCRC.generateSectorChecksums disk diskPath outputFile true t padding
        cancelled cb lastError s n).lastError = "Operation cancelled by user" ∧
    (EnhancedDiskSectorCRC.generateSectorChecksums disk diskPath outputFile true t padding
        cancelled cb lastError s n).out =
      ledgerHeader s n t ++ generatedBytes disk t padding s 0 k ∧
    (EnhancedDiskSectorCRC.generateSectorChecksums disk diskPath outputFile true t padding
        cancelled cb lastError s n).out.length = 28 + 24 * k ∧
    EnhancedDiskSectorCRC.validateChecksumFileAllocating allocates checksumFile
        (some (EnhancedDiskSectorCRC.generateSectorChecksums disk diskPath outputFile true t
          padding cancelled cb lastError s n).out) =
      EnhancedDiskSectorCRC.readChecksumFileAllocating allocates checksumFile
        (some (EnhancedDiskSectorCRC.generateSectorChecksums disk diskPath outputFile true t
          padding cancelled cb lastError s n).out) ∧
    EnhancedDiskSectorCRC.readChecksumFileAllocating allocates checksumFile
        (some (EnhancedDiskSectorCRC.generateSectorChecksums disk diskPath outputFile true t
          padding cancelled cb lastError s n).out) =
      (if vector_max_size < n then .ended LoadOutcome.lengthError
       else if allocates n = false then .badAlloc
       else .ended (LoadOutcome.failed "Failed to read checksum data")) ∧
    (∀ (checksums : List SectorChecksum) (s2 n2 : Nat),
      EnhancedDiskSectorCRC.readChecksumFileAllocating allocates checksumFile
        (some (EnhancedDiskSectorCRC.generateSectorChecksums disk diskPath outputFile true t
          padding cancelled cb lastError s n).out) ≠
        .ended (LoadOutcome.loaded checksums s2 n2)) ∧
    ∀ (checksums : List SectorChecksum) (s2 n2 : Nat),
      EnhancedDiskSectorCRC.readChecksumFile checksumFile
        (some (EnhancedDiskSectorCRC.generateSectorChecksums disk diskPath outputFile true t
          padding cancelled cb lastError s n).out) ≠ LoadOutcome.loaded checksums s2 n2 := by
  obtain ⟨h1, h2⟩ := generateSectorChecksums_cancelled disk diskPath outputFile t padding
    cancelled cb lastError checksumFile s n k hs hn hk hcancel hstop hread
  have hnone : EnhancedDiskSectorCRC.readRecords n (generatedBytes disk t padding s 0 k) =
      none := by
    cases h : EnhancedDiskSectorCRC.readRecords n (generatedBytes disk t padding s 0 k) with
    | none => rfl
    | some cs =>
      have h3 := (readRecords_isSome_iff n (generatedBytes disk t padding s 0 k)).1
        (by rw [h]; rfl)
      rw [generatedBytes_length] at h3
      omega
  have h4 : EnhancedDiskSectorCRC.readChecksumFileAllocating allocates checksumFile
      (some (ledgerHeader s n t ++ generatedBytes disk t padding s 0 k)) =
      (if vector_max_size < n then .ended LoadOutcome.lengthError
       else if allocates n = false then .badAlloc
       else .ended (LoadOutcome.failed "Failed to read checksum data")) := by
    rw [readChecksumFileAllocating_of_header allocates checksumFile s n t _ hs hn (by omega),
      hnone]
  rw [h1]
  refine ⟨rfl, rfl, rfl, ?_, rfl, h4, ?_, ?_⟩
  · show (ledgerHeader s n t ++ generatedBytes disk t padding s 0 k).length = _
    rw [List.length_append, ledgerHeader_length, generatedBytes_length]
  · intro checksums s2 n2
    show EnhancedDiskSectorCRC.readChecksumFileAllocating allocates checksumFile
      (some (ledgerHeader s n t ++ generatedBytes disk t padding s 0 k)) ≠ _
    rw [h4]
    split
    · simp
    · split <;> simp
  · intro checksums s2 n2
    show EnhancedDiskSectorCRC.readChecksumFile checksumFile
      (some (ledgerHeader s n t ++ generatedBytes disk t padding s 0 k)) ≠ _
    rw [h2]
    split <;> simp

/-- C23 (amended), at a concrete input: the two sectors of a two-sector image, the
cancellation observed at the top of the second iteration; the file left does not
load, whether the storage of two records is obtained or not. -/
theorem generateSectorChecksums_cancelled_file_witness :
    (EnhancedDiskSectorCRC.generateSectorChecksums (zeroImage 2) "disk" "ledger" true 7
        (fun _ => []) (fun i => decide (i = 1)) false "" 0 2).lastError =
      "Operation cancelled by user" ∧
    (EnhancedDiskSectorCRC.generateSectorChecksums (zeroImage 2) "disk" "ledger" true 7
        (fun _ => []) (fun i => decide (i = 1)) false "" 0 2).out.length = 28 + 24 * 1 ∧
    EnhancedDiskSectorCRC.readChecksumFileAllocating (fun _ => true) "ledger"
        (some (EnhancedDiskSectorCRC.generateSectorChecksums (zeroImage 2) "disk" "ledger" true 7
          (fun _ => []) (fun i => decide (i = 1)) false "" 0 2).out) =
      .ended (LoadOutcome.failed "Failed to read checksum data") ∧
    EnhancedDiskSectorCRC.readChecksumFileAllocating (fun _ => false) "ledger"
        (some (EnhancedDiskSectorCRC.generateSectorChecksums (zeroImage 2) "disk" "ledger" true 7
          (fun _ => []) (fun i => decide (i = 1)) false "" 0 2).out) =
      .badAlloc :=
  have h := generateSectorChecksums_cancelled_file (zeroImage 2) "disk" "ledger" 7
    (fun _ => []) (fun i => decide (i = 1)) false "" "ledger" (fun _ => true) 0 2 1
    (by norm_num) (by norm_num)
    (by norm_num) (fun j hj => by simp; omega) (by simp)
    (fun j hj => by
      have hj0 : j = 0 := by omega
      rw [hj0]
      exact (zeroImage_readSector 2 0 (by omega) (by norm_num)).1)
  have h2 := generateSectorChecksums_cancelled_file (zeroImage 2) "disk" "ledger" 7
    (fun _ => []) (fun i => decide (i = 1)) false "" "ledger" (fun _ => false) 0 2 1
    (by norm_num) (by norm_num)
    (by norm_num) (fun j hj => by simp; omega) (by simp)
    (fun j hj => by
      have hj0 : j = 0 := by omega
      rw [hj0]
      exact (zeroImage_readSector 2 0 (by omega) (by norm_num)).1)
  ⟨h.2.1, h.2.2.2.1, h.2.2.2.2.2.1.trans (by decide), h2.2.2.2.2.2.1.trans (by decide)⟩

/-! ## The two sequential repairs on a truncated ledger -/

/-- The base repair on a file that starts with a ledger header: the loop runs over the
declared number of records on the bytes behind the header. -/
theorem baseRepair_of_header (w : Writer) (target : Disk) (diskPath checksumFile : String)
    (s n t : Nat) (rest : List Byte) (backupDiskPath : String) (backup : Disk)
    (lastError : String) (hn : n < 2 ^ 64) :
    DiskSectorCRC.repairSectorData w target diskPath checksumFile
        (some (ledgerHeader s n t ++ rest)) backupDiskPath backup lastError =
      ⟨Ending.returned,
       (DiskSectorCRC.repairLoop w diskPath (!backupDiskPath.isEmpty) backup backupDiskPath n
          rest (RepairState.initial target lastError)).1 &&
        (decide (0 < (DiskSectorCRC.repairLoop w diskPath (!backupDiskPath.isEmpty) backup
            backupDiskPath n rest (RepairState.initial target lastError)).2.repairedSectors) ||
         decide ((DiskSectorCRC.repairLoop w diskPath (!backupDiskPath.isEmpty) backup
            backupDiskPath n rest (RepairState.initial target lastError)).2.totalCorrupted = 0)),
       (DiskSectorCRC.repairLoop w diskPath (!backupDiskPath.isEmpty) backup backupDiskPath n
          rest (RepairState.initial target lastError)).2⟩ := by
  obtain ⟨h1, _, h3, h4⟩ := ledgerHeader_fields s n t rest
  have h28 : ¬ (ledgerHeader s n t ++ rest).length < 28 := by
    rw [List.length_append, ledgerHeader_length]; omega
  have hm : leValue (leBytes 4 LEDGER_MAGIC) = LEDGER_MAGIC := by
    rw [leValue_leBytes]; decide
  have hc : leValue (leBytes 8 n) = n := by
    rw [leValue_leBytes]
    exact Nat.mod_eq_of_lt (by norm_num; exact hn)
  unfold DiskSectorCRC.repairSectorData
  simp only [h28, if_false, h1, h3, h4, hm, hc, ne_eq, not_true_eq_false]

/-- One pass of the base loop over a complete record at the front of the bytes. -/
theorem baseRepairLoop_record (w : Writer) (diskPath : String) (ba : Bool) (backup : Disk)
    (bd : String) (remaining : Nat) (r : SectorChecksum) (rest : List Byte)
    (st st1 : RepairState)
    (hr : r.sectorNumber < 2 ^ 64 ∧ r.crc32 < 2 ^ 32 ∧ r.timestamp < 2 ^ 64)
    (h : repairRecord w diskPath ba backup bd r st = (true, st1)) :
    DiskSectorCRC.repairLoop w diskPath ba backup bd (remaining + 1)
        (SectorChecksum.toBytes [] r ++ rest) st =
      DiskSectorCRC.repairLoop w diskPath ba backup bd remaining rest st1 := by
  have hlen : (SectorChecksum.toBytes [] r).length = sizeofSectorChecksum := by
    rw [toBytes_length, sizeofSectorChecksum_eq]
  have hof : SectorChecksum.ofBytes (SectorChecksum.toBytes [] r) = r := by
    rw [ofBytes_toBytes, Nat.mod_eq_of_lt hr.1, Nat.mod_eq_of_lt hr.2.1,
      Nat.mod_eq_of_lt hr.2.2]
  rw [DiskSectorCRC.repairLoop,
    if_neg (by rw [List.length_append, hlen]; omega), List.take_left' hlen, hof, h,
    List.drop_left' hlen]

/-- The base loop with a record still to read and less than one record left in the
file. -/
theorem baseRepairLoop_short (w : Writer) (diskPath : String) (ba : Bool) (backup : Disk)
    (bd : String) (remaining : Nat) (bytes : List Byte) (st : RepairState)
    (h : bytes.length < sizeofSectorChecksum) :
    DiskSectorCRC.repairLoop w diskPath ba backup bd (remaining + 1) bytes st =
      (false, { st with lastError := "Failed to read checksum data" }) := by
  rw [DiskSectorCRC.repairLoop, if_pos h]

/-- C30 (evaluation at the failing input): the ledger declares two records and holds
one, for sector 0 with the checksum of the marked sector; sector 0 of the target
holds zeros and sector 0 of the backup the marked sector.
`DiskSectorCRC::repairSectorData` repairs sector 0 through one call of `writeSector`,
then fails to read the second record and returns false with
"Failed to read checksum data", leaving the marked sector in sector 0 of the target.
`EnhancedDiskSectorCRC::repairSectorData` returns false with the same error from
`readChecksumFile`, without a call of `writeSector`, and sector 0 of the target still
holds zeros. -/
theorem repairSectorData_base_writes_on_truncated_ledger :
    (DiskSectorCRC.repairSectorData faithfulWriter (zeroImage 1) "disk" "ledger"
        (some (ledgerHeader 0 2 0 ++
          SectorChecksum.toBytes [] ⟨0, DiskSectorCRC.calculateCRC32 (markedSector 1), 0⟩))
        "backup" ((zeroImage 1).store (sectorPosition 0) (markedSector 1)) "").ok = false ∧
    (DiskSectorCRC.repairSectorData faithfulWriter (zeroImage 1) "disk" "ledger"
        (some (ledgerHeader 0 2 0 ++
          SectorChecksum.toBytes [] ⟨0, DiskSectorCRC.calculateCRC32 (markedSector 1), 0⟩))
        "backup" ((zeroImage 1).store (sectorPosition 0) (markedSector 1))
        "").state.lastError = "Failed to read checksum data" ∧
    (DiskSectorCRC.repairSectorData faithfulWriter (zeroImage 1) "disk" "ledger"
        (some (ledgerHeader 0 2 0 ++
          SectorChecksum.toBytes [] ⟨0, DiskSectorCRC.calculateCRC32 (markedSector 1), 0⟩))
        "backup" ((zeroImage 1).store (sectorPosition 0) (markedSector 1))
        "").state.writes = [⟨0, List.replicate 512 0, markedSector 1, true⟩] ∧
    (DiskSectorCRC.repairSectorData faithfulWriter (zeroImage 1) "disk" "ledger"
        (some (ledgerHeader 0 2 0 ++
          SectorChecksum.toBytes [] ⟨0, DiskSectorCRC.calculateCRC32 (markedSector 1), 0⟩))
        "backup" ((zeroImage 1).store (sectorPosition 0) (markedSector 1))
        "").state.target.sectorData 0 = markedSector 1 ∧
    (EnhancedDiskSectorCRC.repairSectorData faithfulWriter (zeroImage 1) "disk" "ledger"
        (some (ledgerHeader 0 2 0 ++
          SectorChecksum.toBytes [] ⟨0, DiskSectorCRC.calculateCRC32 (markedSector 1), 0⟩))
        "backup" ((zeroImage 1).store (sectorPosition 0) (markedSector 1)) (fun _ => false)
        false "").ok = false ∧
    (EnhancedDiskSectorCRC.repairSectorData faithfulWriter (zeroImage 1) "disk" "ledger"
        (some (ledgerHeader 0 2 0 ++
          SectorChecksum.toBytes [] ⟨0, DiskSectorCRC.calculateCRC32 (markedSector 1), 0⟩))
        "backup" ((zeroImage 1).store (sectorPosition 0) (markedSector 1)) (fun _ => false)
        false "").state.lastError = "Failed to read checksum data" ∧
    (EnhancedDiskSectorCRC.repairSectorData faithfulWriter (zeroImage 1) "disk" "ledger"
        (some (ledgerHeader 0 2 0 ++
          SectorChecksum.toBytes [] ⟨0, DiskSectorCRC.calculateCRC32 (markedSector 1), 0⟩))
        "backup" ((zeroImage 1).store (sectorPosition 0) (markedSector 1)) (fun _ => false)
        false "").state.writes = [] ∧
    (EnhancedDiskSectorCRC.repairSectorData faithfulWriter (zeroImage 1) "disk" "ledger"
        (some (ledgerHeader 0 2 0 ++
          SectorChecksum.toBytes [] ⟨0, DiskSectorCRC.calculateCRC32 (markedSector 1), 0⟩))
        "backup" ((zeroImage 1).store (sectorPosition 0) (markedSector 1)) (fun _ => false)
        false "").state.target.sectorData 0 = List.replicate 512 0 ∧
    markedSector 1 ≠ List.replicate 512 0 := by
  obtain ⟨hT1, hT2⟩ := zeroImage_readSector 1 0 (by omega) (by norm_num)
  have hB1 := store_readable (zeroImage 1) (sectorPosition 0) (markedSector 1)
    (markedSector_length 1) 0 hT1
  have hB2 := store_sectorData (zeroImage 1) 0 (markedSector 1) hT1
  have hstep := repairRecord_restores faithfulWriter (fun _ _ _ => ⟨rfl, rfl⟩) "disk"
    ((zeroImage 1).store (sectorPosition 0) (markedSector 1)) "backup"
    ⟨0, DiskSectorCRC.calculateCRC32 (markedSector 1), 0⟩ (RepairState.initial (zeroImage 1) "")
    hT1 (by rw [show (RepairState.initial (zeroImage 1) "").target = zeroImage 1 from rfl];
            simp only [hT2]; exact calculateCRC32_marked_ne)
    hB1 (by simp only [hB2])
  have hbase := baseRepair_of_header faithfulWriter (zeroImage 1) "disk" "ledger" 0 2 0
    (SectorChecksum.toBytes [] ⟨0, DiskSectorCRC.calculateCRC32 (markedSector 1), 0⟩) "backup"
    ((zeroImage 1).store (sectorPosition 0) (markedSector 1)) "" (by norm_num)
  have hrec := baseRepairLoop_record faithfulWriter "disk" (!("backup" : String).isEmpty)
    ((zeroImage 1).store (sectorPosition 0) (markedSector 1)) "backup" 1
    ⟨0, DiskSectorCRC.calculateCRC32 (markedSector 1), 0⟩ []
    (RepairState.initial (zeroImage 1) "") _
    ⟨by norm_num, calculateCRC32_lt _, by norm_num⟩ hstep
  rw [List.append_nil] at hrec
  rw [hrec, baseRepairLoop_short _ _ _ _ _ 0 [] _ (by decide)] at hbase
  have hload : EnhancedDiskSectorCRC.readChecksumFile "ledger"
      (some (ledgerHeader 0 2 0 ++
        SectorChecksum.toBytes [] ⟨0, DiskSectorCRC.calculateCRC32 (markedSector 1), 0⟩)) =
      LoadOutcome.failed "Failed to read checksum data" := by
    rw [readChecksumFile_of_header "ledger" 0 2 0 _ (by norm_num) (by norm_num),
      if_neg (by decide)]
    cases h : EnhancedDiskSectorCRC.readRecords 2
        (SectorChecksum.toBytes [] ⟨0, DiskSectorCRC.calculateCRC32 (markedSector 1), 0⟩) with
    | none => rfl
    | some cs =>
      have h2 := (readRecords_isSome_iff 2 _).1 (by rw [h]; rfl)
      rw [toBytes_length] at h2
      omega
  have henh : EnhancedDiskSectorCRC.repairSectorData faithfulWriter (zeroImage 1) "disk"
      "ledger"
      (some (ledgerHeader 0 2 0 ++
        SectorChecksum.toBytes [] ⟨0, DiskSectorCRC.calculateCRC32 (markedSector 1), 0⟩))
      "backup" ((zeroImage 1).store (sectorPosition 0) (markedSector 1)) (fun _ => false)
      false "" =
      ⟨Ending.returned, false,
        { RepairState.initial (zeroImage 1) "" with
          lastError := "Failed to read checksum data" }⟩ := by
    unfold EnhancedDiskSectorCRC.repairSectorData
    rw [hload]
  rw [hbase, henh]
  refine ⟨rfl, rfl, ?_, ?_, rfl, rfl, rfl, hT2, ?_⟩
  · simp only [RepairState.initial, hT2, hB2]
    rfl
  · exact store_sectorData (zeroImage 1) 0 _ hT1
  · unfold markedSector
    decide

/-! ## The shared variables of a parallel verification -/

/-- A worker of `verifyIntegrityParallel` over records whose sectors can all be read,
with no cancellation observed: `lastError_` is left alone, `processedCount` grows by
the number of records, and the callback is called at every multiple of 100 the
shared counter reaches, with the number of records of this worker as total. -/
theorem verificationWorkerTraced_readable (disk : Disk) (diskPath : String)
    (cancelled : Nat → Bool) (cb : Bool) (size : Nat) (cs : List SectorChecksum) (i : Nat)
    (st : WorkerState)
    (hcancel : ∀ j < cs.length, cancelled (i + j) = false)
    (hread : ∀ r ∈ cs, disk.readable r.sectorNumber = true) :
    (EnhancedDiskSectorCRC.verificationWorkerTraced disk diskPath cancelled cb size cs i
        st).lastError = st.lastError ∧
    (EnhancedDiskSectorCRC.verificationWorkerTraced disk diskPath cancelled cb size cs i
        st).processedCount = st.processedCount + cs.length ∧
    (EnhancedDiskSectorCRC.verificationWorkerTraced disk diskPath cancelled cb size cs i
        st).progress = st.progress ++ progressCalls cb size st.processedCount cs.length := by
  induction cs generalizing i st with
  | nil =>
    simp [EnhancedDiskSectorCRC.verificationWorkerTraced, progressCalls_zero]
  | cons r rest ih =>
    have hc0 : cancelled i = false := by simpa using hcancel 0 (by simp)
    have hcancel2 : ∀ j < rest.length, cancelled (i + 1 + j) = false := by
      intro j hj
      have := hcancel (j + 1) (by simp; omega)
      rwa [show i + (j + 1) = i + 1 + j by omega] at this
    have hr0 := hread r (List.mem_cons_self _ _)
    rw [EnhancedDiskSectorCRC.verificationWorkerTraced]
    simp only [hc0, readSector_ok, hr0, Bool.false_eq_true, Bool.true_eq_false, if_false]
    obtain ⟨h1, h2, h3⟩ := ih (i + 1)
      { lastError :=
          (DiskSectorCRC.readSector disk diskPath r.sectorNumber st.lastError).lastError
        corruptedCount :=
          if DiskSectorCRC.calculateCRC32
              (DiskSectorCRC.readSector disk diskPath r.sectorNumber st.lastError).buffer ≠
              r.crc32 then st.corruptedCount + 1 else st.corruptedCount
        processedCount := st.processedCount + 1
        progress :=
          if cb = true ∧ (st.processedCount + 1) % 100 = 0 then
            st.progress ++ [(toInt32 (st.processedCount + 1), toInt32 size)]
          else st.progress }
      hcancel2 (fun r2 hr2 => hread r2 (List.mem_cons_of_mem _ hr2))
    rw [h1, h2, h3]
    refine ⟨readSector_lastError_of_ok _ _ _ _ hr0, ?_, ?_⟩
    · simp only [List.length_cons]; omega
    · simp only [List.length_cons, progressCalls_succ]
      split <;> simp

/-- C24 (evaluation at the failing input): the ledger holds the one record of sector
0, and every query of the cancellation flag returns true.  `verifyIntegrityParallel`
with one thread, whose worker observes the cancellation before its first record,
returns false and leaves `lastError_` as it was before the call, whatever it was:
`getLastError()` does not return "Operation cancelled by user".  On the same input
the sequential `verifySectorIntegrity` returns false with that message. -/
theorem verifyIntegrityParallel_cancelled_without_message :
    ∀ lastError : String,
      EnhancedDiskSectorCRC.verifyIntegrityParallelTraced (zeroImage 1) "disk" "ledger"
          (some (ledgerFile 0 0 [⟨0, 0, 0⟩])) (fun _ _ => true) true false 8 1 lastError =
        ⟨Ending.returned, false, ⟨lastError, 0, 0, []⟩⟩ ∧
      (EnhancedDiskSectorCRC.verifySectorIntegrity (zeroImage 1) "disk" "ledger"
          (some (ledgerFile 0 0 [⟨0, 0, 0⟩])) (fun _ => true) false lastError).ok = false ∧
      (EnhancedDiskSectorCRC.verifySectorIntegrity (zeroImage 1) "disk" "ledger"
          (some (ledgerFile 0 0 [⟨0, 0, 0⟩])) (fun _ => true) false lastError).state.lastError =
        "Operation cancelled by user" := by
  intro lastError
  have hload := readChecksumFile_ledgerFile "ledger" 0 0 [⟨0, 0, 0⟩] (by norm_num) (by simp)
    (fun r hr => by
      rw [List.mem_singleton.1 hr]
      exact ⟨by norm_num, by norm_num, by norm_num⟩)
  unfold EnhancedDiskSectorCRC.verifyIntegrityParallelTraced
    EnhancedDiskSectorCRC.verifySectorIntegrity
  rw [hload]
  exact ⟨rfl, rfl, rfl⟩

/-- C27 (evaluation at the failing input): the ledger holds 100 records, for the
sectors 0 to 99 of an image on which they can all be read, and
`verifyIntegrityParallel` runs with two threads and a progress callback, never
cancelled.  Each worker is handed 50 records; the callback is called once, with
`processed = 100` and `total = 50`: the total is the number of records of one
worker, not the 100 of the operation, and `processed` exceeds it. -/
theorem verifyIntegrityParallel_progress_beyond_total :
    ((List.range 100).map (fun i => (⟨i, 0, 0⟩ : SectorChecksum))).length = 100 ∧
    EnhancedDiskSectorCRC.readChecksumFile "ledger"
        (some (ledgerFile 0 0 ((List.range 100).map (fun i => (⟨i, 0, 0⟩ : SectorChecksum))))) =
      LoadOutcome.loaded ((List.range 100).map (fun i => (⟨i, 0, 0⟩ : SectorChecksum))) 0 100 ∧
    (EnhancedDiskSectorCRC.verifyIntegrityParallelTraced (zeroImage 100) "disk" "ledger"
        (some (ledgerFile 0 0 ((List.range 100).map (fun i => (⟨i, 0, 0⟩ : SectorChecksum)))))
        (fun _ _ => false) false true 8 2 "").state.progress = [(100, 50)] ∧
    (EnhancedDiskSectorCRC.verifyIntegrityParallelTraced (zeroImage 100) "disk" "ledger"
        (some (ledgerFile 0 0 ((List.range 100).map (fun i => (⟨i, 0, 0⟩ : SectorChecksum)))))
        (fun _ _ => false) false true 8 2 "").state.processedCount = 100 := by
  have hlen : ((List.range 100).map (fun i => (⟨i, 0, 0⟩ : SectorChecksum))).length = 100 := by
    rw [List.length_map, List.length_range]
  have hmem : ∀ r ∈ (List.range 100).map (fun i => (⟨i, 0, 0⟩ : SectorChecksum)),
      r.sectorNumber < 100 ∧ r.crc32 = 0 ∧ r.timestamp = 0 := by
    intro r hr
    obtain ⟨i, hi, rfl⟩ := List.mem_map.1 hr
    exact ⟨List.mem_range.1 hi, rfl, rfl⟩
  have hload := readChecksumFile_ledgerFile "ledger" 0 0
    ((List.range 100).map (fun i => (⟨i, 0, 0⟩ : SectorChecksum))) (by norm_num)
    (by rw [hlen]; norm_num)
    (fun r hr => by
      obtain ⟨h1, h2, h3⟩ := hmem r hr
      rw [h2, h3]
      exact ⟨by omega, by norm_num, by norm_num⟩)
  rw [hlen] at hload
  have hread : ∀ r ∈ (List.range 100).map (fun i => (⟨i, 0, 0⟩ : SectorChecksum)),
      (zeroImage 100).readable r.sectorNumber = true := fun r hr =>
    (zeroImage_readSector 100 r.sectorNumber (hmem r hr).1 (by norm_num)).1
  have hrun : EnhancedDiskSectorCRC.verifyIntegrityParallelTraced (zeroImage 100) "disk"
      "ledger"
      (some (ledgerFile 0 0 ((List.range 100).map (fun i => (⟨i, 0, 0⟩ : SectorChecksum)))))
      (fun _ _ => false) false true 8 2 "" =
      ⟨Ending.returned,
        decide ((EnhancedDiskSectorCRC.verificationWorkerTraced (zeroImage 100) "disk"
          (fun _ => false) true 50
          ((((List.range 100).map (fun i => (⟨i, 0, 0⟩ : SectorChecksum))).drop 50).take 50) 0
          (EnhancedDiskSectorCRC.verificationWorkerTraced (zeroImage 100) "disk"
            (fun _ => false) true 50
            (((List.range 100).map (fun i => (⟨i, 0, 0⟩ : SectorChecksum))).take 50) 0
            ⟨"", 0, 0, []⟩)).corruptedCount = 0) && !false,
        EnhancedDiskSectorCRC.verificationWorkerTraced (zeroImage 100) "disk"
          (fun _ => false) true 50
          ((((List.range 100).map (fun i => (⟨i, 0, 0⟩ : SectorChecksum))).drop 50).take 50) 0
          (EnhancedDiskSectorCRC.verificationWorkerTraced (zeroImage 100) "disk"
            (fun _ => false) true 50
            (((List.range 100).map (fun i => (⟨i, 0, 0⟩ : SectorChecksum))).take 50) 0
            ⟨"", 0, 0, []⟩)⟩ := by
    unfold EnhancedDiskSectorCRC.verifyIntegrityParallelTraced
    rw [hload]
    simp only [hlen]
    rfl
  have hl1 : (((List.range 100).map (fun i => (⟨i, 0, 0⟩ : SectorChecksum))).take 50).length =
      50 := by
    rw [List.length_take, hlen]; rfl
  have hl2 : ((((List.range 100).map (fun i => (⟨i, 0, 0⟩ : SectorChecksum))).drop 50).take
      50).length = 50 := by
    rw [List.length_take, List.length_drop, hlen]; rfl
  obtain ⟨_, a2, a3⟩ := verificationWorkerTraced_readable (zeroImage 100) "disk"
    (fun _ => false) true 50
    (((List.range 100).map (fun i => (⟨i, 0, 0⟩ : SectorChecksum))).take 50) 0 ⟨"", 0, 0, []⟩
    (fun _ _ => rfl) (fun r hr => hread r (List.mem_of_mem_take hr))
  obtain ⟨_, b2, b3⟩ := verificationWorkerTraced_readable (zeroImage 100) "disk"
    (fun _ => false) true 50
    ((((List.range 100).map (fun i => (⟨i, 0, 0⟩ : SectorChecksum))).drop 50).take 50) 0
    (EnhancedDiskSectorCRC.verificationWorkerTraced (zeroImage 100) "disk"
      (fun _ => false) true 50
      (((List.range 100).map (fun i => (⟨i, 0, 0⟩ : SectorChecksum))).take 50) 0
      ⟨"", 0, 0, []⟩)
    (fun _ _ => rfl)
    (fun r hr => hread r (List.mem_of_mem_drop (List.mem_of_mem_take hr)))
  rw [a2, a3, hl1, hl2] at b3
  rw [a2, hl1, hl2] at b2
  rw [hrun]
  refine ⟨hlen, hload, ?_, ?_⟩
  · show (EnhancedDiskSectorCRC.verificationWorkerTraced (zeroImage 100) "disk"
      (fun _ => false) true 50 _ 0 _).progress = _
    rw [b3]
    decide
  · show (EnhancedDiskSectorCRC.verificationWorkerTraced (zeroImage 100) "disk"
      (fun _ => false) true 50 _ 0 _).processedCount = _
    rw [b2]

/-! ## The reader/processor pipeline -/

/-- A batch holds at most `batchSize` items. -/
theorem readerBatch_length_le (disk : Disk) (diskPath : String)
    (currentSector endSector batchSize timestamp : Nat) :
    (EnhancedDiskSectorCRC.readerBatch disk diskPath currentSector endSector batchSize
      timestamp).length ≤ batchSize := by
  unfold EnhancedDiskSectorCRC.readerBatch
  refine Nat.le_trans (List.length_filterMap_le _ _) ?_
  rw [List.length_range]
  exact Nat.min_le_left _ _

/-- A batch read from sectors that can all be read holds one item per sector. -/
theorem readerBatch_readable (disk : Disk) (diskPath : String)
    (currentSector endSector batchSize timestamp : Nat)
    (hread : ∀ i < min batchSize (endSector - currentSector),
      disk.readable (currentSector + i) = true) :
    EnhancedDiskSectorCRC.readerBatch disk diskPath currentSector endSector batchSize timestamp =
      (List.range (min batchSize (endSector - currentSector))).map (fun i =>
        ⟨currentSector + i, disk.sectorData (currentSector + i), timestamp⟩) := by
  unfold EnhancedDiskSectorCRC.readerBatch
  rw [← List.filterMap_eq_map]
  apply List.filterMap_congr
  intro i hi
  have h := hread i (List.mem_range.1 hi)
  have hlen := readable_sectorData_length disk _ h
  have hne : disk.sectorData (currentSector + i) ≠ [] := by
    intro h0
    rw [h0] at hlen
    exact absurd hlen (by decide)
  simp only [readSector_ok, h, if_true, readSector_buffer, ne_eq, hne, not_false_eq_true,
    Function.comp]

/-- What a push of the reader needs and gives: the queue held fewer than
`MAX_QUEUE_SIZE` items, and the batch went behind them. -/
theorem readerEnqueue_pushed (batchSize : Nat) (cancelledInWait cancelledAfter : Bool)
    (dataQueue sectorBatch pushed : List SectorData)
    (hmono : cancelledInWait = true → cancelledAfter = true)
    (h : EnhancedDiskSectorCRC.readerEnqueue batchSize cancelledInWait cancelledAfter dataQueue
      sectorBatch = .pushed pushed) :
    dataQueue.length < toSize (EnhancedDiskSectorCRC.MAX_QUEUE_SIZE batchSize) ∧
    pushed = dataQueue ++ sectorBatch := by
  unfold EnhancedDiskSectorCRC.readerEnqueue at h
  by_cases h1 : dataQueue.length ≥ toSize (EnhancedDiskSectorCRC.MAX_QUEUE_SIZE batchSize) ∧
      cancelledInWait = false
  · rw [if_pos h1] at h; exact absurd h (by simp)
  · rw [if_neg h1] at h
    by_cases h2 : cancelledAfter = true
    · rw [if_pos h2] at h; exact absurd h (by simp)
    · rw [if_neg h2] at h
      refine ⟨?_, (EnqueueOutcome.pushed.inj h).symm⟩
      by_contra hlt
      cases hc : cancelledInWait with
      | false => exact h1 ⟨Nat.le_of_not_lt hlt, hc⟩
      | true => exact h2 (hmono hc)

/-- While `batchSize * 4` fits an `int`, `MAX_QUEUE_SIZE` is that product, also as a
`size_t`. -/
theorem MAX_QUEUE_SIZE_fits (batchSize : Nat) (h : batchSize < 2 ^ 29) :
    EnhancedDiskSectorCRC.MAX_QUEUE_SIZE batchSize = ((4 * batchSize : Nat) : Int) ∧
    toSize (EnhancedDiskSectorCRC.MAX_QUEUE_SIZE batchSize) = 4 * batchSize := by
  have h1 : batchSize * 4 % 2 ^ 32 = 4 * batchSize := by omega
  have h2 : EnhancedDiskSectorCRC.MAX_QUEUE_SIZE batchSize = ((4 * batchSize : Nat) : Int) := by
    unfold EnhancedDiskSectorCRC.MAX_QUEUE_SIZE toInt32
    rw [h1, if_pos (by omega)]
  refine ⟨h2, ?_⟩
  unfold toSize
  rw [h2]
  omega

/-- With `batchSize = 2^29` the product wraps to `-2^31`, which the comparison with
the queue size reads as `2^64 - 2^31`: a reader that sees no cancellation pushes
its batch on any queue shorter than that, without waiting. -/
theorem readerEnqueue_no_wait (dataQueue sectorBatch : List SectorData)
    (cancelledInWait : Bool) (h : dataQueue.length < 2 ^ 64 - 2 ^ 31) :
    EnhancedDiskSectorCRC.MAX_QUEUE_SIZE (2 ^ 29) = -2 ^ 31 ∧
    EnhancedDiskSectorCRC.readerEnqueue (2 ^ 29) cancelledInWait false dataQueue sectorBatch =
      .pushed (dataQueue ++ sectorBatch) := by
  have h1 : EnhancedDiskSectorCRC.MAX_QUEUE_SIZE (2 ^ 29) = -2 ^ 31 := by decide
  have h2 : toSize (-2 ^ 31) = 2 ^ 64 - 2 ^ 31 := by decide
  refine ⟨h1, ?_⟩
  unfold EnhancedDiskSectorCRC.readerEnqueue
  rw [h1, h2, if_neg (by omega), if_neg (by simp)]

/-- The bound on the queue: a push starts below `MAX_QUEUE_SIZE` and adds at most
`batchSize` items. -/
theorem queueReaches_length (disk : Disk) (diskPath : String) (batchSize : Nat)
    (dataQueue : List SectorData) (hfits : batchSize < 2 ^ 29)
    (h : EnhancedDiskSectorCRC.QueueReaches disk diskPath batchSize dataQueue) :
    dataQueue.length + 1 ≤ 4 * batchSize + batchSize ∨ dataQueue = [] := by
  induction h with
  | start => exact Or.inr rfl
  | push q pushed c e t c1 c2 _ hne hmono hpush _ =>
    obtain ⟨hlt, hq⟩ := readerEnqueue_pushed batchSize c1 c2 q _ pushed hmono hpush
    rw [(MAX_QUEUE_SIZE_fits batchSize hfits).2] at hlt
    have hb := readerBatch_length_le disk diskPath c e batchSize t
    left
    rw [hq, List.length_append]
    omega
  | pop data q _ ih =>
    rcases ih with ih | ih
    · left
      rw [List.length_cons] at ih
      omega
    · exact absurd ih (by simp)

/-- The queue a reader with batch size 2 and a processor reach on a ten-sector image
of zeros: nine items. -/
theorem queueReaches_nine :
    EnhancedDiskSectorCRC.QueueReaches (zeroImage 10) "disk" 2
      ((List.range 9).map (fun i => (⟨i + 1, List.replicate 512 0, 0⟩ : SectorData))) := by
  have hbatch : ∀ c, c + 2 ≤ 10 →
      EnhancedDiskSectorCRC.readerBatch (zeroImage 10) "disk" c 10 2 0 =
        [⟨c, List.replicate 512 0, 0⟩, ⟨c + 1, List.replicate 512 0, 0⟩] := by
    intro c hc
    have hmin : min 2 (10 - c) = 2 := by omega
    rw [readerBatch_readable (zeroImage 10) "disk" c 10 2 0
      (fun i hi => (zeroImage_readSector 10 (c + i) (by omega) (by norm_num)).1), hmin]
    simp only [List.range_succ, List.range_zero, List.nil_append, List.map_cons, List.map_nil,
      List.singleton_append, Nat.add_zero,
      (zeroImage_readSector 10 c (by omega) (by norm_num)).2,
      (zeroImage_readSector 10 (c + 1) (by omega) (by norm_num)).2]
  have step : ∀ (q : List SectorData) (c : Nat), c + 2 ≤ 10 → q.length < 8 →
      EnhancedDiskSectorCRC.QueueReaches (zeroImage 10) "disk" 2 q →
      EnhancedDiskSectorCRC.QueueReaches (zeroImage 10) "disk" 2
        (q ++ [⟨c, List.replicate 512 0, 0⟩, ⟨c + 1, List.replicate 512 0, 0⟩]) := by
    intro q c hc hq hreach
    refine EnhancedDiskSectorCRC.QueueReaches.push q _ c 10 0 false false hreach ?_
      (fun h => h) ?_
    · rw [hbatch c hc]; simp
    · rw [hbatch c hc]
      unfold EnhancedDiskSectorCRC.readerEnqueue
      rw [(MAX_QUEUE_SIZE_fits 2 (by norm_num)).2, if_neg (by omega), if_neg (by simp)]
  have h1 := step [] 0 (by omega) (by simp) EnhancedDiskSectorCRC.QueueReaches.start
  have h2 := step _ 2 (by omega) (by simp) h1
  have h3 := step _ 4 (by omega) (by simp) h2
  have h4 := step _ 6 (by omega) (by simp) h3
  have h5 := EnhancedDiskSectorCRC.QueueReaches.pop _ _ h4
  exact step _ 8 (by omega) (by simp) h5

/-- C26 (claim as stated, refuted): with `batchSize = 2`, `MAX_QUEUE_SIZE` is 8.  One
reader over the ten sectors of an image of zeros pushes four batches of two, a
processor takes one item, and the reader, finding seven items in the queue, pushes
its fifth batch: the queue holds the nine items of sectors 1 to 9. -/
theorem queue_exceeds_MAX_QUEUE_SIZE :
    EnhancedDiskSectorCRC.MAX_QUEUE_SIZE 2 = 8 ∧
    EnhancedDiskSectorCRC.QueueReaches (zeroImage 10) "disk" 2
      ((List.range 9).map (fun i => (⟨i + 1, List.replicate 512 0, 0⟩ : SectorData))) ∧
    ((List.range 9).map
      (fun i => (⟨i + 1, List.replicate 512 0, 0⟩ : SectorData))).length = 9 :=
  ⟨by decide, queueReaches_nine, by rw [List.length_map, List.length_range]⟩

/-- C26 (amended): in every state the pipeline reaches, for every `batchSize` with
`1 <= batchSize < 2^29`, so that `MAX_QUEUE_SIZE = batchSize * 4` fits the `int` it
is computed in, and whatever the readers, the shared queue holds at most
`MAX_QUEUE_SIZE + batchSize - 1 = 5 * batchSize - 1` items: a reader waits while the
queue holds `MAX_QUEUE_SIZE` items or more, and then pushes its whole batch, of up
to `batchSize` items. -/
theorem queue_bounded (disk : Disk) (diskPath : String) (batchSize : Nat)
    (dataQueue : List SectorData) (hbatch : 1 ≤ batchSize) (hfits : batchSize < 2 ^ 29)
    (h : EnhancedDiskSectorCRC.QueueReaches disk diskPath batchSize dataQueue) :
    EnhancedDiskSectorCRC.MAX_QUEUE_SIZE batchSize = ((4 * batchSize : Nat) : Int) ∧
    (dataQueue.length : Int) ≤ EnhancedDiskSectorCRC.MAX_QUEUE_SIZE batchSize + batchSize - 1 ∧
    dataQueue.length ≤ 5 * batchSize - 1 := by
  have h1 := queueReaches_length disk diskPath batchSize dataQueue hfits h
  have h2 := (MAX_QUEUE_SIZE_fits batchSize hfits).1
  refine ⟨h2, ?_, ?_⟩
  · rw [h2]
    rcases h1 with h1 | h1
    · omega
    · rw [h1, List.length_nil]
      omega
  · rcases h1 with h1 | h1
    · omega
    · rw [h1, List.length_nil]
      omega

/-- C26 (amended), at a concrete input: the queue of nine items reached with
`batchSize = 2`, where the bound is 9. -/
theorem queue_bounded_witness :
    ((List.range 9).map
      (fun i => (⟨i + 1, List.replicate 512 0, 0⟩ : SectorData))).length ≤ 5 * 2 - 1 :=
  (queue_bounded (zeroImage 10) "disk" 2 _ (by decide) (by decide) queueReaches_nine).2.2

/-- With `readingComplete` set and no cancellation, a processor that has not left
its loop does not leave it at its next step, and it stands behind the wait loop
only with a non-empty queue. -/
theorem processorStep_stays (cb : Bool) (totalCount : Nat) (padding : List Byte)
    (st : ProcessorState)
    (h : st.point ≠ ProcessorPoint.exited ∧
      (st.point = ProcessorPoint.afterWait → st.dataQueue ≠ [])) :
    (EnhancedDiskSectorCRC.processorStep true false cb totalCount padding st).point ≠
        ProcessorPoint.exited ∧
      ((EnhancedDiskSectorCRC.processorStep true false cb totalCount padding st).point =
          ProcessorPoint.afterWait →
        (EnhancedDiskSectorCRC.processorStep true false cb totalCount padding st).dataQueue ≠
          []) := by
  obtain ⟨point, q, out, pc, pr⟩ := st
  cases point with
  | loopTest => simp [EnhancedDiskSectorCRC.processorStep]
  | waitTest =>
    cases q with
    | nil => simp [EnhancedDiskSectorCRC.processorStep]
    | cons x rest => simp [EnhancedDiskSectorCRC.processorStep]
  | afterWait =>
    cases q with
    | nil => exact absurd rfl (h.2 rfl)
    | cons x rest => simp [EnhancedDiskSectorCRC.processorStep]
  | exited => exact absurd rfl h.1

/-- The same over any number of steps. -/
theorem processorRun_stays (cb : Bool) (totalCount : Nat) (padding : List Byte)
    (steps i : Nat) (st : ProcessorState)
    (h : st.point ≠ ProcessorPoint.exited ∧
      (st.point = ProcessorPoint.afterWait → st.dataQueue ≠ [])) :
    (EnhancedDiskSectorCRC.processorRun (fun _ => (true, false)) cb totalCount padding steps i
      st).point ≠ ProcessorPoint.exited := by
  induction steps generalizing i st with
  | zero => exact h.1
  | succ n ih =>
    rw [EnhancedDiskSectorCRC.processorRun]
    exact ih (i + 1) _ (processorStep_stays cb totalCount padding st h)

/-- In the wait loop with an empty queue, `readingComplete` set and no cancellation,
every step leaves the processor where it is. -/
theorem processorRun_waits (cb : Bool) (totalCount : Nat) (padding : List Byte)
    (steps i : Nat) (out : List Byte) (processedCount : Nat) (progress : List (Int × Int)) :
    EnhancedDiskSectorCRC.processorRun (fun _ => (true, false)) cb totalCount padding steps i
        ⟨ProcessorPoint.waitTest, [], out, processedCount, progress⟩ =
      ⟨ProcessorPoint.waitTest, [], out, processedCount, progress⟩ := by
  induction steps generalizing i with
  | zero => rfl
  | succ n ih =>
    rw [EnhancedDiskSectorCRC.processorRun]
    have hstep : EnhancedDiskSectorCRC.processorStep true false cb totalCount padding
        ⟨ProcessorPoint.waitTest, [], out, processedCount, progress⟩ =
        ⟨ProcessorPoint.waitTest, [], out, processedCount, progress⟩ := by
      simp [EnhancedDiskSectorCRC.processorStep]
    rw [hstep]
    exact ih (i + 1)

/-- C25 (evaluation at the failing input): every reader has finished,
`readingComplete` is set and the operation is never cancelled.  A processor in its
wait loop with the queue empty is still there after any number of steps, with
nothing changed; and a processor started at the top of its loop on any queue, with
no other thread adding to it, has not left its loop after any number of steps: it
never exits, so `generateChecksumsHighPerformance` never gets past the join of its
processors.  With one item queued, four steps write its record and bring the
processor to the wait loop with the queue empty, where it stays. -/
theorem processorWorker_never_exits :
    (∀ (cb : Bool) (totalCount : Nat) (padding : List Byte) (steps i : Nat) (out : List Byte)
        (processedCount : Nat) (progress : List (Int × Int)),
      EnhancedDiskSectorCRC.processorRun (fun _ => (true, false)) cb totalCount padding steps i
          ⟨ProcessorPoint.waitTest, [], out, processedCount, progress⟩ =
        ⟨ProcessorPoint.waitTest, [], out, processedCount, progress⟩) ∧
    (∀ (cb : Bool) (totalCount : Nat) (padding : List Byte) (steps : Nat)
        (dataQueue : List SectorData),
      (EnhancedDiskSectorCRC.processorRun (fun _ => (true, false)) cb totalCount padding steps 0
          ⟨ProcessorPoint.loopTest, dataQueue, [], 0, []⟩).point ≠ ProcessorPoint.exited) ∧
    (∀ data : SectorData,
      EnhancedDiskSectorCRC.processorRun (fun _ => (true, false)) false 1 [] 4 0
          ⟨ProcessorPoint.loopTest, [data], [], 0, []⟩ =
        ⟨ProcessorPoint.waitTest, [],
          SectorChecksum.toBytes []
            ⟨data.sectorNumber, DiskSectorCRC.calculateCRC32 data.data, data.timestamp⟩,
          1, []⟩) :=
  ⟨fun cb totalCount padding steps i out processedCount progress =>
      processorRun_waits cb totalCount padding steps i out processedCount progress,
   fun cb totalCount padding steps dataQueue =>
      processorRun_stays cb totalCount padding steps 0 _ ⟨by simp, by simp⟩,
   fun _ => by
      simp [EnhancedDiskSectorCRC.processorRun, EnhancedDiskSectorCRC.processorStep]⟩

/-! ## The traced parallel verification against the untraced one -/

theorem verificationWorker_add (disk : Disk) (diskPath : String) (cancelled : Nat → Bool)
    (cs : List SectorChecksum) (i count : Nat) :
    EnhancedDiskSectorCRC.verificationWorker disk diskPath cancelled cs i count =
      count + EnhancedDiskSectorCRC.verificationWorker disk diskPath cancelled cs i 0 := by
  induction cs generalizing i count with
  | nil => rfl
  | cons r rest ih =>
    rw [EnhancedDiskSectorCRC.verificationWorker, EnhancedDiskSectorCRC.verificationWorker]
    by_cases hc : cancelled i = true
    · rw [if_pos hc, if_pos hc, Nat.add_zero]
    · rw [if_neg hc, if_neg hc]
      by_cases hr : (DiskSectorCRC.readSector disk diskPath r.sectorNumber "").ok = false
      · rw [if_pos hr, if_pos hr]; exact ih (i + 1) count
      · rw [if_neg hr, if_neg hr]
        by_cases hm : DiskSectorCRC.calculateCRC32
            (DiskSectorCRC.readSector disk diskPath r.sectorNumber "").buffer ≠ r.crc32
        · rw [if_pos hm, if_pos hm, ih (i + 1) (count + 1), ih (i + 1) (0 + 1)]
          omega
        · rw [if_neg hm, if_neg hm]; exact ih (i + 1) count

/-- The corrupted count a traced worker leaves is the one of the untraced model. -/
theorem verificationWorkerTraced_corruptedCount (disk : Disk) (diskPath : String)
    (cancelled : Nat → Bool) (cb : Bool) (size : Nat) (cs : List SectorChecksum) (i : Nat)
    (st : WorkerState) :
    (EnhancedDiskSectorCRC.verificationWorkerTraced disk diskPath cancelled cb size cs i
        st).corruptedCount =
      EnhancedDiskSectorCRC.verificationWorker disk diskPath cancelled cs i st.corruptedCount := by
  induction cs generalizing i st with
  | nil => rfl
  | cons r rest ih =>
    rw [EnhancedDiskSectorCRC.verificationWorkerTraced, EnhancedDiskSectorCRC.verificationWorker]
    simp only [readSector_ok, readSector_buffer]
    by_cases hc : cancelled i = true
    · rw [if_pos hc, if_pos hc]
    · rw [if_neg hc, if_neg hc]
      by_cases hr : disk.readable r.sectorNumber = false
      · rw [if_pos hr, if_pos hr, ih]
      · rw [if_neg hr, if_neg hr, ih]
        by_cases hm : DiskSectorCRC.calculateCRC32 (disk.sectorData r.sectorNumber) ≠ r.crc32
        · simp only [hm, ne_eq, not_false_eq_true, if_true]
        · simp only [hm, ne_eq, if_false]

theorem verificationWorkersTraced_corruptedCount (disk : Disk) (diskPath : String)
    (cancelled : Nat → Nat → Bool) (cb : Bool) (slices : List (List SectorChecksum)) (t : Nat)
    (st : WorkerState) :
    (EnhancedDiskSectorCRC.verificationWorkersTraced disk diskPath cancelled cb slices t
        st).corruptedCount =
      st.corruptedCount +
        ((List.range slices.length).map (fun j =>
          EnhancedDiskSectorCRC.verificationWorker disk diskPath (cancelled (t + j))
            (slices.getD j []) 0 0)).sum := by
  induction slices generalizing t st with
  | nil => rfl
  | cons sl rest ih =>
    rw [EnhancedDiskSectorCRC.verificationWorkersTraced, ih,
      verificationWorkerTraced_corruptedCount, verificationWorker_add, List.length_cons,
      List.range_succ_eq_map, List.map_cons, List.map_map, List.sum_cons, Nat.add_assoc]
    congr 2
    apply congrArg
    apply List.map_congr_left
    intro j _
    show _ = EnhancedDiskSectorCRC.verificationWorker disk diskPath (cancelled (t + (j + 1)))
      ((sl :: rest).getD (j + 1) []) 0 0
    rw [show t + (j + 1) = t + 1 + j by omega]
    rfl

/-- The traced model of `verifyIntegrityParallel` ends, returns and counts as the
untraced one. -/
theorem verifyIntegrityParallelTraced_agrees (disk : Disk) (diskPath checksumFile : String)
    (file : Option (List Byte)) (cancelled : Nat → Nat → Bool) (cancelledAtJoin cb : Bool)
    (hardwareConcurrency : Nat) (threadCount : Int) (lastError : String) :
    (EnhancedDiskSectorCRC.verifyIntegrityParallelTraced disk diskPath checksumFile file
        cancelled cancelledAtJoin cb hardwareConcurrency threadCount lastError).ending =
      (EnhancedDiskSectorCRC.verifyIntegrityParallel disk diskPath checksumFile file cancelled
        cancelledAtJoin hardwareConcurrency threadCount).ending ∧
    (EnhancedDiskSectorCRC.verifyIntegrityParallelTraced disk diskPath checksumFile file
        cancelled cancelledAtJoin cb hardwareConcurrency threadCount lastError).ok =
      (EnhancedDiskSectorCRC.verifyIntegrityParallel disk diskPath checksumFile file cancelled
        cancelledAtJoin hardwareConcurrency threadCount).ok ∧
    (EnhancedDiskSectorCRC.verifyIntegrityParallelTraced disk diskPath checksumFile file
        cancelled cancelledAtJoin cb hardwareConcurrency threadCount
        lastError).state.corruptedCount =
      (EnhancedDiskSectorCRC.verifyIntegrityParallel disk diskPath checksumFile file cancelled
        cancelledAtJoin hardwareConcurrency threadCount).corruptedCount := by
  unfold EnhancedDiskSectorCRC.verifyIntegrityParallelTraced
    EnhancedDiskSectorCRC.verifyIntegrityParallel
  cases EnhancedDiskSectorCRC.readChecksumFile checksumFile file with
  | failed message => exact ⟨rfl, rfl, rfl⟩
  | lengthError => exact ⟨rfl, rfl, rfl⟩
  | indeterminate => exact ⟨rfl, rfl, rfl⟩
  | loaded checksums s n =>
    simp only [verificationWorkersTraced_corruptedCount, Nat.zero_add, and_self]

/-! ## What the return value of the sequential repair says about the devices -/

/-- One pass of the cancellation-aware loop over a record whose target sector could
be read. -/
theorem enhancedRepairLoop_next (w : Writer) (diskPath : String) (ba : Bool) (backup : Disk)
    (bd : String) (cancelled : Nat → Bool) (cb : Bool) (total : Nat) (r : SectorChecksum)
    (rest : List SectorChecksum) (i : Nat) (st st1 : RepairState)
    (hc : cancelled i = false)
    (h : repairRecord w diskPath ba backup bd r st = (true, st1)) :
    EnhancedDiskSectorCRC.repairLoop w diskPath ba backup bd cancelled cb total (r :: rest) i
        st =
      EnhancedDiskSectorCRC.repairLoop w diskPath ba backup bd cancelled cb total rest (i + 1)
        { st1 with
          progress :=
            if cb = true ∧ (i + 1) % 100 = 0 then
              st1.progress ++ [(toInt32 (i + 1), toInt32 total)]
            else st1.progress } := by
  rw [EnhancedDiskSectorCRC.repairLoop, if_neg (by simp [hc]), h]

/-- The two counters of a repair never go down. -/
theorem enhancedRepairLoop_mono (w : Writer) (diskPath : String) (ba : Bool) (backup : Disk)
    (bd : String) (cancelled : Nat → Bool) (cb : Bool) (total : Nat)
    (cs : List SectorChecksum) (i : Nat) (st : RepairState) :
    st.repairedSectors ≤
      (EnhancedDiskSectorCRC.repairLoop w diskPath ba backup bd cancelled cb total cs i
        st).2.repairedSectors ∧
    st.totalCorrupted ≤
      (EnhancedDiskSectorCRC.repairLoop w diskPath ba backup bd cancelled cb total cs i
        st).2.totalCorrupted := by
  apply enhancedRepairLoop_invariant w diskPath ba backup bd cancelled cb total
    (fun s => st.repairedSectors ≤ s.repairedSectors ∧ st.totalCorrupted ≤ s.totalCorrupted)
  · intro r _ s hs
    obtain ⟨h1, h2⟩ := hs
    cases hread : s.target.readable r.sectorNumber with
    | false =>
      rw [repairRecord_unreadable w diskPath ba backup bd r s hread]
      exact ⟨h1, h2⟩
    | true =>
      cases hr : repairable s.target backup ba r with
      | false =>
        rw [repairRecord_skip w diskPath ba backup bd r s hread hr]
        exact ⟨h1, Nat.le_trans h2 (Nat.le_add_right _ _)⟩
      | true =>
        rw [repairRecord_write w diskPath ba backup bd r s hread hr]
        exact ⟨Nat.le_trans h1 (Nat.le_add_right _ _), Nat.le_trans h2 (Nat.le_add_right _ _)⟩
  · intro s _ hs; exact hs
  · intro s _ hs; exact hs
  · exact ⟨Nat.le_refl _, Nat.le_refl _⟩

/-- One record of a repair whose target sector can be read: the scan goes on, the
sector is counted as corrupted exactly when it differs from its record, and without
a verified backup sector for it nothing else changes. -/
theorem repairRecord_corrupted (w : Writer) (diskPath : String) (ba : Bool) (backup : Disk)
    (bd : String) (r : SectorChecksum) (st : RepairState)
    (h : st.target.readable r.sectorNumber = true) :
    (repairRecord w diskPath ba backup bd r st).1 = true ∧
    (repairRecord w diskPath ba backup bd r st).2.totalCorrupted =
      st.totalCorrupted + (if mismatching st.target r = true then 1 else 0) ∧
    (repairable st.target backup ba r = false →
      (repairRecord w diskPath ba backup bd r st).2.target = st.target ∧
      (repairRecord w diskPath ba backup bd r st).2.writes = st.writes ∧
      (repairRecord w diskPath ba backup bd r st).2.repairedSectors = st.repairedSectors) := by
  cases hr : repairable st.target backup ba r with
  | false =>
    rw [repairRecord_skip w diskPath ba backup bd r st h hr]
    exact ⟨rfl, rfl, fun _ => ⟨rfl, rfl, rfl⟩⟩
  | true =>
    have hm : mismatching st.target r = true := by
      simp only [repairable, Bool.and_eq_true] at hr
      exact hr.1.1.1
    rw [repairRecord_write w diskPath ba backup bd r st h hr, hm]
    exact ⟨rfl, rfl, fun h2 => absurd h2 (by simp)⟩

/-- The corrupted count of a repair that visits every record stays where it was
exactly when no listed sector of the target, as the repair finds it, differs from
its record. -/
theorem enhancedRepairLoop_corrupted (w : Writer) (start : Disk) (diskPath : String)
    (ba : Bool) (backup : Disk) (bd : String) (cancelled : Nat → Bool) (cb : Bool)
    (total : Nat) (cs : List SectorChecksum) (i : Nat) (st : RepairState)
    (hread : ∀ d, w.Reaches start d → ∀ r ∈ cs, d.readable r.sectorNumber = true)
    (hcancel : ∀ j < cs.length, cancelled (i + j) = false)
    (h : w.Reaches start st.target) :
    (EnhancedDiskSectorCRC.repairLoop w diskPath ba backup bd cancelled cb total cs i
        st).2.totalCorrupted = st.totalCorrupted ↔ mismatches st.target cs = [] := by
  induction cs generalizing i st with
  | nil => simp [EnhancedDiskSectorCRC.repairLoop, mismatches]
  | cons r rest ih =>
    have hc0 : cancelled i = false := by simpa using hcancel 0 (by simp)
    have hcancel2 : ∀ j < rest.length, cancelled (i + 1 + j) = false := by
      intro j hj
      have := hcancel (j + 1) (by simp; omega)
      rwa [show i + (j + 1) = i + 1 + j by omega] at this
    have hr0 := hread st.target h r (List.mem_cons_self _ _)
    have hread2 : ∀ d, w.Reaches start d → ∀ r2 ∈ rest, d.readable r2.sectorNumber = true :=
      fun d hd r2 hr2 => hread d hd r2 (List.mem_cons_of_mem _ hr2)
    obtain ⟨h1, h2, h3⟩ := repairRecord_corrupted w diskPath ba backup bd r st hr0
    have h4 := repairRecord_reaches w start diskPath ba backup bd r st h
    rw [EnhancedDiskSectorCRC.repairLoop, if_neg (by simp [hc0]), mismatches_cons]
    cases hv : repairRecord w diskPath ba backup bd r st with
    | mk completed st1 =>
      rw [hv] at h1 h2 h3 h4
      simp only at h1 h2 h3 h4
      subst h1
      simp only
      have hmono := (enhancedRepairLoop_mono w diskPath ba backup bd cancelled cb total rest
        (i + 1)
        { st1 with
          progress :=
            if cb = true ∧ (i + 1) % 100 = 0 then
              st1.progress ++ [(toInt32 (i + 1), toInt32 total)]
            else st1.progress }).2
      have hi := ih (i + 1)
        { st1 with
          progress :=
            if cb = true ∧ (i + 1) % 100 = 0 then
              st1.progress ++ [(toInt32 (i + 1), toInt32 total)]
            else st1.progress }
        hread2 hcancel2 h4
      simp only at hmono hi
      cases hm : mismatching st.target r with
      | false =>
        rw [hm] at h2
        have ht := (h3 (by simp [repairable, hm])).1
        simp only [Bool.false_eq_true, if_false, Nat.add_zero, List.nil_append] at h2 ⊢
        rw [← h2, ← ht]
        exact hi
      | true =>
        rw [hm] at h2
        simp only [if_true] at h2 ⊢
        constructor
        · intro heq
          omega
        · intro hnil
          exact absurd hnil (by simp)

/-- When no listed record has both a differing target sector and a verified backup
sector, a repair makes no call of `writeSector`, repairs nothing and leaves the
target as it was. -/
theorem enhancedRepairLoop_none_repairable (w : Writer) (diskPath : String) (ba : Bool)
    (backup : Disk) (bd : String) (cancelled : Nat → Bool) (cb : Bool) (total : Nat)
    (cs : List SectorChecksum) (i : Nat) (st : RepairState)
    (hnone : ∀ r ∈ cs, repairable st.target backup ba r = false) :
    (EnhancedDiskSectorCRC.repairLoop w diskPath ba backup bd cancelled cb total cs i
        st).2.writes = st.writes ∧
    (EnhancedDiskSectorCRC.repairLoop w diskPath ba backup bd cancelled cb total cs i
        st).2.repairedSectors = st.repairedSectors ∧
    (EnhancedDiskSectorCRC.repairLoop w diskPath ba backup bd cancelled cb total cs i
        st).2.target = st.target := by
  apply enhancedRepairLoop_invariant w diskPath ba backup bd cancelled cb total
    (fun s => s.writes = st.writes ∧ s.repairedSectors = st.repairedSectors ∧
      s.target = st.target)
  · intro r hr s hs
    obtain ⟨h1, h2, h3⟩ := hs
    cases hread : s.target.readable r.sectorNumber with
    | false =>
      rw [repairRecord_unreadable w diskPath ba backup bd r s hread]
      exact ⟨h1, h2, h3⟩
    | true =>
      rw [repairRecord_skip w diskPath ba backup bd r s hread (by rw [h3]; exact hnone r hr)]
      exact ⟨h1, h2, h3⟩
  · intro s _ hs; exact hs
  · intro s _ hs; exact hs
  · exact ⟨rfl, rfl, rfl⟩

/-- On a writer whose writes succeed, when some listed record has a differing target
sector and a verified backup sector, a repair that visits every record repairs at
least one sector. -/
theorem enhancedRepairLoop_some_repairable (w : Writer) (hw : w.faithful) (start : Disk)
    (diskPath : String) (ba : Bool) (backup : Disk) (bd : String) (cancelled : Nat → Bool)
    (cb : Bool) (total : Nat) (cs : List SectorChecksum) (i : Nat) (st : RepairState)
    (hread : ∀ d, w.Reaches start d → ∀ r ∈ cs, d.readable r.sectorNumber = true)
    (hcancel : ∀ j < cs.length, cancelled (i + j) = false)
    (h : w.Reaches start st.target)
    (hsome : ∃ r ∈ cs, repairable st.target backup ba r = true) :
    st.repairedSectors <
      (EnhancedDiskSectorCRC.repairLoop w diskPath ba backup bd cancelled cb total cs i
        st).2.repairedSectors := by
  induction cs generalizing i st with
  | nil =>
    obtain ⟨r, hr, _⟩ := hsome
    exact absurd hr (List.not_mem_nil r)
  | cons r rest ih =>
    have hc0 : cancelled i = false := by simpa using hcancel 0 (by simp)
    have hcancel2 : ∀ j < rest.length, cancelled (i + 1 + j) = false := by
      intro j hj
      have := hcancel (j + 1) (by simp; omega)
      rwa [show i + (j + 1) = i + 1 + j by omega] at this
    have hr0 := hread st.target h r (List.mem_cons_self _ _)
    have hread2 : ∀ d, w.Reaches start d → ∀ r2 ∈ rest, d.readable r2.sectorNumber = true :=
      fun d hd r2 hr2 => hread d hd r2 (List.mem_cons_of_mem _ hr2)
    cases hrep : repairable st.target backup ba r with
    | true =>
      have hb : backup.readable r.sectorNumber = true := by
        simp only [repairable, Bool.and_eq_true] at hrep
        exact hrep.1.2
      have hstep := repairRecord_write w diskPath ba backup bd r st hr0 hrep
      rw [writeSector_faithful w hw st.target diskPath r.sectorNumber
        (backup.sectorData r.sectorNumber) st.lastError
        (readable_sectorData_length backup r.sectorNumber hb)
        (readable_seek st.target r.sectorNumber hr0)] at hstep
      rw [enhancedRepairLoop_next w diskPath ba backup bd cancelled cb total r rest i st _ hc0
        hstep]
      have hmono := (enhancedRepairLoop_mono w diskPath ba backup bd cancelled cb total rest
        (i + 1)
        { (⟨st.target.store (sectorPosition r.sectorNumber)
              (backup.sectorData r.sectorNumber),
            st.lastError,
            st.repairedSectors + (if true = true then 1 else 0),
            st.totalCorrupted + 1, st.reads ++ [r.sectorNumber],
            st.writes ++ [⟨r.sectorNumber, st.target.sectorData r.sectorNumber,
              backup.sectorData r.sectorNumber, true⟩],
            st.progress⟩ : RepairState) with
          progress :=
            if cb = true ∧ (i + 1) % 100 = 0 then
              st.progress ++ [(toInt32 (i + 1), toInt32 total)]
            else st.progress }).1
      simp only [if_true] at hmono
      exact Nat.lt_of_lt_of_le (Nat.lt_succ_self _) hmono
    | false =>
      obtain ⟨h1, _, h3⟩ := repairRecord_corrupted w diskPath ba backup bd r st hr0
      have h4 := repairRecord_reaches w start diskPath ba backup bd r st h
      obtain ⟨ht, _, hrs⟩ := h3 hrep
      rw [EnhancedDiskSectorCRC.repairLoop, if_neg (by simp [hc0])]
      cases hv : repairRecord w diskPath ba backup bd r st with
      | mk completed st1 =>
        rw [hv] at h1 ht hrs h4
        simp only at h1 ht hrs h4
        subst h1
        simp only
        obtain ⟨r2, hr2, hrep2⟩ := hsome
        have hmem : r2 ∈ rest := by
          rcases List.mem_cons.1 hr2 with heq | hmem
          · rw [heq, hrep] at hrep2
            exact absurd hrep2 (by simp)
          · exact hmem
        have hi := ih (i + 1)
          { st1 with
            progress :=
              if cb = true ∧ (i + 1) % 100 = 0 then
                st1.progress ++ [(toInt32 (i + 1), toInt32 total)]
              else st1.progress }
          hread2 hcancel2 h4 ⟨r2, hmem, by simp only [ht]; exact hrep2⟩
        simp only at hi
        rw [← hrs]
        exact hi

/-- On the writer whose writes succeed, a sector that can be read stays readable
whatever has been written. -/
theorem faithfulWriter_reaches (start d : Disk) (h : faithfulWriter.Reaches start d) (k : Nat)
    (hk : start.readable k = true) : d.readable k = true := by
  induction h with
  | start => exact hk
  | write disk p data hlen _ ih => exact store_readable disk p data hlen k ih

/-- No listed sector differs from its record exactly when no record is in
`mismatches`. -/
theorem mismatches_eq_nil (disk : Disk) (cs : List SectorChecksum) :
    mismatches disk cs = [] ↔ ∀ r ∈ cs, mismatching disk r = false := by
  unfold mismatches
  rw [List.filter_eq_nil_iff]
  constructor
  · intro h r hr
    cases hm : mismatching disk r with
    | false => rfl
    | true => exact absurd hm (h r hr)
  · intro h r hr
    rw [h r hr]
    simp

/-- C17: on a ledger that loads, when the listed sectors of the target can be read
whatever the writes of the run have done to it (and, for the derived class, no
cancellation is observed), `repairSectorData` of both classes returns after having
visited every record, and its return value is true exactly when at least one call of
`writeSector` returned true or no listed sector of the target, as the call found it,
differs from its record.  The corrupted count is zero exactly in the second case,
the repaired count is the number of `writeSector` calls that returned true, and
every such call was made for a listed record whose target sector, as just read, did
not have the stored checksum, with the bytes of the same sector of the backup
device, which have it.  In particular the call returns true for a ledger without
records and whenever no listed sector differs, then without any write; it returns
false, without any write, when some listed sector differs and no record has both a
differing target sector and a readable backup sector with the stored checksum (so
always without a backup path); and on a writer whose writes succeed it returns true
exactly when no listed sector differs or some record has both. -/
theorem repairSectorData_result (w : Writer) (target backup : Disk)
    (diskPath checksumFile backupDiskPath : String) (bytes : List Byte)
    (checksums : List SectorChecksum) (s n : Nat) (cancelled : Nat → Bool)
    (hasCallback : Bool) (lastError : String)
    (hload : EnhancedDiskSectorCRC.readChecksumFile checksumFile (some bytes) =
      LoadOutcome.loaded checksums s n)
    (hcancel : ∀ i, cancelled i = false)
    (hread : ∀ d, w.Reaches target d → ∀ r ∈ checksums, d.readable r.sectorNumber = true) :
    ∀ res : RepairResult,
      (res = DiskSectorCRC.repairSectorData w target diskPath checksumFile (some bytes)
          backupDiskPath backup lastError ∨
       res = EnhancedDiskSectorCRC.repairSectorData w target diskPath checksumFile (some bytes)
          backupDiskPath backup cancelled hasCallback lastError) →
      res.ending = Ending.returned ∧
      res.state.reads = checksums.map (fun r => r.sectorNumber) ∧
      (res.state.totalCorrupted = 0 ↔ mismatches target checksums = []) ∧
      res.state.repairedSectors = (res.state.writes.filter (fun e => e.ok)).length ∧
      (∀ e ∈ res.state.writes,
        ∃ r ∈ checksums, r.sectorNumber = e.sectorNumber ∧
          DiskSectorCRC.calculateCRC32 e.current ≠ r.crc32 ∧
          backupDiskPath.isEmpty = false ∧ backup.readable r.sectorNumber = true ∧
          e.data = backup.sectorData r.sectorNumber ∧
          DiskSectorCRC.calculateCRC32 e.data = r.crc32) ∧
      (res.ok = true ↔ 0 < res.state.repairedSectors ∨ res.state.totalCorrupted = 0) ∧
      (res.ok = true ↔
        (∃ e ∈ res.state.writes, e.ok = true) ∨ mismatches target checksums = []) ∧
      (checksums = [] → res.ok = true) ∧
      (mismatches target checksums = [] →
        res.ok = true ∧ res.state.writes = [] ∧ res.state.target = target) ∧
      (0 < res.state.totalCorrupted → res.state.repairedSectors = 0 → res.ok = false) ∧
      (mismatches target checksums ≠ [] →
        (∀ r ∈ checksums, repairable target backup (!backupDiskPath.isEmpty) r = false) →
        res.ok = false ∧ res.state.writes = [] ∧ res.state.target = target) ∧
      (res.ok = true →
        mismatches target checksums = [] ∨
        ∃ r ∈ checksums, repairable target backup (!backupDiskPath.isEmpty) r = true) ∧
      (w.faithful →
        (∃ r ∈ checksums, repairable target backup (!backupDiskPath.isEmpty) r = true) →
        res.ok = true ∧ 0 < res.state.repairedSectors) := by
  intro res hres
  obtain ⟨h1, h2, h3, h4, _⟩ := repairSectorData_completes w target backup diskPath
    checksumFile backupDiskPath bytes checksums s n cancelled hasCallback lastError hload
    hcancel hread res hres
  have key : ∀ (cancelled2 : Nat → Bool) (cb : Bool), (∀ i, cancelled2 i = false) →
      res.state = (EnhancedDiskSectorCRC.repairLoop w diskPath (!backupDiskPath.isEmpty) backup
          backupDiskPath cancelled2 cb checksums.length checksums 0
          (RepairState.initial target lastError)).2 →
      (res.state.totalCorrupted = 0 ↔ mismatches target checksums = []) ∧
      (∀ e ∈ res.state.writes,
        ∃ r ∈ checksums, r.sectorNumber = e.sectorNumber ∧
          DiskSectorCRC.calculateCRC32 e.current ≠ r.crc32 ∧
          backupDiskPath.isEmpty = false ∧ backup.readable r.sectorNumber = true ∧
          e.data = backup.sectorData r.sectorNumber ∧
          DiskSectorCRC.calculateCRC32 e.data = r.crc32) ∧
      ((∀ r ∈ checksums, repairable target backup (!backupDiskPath.isEmpty) r = false) →
        res.state.writes = [] ∧ res.state.repairedSectors = 0 ∧ res.state.target = target) ∧
      (w.faithful →
        (∃ r ∈ checksums, repairable target backup (!backupDiskPath.isEmpty) r = true) →
        0 < res.state.repairedSectors) := by
    intro cancelled2 cb hc hst
    rw [hst]
    refine ⟨?_, ?_, ?_, ?_⟩
    · exact enhancedRepairLoop_corrupted w target diskPath (!backupDiskPath.isEmpty) backup
        backupDiskPath cancelled2 cb checksums.length checksums 0
        (RepairState.initial target lastError) hread (fun j _ => hc (0 + j))
        Writer.Reaches.start
    · intro e he
      obtain ⟨r, hr, g1, g2, g3, g4, g5, g6⟩ := enhancedRepairLoop_writes w diskPath
        (!backupDiskPath.isEmpty) backup backupDiskPath cancelled2 cb checksums.length checksums
        0 target lastError e he
      exact ⟨r, hr, g1, g2, by simpa using g3, g4, g5, g6⟩
    · intro hnone
      exact enhancedRepairLoop_none_repairable w diskPath (!backupDiskPath.isEmpty) backup
        backupDiskPath cancelled2 cb checksums.length checksums 0
        (RepairState.initial target lastError) hnone
    · intro hw hsome
      exact enhancedRepairLoop_some_repairable w hw target diskPath (!backupDiskPath.isEmpty)
        backup backupDiskPath cancelled2 cb checksums.length checksums 0
        (RepairState.initial target lastError) hread (fun j _ => hc (0 + j))
        Writer.Reaches.start hsome
  have hkey : (res.state.totalCorrupted = 0 ↔ mismatches target checksums = []) ∧
      (∀ e ∈ res.state.writes,
        ∃ r ∈ checksums, r.sectorNumber = e.sectorNumber ∧
          DiskSectorCRC.calculateCRC32 e.current ≠ r.crc32 ∧
          backupDiskPath.isEmpty = false ∧ backup.readable r.sectorNumber = true ∧
          e.data = backup.sectorData r.sectorNumber ∧
          DiskSectorCRC.calculateCRC32 e.data = r.crc32) ∧
      ((∀ r ∈ checksums, repairable target backup (!backupDiskPath.isEmpty) r = false) →
        res.state.writes = [] ∧ res.state.repairedSectors = 0 ∧ res.state.target = target) ∧
      (w.faithful →
        (∃ r ∈ checksums, repairable target backup (!backupDiskPath.isEmpty) r = true) →
        0 < res.state.repairedSectors) := by
    rcases hres with h | h
    · refine key (fun _ => false) false (fun _ => rfl) ?_
      rw [h, baseRepair_of_loaded w target diskPath checksumFile bytes backupDiskPath backup
        lastError checksums s n hload]
    · refine key cancelled hasCallback hcancel ?_
      rw [h, enhancedRepair_of_loaded w target diskPath checksumFile bytes backupDiskPath backup
        cancelled hasCallback lastError checksums s n hload]
  obtain ⟨k1, k2, k3, k4⟩ := hkey
  have hok : res.ok = true ↔ 0 < res.state.repairedSectors ∨ res.state.totalCorrupted = 0 := by
    rw [h3]; simp
  have hrep : 0 < res.state.repairedSectors ↔ ∃ e ∈ res.state.writes, e.ok = true := by
    rw [h4, List.length_pos_iff_exists_mem]
    constructor
    · rintro ⟨e, he⟩
      exact ⟨e, (List.mem_filter.1 he).1, (List.mem_filter.1 he).2⟩
    · rintro ⟨e, he, hok2⟩
      exact ⟨e, List.mem_filter.2 ⟨he, hok2⟩⟩
  have hnone_of_nil : mismatches target checksums = [] →
      ∀ r ∈ checksums, repairable target backup (!backupDiskPath.isEmpty) r = false := by
    intro hnil r hr
    have hm := (mismatches_eq_nil target checksums).1 hnil r hr
    simp [repairable, hm]
  refine ⟨h1, h2, k1, h4, k2, hok, ?_, ?_, ?_, ?_, ?_, ?_, ?_⟩
  · rw [hok, hrep, k1]
  · intro hnil
    rw [hok, k1, hnil]
    exact Or.inr rfl
  · intro hnil
    obtain ⟨g1, _, g3⟩ := k3 (hnone_of_nil hnil)
    exact ⟨hok.2 (Or.inr (k1.2 hnil)), g1, g3⟩
  · intro hc0 hr0
    cases hv : res.ok with
    | false => rfl
    | true =>
      rcases hok.1 hv with h5 | h5
      · omega
      · omega
  · intro hne hnone
    obtain ⟨g1, g2, g3⟩ := k3 hnone
    refine ⟨?_, g1, g3⟩
    cases hv : res.ok with
    | false => rfl
    | true =>
      rcases hok.1 hv with h5 | h5
      · omega
      · exact absurd (k1.1 h5) hne
  · intro hv
    by_cases hex : ∃ r ∈ checksums, repairable target backup (!backupDiskPath.isEmpty) r = true
    · exact Or.inr hex
    · left
      have hnone : ∀ r ∈ checksums,
          repairable target backup (!backupDiskPath.isEmpty) r = false := by
        intro r hr
        cases hrr : repairable target backup (!backupDiskPath.isEmpty) r with
        | false => rfl
        | true => exact absurd ⟨r, hr, hrr⟩ hex
      obtain ⟨_, g2, _⟩ := k3 hnone
      rcases hok.1 hv with h5 | h5
      · omega
      · exact k1.1 h5
  · intro hw hsome
    have h5 := k4 hw hsome
    exact ⟨hok.2 (Or.inl h5), h5⟩

/-- C17, at a concrete input: sector 0 of a one-sector image holds zeros and the
ledger records for it the checksum of the marked sector.  Without a backup path the
derived class returns false and makes no write; with a backup device that holds the
marked sector and a writer whose writes succeed the base class returns true. -/
theorem repairSectorData_result_witness :
    (EnhancedDiskSectorCRC.repairSectorData lossyWriter (zeroImage 1) "disk" "ledger"
        (some (ledgerFile 0 0 [⟨0, DiskSectorCRC.calculateCRC32 (markedSector 1), 0⟩]))
        "" lockedDisk (fun _ => false) false "").ok = false ∧
    (EnhancedDiskSectorCRC.repairSectorData lossyWriter (zeroImage 1) "disk" "ledger"
        (some (ledgerFile 0 0 [⟨0, DiskSectorCRC.calculateCRC32 (markedSector 1), 0⟩]))
        "" lockedDisk (fun _ => false) false "").state.writes = [] ∧
    (DiskSectorCRC.repairSectorData faithfulWriter (zeroImage 1) "disk" "ledger"
        (some (ledgerFile 0 0 [⟨0, DiskSectorCRC.calculateCRC32 (markedSector 1), 0⟩]))
        "backup" ((zeroImage 1).store (sectorPosition 0) (markedSector 1)) "").ok = true :=
  have hT := zeroImage_readSector 1 0 (by omega) (by norm_num)
  have hload := readChecksumFile_ledgerFile "ledger" 0 0
    [⟨0, DiskSectorCRC.calculateCRC32 (markedSector 1), 0⟩] (by norm_num) (by simp)
    (fun r hr => by
      rw [List.mem_singleton.1 hr]
      exact ⟨by norm_num, calculateCRC32_lt _, by norm_num⟩)
  have hne : DiskSectorCRC.calculateCRC32 ((zeroImage 1).sectorData 0) ≠
      DiskSectorCRC.calculateCRC32 (markedSector 1) := by
    rw [hT.2]; exact calculateCRC32_marked_ne
  have hm : mismatching (zeroImage 1) ⟨0, DiskSectorCRC.calculateCRC32 (markedSector 1), 0⟩ =
      true := mismatching_of_ne (zeroImage 1) ⟨0, _, 0⟩ hne
  have hmis : mismatches (zeroImage 1)
      [⟨0, DiskSectorCRC.calculateCRC32 (markedSector 1), 0⟩] ≠ [] := by
    rw [mismatches_cons, hm]; simp
  have hB1 := store_readable (zeroImage 1) (sectorPosition 0) (markedSector 1)
    (markedSector_length 1) 0 hT.1
  have hB2 := store_sectorData (zeroImage 1) 0 (markedSector 1) hT.1
  have hrep : repairable (zeroImage 1) ((zeroImage 1).store (sectorPosition 0) (markedSector 1))
      true ⟨0, DiskSectorCRC.calculateCRC32 (markedSector 1), 0⟩ = true :=
    repairable_of_mismatch (zeroImage 1) _ ⟨0, _, 0⟩ hne hB1 (by simp only [hB2])
  have a := (repairSectorData_result lossyWriter (zeroImage 1) lockedDisk "disk" "ledger" ""
    _ _ 0 _ (fun _ => false) false "" hload (fun _ => rfl)
    (fun d hd r hr => by
      rw [lossyWriter_reaches _ d hd, List.mem_singleton.1 hr]; exact hT.1)
    _ (Or.inr rfl)).2.2.2.2.2.2.2.2.2.2.1 hmis
    (fun r _ => by
      rw [show (!("" : String).isEmpty) = false from by decide]
      simp [repairable])
  have b := (repairSectorData_result faithfulWriter (zeroImage 1)
    ((zeroImage 1).store (sectorPosition 0) (markedSector 1)) "disk" "ledger" "backup"
    _ _ 0 _ (fun _ => false) false "" hload (fun _ => rfl)
    (fun d hd r hr => by
      rw [List.mem_singleton.1 hr]
      exact faithfulWriter_reaches (zeroImage 1) d hd 0 hT.1)
    _ (Or.inl rfl)).2.2.2.2.2.2.2.2.2.2.2.2 (fun _ _ _ => ⟨rfl, rfl⟩)
    ⟨_, List.mem_singleton.2 rfl, hrep⟩
  ⟨a.1, a.2.1, b.1⟩

end DATAVIA
